import Mathlib

/-!
# network-manager-openvpn: `properties/import-export.c`

A shallow embedding of the import/export translation of the OpenVPN plugin:
the tokenizer `args_parse_line`, the importer `do_import` and the exporter
`do_export`, followed by theorems about them.

C strings are lists of characters without the terminating NUL; one `Char`
stands for one byte.
-/

namespace ImportExport

/-- A C string: the bytes before the terminating NUL. -/
abbrev CStr := List Char

/-- The double quote character. -/
def dquote : Char := Char.ofNat 34
/-- The single quote character. -/
def squote : Char := Char.ofNat 39
/-- The backslash character. -/
def bslash : Char := Char.ofNat 92
/-- The hash character that starts a comment. -/
def hash : Char := Char.ofNat 35
/-- The semicolon that starts a comment. -/
def semi : Char := Char.ofNat 59
/-- Horizontal tab. -/
def tab : Char := Char.ofNat 9
/-- Line feed. -/
def lf : Char := Char.ofNat 10
/-- Vertical tab. -/
def vtab : Char := Char.ofNat 11
/-- Form feed. -/
def ff : Char := Char.ofNat 12
/-- Carriage return. -/
def cr : Char := Char.ofNat 13
/-- The NUL byte. -/
def nul : Char := Char.ofNat 0

/-- GLib `g_ascii_isspace`: space, tab, line feed, form feed and carriage
return (the vertical tab is not in GLib's table). -/
def g_ascii_isspace (c : Char) : Bool :=
  c == ' ' || c == tab || c == lf || c == ff || c == cr

/-- C `isspace` in the C locale: as `g_ascii_isspace` plus the vertical tab. -/
def isspace (c : Char) : Bool :=
  c == ' ' || c == tab || c == lf || c == vtab || c == ff || c == cr

/-! ## Tokenizer (`args_parse_line`) -/

/-- The output cursor of `args_parse_line`: `data` is what has been written
between `str_buf_orig` and `str_buf`, `len` is `str_buf_len`, the room left. -/
structure StrBuf where
  data : List Char
  len : Nat
deriving DecidableEq, Repr

/-- `_strbuf_append_c`: writes one byte and advances; with no room left the
`g_return_if_fail (*len > 0)` guard returns without writing. -/
def _strbuf_append_c (b : StrBuf) (ch : Char) : StrBuf :=
  if 0 < b.len then { data := b.data ++ [ch], len := b.len - 1 } else b

/-- `_ch_skip_over_leading_whitespace`: the rest of the text after its leading
run of `g_ascii_isspace` characters. -/
def _ch_skip_over_leading_whitespace : CStr → CStr
  | [] => []
  | c :: cs => if g_ascii_isspace c then _ch_skip_over_leading_whitespace cs else c :: cs

/-- The error that `args_parse_line` stores in `*out_error`: which message,
and the `word_start` offset printed in it. -/
inductive ArgsError where
  | unterminated (quote : Char) (word_start : Nat)
  | trailing_backslash (word_start : Nat)
deriving DecidableEq, Repr

/-- What `args_parse_line` hands back: `ok out_p` is a `TRUE` return, with
`out_p = none` for the `NULL` vector of a blank or comment line; `error` is a
`FALSE` return with `*out_error` set; `rejected` is the `FALSE` return of
`g_return_val_if_reached` for a line holding NUL or a line feed, which sets
neither output. -/
inductive ArgsResult where
  | ok (out_p : Option (List CStr))
  | error (e : ArgsError)
  | rejected
deriving DecidableEq, Repr

/-- Program points of the two nested loops of `args_parse_line`, each right
in front of a `_ch_step_1`. -/
inductive ArgsMode where
  /-- In `_ch_skip_over_leading_whitespace`, in front of the next word. -/
  | between
  /-- At the `switch` of the inner `do ... while (line_len > 0)` loop. -/
  | word
  /-- In `case bslash` of that `switch`, the backslash read: in front of the
  `_ch_step_1` that reads the escaped character. -/
  | word_escape
  /-- At the test of `while (line_len > 0 && line[0] != quote)`. -/
  | quoted (quote : Char)
  /-- In the body of that loop, the backslash stepped over: in front of the
  `_ch_step_1` that reads the escaped character. -/
  | quoted_escape (quote : Char)
deriving DecidableEq, Repr

/-- The variables of `args_parse_line` inside its loops: `pos` is
`line - line_start`, `word_start` the offset at which the current word began,
`index` the offsets into the output at which the words begin. -/
structure ArgsState where
  mode : ArgsMode
  word_start : Nat
  pos : Nat
  index : List Nat
  buf : StrBuf
deriving DecidableEq, Repr

/-- The `switch (ch0)` of the inner loop, for the character just read. -/
def args_switch (s : ArgsState) (ch0 : Char) : ArgsState :=
  if ch0 = dquote ∨ ch0 = squote then { s with mode := .quoted ch0 }
  else if ch0 = bslash then { s with mode := .word_escape }
  else if g_ascii_isspace ch0 then
    -- `goto word_completed`: the word is closed with a NUL
    { s with mode := .between, buf := _strbuf_append_c s.buf nul }
  else { s with mode := .word, buf := _strbuf_append_c s.buf ch0 }

/-- One `_ch_step_1` and what the code does with the character read. -/
def args_step (s : ArgsState) (c : Char) : ArgsState :=
  let s1 := { s with pos := s.pos + 1 }
  match s.mode with
  | .between =>
    if g_ascii_isspace c then s1
    else
      -- a new round of the outer loop: `word_start = line - line_start`, the
      -- output offset is appended to `index`, and the inner loop is entered
      args_switch { s1 with word_start := s.pos, index := s.index ++ [s.buf.data.length] } c
  | .word => args_switch s1 c
  | .word_escape => { s1 with mode := .word, buf := _strbuf_append_c s.buf c }
  | .quoted q =>
    if c = q then { s1 with mode := .word }
    else if q = dquote ∧ c = bslash then { s1 with mode := .quoted_escape q }
    else { s1 with buf := _strbuf_append_c s.buf c }
  | .quoted_escape q => { s1 with mode := .quoted q, buf := _strbuf_append_c s.buf c }

/-- What happens when `line_len` has reached 0 at a program point: the loops
end, or the quote or backslash error is raised. -/
def args_end (s : ArgsState) : Except ArgsError (List Nat × StrBuf) :=
  match s.mode with
  | .between => .ok (s.index, s.buf)
  | .word => .ok (s.index, _strbuf_append_c s.buf nul)
  | .word_escape => .error (.trailing_backslash s.word_start)
  | .quoted q => .error (.unterminated q s.word_start)
  | .quoted_escape q => .error (.unterminated q s.word_start)

/-- The loops of `args_parse_line` run over the unread input. -/
def args_loop (s : ArgsState) (input : CStr) : Except ArgsError (List Nat × StrBuf) :=
  args_end (input.foldl args_step s)

/-- The C string that starts at offset `i` of the packed output. -/
def cstr_at (data : List Char) (i : Nat) : CStr :=
  (data.drop i).takeWhile (fun c => c != nul)

/-- `args_parse_line (line, line_len, out_p, out_error)`, with `line` the
`line_len` bytes handed in. -/
def args_parse_line (line : CStr) : ArgsResult :=
  -- we expect no newline during the first line_len chars
  if line.any (fun c => c == nul || c == lf) then .rejected
  else
    -- if the line ends with a carriage return, drop that right away
    let line1 := if line.getLast? = some cr then line.dropLast else line
    let line2 := _ch_skip_over_leading_whitespace line1
    match line2 with
    | [] => .ok none
    | c :: _ =>
      if c = semi ∨ c = hash then .ok none
      else
        let skipped := line1.length - line2.length
        -- the maximum required buffer is line_len + 1 characters
        let start : ArgsState :=
          { mode := .between, word_start := skipped, pos := skipped, index := [],
            buf := { data := [], len := line2.length + 1 } }
        match args_loop start line2 with
        | .error e => .error e
        | .ok (index, buf) => .ok (some (index.map (cstr_at buf.data)))

/-- `_nmovpn_test_args_parse_line`: the exported wrapper. -/
def _nmovpn_test_args_parse_line (line : CStr) : ArgsResult := args_parse_line line

/-! ## Library functions used by the translation (GLib, libc) -/

/-- The pieces between delimiters of a non-empty text. -/
def strsplit_pieces (delims : CStr) : CStr → List CStr
  | [] => [[]]
  | c :: cs =>
    if delims.contains c then [] :: strsplit_pieces delims cs
    else
      match strsplit_pieces delims cs with
      | [] => [[c]]
      | p :: ps => (c :: p) :: ps

/-- GLib `g_strsplit_set (string, delimiters, 0)`: splits at every byte that
is one of the delimiters; the empty string gives the empty vector. -/
def g_strsplit_set (s delims : CStr) : List CStr :=
  if s = [] then [] else strsplit_pieces delims s

/-- GLib `g_strchug`: removes leading `g_ascii_isspace` bytes. -/
def g_strchug (s : CStr) : CStr := s.dropWhile g_ascii_isspace

/-- GLib `g_strchomp`: removes trailing `g_ascii_isspace` bytes. -/
def g_strchomp (s : CStr) : CStr := s.rdropWhile g_ascii_isspace

/-- GLib `g_strstrip`: `g_strchomp (g_strchug (s))`. -/
def g_strstrip (s : CStr) : CStr := g_strchomp (g_strchug s)

/-- `LONG_MAX` of a 64-bit `long`. -/
def LONG_MAX : Int := 9223372036854775807
/-- `LONG_MIN` of a 64-bit `long`. -/
def LONG_MIN : Int := -9223372036854775808
/-- `G_MAXINT`, the largest `int`. -/
def G_MAXINT : Int := 2147483647

/-- The number written by a run of decimal digits. -/
def digits_value (ds : CStr) : Nat :=
  ds.foldl (fun acc c => acc * 10 + (c.toNat - 48)) 0

/-- libc `strtol (s, NULL, 10)` for a 64-bit `long`: the value, and whether
`errno` was set (to `ERANGE`, the only error in base 10).  Leading `isspace`
bytes and one sign are skipped, then the longest run of digits is read; no
digits give 0 without an error. -/
def strtol (s : CStr) : Int × Bool :=
  let s1 := s.dropWhile isspace
  let neg := s1.head? = some '-'
  let s2 := if s1.head? = some '-' ∨ s1.head? = some '+' then s1.tail else s1
  let n := digits_value (s2.takeWhile Char.isDigit)
  if neg then
    if (n : Int) > -LONG_MIN then (LONG_MIN, true) else (-(n : Int), false)
  else
    if (n : Int) > LONG_MAX then (LONG_MAX, true) else ((n : Int), false)

/-- Decimal digits of a number, most significant first; `fuel` bounds the
number of digits. -/
def nat_digits : Nat → Nat → CStr → CStr
  | 0, _, acc => acc
  | fuel + 1, n, acc =>
    let acc1 := Char.ofNat (48 + n % 10) :: acc
    if n / 10 = 0 then acc1 else nat_digits fuel (n / 10) acc1

/-- The text of `printf ("%u")`. -/
def print_nat (n : Nat) : CStr := nat_digits (n + 1) n []

/-- The text `args_parse_line` formats into `*out_error` (untranslated). -/
def ArgsError.text : ArgsError → CStr
  | .unterminated q word_start =>
    "unterminated ".toList ++ (if q = dquote then "double quote".toList else "single quote".toList)
      ++ " at position ".toList ++ print_nat word_start
  | .trailing_backslash word_start =>
    "trailing escaping backslash at position ".toList ++ print_nat word_start

/-- The text of `printf ("%d")` and `printf ("%ld")`. -/
def print_int (i : Int) : CStr :=
  if i < 0 then '-' :: print_nat i.natAbs else print_nat i.natAbs

/-- The cast `(guint32) x`. -/
def to_guint32 (x : Int) : Nat := (x % 4294967296).toNat

/-- The cast `(gint) x`, also how `%d` reads a `guint32` argument. -/
def to_gint (x : Int) : Int :=
  let u := x % 4294967296
  if u < 2147483648 then u else u - 4294967296

/-- One octet of a dotted quad as glibc `inet_pton` reads it: one to three
digits, no leading zero, at most 255. -/
def parse_octet (s : CStr) : Option Nat :=
  if s ≠ [] ∧ s.all Char.isDigit ∧ (s.length = 1 ∨ s.head? ≠ some '0') ∧ s.length ≤ 3
      ∧ digits_value s ≤ 255 then
    some (digits_value s)
  else none

/-- libc `inet_pton (AF_INET, str, &ip)`: the four octets of a strict dotted
quad, in network order, or `none` when the return value is not positive. -/
def inet_pton (str : CStr) : Option (List Nat) :=
  match strsplit_pieces ['.'] str with
  | [a, b, c, d] =>
    match parse_octet a, parse_octet b, parse_octet c, parse_octet d with
    | some a1, some b1, some c1, some d1 => some [a1, b1, c1, d1]
    | _, _, _, _ => none
  | _ => none

/-- libc `inet_ntop (AF_INET, ...)`: the dotted quad of four octets. -/
def inet_ntop (octets : List Nat) : CStr :=
  List.intercalate ['.'] (octets.map print_nat)

/-- How often the loop `while (v) { prefix++; v <<= 1; }` runs on a byte. -/
def octet_shift_count : Nat → Nat → Nat
  | 0, _ => 0
  | fuel + 1, v => if v = 0 then 0 else 1 + octet_shift_count fuel ((v * 2) % 256)

/-- libnm `nm_utils_ip4_netmask_to_prefix`, on the netmask's bytes in memory
order: 8 for every leading byte 0xFF, then the shift count of the next byte. -/
def nm_utils_ip4_netmask_to_prefix : List Nat → Nat
  | [] => 0
  | v :: rest =>
    if v = 255 then 8 + nm_utils_ip4_netmask_to_prefix rest else octet_shift_count 8 v

/-- libnm `nm_utils_ip4_prefix_to_netmask`, as bytes in memory order: the
first `plen` bits set (all of them from 32 on). -/
def nm_utils_ip4_prefix_to_netmask (plen : Nat) : List Nat :=
  let bits : Nat := if plen < 32 then 4294967295 - (4294967295 >>> plen) else 4294967295
  [bits / 16777216 % 256, bits / 65536 % 256, bits / 256 % 256, bits % 256]

/-- GLib `g_path_is_absolute` on Unix. -/
def g_path_is_absolute (file_name : CStr) : Bool := file_name.head? = some '/'

/-- GLib `g_path_get_dirname`: `.` without a separator, else the text before
the last separator, without the separators that end it (but keeping a sole
leading one). -/
def g_path_get_dirname (file_name : CStr) : CStr :=
  if file_name.contains '/' then
    -- text up to, not including, the last separator
    let head := (file_name.rdropWhile (fun c => c != '/')).dropLast
    let d := head.rdropWhile (fun c => c == '/')
    if d = [] then ['/'] else d
  else ['.']

/-- GLib `g_path_get_basename`: `.` for the empty name, `/` for a name of
separators only, else the last component, trailing separators ignored. -/
def g_path_get_basename (file_name : CStr) : CStr :=
  if file_name = [] then ['.']
  else
    let t := file_name.rdropWhile (fun c => c == '/')
    if t = [] then ['/'] else t.rtakeWhile (fun c => c != '/')

/-- State of GLib `g_build_path_va` between elements. -/
structure BuildPath where
  result : CStr
  is_first : Bool
  have_leading : Bool
  single_element : Option CStr
  last_trailing : Option CStr

/-- One round of the element loop of GLib `g_build_path_va` with separator
`/`. -/
def build_path_step (b : BuildPath) (element : CStr) : BuildPath :=
  if element = [] then b
  else
    let start := element.dropWhile (fun c => c == '/')
    let core := start.rdropWhile (fun c => c == '/')
    -- the separators that end the element (all of it when it has nothing else)
    let trailing := element.rtakeWhile (fun c => c == '/')
    let leading := element.takeWhile (fun c => c == '/')
    let b1 : BuildPath :=
      if !b.have_leading then
        { b with
          single_element := if start = [] then some element else b.single_element
          result := b.result ++ leading
          have_leading := true
          last_trailing := some trailing }
      else { b with single_element := none, last_trailing := some trailing }
    if core = [] then b1
    else
      { b1 with
        result := (if b1.is_first then b1.result else b1.result ++ ['/']) ++ core
        is_first := false }

/-- GLib `g_build_filename (elements..., NULL)` on Unix, also
`g_build_path ("/", elements..., NULL)`. -/
def g_build_filename (elements : List CStr) : CStr :=
  let b := elements.foldl build_path_step
    { result := [], is_first := true, have_leading := false, single_element := none,
      last_trailing := none }
  match b.single_element with
  | some e => e
  | none => b.result ++ b.last_trailing.getD []

/-- C `strrchr (s, '.')` followed by `*last_dot = 0`: the text before the
last dot, or all of it when there is none. -/
def cut_at_last_dot (s : CStr) : CStr :=
  if s.contains '.' then (s.rdropWhile (fun c => c != '.')).dropLast else s

/-! ## Directive tags and setting keys -/

/-- Inline block tag `CA_BLOB_START_TAG`. -/
def CA_BLOB_START_TAG : CStr := "<ca>".toList
/-- Inline block tag `CA_BLOB_END_TAG`. -/
def CA_BLOB_END_TAG : CStr := "</ca>".toList
/-- Inline block tag `CERT_BLOB_START_TAG`. -/
def CERT_BLOB_START_TAG : CStr := "<cert>".toList
/-- Inline block tag `CERT_BLOB_END_TAG`. -/
def CERT_BLOB_END_TAG : CStr := "</cert>".toList
/-- Inline block tag `KEY_BLOB_START_TAG`. -/
def KEY_BLOB_START_TAG : CStr := "<key>".toList
/-- Inline block tag `KEY_BLOB_END_TAG`. -/
def KEY_BLOB_END_TAG : CStr := "</key>".toList
/-- Inline block tag `TLS_AUTH_BLOB_START_TAG`. -/
def TLS_AUTH_BLOB_START_TAG : CStr := "<tls-auth>".toList
/-- Inline block tag `TLS_AUTH_BLOB_END_TAG`. -/
def TLS_AUTH_BLOB_END_TAG : CStr := "</tls-auth>".toList
/-- Directive tag `TAG_AUTH`. -/
def TAG_AUTH : CStr := "auth ".toList
/-- Directive tag `TAG_AUTH_USER_PASS`. -/
def TAG_AUTH_USER_PASS : CStr := "auth-user-pass".toList
/-- Directive tag `TAG_CA`. -/
def TAG_CA : CStr := "ca ".toList
/-- Directive tag `TAG_CERT`. -/
def TAG_CERT : CStr := "cert ".toList
/-- Directive tag `TAG_CIPHER`. -/
def TAG_CIPHER : CStr := "cipher ".toList
/-- Directive tag `TAG_KEYSIZE`. -/
def TAG_KEYSIZE : CStr := "keysize ".toList
/-- Directive tag `TAG_CLIENT`. -/
def TAG_CLIENT : CStr := "client".toList
/-- Directive tag `TAG_COMP_LZO`. -/
def TAG_COMP_LZO : CStr := "comp-lzo".toList
/-- Directive tag `TAG_FLOAT`. -/
def TAG_FLOAT : CStr := "float".toList
/-- Directive tag `TAG_DEV`. -/
def TAG_DEV : CStr := "dev ".toList
/-- Directive tag `TAG_DEV_TYPE`. -/
def TAG_DEV_TYPE : CStr := "dev-type ".toList
/-- Directive tag `TAG_FRAGMENT`. -/
def TAG_FRAGMENT : CStr := "fragment ".toList
/-- Directive tag `TAG_IFCONFIG`. -/
def TAG_IFCONFIG : CStr := "ifconfig ".toList
/-- Directive tag `TAG_KEY`. -/
def TAG_KEY : CStr := "key ".toList
/-- Directive tag `TAG_KEEPALIVE`. -/
def TAG_KEEPALIVE : CStr := "keepalive ".toList
/-- Directive tag `TAG_MSSFIX`. -/
def TAG_MSSFIX : CStr := "mssfix".toList
/-- Directive tag `TAG_PING`. -/
def TAG_PING : CStr := "ping ".toList
/-- Directive tag `TAG_PING_EXIT`. -/
def TAG_PING_EXIT : CStr := "ping-exit ".toList
/-- Directive tag `TAG_PING_RESTART`. -/
def TAG_PING_RESTART : CStr := "ping-restart ".toList
/-- Directive tag `TAG_PKCS12`. -/
def TAG_PKCS12 : CStr := "pkcs12 ".toList
/-- Directive tag `TAG_PORT`. -/
def TAG_PORT : CStr := "port ".toList
/-- Directive tag `TAG_PROTO`. -/
def TAG_PROTO : CStr := "proto ".toList
/-- Directive tag `TAG_HTTP_PROXY`. -/
def TAG_HTTP_PROXY : CStr := "http-proxy ".toList
/-- Directive tag `TAG_HTTP_PROXY_RETRY`. -/
def TAG_HTTP_PROXY_RETRY : CStr := "http-proxy-retry".toList
/-- Directive tag `TAG_SOCKS_PROXY`. -/
def TAG_SOCKS_PROXY : CStr := "socks-proxy ".toList
/-- Directive tag `TAG_SOCKS_PROXY_RETRY`. -/
def TAG_SOCKS_PROXY_RETRY : CStr := "socks-proxy-retry".toList
/-- Directive tag `TAG_REMOTE`. -/
def TAG_REMOTE : CStr := "remote ".toList
/-- Directive tag `TAG_REMOTE_RANDOM`. -/
def TAG_REMOTE_RANDOM : CStr := "remote-random".toList
/-- Directive tag `TAG_RENEG_SEC`. -/
def TAG_RENEG_SEC : CStr := "reneg-sec ".toList
/-- Directive tag `TAG_RPORT`. -/
def TAG_RPORT : CStr := "rport ".toList
/-- Directive tag `TAG_SECRET`. -/
def TAG_SECRET : CStr := "secret ".toList
/-- Directive tag `TAG_TLS_AUTH`. -/
def TAG_TLS_AUTH : CStr := "tls-auth ".toList
/-- Directive tag `TAG_KEY_DIRECTION`. -/
def TAG_KEY_DIRECTION : CStr := "key-direction ".toList
/-- Directive tag `TAG_TLS_CLIENT`. -/
def TAG_TLS_CLIENT : CStr := "tls-client".toList
/-- Directive tag `TAG_TLS_REMOTE`. -/
def TAG_TLS_REMOTE : CStr := "tls-remote ".toList
/-- Directive tag `TAG_REMOTE_CERT_TLS`. -/
def TAG_REMOTE_CERT_TLS : CStr := "remote-cert-tls ".toList
/-- Directive tag `TAG_TUN_MTU`. -/
def TAG_TUN_MTU : CStr := "tun-mtu ".toList
/-- Directive tag `TAG_ROUTE`. -/
def TAG_ROUTE : CStr := "route ".toList

/-- Modelled from the spec: the setting key `NM_OPENVPN_KEY_AUTH` of
`nm-openvpn-service-defines.h`, a header that is not among the sources. -/
def NM_OPENVPN_KEY_AUTH : CStr := "auth".toList
/-- Modelled from the spec: the setting key `NM_OPENVPN_KEY_CA` of
`nm-openvpn-service-defines.h`, a header that is not among the sources. -/
def NM_OPENVPN_KEY_CA : CStr := "ca".toList
/-- Modelled from the spec: the setting key `NM_OPENVPN_KEY_CERT` of
`nm-openvpn-service-defines.h`, a header that is not among the sources. -/
def NM_OPENVPN_KEY_CERT : CStr := "cert".toList
/-- Modelled from the spec: the setting key `NM_OPENVPN_KEY_CIPHER` of
`nm-openvpn-service-defines.h`, a header that is not among the sources. -/
def NM_OPENVPN_KEY_CIPHER : CStr := "cipher".toList
/-- Modelled from the spec: the setting key `NM_OPENVPN_KEY_KEYSIZE` of
`nm-openvpn-service-defines.h`, a header that is not among the sources. -/
def NM_OPENVPN_KEY_KEYSIZE : CStr := "keysize".toList
/-- Modelled from the spec: the setting key `NM_OPENVPN_KEY_COMP_LZO` of
`nm-openvpn-service-defines.h`, a header that is not among the sources. -/
def NM_OPENVPN_KEY_COMP_LZO : CStr := "comp-lzo".toList
/-- Modelled from the spec: the setting key `NM_OPENVPN_KEY_FLOAT` of
`nm-openvpn-service-defines.h`, a header that is not among the sources. -/
def NM_OPENVPN_KEY_FLOAT : CStr := "float".toList
/-- Modelled from the spec: the setting key `NM_OPENVPN_KEY_CONNECTION_TYPE` of
`nm-openvpn-service-defines.h`, a header that is not among the sources. -/
def NM_OPENVPN_KEY_CONNECTION_TYPE : CStr := "connection-type".toList
/-- Modelled from the spec: the setting key `NM_OPENVPN_KEY_FRAGMENT_SIZE` of
`nm-openvpn-service-defines.h`, a header that is not among the sources. -/
def NM_OPENVPN_KEY_FRAGMENT_SIZE : CStr := "fragment-size".toList
/-- Modelled from the spec: the setting key `NM_OPENVPN_KEY_KEY` of
`nm-openvpn-service-defines.h`, a header that is not among the sources. -/
def NM_OPENVPN_KEY_KEY : CStr := "key".toList
/-- Modelled from the spec: the setting key `NM_OPENVPN_KEY_LOCAL_IP` of
`nm-openvpn-service-defines.h`, a header that is not among the sources. -/
def NM_OPENVPN_KEY_LOCAL_IP : CStr := "local-ip".toList
/-- Modelled from the spec: the setting key `NM_OPENVPN_KEY_MSSFIX` of
`nm-openvpn-service-defines.h`, a header that is not among the sources. -/
def NM_OPENVPN_KEY_MSSFIX : CStr := "mssfix".toList
/-- Modelled from the spec: the setting key `NM_OPENVPN_KEY_PING` of
`nm-openvpn-service-defines.h`, a header that is not among the sources. -/
def NM_OPENVPN_KEY_PING : CStr := "ping".toList
/-- Modelled from the spec: the setting key `NM_OPENVPN_KEY_PING_EXIT` of
`nm-openvpn-service-defines.h`, a header that is not among the sources. -/
def NM_OPENVPN_KEY_PING_EXIT : CStr := "ping-exit".toList
/-- Modelled from the spec: the setting key `NM_OPENVPN_KEY_PING_RESTART` of
`nm-openvpn-service-defines.h`, a header that is not among the sources. -/
def NM_OPENVPN_KEY_PING_RESTART : CStr := "ping-restart".toList
/-- Modelled from the spec: the setting key `NM_OPENVPN_KEY_PORT` of
`nm-openvpn-service-defines.h`, a header that is not among the sources. -/
def NM_OPENVPN_KEY_PORT : CStr := "port".toList
/-- Modelled from the spec: the setting key `NM_OPENVPN_KEY_PROTO_TCP` of
`nm-openvpn-service-defines.h`, a header that is not among the sources. -/
def NM_OPENVPN_KEY_PROTO_TCP : CStr := "proto-tcp".toList
/-- Modelled from the spec: the setting key `NM_OPENVPN_KEY_PROXY_TYPE` of
`nm-openvpn-service-defines.h`, a header that is not among the sources. -/
def NM_OPENVPN_KEY_PROXY_TYPE : CStr := "proxy-type".toList
/-- Modelled from the spec: the setting key `NM_OPENVPN_KEY_PROXY_SERVER` of
`nm-openvpn-service-defines.h`, a header that is not among the sources. -/
def NM_OPENVPN_KEY_PROXY_SERVER : CStr := "proxy-server".toList
/-- Modelled from the spec: the setting key `NM_OPENVPN_KEY_PROXY_PORT` of
`nm-openvpn-service-defines.h`, a header that is not among the sources. -/
def NM_OPENVPN_KEY_PROXY_PORT : CStr := "proxy-port".toList
/-- Modelled from the spec: the setting key `NM_OPENVPN_KEY_PROXY_RETRY` of
`nm-openvpn-service-defines.h`, a header that is not among the sources. -/
def NM_OPENVPN_KEY_PROXY_RETRY : CStr := "proxy-retry".toList
/-- Modelled from the spec: the setting key `NM_OPENVPN_KEY_HTTP_PROXY_USERNAME` of
`nm-openvpn-service-defines.h`, a header that is not among the sources. -/
def NM_OPENVPN_KEY_HTTP_PROXY_USERNAME : CStr := "http-proxy-username".toList
/-- Modelled from the spec: the setting key `NM_OPENVPN_KEY_REMOTE` of
`nm-openvpn-service-defines.h`, a header that is not among the sources. -/
def NM_OPENVPN_KEY_REMOTE : CStr := "remote".toList
/-- Modelled from the spec: the setting key `NM_OPENVPN_KEY_REMOTE_RANDOM` of
`nm-openvpn-service-defines.h`, a header that is not among the sources. -/
def NM_OPENVPN_KEY_REMOTE_RANDOM : CStr := "remote-random".toList
/-- Modelled from the spec: the setting key `NM_OPENVPN_KEY_REMOTE_IP` of
`nm-openvpn-service-defines.h`, a header that is not among the sources. -/
def NM_OPENVPN_KEY_REMOTE_IP : CStr := "remote-ip".toList
/-- Modelled from the spec: the setting key `NM_OPENVPN_KEY_STATIC_KEY` of
`nm-openvpn-service-defines.h`, a header that is not among the sources. -/
def NM_OPENVPN_KEY_STATIC_KEY : CStr := "static-key".toList
/-- Modelled from the spec: the setting key `NM_OPENVPN_KEY_STATIC_KEY_DIRECTION` of
`nm-openvpn-service-defines.h`, a header that is not among the sources. -/
def NM_OPENVPN_KEY_STATIC_KEY_DIRECTION : CStr := "static-key-direction".toList
/-- Modelled from the spec: the setting key `NM_OPENVPN_KEY_TA` of
`nm-openvpn-service-defines.h`, a header that is not among the sources. -/
def NM_OPENVPN_KEY_TA : CStr := "ta".toList
/-- Modelled from the spec: the setting key `NM_OPENVPN_KEY_TA_DIR` of
`nm-openvpn-service-defines.h`, a header that is not among the sources. -/
def NM_OPENVPN_KEY_TA_DIR : CStr := "ta-dir".toList
/-- Modelled from the spec: the setting key `NM_OPENVPN_KEY_TUNNEL_MTU` of
`nm-openvpn-service-defines.h`, a header that is not among the sources. -/
def NM_OPENVPN_KEY_TUNNEL_MTU : CStr := "tunnel-mtu".toList
/-- Modelled from the spec: the setting key `NM_OPENVPN_KEY_DEV` of
`nm-openvpn-service-defines.h`, a header that is not among the sources. -/
def NM_OPENVPN_KEY_DEV : CStr := "dev".toList
/-- Modelled from the spec: the setting key `NM_OPENVPN_KEY_DEV_TYPE` of
`nm-openvpn-service-defines.h`, a header that is not among the sources. -/
def NM_OPENVPN_KEY_DEV_TYPE : CStr := "dev-type".toList
/-- Modelled from the spec: the setting key `NM_OPENVPN_KEY_TAP_DEV` of
`nm-openvpn-service-defines.h`, a header that is not among the sources. -/
def NM_OPENVPN_KEY_TAP_DEV : CStr := "tap-dev".toList
/-- Modelled from the spec: the setting key `NM_OPENVPN_KEY_TLS_REMOTE` of
`nm-openvpn-service-defines.h`, a header that is not among the sources. -/
def NM_OPENVPN_KEY_TLS_REMOTE : CStr := "tls-remote".toList
/-- Modelled from the spec: the setting key `NM_OPENVPN_KEY_REMOTE_CERT_TLS` of
`nm-openvpn-service-defines.h`, a header that is not among the sources. -/
def NM_OPENVPN_KEY_REMOTE_CERT_TLS : CStr := "remote-cert-tls".toList
/-- Modelled from the spec: the setting key `NM_OPENVPN_KEY_RENEG_SECONDS` of
`nm-openvpn-service-defines.h`, a header that is not among the sources. -/
def NM_OPENVPN_KEY_RENEG_SECONDS : CStr := "reneg-seconds".toList
/-- Modelled from the spec: the setting key `NM_OPENVPN_KEY_PASSWORD` of
`nm-openvpn-service-defines.h`, a header that is not among the sources. -/
def NM_OPENVPN_KEY_PASSWORD : CStr := "password".toList
/-- Modelled from the spec: the setting key `NM_OPENVPN_KEY_CERTPASS` of
`nm-openvpn-service-defines.h`, a header that is not among the sources. -/
def NM_OPENVPN_KEY_CERTPASS : CStr := "cert-pass".toList
/-- Modelled from the spec: the setting key `NM_OPENVPN_KEY_HTTP_PROXY_PASSWORD` of
`nm-openvpn-service-defines.h`, a header that is not among the sources. -/
def NM_OPENVPN_KEY_HTTP_PROXY_PASSWORD : CStr := "http-proxy-password".toList
/-- Modelled from the spec: the connection type `NM_OPENVPN_CONTYPE_TLS` of
`nm-openvpn-service-defines.h`, a header that is not among the sources. -/
def NM_OPENVPN_CONTYPE_TLS : CStr := "tls".toList
/-- Modelled from the spec: the connection type `NM_OPENVPN_CONTYPE_PASSWORD` of
`nm-openvpn-service-defines.h`, a header that is not among the sources. -/
def NM_OPENVPN_CONTYPE_PASSWORD : CStr := "password".toList
/-- Modelled from the spec: the connection type `NM_OPENVPN_CONTYPE_PASSWORD_TLS` of
`nm-openvpn-service-defines.h`, a header that is not among the sources. -/
def NM_OPENVPN_CONTYPE_PASSWORD_TLS : CStr := "password-tls".toList
/-- Modelled from the spec: the connection type `NM_OPENVPN_CONTYPE_STATIC_KEY` of
`nm-openvpn-service-defines.h`, a header that is not among the sources. -/
def NM_OPENVPN_CONTYPE_STATIC_KEY : CStr := "static-key".toList
/-- Modelled from the spec: the keyword `NM_OPENVPN_REM_CERT_TLS_CLIENT` of
`nm-openvpn-service-defines.h`, a header that is not among the sources. -/
def NM_OPENVPN_REM_CERT_TLS_CLIENT : CStr := "client".toList
/-- Modelled from the spec: the keyword `NM_OPENVPN_REM_CERT_TLS_SERVER` of
`nm-openvpn-service-defines.h`, a header that is not among the sources. -/
def NM_OPENVPN_REM_CERT_TLS_SERVER : CStr := "server".toList
/-- Modelled from the spec: libnm `NM_SETTING_SECRET_FLAG_AGENT_OWNED`, the
ownership flag of a secret held by the user agent. -/
def NM_SETTING_SECRET_FLAG_AGENT_OWNED : Nat := 1

/-! ## The settings model -/

/-- One IPv4 route of the connection (`NMIPRoute`): destination, prefix
length, next hop (`none` for the unset next hop) and metric (-1 for unset). -/
structure NMIPRoute where
  dest : CStr
  plen : Nat
  next_hop : Option CStr
  metric : Int
deriving DecidableEq, Repr

/-- The part of an `NMConnection` that the translation reads and writes: the
connection id, the VPN setting's data items, its secrets with their flags, and
the routes of the IPv4 setting. -/
structure Connection where
  id : CStr
  data : List (CStr × CStr)
  secrets : List (CStr × CStr)
  secret_flags : List (CStr × Nat)
  routes : List NMIPRoute
deriving DecidableEq, Repr

/-- Overwriting insertion into a key/value table. -/
def table_insert {β : Type} (k : CStr) (v : β) (m : List (CStr × β)) : List (CStr × β) :=
  (k, v) :: m.filter (fun e => e.1 != k)

/-- libnm `nm_setting_vpn_get_data_item`. -/
def nm_setting_vpn_get_data_item (data : List (CStr × CStr)) (key : CStr) : Option CStr :=
  data.lookup key

/-- libnm `nm_setting_vpn_add_data_item`: stores the item under the key,
replacing an earlier one; it returns without storing when the key or the item
is empty (`g_return_if_fail (strlen (item) > 0)`). -/
def nm_setting_vpn_add_data_item (data : List (CStr × CStr)) (key item : CStr) :
    List (CStr × CStr) :=
  if key = [] ∨ item = [] then data else table_insert key item data

/-- libnm `nm_setting_vpn_add_secret`, with the same guards as
`nm_setting_vpn_add_data_item`. -/
def nm_setting_vpn_add_secret (secrets : List (CStr × CStr)) (key secret : CStr) :
    List (CStr × CStr) :=
  if key = [] ∨ secret = [] then secrets else table_insert key secret secrets

/-- libnm `nm_setting_ip_config_add_route`: appends the route unless an equal
one is already in the list. -/
def nm_setting_ip_config_add_route (routes : List NMIPRoute) (r : NMIPRoute) : List NMIPRoute :=
  if routes.contains r then routes else routes ++ [r]

/-- libnm `nm_ip_route_new (AF_INET, dest, prefix, next_hop, metric, NULL)` for
a destination and next hop that `inet_pton` accepts: the all-zero next hop is
kept as the unset next hop. -/
def nm_ip_route_new (dest : CStr) (plen : Nat) (next_hop : CStr) (metric : Int) : NMIPRoute :=
  { dest := dest, plen := plen,
    next_hop := if next_hop = "0.0.0.0".toList then none else some next_hop,
    metric := metric }

/-! ## The world around an import -/

/-- What `g_file_test` says about the certificate directory. -/
inductive DirState where
  | is_dir
  | missing
  | not_a_dir
deriving DecidableEq, Repr

/-- What the importer takes from its surroundings: directories, the
character-set helpers of GLib, the file system, and `is_encrypted` of
`utils.c`. -/
structure Env where
  /-- `g_get_home_dir ()`. -/
  home_dir : CStr
  /-- `g_get_current_dir ()`. -/
  current_dir : CStr
  /-- `g_utf8_validate (contents, contents_len, NULL)`. -/
  utf8_validate : CStr → Bool
  /-- `g_locale_to_utf8`: the converted text, `none` on a conversion error. -/
  locale_to_utf8 : CStr → Option CStr
  /-- State of `~/.cert` when the import starts. -/
  cert_dir : DirState
  /-- Whether `mkdir (dirname, 0755)` succeeds. -/
  mkdir_ok : Bool
  /-- Whether `g_file_set_contents` succeeds on a path. -/
  set_contents_ok : CStr → Bool
  /-- `g_file_get_contents` on a file that the import has not written itself. -/
  file_contents : CStr → Option CStr
  /-- `is_encrypted (path)` of `utils.c`, given what the file holds. -/
  is_encrypted : CStr → Option CStr → Bool
  /-- The bytes found right behind the terminator of a line's allocation
  during the run at hand, for a line given by its text: what
  `*line + strlen (tag)` points at when the line is the bare keyword of a tag
  that ends in a space.  `do_import` takes them from `heap` for the buffer it
  is given. -/
  overread : CStr → CStr
  /-- The state of the heap in a run of `do_import`: for the buffer of the
  run and the text of a line of its `lines` vector, the bytes that lie right
  behind the terminator of that line's allocation.  They belong to whatever
  the allocator placed there, so they differ from one buffer to the next. -/
  heap : CStr → CStr → CStr

/-- The surroundings during the run of `do_import` on a buffer: the bytes
behind the allocations of the lines are those of the heap of this run. -/
def Env.run (env : Env) (contents : CStr) : Env :=
  { env with overread := env.heap contents }

/-- A line of the `lines` vector as the loop body sees it: its text up to the
first NUL, and the C string that starts right behind that NUL when the NUL was
written by the comment cut (so that the byte still lies in the allocation). -/
structure Line where
  text : CStr
  beyond : Option CStr
deriving DecidableEq, Repr

/-- The two comment cuts at the top of the loop body: `strchr (*line, '#')`
and then `strchr (*line, ';')`, each overwritten with NUL. -/
def strip_comment (piece : CStr) : Line :=
  let t1 := piece.takeWhile (fun c => c != hash)
  let b1 : Option CStr := if piece.contains hash then some (piece.drop (t1.length + 1)) else none
  let t2 := t1.takeWhile (fun c => c != semi)
  if t1.contains semi then { text := t2, beyond := some (t1.drop (t2.length + 1)) }
  else { text := t1, beyond := b1 }

/-- The C string at `*line + strlen (tag)` for a line that `args_is_option`
accepted for the tag: the text behind the tag, or, for the bare keyword of a
tag ending in a space, what lies behind the line's terminator. -/
def arg_text (env : Env) (line : Line) (tag : CStr) : CStr :=
  if tag.length ≤ line.text.length then line.text.drop tag.length
  else
    match line.beyond with
    | some t => t
    | none => env.overread line.text

/-- `args_is_option (line, tag)`. -/
def args_is_option (line tag : CStr) : Bool :=
  match tag.getLast? with
  | none => false
  | some last =>
    -- allow the tag to be terminated by whitespace
    let len := if g_ascii_isspace last then tag.length - 1 else tag.length
    if line.take len != tag.take len then false
    else
      match line.drop len with
      | [] => true
      | c :: _ => g_ascii_isspace c

/-- `get_args (line, &nitems)`: the non-empty pieces of the text split at
spaces and tabs. -/
def get_args (line : CStr) : List CStr :=
  (g_strsplit_set line [' ', tab]).filter (fun t => t != [])

/-- The copy loop of `unquote`: the unquoted text and, when the loop stopped
at a terminating character, the text behind it. -/
def unquote_loop (quoted : Bool) : CStr → CStr × Option CStr
  | [] => ([], none)
  | [c] =>
    if quoted && (c == dquote || c == squote) then ([], some [])
    else if !quoted && isspace c then ([], some [])
    else ([c], none)
  | c :: d :: ds =>
    if quoted && (c == dquote || c == squote) then ([], some (d :: ds))
    else if !quoted && isspace c then ([], some (d :: ds))
    else if c == bslash && (d == bslash || d == dquote || d == ' ') then
      let r := unquote_loop quoted ds
      (d :: r.1, r.2)
    else
      let r := unquote_loop quoted (d :: ds)
      (c :: r.1, r.2)

/-- `unquote (line, leftover)`: `none` for the `NULL` return on a blank text,
else the unquoted first item and the leftover text (`none` when the item ran
to the end of the text). -/
def unquote (line : CStr) : Option (CStr × Option CStr) :=
  let item := g_strstrip line
  match item with
  | [] => none
  | c :: cs =>
    if c == dquote || c == squote then some (unquote_loop true cs)
    else some (unquote_loop false item)

/-! ## Importer (`do_import`) -/

/-- The local variables of `do_import` that live across lines, together with
the settings under construction and the files written so far. -/
structure ImportState where
  data : List (CStr × CStr)
  secrets : List (CStr × CStr)
  secret_flags : List (CStr × Nat)
  routes : List NMIPRoute
  have_client : Bool
  have_remote : Bool
  have_pass : Bool
  have_sk : Bool
  proxy_set : Bool
  last_seen_key_direction : Option CStr
  cert_dir : DirState
  written : List (CStr × CStr)
deriving DecidableEq, Repr

/-- `nm_setting_vpn_add_data_item (s_vpn, key, item)` on the state. -/
def ImportState.add (st : ImportState) (key item : CStr) : ImportState :=
  { st with data := nm_setting_vpn_add_data_item st.data key item }

/-- `g_file_get_contents`: a file written by this import reads back as
written, any other file is what the environment holds. -/
def read_file (env : Env) (written : List (CStr × CStr)) (path : CStr) : Option CStr :=
  match written.lookup path with
  | some c => some c
  | none => env.file_contents path

/-- `handle_direction (tag, key, leftover, s_vpn)`. -/
def handle_direction (key : CStr) (leftover : Option CStr) (st : ImportState) : ImportState :=
  match leftover with
  | none => st
  | some l =>
    let l1 := g_strstrip l
    if l1 = [] then st
    else
      let r := strtol l1
      if r.2 = false then
        if r.1 = 0 then st.add key "0".toList
        else if r.1 = 1 then st.add key "1".toList
        else st
      else st

/-- `parse_port (str, line)`: the port in decimal, `none` for `NULL`. -/
def parse_port (str : CStr) : Option CStr :=
  let r := strtol str
  if r.2 = false ∧ r.1 > 0 ∧ r.1 < 65536 then some (print_int (to_gint r.1)) else none

/-- `parse_seconds (str, line)`: returns -1 in case of error. -/
def parse_seconds (str : CStr) : Int :=
  let r := strtol str
  if r.2 = false ∧ r.1 ≥ 0 ∧ r.1 ≤ G_MAXINT then to_gint r.1 else -1

/-- `parse_protocol (str, line, is_tcp)`: `none` for `FALSE`, else the value
left in `*is_tcp`. -/
def parse_protocol (str : CStr) : Option Bool :=
  if str = "udp".toList then some false
  else if str = "tcp".toList then some true
  else none

/-- The loop of `parse_http_proxy_auth` over the lines of the auth file: the
first two non-empty lines, stripped, become user and password. -/
def auth_file_lines : List CStr → Option CStr → Option CStr × Option CStr
  | [], user => (user, none)
  | l :: ls, user =>
    if l = [] then auth_file_lines ls user
    else
      match user with
      | none => auth_file_lines ls (some (g_strstrip l))
      | some u => (some u, some (g_strstrip l))

/-- `parse_http_proxy_auth (path, file, &user, &pass)`: the return value and
the two outputs. -/
def parse_http_proxy_auth (env : Env) (written : List (CStr × CStr)) (path file : CStr) :
    Bool × Option CStr × Option CStr :=
  if file = "stdin".toList ∨ file = "auto".toList ∨ file = squote :: "auto".toList ++ [squote] then
    (true, none, none)
  else
    let abspath :=
      if !g_path_is_absolute file then g_build_filename [g_path_get_dirname path, file] else file
    -- Grab user/pass from authfile
    match read_file env written abspath with
    | none => (false, none, none)
    | some contents =>
      let r := auth_file_lines (g_strsplit_set contents [lf, cr]) none
      (r.1.isSome && r.2.isSome, r.1, r.2)

/-- `parse_ip (str, line, out_ip)`: the address bytes, `none` for `FALSE`. -/
def parse_ip (str : CStr) : Option (List Nat) := inet_pton str

/-- `handle_num_seconds_item (line, tag, key, s_vpn)`: `none` for `FALSE`. -/
def handle_num_seconds_item (env : Env) (line : Line) (tag key : CStr) (st : ImportState) :
    Option ImportState :=
  if !args_is_option line.text tag then none
  else
    match get_args (arg_text env line tag) with
    | [item] =>
      let seconds := parse_seconds item
      if seconds ≥ 0 then some (st.add key (print_int seconds)) else some st
    | _ => some st

/-- `handle_path_item (line, tag, key, s_vpn, path, leftover)`: the return
value, the settings afterwards, and what `unquote` left over. -/
def handle_path_item (env : Env) (line : Line) (tag key : CStr) (st : ImportState)
    (path : CStr) : Bool × ImportState × Option CStr :=
  if !args_is_option line.text tag then (false, st, none)
  else
    match unquote (arg_text env line tag) with
    | none => (false, st, none)
    | some (file, leftover) =>
      -- If file isn't an absolute file name, add the default path
      let full := if !g_path_is_absolute file then g_build_filename [path, file] else file
      (true, st.add key full, leftover)

/-- The loop of `handle_blob_item` from its first `NEXT_LINE` on, over the
lines behind the cursor: `NEXT_LINE` steps over lines that are empty or start
with `#` or `;`, every other line is appended with a line feed until one equals
the end tag.  Gives the collected text and how far the cursor moved, or `none`
when `NEXT_LINE` reached the `NULL` that ends the vector. -/
def blob_lines (end_tag : CStr) : List CStr → CStr → Nat → Option (CStr × Nat)
  | [], _, _ => none
  | l :: ls, in_file, n =>
    if l = [] ∨ l.head? = some hash ∨ l.head? = some semi then blob_lines end_tag ls in_file (n + 1)
    else if l = end_tag then some (in_file, n + 1)
    else blob_lines end_tag ls (in_file ++ l ++ [lf]) (n + 1)

/-- Where `handle_blob_item` leaves the line cursor, with its return value. -/
inductive BlobResult where
  /-- The line does not start with the start tag: `FALSE`, cursor unmoved. -/
  | no_start
  /-- `NEXT_LINE` ran into the end of the vector: `FALSE`, and the cursor is
  left on the terminating `NULL`. -/
  | ran_off
  /-- The end tag was found `adv` lines further on, where the cursor now is;
  `ok` is the return value. -/
  | stopped (ok : Bool) (st : ImportState) (adv : Nat)
deriving DecidableEq, Repr

/-- The start and end tag that `handle_blob_item` picks for a key; `none` is
`g_return_val_if_reached (FALSE)`. -/
def blob_tags (key : CStr) : Option (CStr × CStr) :=
  if key = NM_OPENVPN_KEY_CA then some (CA_BLOB_START_TAG, CA_BLOB_END_TAG)
  else if key = NM_OPENVPN_KEY_CERT then some (CERT_BLOB_START_TAG, CERT_BLOB_END_TAG)
  else if key = NM_OPENVPN_KEY_TA then some (TLS_AUTH_BLOB_START_TAG, TLS_AUTH_BLOB_END_TAG)
  else if key = NM_OPENVPN_KEY_KEY then some (KEY_BLOB_START_TAG, KEY_BLOB_END_TAG)
  else none

/-- `handle_blob_item (&line, key, s_vpn, name, error)`, with the text of the
line under the cursor and the lines behind it. -/
def handle_blob_item (env : Env) (cur : CStr) (rest : List CStr) (key : CStr) (st : ImportState)
    (name : CStr) : BlobResult :=
  match blob_tags key with
  | none => .no_start
  | some (start_tag, end_tag) =>
    if cur.take start_tag.length != start_tag then .no_start
    else
      match blob_lines end_tag rest [] 0 with
      | none => .ran_off
      | some (in_file, adv) =>
        -- Construct file name to write the data in
        let filename := name ++ "-".toList ++ key ++ ".pem".toList
        let dirname := g_build_filename [env.home_dir, ".cert".toList]
        let path := g_build_filename [dirname, filename]
        -- Check that dirname exists and is a directory, otherwise create it
        match st.cert_dir with
        | .not_a_dir => .stopped false st adv
        | .missing =>
          if !env.mkdir_ok then .stopped false st adv
          else if !env.set_contents_ok path then .stopped false { st with cert_dir := .is_dir } adv
          else
            .stopped true
              ({ st with cert_dir := .is_dir, written := table_insert path in_file st.written }.add
                key path) adv
        | .is_dir =>
          if !env.set_contents_ok path then .stopped false st adv
          else .stopped true ({ st with written := table_insert path in_file st.written }.add key path) adv

/-- The size check shared by `tun-mtu` and `fragment`: one argument, read by
`strtol`, stored as `%d` when `0 <= secs < 0xffff`. -/
def import_size_item (env : Env) (line : Line) (tag key : CStr) (st : ImportState) :
    Option ImportState :=
  if !args_is_option line.text tag then none
  else
    match get_args (arg_text env line tag) with
    | [item] =>
      let r := strtol item
      if r.2 = false ∧ r.1 ≥ 0 ∧ r.1 < 65535 then some (st.add key (print_int (to_gint r.1)))
      else some st
    | _ => some st

/-- The `client` / `tls-client` block of the loop body. -/
def import_client (line : Line) (st : ImportState) : Option ImportState :=
  if args_is_option line.text TAG_CLIENT || args_is_option line.text TAG_TLS_CLIENT then
    some { st with have_client := true }
  else none

/-- The `key-direction` block: remembers where the argument starts. -/
def import_key_direction (env : Env) (line : Line) (st : ImportState) : Option ImportState :=
  if args_is_option line.text TAG_KEY_DIRECTION then
    some { st with last_seen_key_direction := some (arg_text env line TAG_KEY_DIRECTION) }
  else none

/-- A block that stores its single argument as it is (`dev`, `cipher`,
`auth`). -/
def import_one_arg (env : Env) (line : Line) (tag key : CStr) (st : ImportState) :
    Option ImportState :=
  if !args_is_option line.text tag then none
  else
    match get_args (arg_text env line tag) with
    | [item] => some (st.add key item)
    | _ => some st

/-- A block that stores its single argument when it is one of two keywords
(`dev-type`, `remote-cert-tls`). -/
def import_keyword (env : Env) (line : Line) (tag key kw1 kw2 : CStr) (st : ImportState) :
    Option ImportState :=
  if !args_is_option line.text tag then none
  else
    match get_args (arg_text env line tag) with
    | [item] => if item = kw1 ∨ item = kw2 then some (st.add key item) else some st
    | _ => some st

/-- The `proto` block. -/
def import_proto (env : Env) (line : Line) (st : ImportState) : Option ImportState :=
  if !args_is_option line.text TAG_PROTO then none
  else
    match get_args (arg_text env line TAG_PROTO) with
    | [item] =>
      if item = "udp".toList then some st
      else if item = "tcp-client".toList ∨ item = "tcp-server".toList ∨ item = "tcp".toList then
        some (st.add NM_OPENVPN_KEY_PROTO_TCP "yes".toList)
      else some st
    | _ => some st

/-- A block that only records that its tag was seen (`mssfix`, `comp-lzo`,
`float`, `remote-random`). -/
def import_flag (line : Line) (tag key : CStr) (st : ImportState) : Option ImportState :=
  if args_is_option line.text tag then some (st.add key "yes".toList) else none

/-- The `reneg-sec` block. -/
def import_reneg_sec (env : Env) (line : Line) (st : ImportState) : Option ImportState :=
  if !args_is_option line.text TAG_RENEG_SEC then none
  else
    match get_args (arg_text env line TAG_RENEG_SEC) with
    | [item] =>
      let r := strtol item
      if r.2 = false ∧ r.1 ≥ 0 ∧ r.1 ≤ 604800 then
        some (st.add NM_OPENVPN_KEY_RENEG_SECONDS (print_int (to_gint r.1)))
      else some st
    | _ => some st

/-- The `http-proxy-retry` / `socks-proxy-retry` block. -/
def import_proxy_retry (line : Line) (st : ImportState) : Option ImportState :=
  if args_is_option line.text TAG_HTTP_PROXY_RETRY || args_is_option line.text TAG_SOCKS_PROXY_RETRY
  then some (st.add NM_OPENVPN_KEY_PROXY_RETRY "yes".toList)
  else none

/-- The `http-proxy` / `socks-proxy` block; `path` is the path of the
configuration file. -/
def import_proxy (env : Env) (path : CStr) (line : Line) (st : ImportState) : Option ImportState :=
  let http_proxy := args_is_option line.text TAG_HTTP_PROXY
  let socks_proxy := args_is_option line.text TAG_SOCKS_PROXY
  if (http_proxy || socks_proxy) && !st.proxy_set then
    let items :=
      if http_proxy then get_args (arg_text env line TAG_HTTP_PROXY)
      else get_args (arg_text env line TAG_SOCKS_PROXY)
    let proxy_type := if http_proxy then "http".toList else "socks".toList
    match items with
    | server :: port_item :: more =>
      let auth : Bool × Option CStr × Option CStr :=
        match http_proxy, more with
        | true, file :: _ => parse_http_proxy_auth env st.written path file
        | _, _ => (true, none, none)
      if auth.1 then
        let port := strtol port_item
        if port.2 = false ∧ port.1 > 0 ∧ port.1 < 65536 then
          let st1 := st.add NM_OPENVPN_KEY_PROXY_TYPE proxy_type
          let st2 := st1.add NM_OPENVPN_KEY_PROXY_SERVER server
          let st3 := st2.add NM_OPENVPN_KEY_PROXY_PORT (print_int (to_gint port.1))
          let st4 :=
            match auth.2.1 with
            | some user => st3.add NM_OPENVPN_KEY_HTTP_PROXY_USERNAME user
            | none => st3
          let st5 :=
            match auth.2.2 with
            | some pass =>
              { st4 with
                secrets := nm_setting_vpn_add_secret st4.secrets NM_OPENVPN_KEY_HTTP_PROXY_PASSWORD pass
                secret_flags := table_insert NM_OPENVPN_KEY_HTTP_PROXY_PASSWORD
                  NM_SETTING_SECRET_FLAG_AGENT_OWNED st4.secret_flags }
            | none => st4
          some { st5 with proxy_set := true }
        else some st
      else some st
    | _ => some st
  else none

/-- What the `remote` block appends for its arguments: `host`, `host:port` or
`host:port:proto`; `none` when the arguments are rejected. -/
def remote_entry (items : List CStr) : Option CStr :=
  match items with
  | [host] => some host
  | [host, port_item] =>
    match parse_port port_item with
    | some port => some (host ++ [':'] ++ port)
    | none => none
  | [host, port_item, proto] =>
    match parse_port port_item with
    | some port =>
      match parse_protocol proto with
      | some _ => some (host ++ [':'] ++ port ++ [':'] ++ proto)
      | none => none
    | none => none
  | _ => none

/-- The `remote` block. -/
def import_remote (env : Env) (line : Line) (st : ImportState) : Option ImportState :=
  if !args_is_option line.text TAG_REMOTE then none
  else
    match remote_entry (get_args (arg_text env line TAG_REMOTE)) with
    | some entry =>
      let new_remote :=
        match nm_setting_vpn_get_data_item st.data NM_OPENVPN_KEY_REMOTE with
        | some prev => prev ++ ", ".toList ++ entry
        | none => entry
      some ({ st with have_remote := true }.add NM_OPENVPN_KEY_REMOTE new_remote)
    | none => some st

/-- The `port` / `rport` block. -/
def import_port (env : Env) (line : Line) (st : ImportState) : Option ImportState :=
  if args_is_option line.text TAG_PORT || args_is_option line.text TAG_RPORT then
    let items :=
      if args_is_option line.text TAG_PORT then get_args (arg_text env line TAG_PORT)
      else get_args (arg_text env line TAG_RPORT)
    match items with
    | [item] =>
      match parse_port item with
      | some port => some (st.add NM_OPENVPN_KEY_PORT port)
      | none => some st
    | _ => some st
  else none

/-- The three chained `handle_path_item` calls of the `pkcs12` block: whether
the line is consumed, and the settings afterwards. -/
def import_pkcs12 (env : Env) (default_path : CStr) (line : Line) (st : ImportState) :
    Bool × ImportState :=
  let r1 := handle_path_item env line TAG_PKCS12 NM_OPENVPN_KEY_CA st default_path
  if r1.1 then
    let r2 := handle_path_item env line TAG_PKCS12 NM_OPENVPN_KEY_CERT r1.2.1 default_path
    if r2.1 then
      let r3 := handle_path_item env line TAG_PKCS12 NM_OPENVPN_KEY_KEY r2.2.1 default_path
      (r3.1, r3.2.1)
    else (false, r2.2.1)
  else (false, r1.2.1)

/-- A `handle_path_item` block without leftover (`ca`, `cert`, `key`). -/
def import_path (env : Env) (default_path : CStr) (line : Line) (tag key : CStr)
    (st : ImportState) : Option ImportState :=
  let r := handle_path_item env line tag key st default_path
  if r.1 then some r.2.1 else none

/-- How one of the four `handle_blob_item` calls of the loop body ends. -/
inductive BlobStage where
  /-- The call returned `TRUE`: `continue`, with the cursor `skip` lines on. -/
  | handled (st : ImportState) (skip : Nat)
  /-- The call left the cursor on the `NULL` that ends the vector; what
  follows reads through that cursor (the next call passes `*p` to `strncmp`,
  and after the last call `line++` leaves the vector), which is undefined. -/
  | undefined
  /-- The call returned `FALSE`; the loop body goes on with the line now
  under the cursor. -/
  | pass (st : ImportState) (cur : Line) (rest : List CStr) (skip : Nat)

/-- One `handle_blob_item` call of the loop body. -/
def import_blob (env : Env) (name key : CStr) (st : ImportState) (cur : Line) (rest : List CStr)
    (skip : Nat) : BlobStage :=
  match handle_blob_item env cur.text rest key st name with
  | .no_start => .pass st cur rest skip
  | .ran_off => .undefined
  | .stopped true st1 adv => .handled st1 (skip + adv)
  | .stopped false st1 adv =>
    .pass st1 { text := (rest.get? (adv - 1)).getD [], beyond := none } (rest.drop adv) (skip + adv)

/-- The `secret` block. -/
def import_secret (env : Env) (default_path : CStr) (line : Line) (st : ImportState) :
    Option ImportState :=
  let r := handle_path_item env line TAG_SECRET NM_OPENVPN_KEY_STATIC_KEY st default_path
  if r.1 then
    some { handle_direction NM_OPENVPN_KEY_STATIC_KEY_DIRECTION r.2.2 r.2.1 with have_sk := true }
  else none

/-- The `tls-auth` block. -/
def import_tls_auth (env : Env) (default_path : CStr) (line : Line) (st : ImportState) :
    Option ImportState :=
  let r := handle_path_item env line TAG_TLS_AUTH NM_OPENVPN_KEY_TA st default_path
  if r.1 then some (handle_direction NM_OPENVPN_KEY_TA_DIR r.2.2 r.2.1) else none

/-- The `keepalive` block. -/
def import_keepalive (env : Env) (line : Line) (st : ImportState) : Option ImportState :=
  if !args_is_option line.text TAG_KEEPALIVE then none
  else
    match get_args (arg_text env line TAG_KEEPALIVE) with
    | [a, b] =>
      let ping_secs := parse_seconds a
      let ping_restart_secs := parse_seconds b
      if ping_secs ≥ 0 ∧ ping_restart_secs ≥ 0 then
        some ((st.add NM_OPENVPN_KEY_PING (print_int ping_secs)).add NM_OPENVPN_KEY_PING_RESTART
          (print_int ping_restart_secs))
      else some st
    | _ => some st

/-- The `keysize` block. -/
def import_keysize (env : Env) (line : Line) (st : ImportState) : Option ImportState :=
  if !args_is_option line.text TAG_KEYSIZE then none
  else
    match get_args (arg_text env line TAG_KEYSIZE) with
    | [item] =>
      let r := strtol item
      if r.2 = false ∧ r.1 > 0 ∧ r.1 ≤ 65535 then
        some (st.add NM_OPENVPN_KEY_KEYSIZE (print_int (to_gint r.1)))
      else some st
    | _ => some st

/-- The `tls-remote` block. -/
def import_tls_remote (env : Env) (line : Line) (st : ImportState) : Option ImportState :=
  if !args_is_option line.text TAG_TLS_REMOTE then none
  else
    match unquote (arg_text env line TAG_TLS_REMOTE) with
    | some (unquoted, _) => some (st.add NM_OPENVPN_KEY_TLS_REMOTE unquoted)
    | none => some st

/-- The `ifconfig` block. -/
def import_ifconfig (env : Env) (line : Line) (st : ImportState) : Option ImportState :=
  if !args_is_option line.text TAG_IFCONFIG then none
  else
    match get_args (arg_text env line TAG_IFCONFIG) with
    | [a, b] => some ((st.add NM_OPENVPN_KEY_LOCAL_IP a).add NM_OPENVPN_KEY_REMOTE_IP b)
    | _ => some st

/-- The `auth-user-pass` block. -/
def import_auth_user_pass (line : Line) (st : ImportState) : Option ImportState :=
  if args_is_option line.text TAG_AUTH_USER_PASS then some { st with have_pass := true } else none

/-- The route that the `route` block builds from its arguments; `none` is
`goto route_fail` or a wrong number of arguments. -/
def route_of_items (items : List CStr) : Option NMIPRoute :=
  match items with
  | [dest] =>
    match parse_ip dest with
    | some _ => some (nm_ip_route_new dest 32 "0.0.0.0".toList 0)
    | none => none
  | [dest, mask] =>
    match parse_ip dest, parse_ip mask with
    | some _, some m =>
      some (nm_ip_route_new dest ( nm_utils_ip4_netmask_to_prefix m) "0.0.0.0".toList 0)
    | _, _ => none
  | [dest, mask, gw] =>
    match parse_ip dest, parse_ip mask, parse_ip gw with
    | some _, some m, some _ => some (nm_ip_route_new dest ( nm_utils_ip4_netmask_to_prefix m) gw 0)
    | _, _, _ => none
  | [dest, mask, gw, metric_item] =>
    match parse_ip dest, parse_ip mask, parse_ip gw with
    | some _, some m, some _ =>
      let num := strtol metric_item
      if num.2 = false ∧ num.1 ≥ 0 ∧ num.1 ≤ 65535 then
        some (nm_ip_route_new dest ( nm_utils_ip4_netmask_to_prefix m) gw (to_guint32 num.1))
      else none
    | _, _, _ => none
  | _ => none

/-- The `route` block (the build without `NM_OPENVPN_OLD`). -/
def import_route (env : Env) (line : Line) (st : ImportState) : Option ImportState :=
  if !args_is_option line.text TAG_ROUTE then none
  else
    match route_of_items (get_args (arg_text env line TAG_ROUTE)) with
    | some route => some { st with routes := nm_setting_ip_config_add_route st.routes route }
    | none => some st

/-- The blocks of the loop body in front of the inline blocks, `client` to
`ping-restart`: the first that takes the line decides. -/
def import_head (env : Env) (path : CStr) (line : Line) (st : ImportState) : Option ImportState :=
  (import_client line st).or <|
  (import_key_direction env line st).or <|
  (import_one_arg env line TAG_DEV NM_OPENVPN_KEY_DEV st).or <|
  (import_keyword env line TAG_DEV_TYPE NM_OPENVPN_KEY_DEV_TYPE "tun".toList "tap".toList st).or <|
  (import_proto env line st).or <|
  (import_flag line TAG_MSSFIX NM_OPENVPN_KEY_MSSFIX st).or <|
  (import_size_item env line TAG_TUN_MTU NM_OPENVPN_KEY_TUNNEL_MTU st).or <|
  (import_size_item env line TAG_FRAGMENT NM_OPENVPN_KEY_FRAGMENT_SIZE st).or <|
  (import_flag line TAG_COMP_LZO NM_OPENVPN_KEY_COMP_LZO st).or <|
  (import_flag line TAG_FLOAT NM_OPENVPN_KEY_FLOAT st).or <|
  (import_reneg_sec env line st).or <|
  (import_proxy_retry line st).or <|
  (import_proxy env path line st).or <|
  (import_remote env line st).or <|
  (import_flag line TAG_REMOTE_RANDOM NM_OPENVPN_KEY_REMOTE_RANDOM st).or <|
  (import_port env line st).or <|
  (handle_num_seconds_item env line TAG_PING NM_OPENVPN_KEY_PING st).or <|
  (handle_num_seconds_item env line TAG_PING_EXIT NM_OPENVPN_KEY_PING_EXIT st).or <|
  handle_num_seconds_item env line TAG_PING_RESTART NM_OPENVPN_KEY_PING_RESTART st

/-- The three path blocks `ca`, `cert`, `key`. -/
def import_certs (env : Env) (default_path : CStr) (line : Line) (st : ImportState) :
    Option ImportState :=
  (import_path env default_path line TAG_CA NM_OPENVPN_KEY_CA st).or <|
  (import_path env default_path line TAG_CERT NM_OPENVPN_KEY_CERT st).or <|
  import_path env default_path line TAG_KEY NM_OPENVPN_KEY_KEY st

/-- The blocks of the loop body behind the inline blocks, `secret` to
`route`. -/
def import_tail (env : Env) (default_path : CStr) (line : Line) (st : ImportState) :
    Option ImportState :=
  (import_secret env default_path line st).or <|
  (import_tls_auth env default_path line st).or <|
  (import_one_arg env line TAG_CIPHER NM_OPENVPN_KEY_CIPHER st).or <|
  (import_keepalive env line st).or <|
  (import_keysize env line st).or <|
  (import_tls_remote env line st).or <|
  (import_keyword env line TAG_REMOTE_CERT_TLS NM_OPENVPN_KEY_REMOTE_CERT_TLS NM_OPENVPN_REM_CERT_TLS_CLIENT NM_OPENVPN_REM_CERT_TLS_SERVER st).or <|
  (import_ifconfig env line st).or <|
  (import_auth_user_pass line st).or <|
  (import_one_arg env line TAG_AUTH NM_OPENVPN_KEY_AUTH st).or <|
  import_route env line st

/-- How one round of the line loop ends: the state, and how many of the lines
behind the current one the cursor has stepped over; or undefined behaviour. -/
inductive LineStep where
  | next (st : ImportState) (skip : Nat)
  | undefined
deriving DecidableEq, Repr

/-- The four inline-block calls of the loop body, `ca`, `cert`, `key` and
`tls-auth`, followed by the blocks behind them. -/
def import_blobs (env : Env) (default_path name : CStr) (line : Line) (rest : List CStr)
    (st : ImportState) : LineStep :=
  match import_blob env name NM_OPENVPN_KEY_CA st line rest 0 with
  | .handled st1 skip => .next st1 skip
  | .undefined => .undefined
  | .pass st1 line1 rest1 skip1 =>
    match import_blob env name NM_OPENVPN_KEY_CERT st1 line1 rest1 skip1 with
    | .handled st2 skip => .next st2 skip
    | .undefined => .undefined
    | .pass st2 line2 rest2 skip2 =>
      match import_blob env name NM_OPENVPN_KEY_KEY st2 line2 rest2 skip2 with
      | .handled st3 skip => .next st3 skip
      | .undefined => .undefined
      | .pass st3 line3 rest3 skip3 =>
        match import_blob env name NM_OPENVPN_KEY_TA st3 line3 rest3 skip3 with
        | .handled st4 skip =>
          .next (handle_direction NM_OPENVPN_KEY_TA_DIR st4.last_seen_key_direction st4) skip
        | .undefined => .undefined
        | .pass st4 line4 _ skip4 =>
          match import_tail env default_path line4 st4 with
          | some st5 => .next st5 skip4
          | none => .next st4 skip4

/-- The body of the line loop of `do_import` for a line that is not empty
after the comment cut; `rest` are the lines behind it. -/
def import_line (env : Env) (path default_path name : CStr) (line : Line) (rest : List CStr)
    (st : ImportState) : LineStep :=
  match import_head env path line st with
  | some st1 => .next st1 0
  | none =>
    let p := import_pkcs12 env default_path line st
    if p.1 then .next p.2 0
    else
      match import_certs env default_path line p.2 with
      | some st1 => .next st1 0
      | none => import_blobs env default_path name line rest p.2

/-- The line loop of `do_import`: `skip` counts lines that an inline block
has already stepped over.  `none` stands for undefined behaviour. -/
def import_lines (env : Env) (path default_path name : CStr) :
    ImportState → Nat → List CStr → Option ImportState
  | st, _, [] => some st
  | st, skip + 1, _ :: rest => import_lines env path default_path name st skip rest
  | st, 0, piece :: rest =>
    let line := strip_comment piece
    if line.text = [] then import_lines env path default_path name st 0 rest
    else
      match import_line env path default_path name line rest st with
      | .undefined => none
      | .next st1 skip => import_lines env path default_path name st1 skip rest

/-- The error codes of `OPENVPN_EDITOR_PLUGIN_ERROR` that the translation
uses. -/
inductive ErrorCode where
  | FILE_NOT_READABLE
  | FILE_NOT_OPENVPN
deriving DecidableEq, Repr

/-- What `do_import` hands back: the connection, or `NULL` with the error set;
in both cases with the files the import has written.  `undefined` stands for
a run that leaves defined behaviour. -/
inductive ImportResult where
  | connection (c : Connection) (written : List (CStr × CStr))
  | error (code : ErrorCode) (message : CStr) (written : List (CStr × CStr))
  | undefined
deriving DecidableEq, Repr

/-- The message for a buffer that does not split into lines. -/
def MSG_NOT_A_FILE : CStr := "not a valid OpenVPN configuration file".toList
/-- The message for a file without `client` and without `secret`. -/
def MSG_NOT_CLIENT : CStr :=
  "The file to import wasn".toList ++ [squote] ++ "t a valid OpenVPN client configuration.".toList
/-- The message for a file without `remote`. -/
def MSG_NO_REMOTE : CStr :=
  "The file to import wasn".toList ++ [squote] ++ "t a valid OpenVPN configure (no remote).".toList

/-- The UTF-8 byte order mark. -/
def UTF8_BOM : CStr := [Char.ofNat 239, Char.ofNat 187, Char.ofNat 191]

/-- The text that `do_import` splits into lines: re-encoded when it is not
valid UTF-8 and the conversion works, and without a leading byte order mark. -/
def import_text (env : Env) (contents : CStr) : CStr :=
  let c1 :=
    if !env.utf8_validate contents then
      match env.locale_to_utf8 contents with
      | some new_contents => new_contents
      | none => contents
    else contents
  if c1.take 3 = UTF8_BOM then c1.drop 3 else c1

/-- The directory against which relative file arguments are resolved. -/
def import_default_path (env : Env) (path : CStr) : CStr :=
  if g_path_is_absolute path then g_path_get_dirname path
  else g_build_filename [env.current_dir, g_path_get_dirname path]

/-- The name of the connection: the base name of the path up to its last dot. -/
def import_basename (path : CStr) : CStr := cut_at_last_dot (g_path_get_basename path)

/-- The state with which the line loop of `do_import` starts. -/
def import_init (env : Env) : ImportState :=
  { data := [], secrets := [], secret_flags := [], routes := [], have_client := false,
    have_remote := false, have_pass := false, have_sk := false, proxy_set := false,
    last_seen_key_direction := none, cert_dir := env.cert_dir, written := [] }

/-- The connection type that `do_import` derives after the line loop. -/
def import_connection_type (st : ImportState) : CStr :=
  let have_ca := (nm_setting_vpn_get_data_item st.data NM_OPENVPN_KEY_CA).isSome
  let have_certs := have_ca && (nm_setting_vpn_get_data_item st.data NM_OPENVPN_KEY_CERT).isSome
    && (nm_setting_vpn_get_data_item st.data NM_OPENVPN_KEY_KEY).isSome
  let ctype : Option CStr :=
    if st.have_pass then
      if have_certs then some NM_OPENVPN_CONTYPE_PASSWORD_TLS
      else if have_ca then some NM_OPENVPN_CONTYPE_PASSWORD
      else none
    else if have_certs then some NM_OPENVPN_CONTYPE_TLS
    else if st.have_sk then some NM_OPENVPN_CONTYPE_STATIC_KEY
    else none
  match ctype with
  | some t => t
  | none => NM_OPENVPN_CONTYPE_TLS

/-- The last branch of `do_import`: the connection type is stored and the
secret flags are set. -/
def import_finish (env : Env) (name : CStr) (st : ImportState) : Connection :=
  let have_certs := (nm_setting_vpn_get_data_item st.data NM_OPENVPN_KEY_CA).isSome
    && (nm_setting_vpn_get_data_item st.data NM_OPENVPN_KEY_CERT).isSome
    && (nm_setting_vpn_get_data_item st.data NM_OPENVPN_KEY_KEY).isSome
  let data := nm_setting_vpn_add_data_item st.data NM_OPENVPN_KEY_CONNECTION_TYPE
    (import_connection_type st)
  -- Default secret flags to be agent-owned
  let flags1 :=
    if st.have_pass then
      table_insert NM_OPENVPN_KEY_PASSWORD NM_SETTING_SECRET_FLAG_AGENT_OWNED st.secret_flags
    else st.secret_flags
  let flags2 :=
    if have_certs then
      match nm_setting_vpn_get_data_item data NM_OPENVPN_KEY_KEY with
      | some key_path =>
        if env.is_encrypted key_path (read_file env st.written key_path) then
          table_insert NM_OPENVPN_KEY_CERTPASS NM_SETTING_SECRET_FLAG_AGENT_OWNED flags1
        else flags1
      | none => flags1
    else flags1
  { id := name, data := data, secrets := st.secrets, secret_flags := flags2, routes := st.routes }

/-- `do_import (path, contents, contents_len, error)`; `contents` is the
buffer as the C string that the function reads. -/
def do_import (env : Env) (path contents : CStr) : ImportResult :=
  let default_path := import_default_path env path
  let name := import_basename path
  let lines := g_strsplit_set (import_text env contents) [cr, lf]
  if lines.length ≤ 1 then .error .FILE_NOT_READABLE MSG_NOT_A_FILE []
  else
    match import_lines (env.run contents) path default_path name (import_init env) 0 lines with
    | none => .undefined
    | some st =>
      if !st.have_client && !st.have_sk then .error .FILE_NOT_OPENVPN MSG_NOT_CLIENT st.written
      else if !st.have_remote then .error .FILE_NOT_OPENVPN MSG_NO_REMOTE st.written
      else .connection (import_finish env name st) st.written

/-! ## Exporter (`do_export`) -/

/-- What `do_export` hands back.  `success` is a `TRUE` return with the text
printed to the destination and the proxy auth file it has asked to be written
(path and contents); `failure` is a `FALSE` return with the error set and the
text printed before it; `undefined` stands for a run that leaves defined
behaviour. -/
inductive ExportResult where
  | success (text : CStr) (authfile : Option (CStr × CStr))
  | failure (code : ErrorCode) (message : CStr) (text : CStr)
  | undefined
deriving DecidableEq, Repr

/-- The message when `fopen` fails. -/
def MSG_CANNOT_OPEN : CStr := "could not open file for writing".toList
/-- The message when the `remote` setting is missing. -/
def MSG_MISSING_GATEWAY : CStr := "connection was incomplete (missing gateway)".toList

/-- The pattern `value = get (key); if (value && strlen (value))`: the data
item when it is set and not empty. -/
def get_nonempty (data : List (CStr × CStr)) (key : CStr) : Option CStr :=
  match nm_setting_vpn_get_data_item data key with
  | some value => if value = [] then none else some value
  | none => none

/-- The pattern `value && !strcmp (value, "yes")`. -/
def is_yes (data : List (CStr × CStr)) (key : CStr) : Bool :=
  nm_setting_vpn_get_data_item data key = some "yes".toList

/-- The `remote` line that the gateway loop prints for one piece of the
`remote` value that is not empty. -/
def export_remote_line (piece : CStr) : CStr :=
  let tmp_host := g_strstrip piece
  let host := tmp_host.takeWhile (fun c => c != ':')
  -- the text behind the first colon, and behind the second
  let tmp_port : Option CStr :=
    if tmp_host.contains ':' then some (tmp_host.drop (host.length + 1)) else none
  let tmp_proto : Option CStr :=
    match tmp_port with
    | some p =>
      if p.contains ':' then some (p.drop ((p.takeWhile (fun c => c != ':')).length + 1)) else none
    | none => none
  -- both colons are overwritten with NUL; an empty field counts as absent
  let port : Option CStr :=
    match tmp_port with
    | some p =>
      let q := p.takeWhile (fun c => c != ':')
      if q = [] then none else some q
    | none => none
  let proto : Option CStr :=
    match tmp_proto with
    | some p => if p = [] then none else some p
    | none => none
  "remote ".toList ++ host
    ++ (match port, proto with
        | some _, _ => " ".toList
        | none, some _ => " ".toList
        | none, none => [])
    ++ (match port, proto with
        | some p, _ => p
        | none, some pr => if pr = "udp".toList then "1194".toList else "443".toList
        | none, none => [])
    ++ (match proto with
        | some _ => " ".toList
        | none => [])
    ++ (match proto with
        | some pr => pr
        | none => [])
    ++ [lf]

/-- The gateway loop: one `remote` line for every non-empty piece of the
value split at spaces and commas. -/
def export_remotes (gateways : CStr) : CStr :=
  ((g_strsplit_set gateways [' ', ',']).filter (fun p => p != [])).flatMap export_remote_line

/-- An optional line `<keyword> <value>`. -/
def opt_line (keyword : CStr) (value : Option CStr) : CStr :=
  match value with
  | some v => keyword ++ [' '] ++ v ++ [lf]
  | none => []

/-- The line of a path with an optional direction (`secret`, `tls-auth`). -/
def dir_line (keyword path : CStr) (direction : Option CStr) : CStr :=
  keyword ++ [' '] ++ path
    ++ (match direction with
        | some d => [' '] ++ d
        | none => [])
    ++ [lf]

/-- The certificate lines: `pkcs12` when all three are the same file. -/
def export_certs (cacert user_cert private_key : Option CStr) : CStr :=
  match cacert, user_cert, private_key with
  | some ca, some cert, some key =>
    if ca = cert ∧ ca = key then "pkcs12 ".toList ++ ca ++ [lf]
    else opt_line "ca".toList cacert ++ opt_line "cert".toList user_cert
      ++ opt_line "key".toList private_key
  | _, _, _ =>
    opt_line "ca".toList cacert ++ opt_line "cert".toList user_cert
      ++ opt_line "key".toList private_key

/-- The proxy block: its lines, and the auth file it writes. -/
def export_proxy (path : CStr) (c : Connection) : CStr × Option (CStr × CStr) :=
  match get_nonempty c.data NM_OPENVPN_KEY_PROXY_TYPE with
  | none => ([], none)
  | some proxy_type =>
    match nm_setting_vpn_get_data_item c.data NM_OPENVPN_KEY_PROXY_SERVER,
          nm_setting_vpn_get_data_item c.data NM_OPENVPN_KEY_PROXY_PORT with
    | some proxy_server, some proxy_port =>
      let proxy_retry := is_yes c.data NM_OPENVPN_KEY_PROXY_RETRY
      let proxy_username := nm_setting_vpn_get_data_item c.data NM_OPENVPN_KEY_HTTP_PROXY_USERNAME
      let proxy_password := c.secrets.lookup NM_OPENVPN_KEY_HTTP_PROXY_PASSWORD
      if proxy_type = "http".toList then
        -- If there is a username, need to write an authfile
        let authfile := g_path_get_dirname path ++ ['/'] ++ g_path_get_basename path
          ++ "-httpauthfile".toList
        ("http-proxy ".toList ++ proxy_server ++ [' '] ++ proxy_port
            ++ (match proxy_username with
                | some _ => [' '] ++ authfile
                | none => [])
            ++ [lf]
            ++ (if proxy_retry then "http-proxy-retry\n".toList else []),
          match proxy_username with
          | some user => some (authfile, user ++ [lf] ++ proxy_password.getD [] ++ [lf])
          | none => none)
      else if proxy_type = "socks".toList then
        ("socks-proxy ".toList ++ proxy_server ++ [' '] ++ proxy_port ++ [lf]
            ++ (if proxy_retry then "socks-proxy-retry\n".toList else []), none)
      else ([], none)
    | _, _ => ([], none)

/-- The `route` line of one route. -/
def export_route_line (r : NMIPRoute) : CStr :=
  "route ".toList ++ r.dest ++ [' '] ++ inet_ntop (nm_utils_ip4_prefix_to_netmask r.plen) ++ [' ']
    ++ r.next_hop.getD "0.0.0.0".toList ++ [' ']
    ++ print_int (if r.metric = -1 then 50 else r.metric) ++ [lf]

/-- The hard-coded lines that end every export. -/
def EXPORT_TRAILER : CStr :=
  "nobind\nauth-nocache\nscript-security 2\npersist-key\npersist-tun\nuser openvpn\ngroup openvpn\n".toList

/-- The text that `do_export` prints behind the gateway lines, from the
certificate lines to the hard-coded trailer, and the auth file of the proxy
block. -/
def export_options (path : CStr) (c : Connection) (connection_type : CStr) :
    CStr × Option (CStr × CStr) :=
  let tls_like := connection_type = NM_OPENVPN_CONTYPE_TLS
    ∨ connection_type = NM_OPENVPN_CONTYPE_PASSWORD_TLS
  let cacert :=
    if tls_like ∨ connection_type = NM_OPENVPN_CONTYPE_PASSWORD then
      get_nonempty c.data NM_OPENVPN_KEY_CA
    else none
  let user_cert := if tls_like then get_nonempty c.data NM_OPENVPN_KEY_CERT else none
  let private_key := if tls_like then get_nonempty c.data NM_OPENVPN_KEY_KEY else none
  let static_key :=
    if connection_type = NM_OPENVPN_CONTYPE_STATIC_KEY then
      get_nonempty c.data NM_OPENVPN_KEY_STATIC_KEY
    else none
  let static_key_direction :=
    if connection_type = NM_OPENVPN_CONTYPE_STATIC_KEY then
      get_nonempty c.data NM_OPENVPN_KEY_STATIC_KEY_DIRECTION
    else none
  let device := get_nonempty c.data NM_OPENVPN_KEY_DEV
  let device_type := get_nonempty c.data NM_OPENVPN_KEY_DEV_TYPE
  -- Read legacy tap-dev property for backwards compatibility
  let device_default := if is_yes c.data NM_OPENVPN_KEY_TAP_DEV then "tap".toList else "tun".toList
  let number : CStr → Option CStr := fun key =>
    (get_nonempty c.data key).map (fun v => print_int (to_gint (strtol v).1))
  let proxy := export_proxy path c
  (export_certs cacert user_cert private_key
    ++ (if connection_type = NM_OPENVPN_CONTYPE_PASSWORD
          ∨ connection_type = NM_OPENVPN_CONTYPE_PASSWORD_TLS then "auth-user-pass\n".toList
        else [])
    ++ (match static_key with
        | some k => dir_line "secret".toList k static_key_direction
        | none => [])
    ++ opt_line "reneg-sec".toList (number NM_OPENVPN_KEY_RENEG_SECONDS)
    ++ opt_line "cipher".toList (get_nonempty c.data NM_OPENVPN_KEY_CIPHER)
    ++ opt_line "keysize".toList (number NM_OPENVPN_KEY_KEYSIZE)
    ++ (if is_yes c.data NM_OPENVPN_KEY_COMP_LZO then "comp-lzo yes\n".toList else [])
    ++ (if is_yes c.data NM_OPENVPN_KEY_FLOAT then "float\n".toList else [])
    ++ (if is_yes c.data NM_OPENVPN_KEY_MSSFIX then TAG_MSSFIX ++ [lf] else [])
    ++ opt_line TAG_TUN_MTU (number NM_OPENVPN_KEY_TUNNEL_MTU)
    ++ opt_line TAG_FRAGMENT (number NM_OPENVPN_KEY_FRAGMENT_SIZE)
    ++ opt_line "dev".toList (some (device.getD (device_type.getD device_default)))
    ++ opt_line "dev-type".toList device_type
    ++ (if is_yes c.data NM_OPENVPN_KEY_PROTO_TCP then "proto tcp\n".toList
        else "proto udp\n".toList)
    ++ opt_line "port".toList (get_nonempty c.data NM_OPENVPN_KEY_PORT)
    ++ opt_line "ping".toList (get_nonempty c.data NM_OPENVPN_KEY_PING)
    ++ opt_line "ping-exit".toList (get_nonempty c.data NM_OPENVPN_KEY_PING_EXIT)
    ++ opt_line "ping-restart".toList (get_nonempty c.data NM_OPENVPN_KEY_PING_RESTART)
    ++ (match get_nonempty c.data NM_OPENVPN_KEY_LOCAL_IP,
              get_nonempty c.data NM_OPENVPN_KEY_REMOTE_IP with
        | some local_ip, some remote_ip =>
          "ifconfig ".toList ++ local_ip ++ [' '] ++ remote_ip ++ [lf]
        | _, _ => [])
    ++ (if tls_like then
          (match get_nonempty c.data NM_OPENVPN_KEY_TLS_REMOTE with
           | some tls_remote => "tls-remote ".toList ++ [dquote] ++ tls_remote ++ [dquote, lf]
           | none => [])
          ++ opt_line "remote-cert-tls".toList (get_nonempty c.data NM_OPENVPN_KEY_REMOTE_CERT_TLS)
          ++ (match get_nonempty c.data NM_OPENVPN_KEY_TA with
              | some tls_auth =>
                dir_line "tls-auth".toList tls_auth (get_nonempty c.data NM_OPENVPN_KEY_TA_DIR)
              | none => [])
        else [])
    ++ proxy.1
    ++ c.routes.flatMap export_route_line
    ++ EXPORT_TRAILER,
   proxy.2)

/-- The text that `do_export` prints, for a connection type that is set:
`client`, the gateway lines, `remote-random`, and the rest. -/
def export_text (path : CStr) (c : Connection) (connection_type : CStr) :
    CStr × Option (CStr × CStr) :=
  let options := export_options path c connection_type
  ("client\n".toList
    ++ export_remotes ((get_nonempty c.data NM_OPENVPN_KEY_REMOTE).getD [])
    ++ (if is_yes c.data NM_OPENVPN_KEY_REMOTE_RANDOM then "remote-random\n".toList else [])
    ++ options.1,
   options.2)

/-- `do_export (path, connection, error)`; `can_open` tells whether
`fopen (path, "w")` succeeds. -/
def do_export (can_open : Bool) (path : CStr) (c : Connection) : ExportResult :=
  if !can_open then .failure .FILE_NOT_OPENVPN MSG_CANNOT_OPEN []
  else
    match get_nonempty c.data NM_OPENVPN_KEY_REMOTE with
    | none => .failure .FILE_NOT_OPENVPN MSG_MISSING_GATEWAY []
    | some _ =>
      match get_nonempty c.data NM_OPENVPN_KEY_CONNECTION_TYPE with
      | none =>
        -- `connection_type` stays `NULL` and is handed to `strcmp`
        .undefined
      | some connection_type =>
        let r := export_text path c connection_type
        .success r.1 r.2

/-! ## Definitions in the words of the specification -/

/-- Where a left-to-right reading of a line stands: between arguments, in an
argument outside quotes, right behind an escaping backslash outside quotes,
inside a span opened by a quote, or inside a double-quoted span right behind a
backslash.  `start` is the offset of the first character of the argument. -/
inductive Lex where
  | between
  | plain (start : Nat)
  | escape (start : Nat)
  | inside (quote : Char) (start : Nat)
  | inside_escape (start : Nat)
deriving DecidableEq, Repr

/-- Reading a character of an argument outside quotes: a quote opens a span, a
backslash escapes what follows. -/
def Lex.enter (start : Nat) (c : Char) : Lex :=
  if c = dquote ∨ c = squote then .inside c start
  else if c = bslash then .escape start
  else .plain start

/-- Reading the character at offset `i`. -/
def Lex.step (s : Lex) (i : Nat) (c : Char) : Lex :=
  match s with
  | .between => if g_ascii_isspace c then .between else Lex.enter i c
  | .plain start =>
    if c ≠ dquote ∧ c ≠ squote ∧ c ≠ bslash ∧ g_ascii_isspace c then .between
    else Lex.enter start c
  | .escape start => .plain start
  | .inside q start =>
    if c = q then .plain start
    else if q = dquote ∧ c = bslash then .inside_escape start
    else .inside q start
  | .inside_escape start => .inside dquote start

/-- Reading a text from offset `i` on. -/
def Lex.run : Lex → Nat → CStr → Lex
  | s, _, [] => s
  | s, i, c :: cs => Lex.run (s.step i c) (i + 1) cs

/-- What is wrong when the line ends in a state: an open quote has no closing
quote, or a backslash outside quotes has nothing behind it. -/
def Lex.failure : Lex → Option ArgsError
  | .inside q start => some (.unterminated q start)
  | .inside_escape start => some (.unterminated dquote start)
  | .escape start => some (.trailing_backslash start)
  | _ => none

/-- The failure of a line according to the specification: a blank line and a
comment line have no arguments and cannot fail; any other line fails when it
ends inside a quote or right behind an escaping backslash. -/
def spec_failure (text : CStr) : Option ArgsError :=
  match text.dropWhile g_ascii_isspace with
  | [] => none
  | c :: _ => if c = semi ∨ c = hash then none else (Lex.run .between 0 text).failure

/-- The line without the carriage return that may end it. -/
def drop_cr (line : CStr) : CStr :=
  if line.getLast? = some cr then line.dropLast else line

/-! ## Auxiliary definitions for the proofs -/

/-- The reading state that corresponds to a program point of `args_loop`. -/
def lex_of (s : ArgsState) : Lex :=
  match s.mode with
  | .between => .between
  | .word => .plain s.word_start
  | .word_escape => .escape s.word_start
  | .quoted q => .inside q s.word_start
  | .quoted_escape _ => .inside_escape s.word_start

/-- The escape program point inside quotes is reached in double quotes only. -/
def mode_ok (s : ArgsState) : Prop :=
  match s.mode with
  | .quoted_escape q => q = dquote
  | _ => True

/-- The error of a run of `args_loop`, if it fails. -/
def loop_error (r : Except ArgsError (List Nat × StrBuf)) : Option ArgsError :=
  match r with
  | .error e => some e
  | .ok _ => none

/-- Quote spans are opened by one of the two quote characters only. -/
def Lex.wf : Lex → Prop
  | .inside q _ => q = dquote ∨ q = squote
  | _ => True

/-- A text with a backslash in front of every character. -/
def escape_all (s : CStr) : CStr := s.flatMap (fun c => [bslash, c])

/-- The state in which the loops of `args_parse_line` start on a line of
length `n` without leading whitespace. -/
def args_start (n : Nat) : ArgsState :=
  { mode := .between, word_start := 0, pos := 0, index := [], buf := { data := [], len := n + 1 } }

/-- A text of at least three characters that does not begin like `remote`. -/
def NotRem (x : CStr) : Prop := 3 ≤ x.length ∧ x.take 3 ≠ "rem".toList

/-- A connection with a gateway and nothing else. -/
def conn_remote_only : Connection :=
  { id := "x".toList, data := [(NM_OPENVPN_KEY_REMOTE, "h".toList)], secrets := [],
    secret_flags := [], routes := [] }

/-- A connection without any setting. -/
def conn_empty : Connection :=
  { id := "x".toList, data := [], secrets := [], secret_flags := [], routes := [] }

/-- A connection of type `tls` with the given `remote` value, and
`remote-random` set when asked for. -/
def conn_gateways (gateways : CStr) (randomize : Bool) : Connection :=
  { id := "x".toList,
    data := [(NM_OPENVPN_KEY_REMOTE, gateways),
      (NM_OPENVPN_KEY_CONNECTION_TYPE, NM_OPENVPN_CONTYPE_TLS)]
      ++ (if randomize then [(NM_OPENVPN_KEY_REMOTE_RANDOM, "yes".toList)] else []),
    secrets := [], secret_flags := [], routes := [] }

/-- The leading run of characters of a text that are not `g_ascii_isspace`. -/
def first_word (t : CStr) : CStr := t.takeWhile (fun c => !g_ascii_isspace c)

/-- A line that the `client` / `tls-client` block takes. -/
def is_client_line (line : Line) : Bool :=
  args_is_option line.text TAG_CLIENT || args_is_option line.text TAG_TLS_CLIENT

/-- A line that the `auth-user-pass` block takes. -/
def is_auth_user_pass_line (line : Line) : Bool :=
  args_is_option line.text TAG_AUTH_USER_PASS

/-- The entry of an accepted `remote` directive: the line has the `remote`
tag and its arguments pass the checks of the `remote` block. -/
def accepted_remote (env : Env) (line : Line) : Option CStr :=
  if args_is_option line.text TAG_REMOTE then
    remote_entry (get_args (arg_text env line TAG_REMOTE))
  else none

/-- An accepted `secret` directive: the line has the `secret` tag and names a
file. -/
def accepted_secret (env : Env) (line : Line) : Bool :=
  args_is_option line.text TAG_SECRET && (unquote (arg_text env line TAG_SECRET)).isSome

/-- The `remote` value with one more entry. -/
def join_remote (prev : Option CStr) (entry : CStr) : CStr :=
  match prev with
  | some p => p ++ ", ".toList ++ entry
  | none => entry

/-- The lines on which the body of the line loop of `do_import` runs, after
the comment cut: the lines that are not empty and that no inline block has
stepped over. -/
def dispatched (env : Env) (path default_path name : CStr) :
    ImportState → Nat → List CStr → List Line
  | _, _, [] => []
  | st, skip + 1, _ :: rest => dispatched env path default_path name st skip rest
  | st, 0, piece :: rest =>
    let line := strip_comment piece
    if line.text = [] then dispatched env path default_path name st 0 rest
    else
      match import_line env path default_path name line rest st with
      | .undefined => [line]
      | .next st1 skip => line :: dispatched env path default_path name st1 skip rest

/-- What a block of the loop body leaves alone when it is none of `client`,
`remote`, `auth-user-pass` and `secret`: the four flags, the `remote` value
and the connection type. -/
def Frame (a b : ImportState) : Prop :=
  b.have_client = a.have_client ∧ b.have_remote = a.have_remote ∧ b.have_pass = a.have_pass
    ∧ b.have_sk = a.have_sk
    ∧ nm_setting_vpn_get_data_item b.data NM_OPENVPN_KEY_REMOTE
        = nm_setting_vpn_get_data_item a.data NM_OPENVPN_KEY_REMOTE
    ∧ nm_setting_vpn_get_data_item b.data NM_OPENVPN_KEY_CONNECTION_TYPE
        = nm_setting_vpn_get_data_item a.data NM_OPENVPN_KEY_CONNECTION_TYPE

/-- A block that, when it takes the line, leaves the frame alone. -/
def FrameOpt (a : ImportState) (r : Option ImportState) : Prop :=
  ∀ b, r = some b → Frame a b

/-- The end tags of the four inline blocks. -/
def END_TAGS : List CStr :=
  [CA_BLOB_END_TAG, CERT_BLOB_END_TAG, KEY_BLOB_END_TAG, TLS_AUTH_BLOB_END_TAG]

/-- What one round of the line loop does to the four flags, the `remote`
value and the connection type, in terms of the line it runs on. -/
def LineSpec (env : Env) (line : Line) (a b : ImportState) : Prop :=
  b.have_client = (a.have_client || is_client_line line)
    ∧ b.have_remote = (a.have_remote || (accepted_remote env line).isSome)
    ∧ b.have_pass = (a.have_pass || is_auth_user_pass_line line)
    ∧ b.have_sk = (a.have_sk || accepted_secret env line)
    ∧ nm_setting_vpn_get_data_item b.data NM_OPENVPN_KEY_REMOTE
        = (match accepted_remote env line with
          | some entry =>
            some (join_remote (nm_setting_vpn_get_data_item a.data NM_OPENVPN_KEY_REMOTE) entry)
          | none => nm_setting_vpn_get_data_item a.data NM_OPENVPN_KEY_REMOTE)
    ∧ nm_setting_vpn_get_data_item b.data NM_OPENVPN_KEY_CONNECTION_TYPE
        = nm_setting_vpn_get_data_item a.data NM_OPENVPN_KEY_CONNECTION_TYPE

/-- The line under the cursor is the line the round started on, or an end
tag. -/
def CursorOk (line cur : Line) : Prop := cur = line ∨ cur.text ∈ END_TAGS

/-- The `remote` value made of a list of entries: none without entries, else
the entries joined by a comma and a space. -/
def remote_value (entries : List CStr) : Option CStr :=
  if entries = [] then none else some (List.intercalate ", ".toList entries)

/-- A text without the spaces at its ends. -/
def trim_blanks (s : CStr) : CStr :=
  (s.dropWhile (fun c => c == ' ')).rdropWhile (fun c => c == ' ')

/-- The entries of a `remote` value in the words of the specification: the
value split at commas, each piece without the blanks around it. -/
def split_remote (value : CStr) : List CStr :=
  (strsplit_pieces [','] value).map trim_blanks

/-- The connection type in the words of the specification, from four facts:
`auth-user-pass` was seen, `ca` is set, `ca`, `cert` and `key` are all set, a
`secret` directive was accepted. -/
def spec_connection_type (pass ca certs sk : Bool) : CStr :=
  if pass && certs then NM_OPENVPN_CONTYPE_PASSWORD_TLS
  else if pass && ca && !certs then NM_OPENVPN_CONTYPE_PASSWORD
  else if !pass && certs then NM_OPENVPN_CONTYPE_TLS
  else if !pass && !certs && sk then NM_OPENVPN_CONTYPE_STATIC_KEY
  else NM_OPENVPN_CONTYPE_TLS

/-- The keys of the four inline blocks, in the order of the loop body. -/
def BLOB_KEYS : List CStr :=
  [NM_OPENVPN_KEY_CA, NM_OPENVPN_KEY_CERT, NM_OPENVPN_KEY_KEY, NM_OPENVPN_KEY_TA]

/-- A line behind which an inline block that it opens is also closed: for each
of the four start tags with which the line begins, a line equal to the end tag
follows. -/
def block_closed (text : CStr) (rest : List CStr) : Bool :=
  BLOB_KEYS.all (fun key =>
    match blob_tags key with
    | some (s, e) => text.take s.length != s || (blob_lines e rest [] 0).isSome
    | none => true)

/-- A buffer without an unterminated inline block: every line that begins
with a start tag is followed by the end tag. -/
def blocks_closed : List CStr → Bool
  | [] => true
  | piece :: rest => block_closed (strip_comment piece).text rest && blocks_closed rest

/-- A plain environment: UTF-8 input, a home directory with `.cert` in it
that can be written to, and no other files. -/
def env_plain : Env :=
  { home_dir := "/home/u".toList, current_dir := "/cwd".toList, utf8_validate := fun _ => true,
    locale_to_utf8 := fun _ => none, cert_dir := .is_dir, mkdir_ok := true,
    set_contents_ok := fun _ => true, file_contents := fun _ => none,
    is_encrypted := fun _ _ => false, overread := fun _ => [], heap := fun _ _ => [] }

/-- The fold that adds entries to a `remote` value one by one. -/
def add_entries (prev : Option CStr) (entries : List CStr) : Option CStr :=
  entries.foldl (fun acc e => some (join_remote acc e)) prev

/-- The cursor of a round of the line loop stands where the round started, or
on an end tag. -/
def CursorAt (line : Line) (rest : List CStr) (cur : Line) (rest1 : List CStr) : Prop :=
  (cur = line ∧ rest1 = rest) ∨ cur.text ∈ END_TAGS

/-- The lines into which `do_import` splits a buffer. -/
def import_pieces (env : Env) (contents : CStr) : List CStr :=
  g_strsplit_set (import_text env contents) [cr, lf]

/-- The state in which the line loop of `do_import` ends on a buffer; `none`
stands for undefined behaviour. -/
def import_scan (env : Env) (path contents : CStr) : Option ImportState :=
  import_lines (env.run contents) path (import_default_path env path) (import_basename path)
    (import_init env) 0 (import_pieces env contents)

/-- The lines of a buffer on which the body of the line loop runs. -/
def import_seen (env : Env) (path contents : CStr) : List Line :=
  dispatched (env.run contents) path (import_default_path env path) (import_basename path)
    (import_init env) 0 (import_pieces env contents)

/-- The entries of the accepted `remote` directives of a buffer, in order. -/
def import_entries (env : Env) (path contents : CStr) : List CStr :=
  (import_seen env path contents).filterMap (accepted_remote (env.run contents))

/-- The three forms of an entry of the `remote` value. -/
def EntryForm (host e : CStr) : Prop :=
  e = host ∨ ∃ n : Nat, 0 < n ∧ n < 65536 ∧
    (e = host ++ [':'] ++ print_nat n
      ∨ ∃ proto, (proto = "udp".toList ∨ proto = "tcp".toList)
          ∧ e = host ++ [':'] ++ print_nat n ++ [':'] ++ proto)

/-- A configuration with one `remote` directive, in front of the `client`
line and three certificate lines. -/
def conf_tls : CStr :=
  "remote vpn.example.com 1194 udp\nclient\nca ca.pem\ncert cert.pem\nkey key.pem\n".toList

/-- A configuration whose `remote` directive names a host with a comma, and a
second `remote` directive. -/
def conf_comma : CStr := "client\nremote a,b\nremote c 443 tcp\n".toList

/-- A configuration with a `secret` line whose argument opens a double quote
that is never closed. -/
def conf_open_quote : CStr := "client\nremote h\nsecret ".toList ++ [dquote] ++ "abc\n".toList

/-- A configuration with a `secret` line that ends in a backslash. -/
def conf_backslash : CStr := "client\nremote h\nsecret abc".toList ++ [bslash, lf]

/-- A path of a configuration file. -/
def conf_path : CStr := "/etc/vpn/my.ovpn".toList

/-- The line `key "a\"b" 1`. -/
def line_escaped_quote : CStr :=
  "key ".toList ++ [dquote, 'a', bslash, dquote, 'b', dquote] ++ " 1".toList

/-- The line `secret "abc`. -/
def line_open_quote : CStr := "secret ".toList ++ [dquote] ++ "abc".toList

/-- The line `a\` with a carriage return behind it. -/
def line_backslash_cr : CStr := ['a', bslash, cr]

/-- The data after `remote` directives for a list of hosts. -/
def scan_data (data : List (CStr × CStr)) (hs : List CStr) : List (CStr × CStr) :=
  hs.foldl (fun dt h => nm_setting_vpn_add_data_item dt NM_OPENVPN_KEY_REMOTE
    (join_remote (nm_setting_vpn_get_data_item dt NM_OPENVPN_KEY_REMOTE) h)) data

/-- The state after `remote` directives for a list of hosts. -/
def scan_remotes (st : ImportState) (hs : List CStr) : ImportState :=
  { st with have_remote := st.have_remote || !hs.isEmpty, data := scan_data st.data hs }

/-- A configuration with a `client` line and a `remote` line only. -/
def conf_minimal : CStr := "client\nremote h\n".toList

/-- A path to which a connection is exported. -/
def export_path : CStr := "/tmp/out.ovpn".toList

/-- A connection with a gateway, the given connection type, and `ca`, `cert`
and `key` taken from the three arguments (unset for `none`). -/
def conn_certs (ctype : CStr) (ca cert key : Option CStr) : Connection :=
  { id := "x".toList,
    data := [(NM_OPENVPN_KEY_REMOTE, "h".toList), (NM_OPENVPN_KEY_CONNECTION_TYPE, ctype)]
      ++ (match ca with
          | some p => [(NM_OPENVPN_KEY_CA, p)]
          | none => [])
      ++ (match cert with
          | some p => [(NM_OPENVPN_KEY_CERT, p)]
          | none => [])
      ++ (match key with
          | some p => [(NM_OPENVPN_KEY_KEY, p)]
          | none => []),
    secrets := [], secret_flags := [], routes := [] }

/-- The connection without its `ca`, `cert` and `key` settings. -/
def drop_certs (c : Connection) : Connection :=
  { c with
    data := c.data.filter (fun e =>
      e.1 != NM_OPENVPN_KEY_CA && e.1 != NM_OPENVPN_KEY_CERT && e.1 != NM_OPENVPN_KEY_KEY) }

/-- What `do_export` prints in front of the certificate lines: `client`, the
gateway lines and `remote-random`. -/
def export_front (c : Connection) : CStr :=
  "client\n".toList
    ++ export_remotes ((get_nonempty c.data NM_OPENVPN_KEY_REMOTE).getD [])
    ++ (if is_yes c.data NM_OPENVPN_KEY_REMOTE_RANDOM then "remote-random\n".toList else [])

/-- A configuration with a `pkcs12` line that names a file next to the
configuration file. -/
def conf_pkcs12 : CStr := "client\nremote h\npkcs12 certs.p12\n".toList

/-- A configuration with a `pkcs12` line that names an absolute path. -/
def conf_pkcs12_abs : CStr := "client\nremote h\npkcs12 /keys/certs.p12\n".toList

/-- A line that `NEXT_LINE` steps over inside an inline block: an empty line,
or one that starts with `#` or `;`. -/
def blob_skipped (l : CStr) : Bool :=
  decide (l = [] ∨ l.head? = some hash ∨ l.head? = some semi)

/-- The content of an inline block in terms of the lines between its tags:
the lines that `NEXT_LINE` does not step over, each followed by a line feed. -/
def blob_content (lines : List CStr) : CStr :=
  (lines.filter (fun l => !blob_skipped l)).flatMap (fun l => l ++ [lf])

/-- The file that `handle_blob_item` writes for a key: `<name>-<key>.pem` in
the directory `.cert` of the home directory. -/
def blob_path (env : Env) (name key : CStr) : CStr :=
  g_build_filename [g_build_filename [env.home_dir, ".cert".toList],
    name ++ "-".toList ++ key ++ ".pem".toList]

/-- The state after `handle_blob_item` has written the content of a block
and stored the path of the file under the key. -/
def blob_stored (env : Env) (name key content : CStr) (st : ImportState) : ImportState :=
  { st with
    cert_dir := .is_dir
    written := table_insert (blob_path env name key) content st.written }.add
      key (blob_path env name key)

/-- The state in which the round of the loop body ends that has extracted the
inline block of a key: after `<tls-auth>` the direction of an earlier
`key-direction` line is applied. -/
def blob_round_end (key : CStr) (st1 : ImportState) : ImportState :=
  if key = NM_OPENVPN_KEY_TA then
    handle_direction NM_OPENVPN_KEY_TA_DIR st1.last_seen_key_direction st1
  else st1

/-- A configuration with an inline `<ca>` block that holds a line `remote x`. -/
def conf_inline_ca : CStr := "client\nremote h\n<ca>\nremote x\n</ca>\ndev tun\n".toList

/-- A configuration with the inline block `<ca>`, `LINE1`, `LINE2`, `</ca>`. -/
def conf_inline_lines : CStr := "client\nremote h\n<ca>\nLINE1\nLINE2\n</ca>\n".toList

/-- A configuration whose inline `<ca>` block holds a comment line and a
blank line between `LINE1` and `LINE2`. -/
def conf_inline_comment : CStr :=
  "client\nremote h\n<ca>\nLINE1\n#note\n\nLINE2\n</ca>\n".toList

/-- A configuration whose inline `<ca>` block is not closed. -/
def conf_inline_open : CStr := "client\nremote h\n<ca>\nLINE1\n".toList

/-- A configuration whose inline `<tls-auth>` block is not closed. -/
def conf_inline_open_ta : CStr := "client\nremote h\n<tls-auth>\nLINE1\n".toList

/-- The run of digits that `strtol` reads from a text: the digits behind the
leading `isspace` bytes and one sign. -/
def strtol_digits (s : CStr) : CStr :=
  let s1 := s.dropWhile isspace
  (if s1.head? = some '-' ∨ s1.head? = some '+' then s1.tail else s1).takeWhile Char.isDigit

/-- The numeric directives with one argument that is stored when it lies
between 0 and a largest value: keyword, setting key and largest value. -/
def NUMERIC_DIRECTIVES : List (CStr × CStr × Int) :=
  [("reneg-sec".toList, NM_OPENVPN_KEY_RENEG_SECONDS, 604800),
   ("ping".toList, NM_OPENVPN_KEY_PING, G_MAXINT),
   ("ping-exit".toList, NM_OPENVPN_KEY_PING_EXIT, G_MAXINT),
   ("ping-restart".toList, NM_OPENVPN_KEY_PING_RESTART, G_MAXINT),
   ("tun-mtu".toList, NM_OPENVPN_KEY_TUNNEL_MTU, 65534),
   ("fragment".toList, NM_OPENVPN_KEY_FRAGMENT_SIZE, 65534)]

/-- A configuration with a `ping` line and a `reneg-sec` line whose argument
is not a number. -/
def conf_ping_text : CStr := "client\nremote h\nping abc\nreneg-sec abc\n".toList

/-- A configuration with numeric directives in and out of range. -/
def conf_numbers : CStr :=
  "client\nremote h\nreneg-sec 604800\nping 2147483647\nping-exit 2147483648\ntun-mtu 65535\nfragment 65534\nping-restart -1\n".toList

/-- A configuration with the line `keysize 65536`. -/
def conf_keysize_max : CStr := "client\nremote h\nkeysize 65536\n".toList

/-- A configuration with the line `keysize 65535`. -/
def conf_keysize_ok : CStr := "client\nremote h\nkeysize 65535\n".toList

/-- A configuration with a `secret` line whose direction is not a number. -/
def conf_secret_text : CStr := "client\nremote h\nsecret key.txt abc\n".toList

/-- A configuration with a `tls-auth` line whose direction is not a number. -/
def conf_tls_auth_text : CStr := "client\nremote h\ntls-auth ta.key abc\n".toList

/-- A configuration with `secret` and `tls-auth` lines with the directions 1
and 0. -/
def conf_directions : CStr := "client\nremote h\nsecret key.txt 1\ntls-auth ta.key 0\n".toList

/-- A configuration with `secret` and `tls-auth` lines with the direction 2. -/
def conf_direction_two : CStr := "client\nremote h\nsecret key.txt 2\ntls-auth ta.key 2\n".toList

/-- A configuration with `key-direction 1` in front of `tls-auth` and `secret`
lines without a direction. -/
def conf_key_direction : CStr :=
  "client\nremote h\nkey-direction 1\ntls-auth ta.key\nsecret key.txt\n".toList

/-- A configuration with `key-direction 1` in front of an inline `<tls-auth>`
block. -/
def conf_key_direction_inline : CStr :=
  "client\nremote h\nkey-direction 1\n<tls-auth>\nKEY\n</tls-auth>\n".toList

/-- The text that `args_is_option` compares with the start of the line: the
tag without the one whitespace character that may end it. -/
def tag_word (tag : CStr) : CStr :=
  match tag.getLast? with
  | some last => if g_ascii_isspace last then tag.dropLast else tag
  | none => tag

/-- A settings model whose `remote` value holds two entries with a protocol but no
port and one with a port, for the `tls` connection type. -/
def conn_remote_forms : Connection :=
  { id := "forms".toList,
    data := [(NM_OPENVPN_KEY_REMOTE, "a::udp, b::tcp, c:80".toList),
      (NM_OPENVPN_KEY_CONNECTION_TYPE, NM_OPENVPN_CONTYPE_TLS)],
    secrets := [], secret_flags := [], routes := [] }

/-- The line `ab`, backslash, carriage return. -/
def line_word_backslash_cr : CStr := ['a', 'b', bslash, cr]

/-- The line `a`, backslash, space, `b`, space, `c`. -/
def line_escaped_space : CStr := ['a', bslash, ' ', 'b', ' ', 'c']

/-- A line without arguments in the words of the specification: empty, made of
ASCII whitespace only, or with `;` or `#` as its first character that is not
whitespace. -/
def blank_or_comment (line : CStr) : Bool :=
  match line.dropWhile g_ascii_isspace with
  | [] => true
  | c :: _ => c == semi || c == hash

/-- A settings model of type `tls` with an http proxy and a proxy user name. -/
def conn_http_proxy_user : Connection :=
  { id := "x".toList,
    data := [(NM_OPENVPN_KEY_REMOTE, "h".toList),
      (NM_OPENVPN_KEY_CONNECTION_TYPE, NM_OPENVPN_CONTYPE_TLS),
      (NM_OPENVPN_KEY_PROXY_TYPE, "http".toList),
      (NM_OPENVPN_KEY_PROXY_SERVER, "p".toList),
      (NM_OPENVPN_KEY_PROXY_PORT, "8080".toList),
      (NM_OPENVPN_KEY_HTTP_PROXY_USERNAME, "u".toList)],
    secrets := [], secret_flags := [], routes := [] }

/-- The same settings model without the proxy user name. -/
def conn_http_proxy : Connection :=
  { conn_http_proxy_user with data := conn_http_proxy_user.data.take 5 }


/-- The tags of the directives that the loop body of `do_import` tests. -/
def DIRECTIVE_TAGS : List CStr :=
  [TAG_AUTH, TAG_AUTH_USER_PASS, TAG_CA, TAG_CERT, TAG_CIPHER, TAG_KEYSIZE, TAG_CLIENT,
   TAG_COMP_LZO, TAG_FLOAT, TAG_DEV, TAG_DEV_TYPE, TAG_FRAGMENT, TAG_IFCONFIG, TAG_KEY,
   TAG_KEEPALIVE, TAG_MSSFIX, TAG_PING, TAG_PING_EXIT, TAG_PING_RESTART, TAG_PKCS12, TAG_PORT,
   TAG_PROTO, TAG_HTTP_PROXY, TAG_HTTP_PROXY_RETRY, TAG_SOCKS_PROXY, TAG_SOCKS_PROXY_RETRY,
   TAG_REMOTE, TAG_REMOTE_RANDOM, TAG_RENEG_SEC, TAG_RPORT, TAG_SECRET, TAG_TLS_AUTH,
   TAG_KEY_DIRECTION, TAG_TLS_CLIENT, TAG_TLS_REMOTE, TAG_REMOTE_CERT_TLS, TAG_TUN_MTU, TAG_ROUTE]

/-- The first words by which the loop body of `do_import` knows a directive:
the tags without the space that ends most of them. -/
def DIRECTIVE_WORDS : List CStr := DIRECTIVE_TAGS.map tag_word

/-- The four start tags of inline blocks. -/
def START_TAGS : List CStr :=
  [CA_BLOB_START_TAG, CERT_BLOB_START_TAG, KEY_BLOB_START_TAG, TLS_AUTH_BLOB_START_TAG]

/-- A text that begins with the start tag of an inline block. -/
def begins_with_start_tag (text : CStr) : Bool :=
  START_TAGS.any (fun s => text.take s.length == s)

/-- A configuration with an inline block, and the same configuration with the
line `verb 3` behind the block. -/
def conf_block : CStr := "client\n<ca>\nAAA\n</ca>\nremote h\n".toList
/-- The configuration `conf_block` with one more line. -/
def conf_block_verb : CStr := "client\n<ca>\nAAA\n</ca>\nverb 3\nremote h\n".toList

/-- A configuration in which the `client` line is indented. -/
def conf_indented : CStr := "  client\nremote h\n".toList
/-- A configuration in which a `remote` line is indented. -/
def conf_indented_remote : CStr := "client\n\tremote host 1194\n".toList

/-- The keys of the three settings that the proxy block stores together: type,
server and port. -/
def PROXY_KEYS : List CStr :=
  [NM_OPENVPN_KEY_PROXY_TYPE, NM_OPENVPN_KEY_PROXY_SERVER, NM_OPENVPN_KEY_PROXY_PORT]

/-- The proxy type, server and port of a data map. -/
def proxy_settings (data : List (CStr × CStr)) : Option CStr × Option CStr × Option CStr :=
  (nm_setting_vpn_get_data_item data NM_OPENVPN_KEY_PROXY_TYPE,
   nm_setting_vpn_get_data_item data NM_OPENVPN_KEY_PROXY_SERVER,
   nm_setting_vpn_get_data_item data NM_OPENVPN_KEY_PROXY_PORT)

/-- A data map reached from another one by calls of
`nm_setting_vpn_add_data_item` whose keys all satisfy `P`. -/
inductive Stored (P : CStr → Prop) : List (CStr × CStr) → List (CStr × CStr) → Prop
  | same (d : List (CStr × CStr)) : Stored P d d
  | add (d e : List (CStr × CStr)) (key item : CStr) :
    Stored P d e → P key → Stored P d (nm_setting_vpn_add_data_item e key item)

/-- What a round of the line loop does when the proxy block does not store:
the data map changes by stores under keys other than the three proxy keys, and
`proxy_set` stays as it is. -/
def Kept (a b : ImportState) : Prop :=
  Stored (fun k => k ∉ PROXY_KEYS) a.data b.data ∧ b.proxy_set = a.proxy_set

/-- A block that, when it takes the line, keeps the proxy settings. -/
def KeptOpt (a : ImportState) (r : Option ImportState) : Prop :=
  ∀ b, r = some b → Kept a b

/-- Every value of a data map is a string that is not empty. -/
def values_nonempty (data : List (CStr × CStr)) : Prop := ∀ kv ∈ data, kv.2 ≠ []

/-- The check of the third argument of an `http-proxy` line in the words of
the amended claim: the argument is `stdin`, `auto` or `'auto'`, for which no
file is read, or it names an auth file, a relative name being taken from the
directory of the configuration file, that can be read and holds at least two
lines that are not empty. -/
def auth_argument_passes (env : Env) (written : List (CStr × CStr)) (path file : CStr) : Bool :=
  if file = "stdin".toList ∨ file = "auto".toList ∨ file = squote :: "auto".toList ++ [squote] then
    true
  else
    match read_file env written
      (if g_path_is_absolute file then file
        else g_build_filename [g_path_get_dirname path, file]) with
    | none => false
    | some contents =>
      decide (2 ≤ ((g_strsplit_set contents [lf, cr]).filter (fun l => l ≠ [])).length)

/-- What an `http-proxy` or `socks-proxy` line stores when it is accepted, in
the words of the amended claim: the line has one of the two tags and at least
two arguments, the second argument reads as a port from 1 to 65535, and the
third argument of an `http-proxy` line, when there is one, passes the check of
`auth_argument_passes`.  The result is the proxy type of the tag, the first
argument as the server, and the port in decimal. -/
def accepted_proxy (env : Env) (path : CStr) (written : List (CStr × CStr)) (line : Line) :
    Option (CStr × CStr × CStr) :=
  let http := args_is_option line.text TAG_HTTP_PROXY
  let socks := args_is_option line.text TAG_SOCKS_PROXY
  if http || socks then
    match get_args (arg_text env line (if http then TAG_HTTP_PROXY else TAG_SOCKS_PROXY)) with
    | server :: port_item :: more =>
      let auth_ok : Bool :=
        match http, more with
        | true, file :: _ => auth_argument_passes env written path file
        | _, _ => true
      let port := strtol port_item
      if auth_ok = true ∧ port.2 = false ∧ port.1 > 0 ∧ port.1 < 65536 then
        some (if http then "http".toList else "socks".toList, server, print_int (to_gint port.1))
      else none
    | _ => none
  else none

/-- The rounds of the line loop of `do_import`: every line on which the body
of the loop runs, with the state in which the round starts. -/
def import_rounds (env : Env) (path default_path name : CStr) :
    ImportState → Nat → List CStr → List (ImportState × Line)
  | _, _, [] => []
  | st, skip + 1, _ :: rest => import_rounds env path default_path name st skip rest
  | st, 0, piece :: rest =>
    let line := strip_comment piece
    if line.text = [] then import_rounds env path default_path name st 0 rest
    else
      match import_line env path default_path name line rest st with
      | .undefined => [(st, line)]
      | .next st1 skip => (st, line) :: import_rounds env path default_path name st1 skip rest

/-- The proxy settings of a run of the line loop in the words of the
specification: those of the first round whose line the proxy block accepts,
none when there is no such round. -/
def first_proxy (env : Env) (path : CStr) (rounds : List (ImportState × Line)) :
    Option CStr × Option CStr × Option CStr :=
  match rounds.findSome? (fun r => accepted_proxy env path r.1.written r.2) with
  | some (t, s, p) => (some t, some s, some p)
  | none => (none, none, none)

/-- A configuration whose first proxy line has no port, and whose second
proxy line is a valid `socks-proxy`. -/
def conf_two_proxies : CStr :=
  "client\nremote h\nhttp-proxy p\nsocks-proxy s 1080\nhttp-proxy q 8080\n".toList

/-- A configuration whose first proxy line has no port, whose second proxy
line is an `http-proxy` with the third argument `auto`, and whose last proxy
line is a valid `socks-proxy`. -/
def conf_proxy_auto : CStr :=
  "client\nremote h\nhttp-proxy p\nhttp-proxy q 8080 auto\nsocks-proxy s 1080\n".toList

/-- A configuration whose `tun-mtu` and `port` directives have arguments that
are no numbers. -/
def conf_mtu_text : CStr := "client\nremote h\ntun-mtu abc\nport 80x\n".toList

/-- A configuration with the directive `tls-remote` and an empty quoted
argument, behind a valid `tls-remote`. -/
def conf_tls_remote_empty : CStr :=
  "client\nremote h\ntls-remote x\ntls-remote ".toList ++ [dquote, dquote, lf]

/-- The reading of a line in the words of the specification: where the reading
stands, the arguments that are complete, and the characters of the argument
that is being read. -/
structure Tok where
  mode : ArgsMode
  done : List CStr
  cur : CStr
deriving DecidableEq, Repr

/-- A character read inside an argument and outside quotes: a quote opens a
span, a backslash escapes what follows, whitespace ends the argument, any
other character belongs to the argument. -/
def Tok.switch (t : Tok) (c : Char) : Tok :=
  if c = dquote ∨ c = squote then { t with mode := .quoted c }
  else if c = bslash then { t with mode := .word_escape }
  else if g_ascii_isspace c then { mode := .between, done := t.done ++ [t.cur], cur := [] }
  else { t with mode := .word, cur := t.cur ++ [c] }

/-- One character of the line. -/
def Tok.step (t : Tok) (c : Char) : Tok :=
  match t.mode with
  | .between => if g_ascii_isspace c then t else t.switch c
  | .word => t.switch c
  | .word_escape => { t with mode := .word, cur := t.cur ++ [c] }
  | .quoted q =>
    if c = q then { t with mode := .word }
    else if q = dquote ∧ c = bslash then { t with mode := .quoted_escape q }
    else { t with cur := t.cur ++ [c] }
  | .quoted_escape q => { t with mode := .quoted q, cur := t.cur ++ [c] }

/-- The reading in front of the first character. -/
def Tok.init : Tok := { mode := .between, done := [], cur := [] }

/-- The reading of a whole text. -/
def Tok.run (input : CStr) : Tok := input.foldl Tok.step Tok.init

/-- The arguments at the end of the text: none when the text ends inside a
quote or right behind an escaping backslash. -/
def Tok.args (t : Tok) : Option (List CStr) :=
  match t.mode with
  | .between => some t.done
  | .word => some (t.done ++ [t.cur])
  | _ => none

/-- The packed output of `args_parse_line`: every argument followed by NUL. -/
def packed (ws : List CStr) : List Char := ws.flatMap (fun w => w ++ [nul])

/-- The offsets of the arguments in the packed output, the first at `base`. -/
def offsets (base : Nat) : List CStr → List Nat
  | [] => []
  | w :: ws => base :: offsets (base + w.length + 1) ws

/-- The text that the loops of `args_parse_line` read: the line without the
carriage return that may end it and without its leading whitespace. -/
def args_input (line : CStr) : CStr := _ch_skip_over_leading_whitespace (drop_cr line)

/-- The state in which the loops of `args_parse_line` start on a line. -/
def args_first (line : CStr) : ArgsState :=
  { mode := .between, word_start := (drop_cr line).length - (args_input line).length,
    pos := (drop_cr line).length - (args_input line).length, index := [],
    buf := { data := [], len := (args_input line).length + 1 } }

/-- The state of `args_parse_line` after `k` calls of `_ch_step_1` inside its
loops. -/
def args_at (line : CStr) (k : Nat) : ArgsState :=
  ((args_input line).take k).foldl args_step (args_first line)

/-- The state of `args_parse_line` and the reading of the specification
describe the same point: same mode, the output holds the complete arguments,
each with its NUL, and the characters of the current one; `index` holds their
offsets; the output and the room left make up the `n` bytes of the buffer, and
at most `k` bytes are written. -/
def Sim (n k : Nat) (s : ArgsState) (t : Tok) : Prop :=
  s.mode = t.mode ∧ s.buf.data = packed t.done ++ t.cur
    ∧ s.index = offsets 0 t.done ++ (if t.mode = .between then [] else [(packed t.done).length])
    ∧ (t.mode = .between → t.cur = [])
    ∧ s.buf.data.length + s.buf.len = n ∧ s.buf.data.length ≤ k

/-- A comment line: the first character that is not whitespace, in the line
without the carriage return that may end it, is `;` or `#`. -/
def comment_line (line : CStr) : Bool :=
  match (drop_cr line).dropWhile g_ascii_isspace with
  | [] => false
  | c :: _ => c == semi || c == hash

/-- A text without quote characters and backslashes. -/
def no_quoting (line : CStr) : Prop := ∀ c ∈ line, c ≠ dquote ∧ c ≠ squote ∧ c ≠ bslash

/-- The comment line `#x`. -/
def line_comment : CStr := [hash, 'x']


/-- A configuration whose last line is the bare keyword `dev`. -/
def conf_bare_dev : CStr := "client\nremote h\ndev\n".toList

/-- The configuration `conf_bare_dev` with an unrecognised line behind the
`client` line. -/
def conf_bare_dev_verb : CStr := "client\nverb 3\nremote h\ndev\n".toList

/-- The configuration `conf_bare_dev` with CR LF line ends. -/
def conf_bare_dev_crlf : CStr := "client\r\nremote h\r\ndev\r\n".toList

/-- The plain environment with a heap in which a NUL lies right behind the
allocation of each line in the run on the buffer `conf_bare_dev`, and the
bytes `tun0` and a NUL in the run on any other buffer. -/
def env_shifting : Env :=
  { env_plain with
    heap := fun contents _ => if contents = conf_bare_dev then [] else "tun0".toList }

/-- The plain environment in which the bytes `tun0` and a NUL lie right behind
the allocation of each line. -/
def env_behind : Env :=
  { env_plain with overread := fun _ => "tun0".toList, heap := fun _ _ => "tun0".toList }


/-- A directive `remote host [port [proto]]` as it stands in a configuration:
the host, and, when they are given, the port and behind it the protocol. -/
structure RemoteDirective where
  host : CStr
  more : Option (CStr × Option CStr)
deriving DecidableEq, Repr

/-- A host of a `remote` directive: not empty, without `:`, `,`, `#`, `;` and
whitespace. -/
def host_ok (h : CStr) : Bool :=
  h != [] && h.all (fun c => c != ':' && c != ',' && c != hash && c != semi && !g_ascii_isspace c)

/-- A port of a `remote` directive: decimal digits that write a number from 1
to 65535. -/
def port_ok (p : CStr) : Bool :=
  p != [] && p.all Char.isDigit && decide (0 < digits_value p)
    && decide (digits_value p < 65536)

/-- A protocol of a `remote` directive: `udp` or `tcp`. -/
def proto_ok (q : CStr) : Bool := q == "udp".toList || q == "tcp".toList

/-- A `remote` directive with a host, a port and a protocol as above. -/
def RemoteDirective.valid (d : RemoteDirective) : Bool :=
  host_ok d.host &&
    (match d.more with
     | none => true
     | some (p, none) => port_ok p
     | some (p, some q) => port_ok p && proto_ok q)

/-- The text of the arguments of a `remote` directive. -/
def RemoteDirective.args (d : RemoteDirective) : CStr :=
  match d.more with
  | none => d.host
  | some (p, none) => d.host ++ [' '] ++ p
  | some (p, some q) => d.host ++ [' '] ++ p ++ [' '] ++ q

/-- The line of a `remote` directive. -/
def RemoteDirective.line (d : RemoteDirective) : CStr := "remote ".toList ++ d.args

/-- The directive with its port in canonical decimal. -/
def RemoteDirective.canonical (d : RemoteDirective) : RemoteDirective :=
  { d with more := d.more.map (fun x => (print_nat (digits_value x.1), x.2)) }

/-- The entry of the `remote` value for a directive: `host`, `host:port` or
`host:port:proto`, the port in canonical decimal. -/
def RemoteDirective.entry (d : RemoteDirective) : CStr :=
  match d.more with
  | none => d.host
  | some (p, none) => d.host ++ [':'] ++ print_nat (digits_value p)
  | some (p, some q) => d.host ++ [':'] ++ print_nat (digits_value p) ++ [':'] ++ q

/-- The lines of a list of `remote` directives, each with its line feed. -/
def directive_lines (ds : List RemoteDirective) : CStr :=
  ds.flatMap (fun d => d.line ++ [lf])

/-- A configuration made of `client` and the lines of `remote` directives. -/
def conf_remotes (ds : List RemoteDirective) : CStr := "client\n".toList ++ directive_lines ds

/-- The text that the export prints for a connection of type `tls` that holds
a `remote` value and nothing else: `client`, the `remote` lines, the default
`dev tun`, `proto udp` and the hard-coded lines. -/
def export_remotes_text (ds : List RemoteDirective) : CStr :=
  "client\n".toList ++ directive_lines ds ++ "dev tun\nproto udp\n".toList ++ EXPORT_TRAILER

/-- Three `remote` directives: a bare host, a host with a port written with a
leading zero, and a host with port and protocol. -/
def remotes_sample : List RemoteDirective :=
  [{ host := "vpn.example.com".toList, more := none },
   { host := "10.0.0.1".toList, more := some ("01194".toList, none) },
   { host := "h_3".toList, more := some ("443".toList, some "tcp".toList) }]


/-- The text with every line feed replaced by a carriage return and a line
feed. -/
def crlf (s : CStr) : CStr := s.flatMap (fun c => if c = lf then [cr, lf] else [c])

/-- The lines of a vector that are not empty. -/
def lines_kept (lines : List CStr) : List CStr := lines.filter (fun l => l != [])

/-- A configuration with an inline `<ca>` block, a `remote` line and a `dev`
line behind it. -/
def conf_lf : CStr := "client\n<ca>\nLINE1\nLINE2\n</ca>\nremote h 1194\ndev tun0\n".toList

/-- The configuration `conf_lf` with blank lines put between its lines, also
inside the inline block. -/
def conf_blank_lines : CStr :=
  "client\n\n<ca>\nLINE1\n\n\nLINE2\n</ca>\n\nremote h 1194\n\n\ndev tun0\n".toList

/-! ## The documented directives (for the round trip) -/

/-- A character of an unquoted argument: no whitespace, no comment character,
no quote and no backslash. -/
def token_char (c : Char) : Bool :=
  !isspace c && c != hash && c != semi && c != dquote && c != squote && c != bslash

/-- An unquoted argument: not empty, made of such characters. -/
def token_ok (w : CStr) : Bool := w != [] && w.all token_char

/-- A character of a file name that `unquote` reads as it is outside quotes,
and that the comment cut leaves alone: no whitespace and no comment
character. -/
def path_char (c : Char) : Bool := !isspace c && c != hash && c != semi

/-- No backslash of the text stands in front of a backslash or of a double
quote: `unquote` copies every backslash as it is. -/
def no_escape : CStr → Bool
  | c :: d :: ds => !(c == bslash && (d == bslash || d == dquote)) && no_escape (d :: ds)
  | _ => true

/-- A file name that needs no quoting: not empty, made of such characters,
without an escape, and not beginning with a quote. -/
def path_ok (w : CStr) : Bool :=
  w != [] && w.all path_char && no_escape w && w.head? != some dquote
    && w.head? != some squote

/-- A file name in front of an optional direction: with a direction behind
it, the name does not end in a backslash (`unquote` takes a backslash and the
blank behind it for an escape). -/
def file_ok (file : CStr) (direction : Option CStr) : Bool :=
  path_ok file && (direction.isNone || file.getLast? != some bslash)

/-- A character of an item of an argument vector (`get_args`) that the line
split and the comment cut leave alone: no blank, no tab, no line terminator
and no comment character. -/
def item_char (c : Char) : Bool :=
  c != ' ' && c != tab && c != cr && c != lf && c != hash && c != semi

/-- An item of an argument vector: not empty, made of such characters. -/
def item_ok (w : CStr) : Bool := w != [] && w.all item_char

/-- A number argument: decimal digits that write a number from `lo` to `hi`. -/
def number_ok (lo hi : Nat) (p : CStr) : Bool :=
  p != [] && p.all Char.isDigit && decide (lo ≤ digits_value p) && decide (digits_value p ≤ hi)

/-- An address argument: a dotted quad that `inet_pton` accepts. -/
def ip_ok (a : CStr) : Bool := token_ok a && (inet_pton a).isSome

/-- The directives of the documented grammar, each with its arguments as they
stand in the configuration.  `comp_lzo`, `tls_remote`, `tun_mtu` and `fragment`
also have the form in which the export prints them (`comp-lzo yes`, the name
in double quotes, two spaces behind the keyword);
`block` is an inline block with the lines between its tags; `route` carries
the arguments behind the destination. -/
inductive Directive where
  | client
  | dev (name : CStr)
  | dev_type (kind : CStr)
  | proto (p : CStr)
  | mssfix
  | tun_mtu (n : CStr) (wide : Bool)
  | fragment (n : CStr) (wide : Bool)
  | comp_lzo (yes : Bool)
  | float
  | reneg_sec (n : CStr)
  | http_proxy (server number : CStr) (authfile : Option CStr)
  | socks_proxy (server number : CStr)
  | http_proxy_retry
  | socks_proxy_retry
  | remote (d : RemoteDirective)
  | remote_random
  | port (n : CStr)
  | rport (n : CStr)
  | ping (n : CStr)
  | ping_exit (n : CStr)
  | ping_restart (n : CStr)
  | pkcs12 (file : CStr)
  | ca (file : CStr)
  | cert (file : CStr)
  | key (file : CStr)
  | block (which : CStr) (content : List CStr)
  | secret (file : CStr) (direction : Option CStr)
  | tls_auth (file : CStr) (direction : Option CStr)
  | key_direction (direction : CStr)
  | cipher (name : CStr)
  | keepalive (interval timeout : CStr)
  | keysize (n : CStr)
  | tls_remote (name : CStr) (quoted : Bool)
  | remote_cert_tls (kind : CStr)
  | ifconfig (local_ip remote_ip : CStr)
  | auth_user_pass
  | auth (name : CStr)
  | route (dest : CStr) (more : List CStr)
deriving DecidableEq, Repr

/-- A path with an optional direction behind it. -/
def with_direction (file : CStr) (direction : Option CStr) : CStr :=
  match direction with
  | some d => file ++ [' '] ++ d
  | none => file

/-- The lines of a directive: one line, the keyword and the arguments with
single spaces between them; for an inline block the start tag, the lines of
the content and the end tag. -/
def Directive.lines : Directive → List CStr
  | .client => ["client".toList]
  | .dev name => ["dev ".toList ++ name]
  | .dev_type kind => ["dev-type ".toList ++ kind]
  | .proto p => ["proto ".toList ++ p]
  | .mssfix => ["mssfix".toList]
  | .tun_mtu n wide => ["tun-mtu ".toList ++ (if wide then ' ' :: n else n)]
  | .fragment n wide => ["fragment ".toList ++ (if wide then ' ' :: n else n)]
  | .comp_lzo yes => [if yes then "comp-lzo yes".toList else "comp-lzo".toList]
  | .float => ["float".toList]
  | .reneg_sec n => ["reneg-sec ".toList ++ n]
  | .http_proxy server number authfile =>
    ["http-proxy ".toList ++ server ++ [' '] ++ with_direction number authfile]
  | .socks_proxy server number => ["socks-proxy ".toList ++ server ++ [' '] ++ number]
  | .http_proxy_retry => ["http-proxy-retry".toList]
  | .socks_proxy_retry => ["socks-proxy-retry".toList]
  | .remote d => [d.line]
  | .remote_random => ["remote-random".toList]
  | .port n => ["port ".toList ++ n]
  | .rport n => ["rport ".toList ++ n]
  | .ping n => ["ping ".toList ++ n]
  | .ping_exit n => ["ping-exit ".toList ++ n]
  | .ping_restart n => ["ping-restart ".toList ++ n]
  | .pkcs12 file => ["pkcs12 ".toList ++ file]
  | .ca file => ["ca ".toList ++ file]
  | .cert file => ["cert ".toList ++ file]
  | .key file => ["key ".toList ++ file]
  | .block which content =>
    match blob_tags which with
    | some (start_tag, end_tag) => start_tag :: (content ++ [end_tag])
    | none => []
  | .secret file direction => ["secret ".toList ++ with_direction file direction]
  | .tls_auth file direction => ["tls-auth ".toList ++ with_direction file direction]
  | .key_direction direction => ["key-direction ".toList ++ direction]
  | .cipher name => ["cipher ".toList ++ name]
  | .keepalive interval timeout => ["keepalive ".toList ++ interval ++ [' '] ++ timeout]
  | .keysize n => ["keysize ".toList ++ n]
  | .tls_remote name quoted =>
    [if quoted then "tls-remote ".toList ++ [dquote] ++ name ++ [dquote]
     else "tls-remote ".toList ++ name]
  | .remote_cert_tls kind => ["remote-cert-tls ".toList ++ kind]
  | .ifconfig local_ip remote_ip => ["ifconfig ".toList ++ local_ip ++ [' '] ++ remote_ip]
  | .auth_user_pass => ["auth-user-pass".toList]
  | .auth name => ["auth ".toList ++ name]
  | .route dest more => ["route ".toList ++ List.intercalate [' '] (dest :: more)]

/-- A direction argument: absent, `0` or `1`. -/
def direction_ok (direction : Option CStr) : Bool :=
  direction = none || direction = some "0".toList || direction = some "1".toList

/-- The arguments of a `route` directive behind the destination: nothing, a
netmask, a netmask and a gateway, or these and a metric from 0 to 65535. -/
def route_more_ok : List CStr → Bool
  | [] => true
  | [mask] => ip_ok mask
  | [mask, gateway] => ip_ok mask && ip_ok gateway
  | [mask, gateway, metric] => ip_ok mask && ip_ok gateway && number_ok 0 65535 metric
  | _ => false

/-- A directive with valid arguments: names and hosts are unquoted
arguments, file names need no quoting, numbers are decimal and in the range of
the directive, keywords are among those of the directive; the lines of an
inline block hold no line terminator and are not the end tag. -/
def Directive.valid : Directive → Bool
  | .client => true
  | .dev name => token_ok name
  | .dev_type kind => kind = "tun".toList || kind = "tap".toList
  | .proto p =>
    p = "udp".toList || p = "tcp".toList || p = "tcp-client".toList || p = "tcp-server".toList
  | .mssfix => true
  | .tun_mtu n _ => number_ok 0 65534 n
  | .fragment n _ => number_ok 0 65534 n
  | .comp_lzo _ => true
  | .float => true
  | .reneg_sec n => number_ok 0 604800 n
  | .http_proxy server number authfile =>
    token_ok server && number_ok 1 65535 number
      && (match authfile with
          | some file => item_ok file
          | none => true)
  | .socks_proxy server number => token_ok server && number_ok 1 65535 number
  | .http_proxy_retry => true
  | .socks_proxy_retry => true
  | .remote d => d.valid && token_ok d.host
  | .remote_random => true
  | .port n => number_ok 1 65535 n
  | .rport n => number_ok 1 65535 n
  | .ping n => number_ok 0 2147483647 n
  | .ping_exit n => number_ok 0 2147483647 n
  | .ping_restart n => number_ok 0 2147483647 n
  | .pkcs12 file => path_ok file
  | .ca file => path_ok file
  | .cert file => path_ok file
  | .key file => path_ok file
  | .block which content =>
    (match blob_tags which with
     | some (_, end_tag) =>
       content.all (fun l => l != end_tag && l.all (fun c => c != cr && c != lf))
     | none => false)
  | .secret file direction => file_ok file direction && direction_ok direction
  | .tls_auth file direction => file_ok file direction && direction_ok direction
  | .key_direction direction => direction = "0".toList || direction = "1".toList
  | .cipher name => token_ok name
  | .keepalive interval timeout =>
    number_ok 0 2147483647 interval && number_ok 0 2147483647 timeout
  | .keysize n => number_ok 1 65535 n
  | .tls_remote name _ => token_ok name
  | .remote_cert_tls kind => kind = "client".toList || kind = "server".toList
  | .ifconfig local_ip remote_ip => token_ok local_ip && token_ok remote_ip
  | .auth_user_pass => true
  | .auth name => token_ok name
  | .route dest more => ip_ok dest && route_more_ok more

/-- The text of a configuration: the lines of its directives, each line with
its line feed. -/
def conf_text (ds : List Directive) : CStr :=
  (ds.flatMap Directive.lines).flatMap (fun l => l ++ [lf])

/-- Whether `handle_blob_item` can write the file of a block: the directory
`.cert` is there or can be made, and the file can be written. -/
def blob_write_ok (env : Env) (name key : CStr) (st : ImportState) : Bool :=
  match st.cert_dir with
  | .not_a_dir => false
  | .missing => env.mkdir_ok && env.set_contents_ok (blob_path env name key)
  | .is_dir => env.set_contents_ok (blob_path env name key)

/-- The state after `handle_blob_item` has failed to write the file of a
block: the directory `.cert` is there when it has been made. -/
def blob_refused (env : Env) (st : ImportState) : ImportState :=
  match st.cert_dir with
  | .missing => if env.mkdir_ok then { st with cert_dir := .is_dir } else st
  | _ => st

/-- The file name that a path block stores: the argument when it is
absolute, else the argument in the default directory. -/
def full_path (default_path file : CStr) : CStr :=
  if g_path_is_absolute file then file else g_build_filename [default_path, file]

/-- What an accepted proxy line stores: type, server and port, the user name
and the password of the auth file when there are any, and the latch. -/
def store_proxy (st : ImportState) (proxy_type server port : CStr) (user pass : Option CStr) :
    ImportState :=
  let st3 := ((st.add NM_OPENVPN_KEY_PROXY_TYPE proxy_type).add NM_OPENVPN_KEY_PROXY_SERVER
    server).add NM_OPENVPN_KEY_PROXY_PORT port
  let st4 :=
    match user with
    | some u => st3.add NM_OPENVPN_KEY_HTTP_PROXY_USERNAME u
    | none => st3
  let st5 :=
    match pass with
    | some p =>
      { st4 with
        secrets := nm_setting_vpn_add_secret st4.secrets NM_OPENVPN_KEY_HTTP_PROXY_PASSWORD p
        secret_flags := table_insert NM_OPENVPN_KEY_HTTP_PROXY_PASSWORD
          NM_SETTING_SECRET_FLAG_AGENT_OWNED st4.secret_flags }
    | none => st4
  { st5 with proxy_set := true }

/-- What a directive with valid arguments does to the state of the import, in
the words of the specification.  `path` is the path of the configuration
file, `default_path` the directory of relative file arguments and `name` the
name of the connection. -/
def Directive.apply (env : Env) (path default_path name : CStr) :
    Directive → ImportState → ImportState
  | .client, st => { st with have_client := true }
  | .dev n, st => st.add NM_OPENVPN_KEY_DEV n
  | .dev_type kind, st => st.add NM_OPENVPN_KEY_DEV_TYPE kind
  | .proto p, st => if p = "udp".toList then st else st.add NM_OPENVPN_KEY_PROTO_TCP "yes".toList
  | .mssfix, st => st.add NM_OPENVPN_KEY_MSSFIX "yes".toList
  | .tun_mtu n _, st => st.add NM_OPENVPN_KEY_TUNNEL_MTU (print_nat (digits_value n))
  | .fragment n _, st => st.add NM_OPENVPN_KEY_FRAGMENT_SIZE (print_nat (digits_value n))
  | .comp_lzo _, st => st.add NM_OPENVPN_KEY_COMP_LZO "yes".toList
  | .float, st => st.add NM_OPENVPN_KEY_FLOAT "yes".toList
  | .reneg_sec n, st => st.add NM_OPENVPN_KEY_RENEG_SECONDS (print_nat (digits_value n))
  | .http_proxy server number authfile, st =>
    if st.proxy_set then st
    else
      match authfile with
      | none => store_proxy st "http".toList server (print_nat (digits_value number)) none none
      | some file =>
        let r := parse_http_proxy_auth env st.written path file
        if r.1 then
          store_proxy st "http".toList server (print_nat (digits_value number)) r.2.1 r.2.2
        else st
  | .socks_proxy server number, st =>
    if st.proxy_set then st
    else store_proxy st "socks".toList server (print_nat (digits_value number)) none none
  | .http_proxy_retry, st => st.add NM_OPENVPN_KEY_PROXY_RETRY "yes".toList
  | .socks_proxy_retry, st => st.add NM_OPENVPN_KEY_PROXY_RETRY "yes".toList
  | .remote d, st =>
    { st with have_remote := true }.add NM_OPENVPN_KEY_REMOTE
      (join_remote (nm_setting_vpn_get_data_item st.data NM_OPENVPN_KEY_REMOTE) d.entry)
  | .remote_random, st => st.add NM_OPENVPN_KEY_REMOTE_RANDOM "yes".toList
  | .port n, st => st.add NM_OPENVPN_KEY_PORT (print_nat (digits_value n))
  | .rport n, st => st.add NM_OPENVPN_KEY_PORT (print_nat (digits_value n))
  | .ping n, st => st.add NM_OPENVPN_KEY_PING (print_nat (digits_value n))
  | .ping_exit n, st => st.add NM_OPENVPN_KEY_PING_EXIT (print_nat (digits_value n))
  | .ping_restart n, st => st.add NM_OPENVPN_KEY_PING_RESTART (print_nat (digits_value n))
  | .pkcs12 file, st =>
    ((st.add NM_OPENVPN_KEY_CA (full_path default_path file)).add NM_OPENVPN_KEY_CERT
      (full_path default_path file)).add NM_OPENVPN_KEY_KEY (full_path default_path file)
  | .ca file, st => st.add NM_OPENVPN_KEY_CA (full_path default_path file)
  | .cert file, st => st.add NM_OPENVPN_KEY_CERT (full_path default_path file)
  | .key file, st => st.add NM_OPENVPN_KEY_KEY (full_path default_path file)
  | .block which content, st =>
    if blob_write_ok env name which st then
      blob_round_end which (blob_stored env name which (blob_content content) st)
    else blob_refused env st
  | .secret file direction, st =>
    { handle_direction NM_OPENVPN_KEY_STATIC_KEY_DIRECTION direction
        (st.add NM_OPENVPN_KEY_STATIC_KEY (full_path default_path file)) with have_sk := true }
  | .tls_auth file direction, st =>
    handle_direction NM_OPENVPN_KEY_TA_DIR direction
      (st.add NM_OPENVPN_KEY_TA (full_path default_path file))
  | .key_direction direction, st => { st with last_seen_key_direction := some direction }
  | .cipher n, st => st.add NM_OPENVPN_KEY_CIPHER n
  | .keepalive interval timeout, st =>
    (st.add NM_OPENVPN_KEY_PING (print_nat (digits_value interval))).add
      NM_OPENVPN_KEY_PING_RESTART (print_nat (digits_value timeout))
  | .keysize n, st => st.add NM_OPENVPN_KEY_KEYSIZE (print_nat (digits_value n))
  | .tls_remote n _, st => st.add NM_OPENVPN_KEY_TLS_REMOTE n
  | .remote_cert_tls kind, st => st.add NM_OPENVPN_KEY_REMOTE_CERT_TLS kind
  | .ifconfig local_ip remote_ip, st =>
    (st.add NM_OPENVPN_KEY_LOCAL_IP local_ip).add NM_OPENVPN_KEY_REMOTE_IP remote_ip
  | .auth_user_pass, st => { st with have_pass := true }
  | .auth n, st => st.add NM_OPENVPN_KEY_AUTH n
  | .route dest more, st =>
    match route_of_items (dest :: more) with
    | some r => { st with routes := nm_setting_ip_config_add_route st.routes r }
    | none => st

/-- The shapes of the values that valid directives store: an unquoted
argument, a file name, `yes`, one of two keywords, a number in canonical
decimal within a range, the value of `remote`, and a line of an auth file. -/
inductive ValueKind where
  | token
  | path
  | flag
  | keyword (a b : CStr)
  | number (lo hi : Nat)
  | remotes
  | line
deriving DecidableEq, Repr

/-- A line of an auth file as the import stores it: not empty, without blanks
at its ends and without a line terminator. -/
def line_ok (v : CStr) : Bool :=
  v != [] && decide (g_strstrip v = v) && v.all (fun c => c != cr && c != lf)

/-- A number from `lo` to `hi` in canonical decimal. -/
def canonical_ok (lo hi : Nat) (v : CStr) : Bool :=
  number_ok lo hi v && decide (print_nat (digits_value v) = v)

/-- A value of `remote` that valid `remote` directives have built. -/
def remotes_ok (v : CStr) : Prop :=
  ∃ rs : List RemoteDirective, rs ≠ [] ∧ (∀ r ∈ rs, (Directive.remote r).valid = true)
    ∧ v = List.intercalate ", ".toList (rs.map RemoteDirective.entry)

/-- Whether a value has the shape of a kind. -/
def ValueKind.ok : ValueKind → CStr → Prop
  | .token, v => token_ok v = true
  | .path, v => v ≠ []
  | .flag, v => v = "yes".toList
  | .keyword a b, v => v ≠ [] ∧ (v = a ∨ v = b)
  | .number lo hi, v => canonical_ok lo hi v = true
  | .remotes, v => remotes_ok v
  | .line, v => line_ok v = true

theorem bslash_not_quote : ¬ (bslash = dquote ∨ bslash = squote) := by decide
theorem bslash_not_space : g_ascii_isspace bslash = false := by decide

theorem args_step_lex (s : ArgsState) (c : Char) (h : mode_ok s) :
    lex_of (args_step s c) = (lex_of s).step s.pos c ∧ mode_ok (args_step s c)
      ∧ (args_step s c).pos = s.pos + 1 := by
  unfold mode_ok at h
  cases hm : s.mode <;> simp only [hm] at h <;>
    simp only [args_step, lex_of, mode_ok, hm, args_switch, Lex.step, Lex.enter] <;>
    (try split_ifs) <;> simp_all [bslash_not_quote, bslash_not_space]

theorem args_foldl_lex (input : CStr) (s : ArgsState) (h : mode_ok s) :
    lex_of (input.foldl args_step s) = (lex_of s).run s.pos input
      ∧ mode_ok (input.foldl args_step s) := by
  induction input generalizing s with
  | nil => exact ⟨rfl, h⟩
  | cons c cs ih =>
    obtain ⟨h1, h2, h3⟩ := args_step_lex s c h
    have := ih (args_step s c) h2
    simp only [List.foldl_cons, Lex.run]
    rw [h1, h3] at this
    exact this

theorem args_end_lex (s : ArgsState) (h : mode_ok s) :
    loop_error (args_end s) = (lex_of s).failure := by
  unfold mode_ok at h
  cases hm : s.mode <;> simp_all [args_end, lex_of, loop_error, Lex.failure]

theorem args_loop_error (s : ArgsState) (input : CStr) (h : mode_ok s) :
    loop_error (args_loop s input) = ((lex_of s).run s.pos input).failure := by
  obtain ⟨h1, h2⟩ := args_foldl_lex input s h
  rw [args_loop, args_end_lex _ h2, h1]


theorem skip_eq_dropWhile (l : CStr) :
    _ch_skip_over_leading_whitespace l = l.dropWhile g_ascii_isspace := by
  induction l with
  | nil => rfl
  | cons c cs ih =>
    simp only [_ch_skip_over_leading_whitespace, List.dropWhile_cons]
    split_ifs <;> simp_all

theorem lex_run_skip (l : CStr) (i : Nat) :
    Lex.run .between i l
      = Lex.run .between (i + (l.length - (l.dropWhile g_ascii_isspace).length))
          (l.dropWhile g_ascii_isspace) := by
  induction l generalizing i with
  | nil => simp
  | cons c cs ih =>
    by_cases hc : g_ascii_isspace c = true
    · have hle : (cs.dropWhile g_ascii_isspace).length ≤ cs.length :=
        (List.dropWhile_suffix _).length_le
      simp only [Lex.run, Lex.step, hc, if_true, List.dropWhile_cons, List.length_cons]
      rw [ih (i + 1)]
      congr 1
      omega
    · simp [List.dropWhile_cons, hc]

theorem lex_step_wf (s : Lex) (i : Nat) (c : Char) (h : s.wf) : (s.step i c).wf := by
  cases s <;> simp only [Lex.step, Lex.enter] <;> (try split_ifs) <;>
    simp_all [Lex.wf]

theorem lex_run_wf (l : CStr) (s : Lex) (i : Nat) (h : s.wf) : (s.run i l).wf := by
  induction l generalizing s i with
  | nil => exact h
  | cons c cs ih => exact ih _ _ (lex_step_wf s i c h)

theorem lex_failure_quote (s : Lex) (h : s.wf) (q : Char) (ws : Nat)
    (hf : s.failure = some (.unterminated q ws)) : q = dquote ∨ q = squote := by
  cases s <;> simp_all [Lex.failure, Lex.wf]

theorem args_parse_line_error_iff (line : CStr) (h : ∀ c ∈ line, c ≠ nul ∧ c ≠ lf)
    (e : ArgsError) :
    args_parse_line line = .error e ↔ spec_failure (drop_cr line) = some e := by
  have hany : line.any (fun c => c == nul || c == lf) = false := by
    rw [Bool.eq_false_iff]
    intro hc
    obtain ⟨c, hc1, hc2⟩ := List.any_eq_true.mp hc
    have := h c hc1
    simp_all
  unfold args_parse_line spec_failure drop_cr
  simp only [hany, Bool.false_eq_true, if_false, skip_eq_dropWhile]
  generalize (if line.getLast? = some cr then line.dropLast else line) = L
  cases hl : L.dropWhile g_ascii_isspace with
  | nil => simp
  | cons c cs =>
    simp only
    split_ifs with hc
    · simp
    · have hle := args_loop_error
        { mode := .between, word_start := L.length - (c :: cs).length,
          pos := L.length - (c :: cs).length, index := [],
          buf := { data := [], len := (c :: cs).length + 1 } } (c :: cs) trivial
      have hrun := lex_run_skip L 0
      rw [hl] at hrun
      simp only [lex_of, Nat.zero_add] at hle hrun
      rw [hrun, ← hle]
      cases hr : args_loop _ (c :: cs) <;> simp [loop_error]

theorem append_c_data (b : StrBuf) (c : Char) (h : 0 < b.len) :
    _strbuf_append_c b c = { data := b.data ++ [c], len := b.len - 1 } := by
  simp [_strbuf_append_c, h]

theorem foldl_escaped (s : CStr) (st : ArgsState) (hm : st.mode = .quoted dquote)
    (hlen : s.length ≤ st.buf.len) :
    (escape_all s).foldl args_step st
      = { st with pos := st.pos + 2 * s.length,
                  buf := { data := st.buf.data ++ s, len := st.buf.len - s.length } } := by
  induction s generalizing st with
  | nil => simp [escape_all]
  | cons c cs ih =>
    have hq : bslash ≠ dquote := by decide
    simp only [List.length_cons] at hlen
    have hpos : 0 < st.buf.len := by omega
    have h1 : args_step st bslash = { st with pos := st.pos + 1, mode := .quoted_escape dquote } := by
      simp [args_step, hm, hq]
    have h2 : args_step (args_step st bslash) c
        = { st with pos := st.pos + 2, buf := { data := st.buf.data ++ [c], len := st.buf.len - 1 } } := by
      rw [h1]
      simp [args_step, append_c_data _ _ hpos, hm]
    have : escape_all (c :: cs) = bslash :: c :: escape_all cs := by simp [escape_all]
    rw [this, List.foldl_cons, List.foldl_cons, h2]
    have hih := ih { st with pos := st.pos + 2,
                             buf := { data := st.buf.data ++ [c], len := st.buf.len - 1 } }
      (by simpa using hm) (by simp only; omega)
    rw [hih]
    simp only [List.length_cons, List.append_assoc, List.singleton_append]
    congr 1
    · omega
    · congr 1
      omega

theorem escape_all_length (s : CStr) : (escape_all s).length = 2 * s.length := by
  induction s with
  | nil => rfl
  | cons c cs ih =>
    have : escape_all (c :: cs) = bslash :: c :: escape_all cs := by simp [escape_all]
    rw [this]
    simp only [List.length_cons]
    omega

theorem cstr_at_zero (s : CStr) (h : ∀ c ∈ s, c ≠ nul) : cstr_at (s ++ [nul]) 0 = s := by
  unfold cstr_at
  simp only [List.drop_zero]
  induction s with
  | nil => simp [List.takeWhile]
  | cons c cs ih =>
    have hc : c ≠ nul := h c (List.mem_cons_self _ _)
    simp only [List.cons_append, List.takeWhile_cons, bne_iff_ne, ne_eq, hc, not_false_eq_true,
      if_true]
    rw [ih (fun d hd => h d (List.mem_cons_of_mem _ hd))]

theorem args_parse_line_plain (c : Char) (cs : CStr)
    (hany : (c :: cs).any (fun c => c == nul || c == lf) = false)
    (hlast : (c :: cs).getLast? ≠ some cr) (hsp : g_ascii_isspace c = false)
    (hcom : ¬ (c = semi ∨ c = hash)) :
    args_parse_line (c :: cs)
      = match args_loop (args_start (c :: cs).length) (c :: cs) with
        | .error e => .error e
        | .ok (index, buf) => .ok (some (index.map (cstr_at buf.data))) := by
  unfold args_parse_line
  simp only [hany, Bool.false_eq_true, if_false, hlast, _ch_skip_over_leading_whitespace, hsp,
    hcom, Nat.sub_self, args_start]

theorem args_loop_quoted (s : CStr) (n : Nat) (hn : s.length + 1 ≤ n + 1) :
    args_loop (args_start n) (dquote :: (escape_all s ++ [dquote]))
      = .ok ([0], { data := s ++ [nul], len := n + 1 - s.length - 1 }) := by
  have hsp : g_ascii_isspace dquote = false := by decide
  have h1 : args_step (args_start n) dquote
      = { mode := .quoted dquote, word_start := 0, pos := 1, index := [0],
          buf := { data := [], len := n + 1 } } := by
    simp [args_step, args_switch, hsp, args_start]
  rw [args_loop, List.foldl_cons, List.foldl_append, h1,
    foldl_escaped s _ rfl (by simp only; omega)]
  simp only [List.foldl_cons, List.foldl_nil, args_step, if_true, args_end, List.nil_append]
  rw [append_c_data _ _ (by simp only; omega)]

theorem args_parse_line_quoted (s : CStr) (h : ∀ c ∈ s, c ≠ nul ∧ c ≠ lf) :
    args_parse_line ([dquote] ++ escape_all s ++ [dquote]) = .ok (some [s]) := by
  have hany : (dquote :: (escape_all s ++ [dquote])).any (fun c => c == nul || c == lf) = false := by
    rw [Bool.eq_false_iff]
    intro hc
    obtain ⟨c, hc1, hc2⟩ := List.any_eq_true.mp hc
    simp only [escape_all, List.mem_append, List.mem_singleton, List.mem_flatMap, List.mem_cons,
      List.not_mem_nil, or_false] at hc1
    rcases hc1 with rfl | ⟨a, ha, rfl | rfl⟩ | rfl
    · revert hc2; decide
    · revert hc2; decide
    · have := h c ha
      simp_all
    · revert hc2; decide
  have hlast : (dquote :: (escape_all s ++ [dquote])).getLast? ≠ some cr := by
    rw [← List.singleton_append, ← List.append_assoc, List.getLast?_append]
    simp
    decide
  have hl := escape_all_length s
  rw [List.singleton_append, List.cons_append,
    args_parse_line_plain dquote _ hany hlast (by decide) (by decide),
    args_loop_quoted s _ (by simp only [List.length_cons, List.length_append]; omega)]
  simp only [List.map_cons, List.map_nil]
  rw [cstr_at_zero s (fun c hc => (h c hc).1)]

/-! ## The exporter -/

theorem do_export_missing_remote_aux (can_open : Bool) (path : CStr) (c : Connection)
    (h : nm_setting_vpn_get_data_item c.data NM_OPENVPN_KEY_REMOTE = none
      ∨ nm_setting_vpn_get_data_item c.data NM_OPENVPN_KEY_REMOTE = some []) :
    do_export can_open path c
      = .failure .FILE_NOT_OPENVPN (if can_open then MSG_MISSING_GATEWAY else MSG_CANNOT_OPEN) [] := by
  have hg : get_nonempty c.data NM_OPENVPN_KEY_REMOTE = none := by
    unfold get_nonempty
    rcases h with h | h <;> simp [h]
  cases can_open <;> simp [do_export, hg]

theorem notRem_append (a b : CStr) (h : NotRem a) : NotRem (a ++ b) := by
  obtain ⟨h1, h2⟩ := h
  refine ⟨by simp only [List.length_append]; omega, ?_⟩
  rw [List.take_append_of_le_length h1]
  exact h2

theorem notRem_append_right (a b : CStr) (h : a = [] ∨ NotRem a) (hb : NotRem b) :
    NotRem (a ++ b) := by
  rcases h with rfl | h
  · simpa using hb
  · exact notRem_append a b h

theorem notRem_kw (k : CStr) (x : CStr) (hk : 3 ≤ k.length) (hk2 : k.take 3 ≠ "rem".toList) :
    NotRem (k ++ x) := notRem_append k x ⟨hk, hk2⟩

theorem opt_line_notRem (k : CStr) (v : Option CStr) (hk : 3 ≤ (k ++ [' ']).length)
    (hk2 : (k ++ [' ']).take 3 ≠ "rem".toList) :
    opt_line k v = [] ∨ NotRem (opt_line k v) := by
  cases v with
  | none => left; rfl
  | some v =>
    right
    have : opt_line k (some v) = (k ++ [' ']) ++ (v ++ [lf]) := by simp [opt_line]
    rw [this]
    exact notRem_kw _ _ hk hk2

theorem dir_line_notRem (k p : CStr) (d : Option CStr) (hk : 3 ≤ (k ++ [' ']).length)
    (hk2 : (k ++ [' ']).take 3 ≠ "rem".toList) : NotRem (dir_line k p d) := by
  have : ∃ x, dir_line k p d = (k ++ [' ']) ++ x := by
    cases d with
    | none => exact ⟨p ++ ([] ++ [lf]), by simp only [dir_line, List.append_assoc]⟩
    | some v => exact ⟨p ++ ([' '] ++ v ++ [lf]), by simp only [dir_line, List.append_assoc]⟩
  obtain ⟨x, hx⟩ := this
  rw [hx]
  exact notRem_kw _ _ hk hk2

theorem export_certs_notRem (a b c : Option CStr) :
    export_certs a b c = [] ∨ NotRem (export_certs a b c) := by
  have hca := opt_line_notRem "ca".toList a (by decide) (by decide)
  have hcert := opt_line_notRem "cert".toList b (by decide) (by decide)
  have hkey := opt_line_notRem "key".toList c (by decide) (by decide)
  have hall : (opt_line "ca".toList a ++ opt_line "cert".toList b ++ opt_line "key".toList c) = []
      ∨ NotRem (opt_line "ca".toList a ++ opt_line "cert".toList b ++ opt_line "key".toList c) := by
    rcases hca with h1 | h1
    · rcases hcert with h2 | h2
      · rcases hkey with h3 | h3
        · left; rw [h1, h2, h3]; rfl
        · right; simp only [h1, h2, List.nil_append]; exact h3
      · right; rw [h1, List.nil_append]; exact notRem_append _ _ h2
    · right; rw [List.append_assoc]; exact notRem_append _ _ h1
  unfold export_certs
  split
  · split_ifs
    · right
      exact notRem_kw "pkcs12 ".toList _ (by decide) (by decide)
    · exact hall
  · exact hall

theorem export_options_notRem (path : CStr) (c : Connection) (ct : CStr) :
    NotRem (export_options path c ct).1 := by
  unfold export_options
  simp only [List.append_assoc]
  refine notRem_append_right _ _ (export_certs_notRem _ _ _) ?_
  refine notRem_append_right _ _ (by
    split_ifs
    · right; exact ⟨by decide, by decide⟩
    · left; rfl) ?_
  refine notRem_append_right _ _ (by
    split
    · right; exact dir_line_notRem _ _ _ (by decide) (by decide)
    · left; rfl) ?_
  refine notRem_append_right _ _ (opt_line_notRem _ _ (by decide) (by decide)) ?_
  refine notRem_append_right _ _ (opt_line_notRem _ _ (by decide) (by decide)) ?_
  refine notRem_append_right _ _ (opt_line_notRem _ _ (by decide) (by decide)) ?_
  refine notRem_append_right _ _ (by
    split_ifs
    · right; exact ⟨by decide, by decide⟩
    · left; rfl) ?_
  refine notRem_append_right _ _ (by
    split_ifs
    · right; exact ⟨by decide, by decide⟩
    · left; rfl) ?_
  refine notRem_append_right _ _ (by
    split_ifs
    · right; exact ⟨by decide, by decide⟩
    · left; rfl) ?_
  refine notRem_append_right _ _ (opt_line_notRem _ _ (by decide) (by decide)) ?_
  refine notRem_append_right _ _ (opt_line_notRem _ _ (by decide) (by decide)) ?_
  refine notRem_append _ _ ?_
  have : ∀ v : CStr, opt_line "dev".toList (some v) = "dev ".toList ++ (v ++ [lf]) := by
    intro v; simp [opt_line]
  rw [this]
  exact notRem_kw _ _ (by decide) (by decide)

theorem takeWhile_ne_self (x : Char) (l : CStr) (h : x ∉ l) :
    l.takeWhile (fun c => c != x) = l := by
  rw [List.takeWhile_eq_self_iff]
  intro c hc
  simp only [bne_iff_ne, ne_eq]
  rintro rfl
  exact h hc

theorem takeWhile_ne_append (x : Char) (l r : CStr) (h : x ∉ l) :
    (l ++ x :: r).takeWhile (fun c => c != x) = l := by
  induction l with
  | nil => simp
  | cons a l ih =>
    have ha : a ≠ x := fun e => h (e ▸ List.mem_cons_self _ _)
    simp only [List.cons_append, List.takeWhile_cons, bne_iff_ne, ne_eq, ha, not_false_eq_true,
      if_true]
    rw [ih (fun hx => h (List.mem_cons_of_mem _ hx))]

theorem contains_false (x : Char) (l : CStr) (h : x ∉ l) : l.contains x = false := by
  simpa using h

theorem export_remote_line_host (e host : CStr) (he : g_strstrip e = host) (h : ':' ∉ host) :
    export_remote_line e = "remote ".toList ++ host ++ [lf] := by
  unfold export_remote_line
  simp only [he, takeWhile_ne_self _ _ h, contains_false _ _ h]
  simp

theorem drop_append_cons (x : Char) (l r : CStr) : (l ++ x :: r).drop (l.length + 1) = r := by
  induction l with
  | nil => rfl
  | cons a l ih => simp

theorem contains_append_cons (x : Char) (l r : CStr) : (l ++ x :: r).contains x = true := by
  simp

theorem export_remote_line_port (e host port : CStr) (he : g_strstrip e = host ++ [':'] ++ port)
    (h : ':' ∉ host) (hp : ':' ∉ port) (hne : port ≠ []) :
    export_remote_line e = "remote ".toList ++ host ++ [' '] ++ port ++ [lf] := by
  have he2 : g_strstrip e = host ++ ':' :: port := by simp [he]
  unfold export_remote_line
  simp only [he2, takeWhile_ne_append _ _ _ h, contains_append_cons, if_true, drop_append_cons,
    contains_false _ _ hp, takeWhile_ne_self _ _ hp, hne, if_false, Bool.false_eq_true]
  simp

theorem export_remote_line_proto (e host port proto : CStr)
    (he : g_strstrip e = host ++ [':'] ++ port ++ [':'] ++ proto)
    (h : ':' ∉ host) (hp : ':' ∉ port) (hne : port ≠ []) (hpr : proto ≠ []) :
    export_remote_line e
      = "remote ".toList ++ host ++ [' '] ++ port ++ [' '] ++ proto ++ [lf] := by
  have he2 : g_strstrip e = host ++ ':' :: (port ++ ':' :: proto) := by simp [he]
  unfold export_remote_line
  simp only [he2, takeWhile_ne_append _ _ _ h, contains_append_cons, if_true, drop_append_cons,
    takeWhile_ne_append _ _ _ hp, hne, hpr, if_false]
  simp

theorem take_six_of_notRem (x : CStr) (h : NotRem x) : x.take 6 ≠ "remote".toList := by
  intro h6
  apply h.2
  have : x.take 3 = (x.take 6).take 3 := by simp [List.take_take]
  rw [this, h6]
  rfl

theorem do_export_success (can_open : Bool) (path : CStr) (c : Connection) (text : CStr)
    (auth : Option (CStr × CStr)) (h : do_export can_open path c = .success text auth) :
    ∃ gateways connection_type,
      get_nonempty c.data NM_OPENVPN_KEY_REMOTE = some gateways
      ∧ text = (export_text path c connection_type).1 := by
  unfold do_export at h
  cases can_open with
  | false => simp at h
  | true =>
    cases hg : get_nonempty c.data NM_OPENVPN_KEY_REMOTE with
    | none => simp [hg] at h
    | some g =>
      cases ht : get_nonempty c.data NM_OPENVPN_KEY_CONNECTION_TYPE with
      | none => simp [hg, ht] at h
      | some t =>
        simp only [hg, ht] at h
        refine ⟨g, t, rfl, ?_⟩
        injection h with h1 h2
        exact h1.symm

/-- C8: when the `remote` setting is missing or empty, `do_export` returns
failure with `FILE_NOT_OPENVPN` and prints nothing at all, not even `client`;
with a destination that can be opened the message is the missing-gateway one. -/
theorem do_export_missing_remote (can_open : Bool) (path : CStr) (c : Connection)
    (h : nm_setting_vpn_get_data_item c.data NM_OPENVPN_KEY_REMOTE = none
      ∨ nm_setting_vpn_get_data_item c.data NM_OPENVPN_KEY_REMOTE = some []) :
    do_export can_open path c
      = .failure .FILE_NOT_OPENVPN (if can_open then MSG_MISSING_GATEWAY else MSG_CANNOT_OPEN) [] :=
  do_export_missing_remote_aux can_open path c h

theorem do_export_missing_remote_witness :
    (nm_setting_vpn_get_data_item conn_empty.data NM_OPENVPN_KEY_REMOTE = none
      ∨ nm_setting_vpn_get_data_item conn_empty.data NM_OPENVPN_KEY_REMOTE = some [])
    ∧ do_export true "/tmp/x.ovpn".toList conn_empty
      = .failure .FILE_NOT_OPENVPN MSG_MISSING_GATEWAY [] :=
  ⟨by decide, do_export_missing_remote true _ conn_empty (by decide)⟩

/-- C9: for a connection whose only setting is `remote = h`, so that the
connection type is absent, `do_export` on a destination that can be opened
hands the `NULL` connection type to `strcmp` instead of succeeding. -/
theorem do_export_without_connection_type :
    do_export true "/tmp/x.ovpn".toList conn_remote_only = .undefined := by
  decide

/-- C10, as stated, fails: the `remote` value made of a tab and `h1` splits
into the single entry tab-`h1`, which has the form `host`, but the line
written for it is `remote h1`, without the tab. -/
theorem do_export_strips_entry :
    (g_strsplit_set [tab, 'h', '1'] [' ', ',']).filter (fun p => p != []) = [[tab, 'h', '1']]
    ∧ ∃ text auth, do_export true "/tmp/x.ovpn".toList (conn_gateways [tab, 'h', '1'] false)
          = .success text auth
        ∧ text.take 17 = "client\nremote h1\n".toList
        ∧ text.take 18 ≠ "client\nremote ".toList ++ [tab] ++ "h1\n".toList := by
  refine ⟨by decide, _, _, rfl, by decide, by decide⟩

/-- C10, amended: a successful export starts with `client`, followed by one
`remote` line for every non-empty piece of the `remote` value split at commas
and spaces, in order, followed by `remote-random` exactly when that setting is
`yes` (what comes next does not begin with `remote`).  The line of a piece is
made from the piece without its leading and trailing whitespace: `host`,
`host:port` and `host:port:proto` are written `remote host`,
`remote host port` and `remote host port proto`. -/
theorem do_export_head (can_open : Bool) (path : CStr) (c : Connection) (text : CStr)
    (auth : Option (CStr × CStr)) (h : do_export can_open path c = .success text auth) :
    (∃ gateways tail,
      get_nonempty c.data NM_OPENVPN_KEY_REMOTE = some gateways
      ∧ text = "client\n".toList
          ++ ((g_strsplit_set gateways [' ', ',']).filter (fun p => p != [])).flatMap
              export_remote_line
          ++ (if nm_setting_vpn_get_data_item c.data NM_OPENVPN_KEY_REMOTE_RANDOM
                = some "yes".toList then "remote-random\n".toList else [])
          ++ tail
      ∧ tail.take 6 ≠ "remote".toList)
    ∧ (∀ e host : CStr, g_strstrip e = host → ':' ∉ host →
        export_remote_line e = "remote ".toList ++ host ++ [lf])
    ∧ (∀ e host port : CStr, g_strstrip e = host ++ [':'] ++ port → ':' ∉ host → ':' ∉ port →
        port ≠ [] → export_remote_line e = "remote ".toList ++ host ++ [' '] ++ port ++ [lf])
    ∧ (∀ e host port proto : CStr, g_strstrip e = host ++ [':'] ++ port ++ [':'] ++ proto →
        ':' ∉ host → ':' ∉ port → port ≠ [] → proto ≠ [] →
        export_remote_line e
          = "remote ".toList ++ host ++ [' '] ++ port ++ [' '] ++ proto ++ [lf]) := by
  refine ⟨?_, export_remote_line_host, export_remote_line_port, export_remote_line_proto⟩
  obtain ⟨g, t, hg, ht⟩ := do_export_success can_open path c text auth h
  refine ⟨g, (export_options path c t).1, hg, ?_, take_six_of_notRem _
    (export_options_notRem path c t)⟩
  rw [ht]
  simp only [export_text, hg, Option.getD_some, export_remotes, is_yes, decide_eq_true_eq]

theorem do_export_head_witness :
    do_export true "/tmp/x.ovpn".toList (conn_gateways "h1, h2".toList true)
      = .success ("client\nremote h1\nremote h2\nremote-random\ndev tun\nproto udp\n".toList
          ++ EXPORT_TRAILER) none
    ∧ ∃ gateways tail,
      get_nonempty (conn_gateways "h1, h2".toList true).data NM_OPENVPN_KEY_REMOTE = some gateways
      ∧ "client\nremote h1\nremote h2\nremote-random\ndev tun\nproto udp\n".toList ++ EXPORT_TRAILER
        = "client\n".toList
          ++ ((g_strsplit_set gateways [' ', ',']).filter (fun p => p != [])).flatMap
              export_remote_line
          ++ (if nm_setting_vpn_get_data_item (conn_gateways "h1, h2".toList true).data
                NM_OPENVPN_KEY_REMOTE_RANDOM = some "yes".toList
              then "remote-random\n".toList else [])
          ++ tail
      ∧ tail.take 6 ≠ "remote".toList :=
  ⟨by decide,
   (do_export_head true "/tmp/x.ovpn".toList (conn_gateways "h1, h2".toList true) _ none
      (by decide)).1⟩

/-! ## The importer: which block takes a line -/

theorem first_word_append (w r : CStr) (hns : ∀ c ∈ w, g_ascii_isspace c = false)
    (hr : r = [] ∨ ∃ c cs, r = c :: cs ∧ g_ascii_isspace c = true) :
    first_word (w ++ r) = w := by
  unfold first_word
  induction w with
  | nil =>
    rcases hr with rfl | ⟨c, cs, rfl, hc⟩
    · rfl
    · simp [hc]
  | cons a w ih =>
    have ha := hns a (List.mem_cons_self _ _)
    simp only [List.cons_append, List.takeWhile_cons, ha, Bool.not_false, if_true]
    rw [ih (fun c hc => hns c (List.mem_cons_of_mem _ hc))]

theorem dropWhile_head (p : Char → Bool) (l : CStr) :
    l.dropWhile p = [] ∨ ∃ c cs, l.dropWhile p = c :: cs ∧ p c = false := by
  induction l with
  | nil => left; rfl
  | cons a l ih =>
    by_cases ha : p a = true
    · simpa [List.dropWhile_cons, ha] using ih
    · right
      exact ⟨a, l, by simp [List.dropWhile_cons, ha], by simpa using ha⟩

theorem args_is_option_core (line w : CStr) (n : Nat) (hn : n = w.length)
    (hns : ∀ c ∈ w, g_ascii_isspace c = false) :
    (if line.take n != w then false
      else match line.drop n with
        | [] => true
        | c :: _ => g_ascii_isspace c) = decide (first_word line = w) := by
  subst hn
  by_cases h : first_word line = w
  · have hsplit : line = w ++ line.dropWhile (fun c => !g_ascii_isspace c) := by
      conv_lhs => rw [← List.takeWhile_append_dropWhile (fun c => !g_ascii_isspace c) line]
      rw [← h, first_word]
    have htake : line.take w.length = w := by
      rw [hsplit, List.take_left']
      rfl
    have hdrop : line.drop w.length = line.dropWhile (fun c => !g_ascii_isspace c) := by
      conv_lhs => rw [hsplit]
      rw [List.drop_left']
      rfl
    simp only [htake, bne_self_eq_false, Bool.false_eq_true, if_false, hdrop, h, decide_True]
    rcases dropWhile_head (fun c => !g_ascii_isspace c) line with h0 | ⟨c, cs, h1, h2⟩
    · rw [h0]
    · rw [h1]
      simpa using h2
  · simp only [h, decide_False]
    by_cases ht : line.take w.length = w
    · simp only [ht, bne_self_eq_false, Bool.false_eq_true, if_false]
      have hline : line = w ++ line.drop w.length := by
        conv_lhs => rw [← List.take_append_drop w.length line, ht]
      cases hd : line.drop w.length with
      | nil =>
        exfalso
        apply h
        rw [hline, hd]
        exact first_word_append w [] hns (Or.inl rfl)
      | cons c cs =>
        simp only
        by_contra hc
        apply h
        rw [hline, hd]
        exact first_word_append w (c :: cs) hns (Or.inr ⟨c, cs, rfl, by simpa using hc⟩)
    · simp [ht]

theorem args_is_option_word (line w : CStr) (hw : w ≠ [])
    (hns : ∀ c ∈ w, g_ascii_isspace c = false) :
    args_is_option line w = decide (first_word line = w) := by
  unfold args_is_option
  obtain ⟨last, hl⟩ : ∃ last, w.getLast? = some last := by
    cases h : w.getLast? with
    | none => exact absurd (List.getLast?_eq_none_iff.mp h) hw
    | some l => exact ⟨l, rfl⟩
  have hmem : last ∈ w := List.mem_of_getLast?_eq_some hl
  simp only [hl, hns last hmem, Bool.false_eq_true, if_false]
  have := args_is_option_core line w w.length rfl hns
  simpa using this

theorem args_is_option_word_space (line w : CStr)
    (hns : ∀ c ∈ w, g_ascii_isspace c = false) :
    args_is_option line (w ++ [' ']) = decide (first_word line = w) := by
  unfold args_is_option
  have hsp : g_ascii_isspace ' ' = true := by decide
  have hlast : (w ++ [' ']).getLast? = some ' ' := by simp
  have htake : (w ++ [' ']).take w.length = w := by simp
  simp only [hlast, hsp, if_true, List.length_append, List.length_singleton, Nat.add_sub_cancel,
    htake]
  exact args_is_option_core line w w.length rfl hns

theorem is_option_AUTH (line : CStr) :
    args_is_option line TAG_AUTH = decide (first_word line = "auth".toList) :=
  args_is_option_word_space line "auth".toList (by decide)

theorem is_option_AUTH_USER_PASS (line : CStr) :
    args_is_option line TAG_AUTH_USER_PASS = decide (first_word line = "auth-user-pass".toList) :=
  args_is_option_word line "auth-user-pass".toList (by decide) (by decide)

theorem is_option_CA (line : CStr) :
    args_is_option line TAG_CA = decide (first_word line = "ca".toList) :=
  args_is_option_word_space line "ca".toList (by decide)

theorem is_option_CERT (line : CStr) :
    args_is_option line TAG_CERT = decide (first_word line = "cert".toList) :=
  args_is_option_word_space line "cert".toList (by decide)

theorem is_option_CIPHER (line : CStr) :
    args_is_option line TAG_CIPHER = decide (first_word line = "cipher".toList) :=
  args_is_option_word_space line "cipher".toList (by decide)

theorem is_option_KEYSIZE (line : CStr) :
    args_is_option line TAG_KEYSIZE = decide (first_word line = "keysize".toList) :=
  args_is_option_word_space line "keysize".toList (by decide)

theorem is_option_CLIENT (line : CStr) :
    args_is_option line TAG_CLIENT = decide (first_word line = "client".toList) :=
  args_is_option_word line "client".toList (by decide) (by decide)

theorem is_option_COMP_LZO (line : CStr) :
    args_is_option line TAG_COMP_LZO = decide (first_word line = "comp-lzo".toList) :=
  args_is_option_word line "comp-lzo".toList (by decide) (by decide)

theorem is_option_FLOAT (line : CStr) :
    args_is_option line TAG_FLOAT = decide (first_word line = "float".toList) :=
  args_is_option_word line "float".toList (by decide) (by decide)

theorem is_option_DEV (line : CStr) :
    args_is_option line TAG_DEV = decide (first_word line = "dev".toList) :=
  args_is_option_word_space line "dev".toList (by decide)

theorem is_option_DEV_TYPE (line : CStr) :
    args_is_option line TAG_DEV_TYPE = decide (first_word line = "dev-type".toList) :=
  args_is_option_word_space line "dev-type".toList (by decide)

theorem is_option_FRAGMENT (line : CStr) :
    args_is_option line TAG_FRAGMENT = decide (first_word line = "fragment".toList) :=
  args_is_option_word_space line "fragment".toList (by decide)

theorem is_option_IFCONFIG (line : CStr) :
    args_is_option line TAG_IFCONFIG = decide (first_word line = "ifconfig".toList) :=
  args_is_option_word_space line "ifconfig".toList (by decide)

theorem is_option_KEY (line : CStr) :
    args_is_option line TAG_KEY = decide (first_word line = "key".toList) :=
  args_is_option_word_space line "key".toList (by decide)

theorem is_option_KEEPALIVE (line : CStr) :
    args_is_option line TAG_KEEPALIVE = decide (first_word line = "keepalive".toList) :=
  args_is_option_word_space line "keepalive".toList (by decide)

theorem is_option_MSSFIX (line : CStr) :
    args_is_option line TAG_MSSFIX = decide (first_word line = "mssfix".toList) :=
  args_is_option_word line "mssfix".toList (by decide) (by decide)

theorem is_option_PING (line : CStr) :
    args_is_option line TAG_PING = decide (first_word line = "ping".toList) :=
  args_is_option_word_space line "ping".toList (by decide)

theorem is_option_PING_EXIT (line : CStr) :
    args_is_option line TAG_PING_EXIT = decide (first_word line = "ping-exit".toList) :=
  args_is_option_word_space line "ping-exit".toList (by decide)

theorem is_option_PING_RESTART (line : CStr) :
    args_is_option line TAG_PING_RESTART = decide (first_word line = "ping-restart".toList) :=
  args_is_option_word_space line "ping-restart".toList (by decide)

theorem is_option_PKCS12 (line : CStr) :
    args_is_option line TAG_PKCS12 = decide (first_word line = "pkcs12".toList) :=
  args_is_option_word_space line "pkcs12".toList (by decide)

theorem is_option_PORT (line : CStr) :
    args_is_option line TAG_PORT = decide (first_word line = "port".toList) :=
  args_is_option_word_space line "port".toList (by decide)

theorem is_option_PROTO (line : CStr) :
    args_is_option line TAG_PROTO = decide (first_word line = "proto".toList) :=
  args_is_option_word_space line "proto".toList (by decide)

theorem is_option_HTTP_PROXY (line : CStr) :
    args_is_option line TAG_HTTP_PROXY = decide (first_word line = "http-proxy".toList) :=
  args_is_option_word_space line "http-proxy".toList (by decide)

theorem is_option_HTTP_PROXY_RETRY (line : CStr) :
    args_is_option line TAG_HTTP_PROXY_RETRY = decide (first_word line = "http-proxy-retry".toList) :=
  args_is_option_word line "http-proxy-retry".toList (by decide) (by decide)

theorem is_option_SOCKS_PROXY (line : CStr) :
    args_is_option line TAG_SOCKS_PROXY = decide (first_word line = "socks-proxy".toList) :=
  args_is_option_word_space line "socks-proxy".toList (by decide)

theorem is_option_SOCKS_PROXY_RETRY (line : CStr) :
    args_is_option line TAG_SOCKS_PROXY_RETRY = decide (first_word line = "socks-proxy-retry".toList) :=
  args_is_option_word line "socks-proxy-retry".toList (by decide) (by decide)

theorem is_option_REMOTE (line : CStr) :
    args_is_option line TAG_REMOTE = decide (first_word line = "remote".toList) :=
  args_is_option_word_space line "remote".toList (by decide)

theorem is_option_REMOTE_RANDOM (line : CStr) :
    args_is_option line TAG_REMOTE_RANDOM = decide (first_word line = "remote-random".toList) :=
  args_is_option_word line "remote-random".toList (by decide) (by decide)

theorem is_option_RENEG_SEC (line : CStr) :
    args_is_option line TAG_RENEG_SEC = decide (first_word line = "reneg-sec".toList) :=
  args_is_option_word_space line "reneg-sec".toList (by decide)

theorem is_option_RPORT (line : CStr) :
    args_is_option line TAG_RPORT = decide (first_word line = "rport".toList) :=
  args_is_option_word_space line "rport".toList (by decide)

theorem is_option_SECRET (line : CStr) :
    args_is_option line TAG_SECRET = decide (first_word line = "secret".toList) :=
  args_is_option_word_space line "secret".toList (by decide)

theorem is_option_TLS_AUTH (line : CStr) :
    args_is_option line TAG_TLS_AUTH = decide (first_word line = "tls-auth".toList) :=
  args_is_option_word_space line "tls-auth".toList (by decide)

theorem is_option_KEY_DIRECTION (line : CStr) :
    args_is_option line TAG_KEY_DIRECTION = decide (first_word line = "key-direction".toList) :=
  args_is_option_word_space line "key-direction".toList (by decide)

theorem is_option_TLS_CLIENT (line : CStr) :
    args_is_option line TAG_TLS_CLIENT = decide (first_word line = "tls-client".toList) :=
  args_is_option_word line "tls-client".toList (by decide) (by decide)

theorem is_option_TLS_REMOTE (line : CStr) :
    args_is_option line TAG_TLS_REMOTE = decide (first_word line = "tls-remote".toList) :=
  args_is_option_word_space line "tls-remote".toList (by decide)

theorem is_option_REMOTE_CERT_TLS (line : CStr) :
    args_is_option line TAG_REMOTE_CERT_TLS = decide (first_word line = "remote-cert-tls".toList) :=
  args_is_option_word_space line "remote-cert-tls".toList (by decide)

theorem is_option_TUN_MTU (line : CStr) :
    args_is_option line TAG_TUN_MTU = decide (first_word line = "tun-mtu".toList) :=
  args_is_option_word_space line "tun-mtu".toList (by decide)

theorem is_option_ROUTE (line : CStr) :
    args_is_option line TAG_ROUTE = decide (first_word line = "route".toList) :=
  args_is_option_word_space line "route".toList (by decide)

/-! ## The importer: what the blocks leave alone -/

theorem lookup_filter_ne {β : Type} (k k' : CStr) (m : List (CStr × β)) (h : k' ≠ k) :
    (m.filter (fun e => e.1 != k)).lookup k' = m.lookup k' := by
  induction m with
  | nil => rfl
  | cons e m ih =>
    obtain ⟨a, b⟩ := e
    by_cases ha : a = k
    · subst ha
      have : (k' == a) = false := by simpa using h
      simp [List.filter_cons, List.lookup_cons, this, ih]
    · have hane : (a != k) = true := by simpa using ha
      simp only [List.filter_cons, hane, if_true, List.lookup_cons]
      rw [ih]

theorem lookup_table_insert_ne {β : Type} (k k' : CStr) (v : β) (m : List (CStr × β))
    (h : k' ≠ k) : (table_insert k v m).lookup k' = m.lookup k' := by
  have : (k' == k) = false := by simpa using h
  simp only [table_insert, List.lookup_cons, this]
  exact lookup_filter_ne k k' m h

theorem lookup_table_insert_eq {β : Type} (k : CStr) (v : β) (m : List (CStr × β)) :
    (table_insert k v m).lookup k = some v := by
  simp [table_insert, List.lookup_cons]

theorem get_add_ne (data : List (CStr × CStr)) (key item k : CStr) (h : k ≠ key) :
    nm_setting_vpn_get_data_item (nm_setting_vpn_add_data_item data key item) k
      = nm_setting_vpn_get_data_item data k := by
  unfold nm_setting_vpn_get_data_item nm_setting_vpn_add_data_item
  split_ifs
  · rfl
  · exact lookup_table_insert_ne key k item data h

theorem get_add_eq (data : List (CStr × CStr)) (key item : CStr) (hk : key ≠ []) (hi : item ≠ []) :
    nm_setting_vpn_get_data_item (nm_setting_vpn_add_data_item data key item) key = some item := by
  unfold nm_setting_vpn_get_data_item nm_setting_vpn_add_data_item
  simp only [hk, hi, or_self, if_false]
  exact lookup_table_insert_eq key item data

theorem frame_refl (a : ImportState) : Frame a a := ⟨rfl, rfl, rfl, rfl, rfl, rfl⟩

theorem frame_trans {a b c : ImportState} (h1 : Frame a b) (h2 : Frame b c) : Frame a c := by
  unfold Frame at h1 h2 ⊢
  refine ⟨?_, ?_, ?_, ?_, ?_, ?_⟩
  · rw [h2.1, h1.1]
  · rw [h2.2.1, h1.2.1]
  · rw [h2.2.2.1, h1.2.2.1]
  · rw [h2.2.2.2.1, h1.2.2.2.1]
  · rw [h2.2.2.2.2.1, h1.2.2.2.2.1]
  · rw [h2.2.2.2.2.2, h1.2.2.2.2.2]

theorem frame_add (st : ImportState) (key item : CStr) (h1 : NM_OPENVPN_KEY_REMOTE ≠ key)
    (h2 : NM_OPENVPN_KEY_CONNECTION_TYPE ≠ key) : Frame st (st.add key item) :=
  ⟨rfl, rfl, rfl, rfl, get_add_ne _ _ _ _ h1, get_add_ne _ _ _ _ h2⟩

theorem frameOpt_none (a : ImportState) : FrameOpt a none := by
  intro b h; cases h

theorem frameOpt_some {a b : ImportState} (h : Frame a b) : FrameOpt a (some b) := by
  intro c hc; cases hc; exact h

theorem frameOpt_or {a : ImportState} {r s : Option ImportState} (h1 : FrameOpt a r)
    (h2 : FrameOpt a s) : FrameOpt a (r.or s) := by
  cases r with
  | none => simpa using h2
  | some x => simpa using h1

theorem frame_handle_direction (key : CStr) (l : Option CStr) (st : ImportState)
    (h1 : NM_OPENVPN_KEY_REMOTE ≠ key) (h2 : NM_OPENVPN_KEY_CONNECTION_TYPE ≠ key) :
    Frame st (handle_direction key l st) := by
  unfold handle_direction
  try dsimp only
  repeat' split
  all_goals first | exact frame_refl _ | exact frame_add _ _ _ h1 h2

theorem frameOpt_one_arg (env : Env) (line : Line) (tag key : CStr) (st : ImportState)
    (h1 : NM_OPENVPN_KEY_REMOTE ≠ key) (h2 : NM_OPENVPN_KEY_CONNECTION_TYPE ≠ key) :
    FrameOpt st (import_one_arg env line tag key st) := by
  intro b hb
  unfold import_one_arg at hb
  try dsimp only at hb
  repeat' split at hb
  all_goals cases hb
  all_goals first | exact frame_refl _ | exact frame_add _ _ _ h1 h2

theorem frameOpt_keyword (env : Env) (line : Line) (tag key k1 k2 : CStr) (st : ImportState)
    (h1 : NM_OPENVPN_KEY_REMOTE ≠ key) (h2 : NM_OPENVPN_KEY_CONNECTION_TYPE ≠ key) :
    FrameOpt st (import_keyword env line tag key k1 k2 st) := by
  intro b hb
  unfold import_keyword at hb
  try dsimp only at hb
  repeat' split at hb
  all_goals cases hb
  all_goals first | exact frame_refl _ | exact frame_add _ _ _ h1 h2

theorem frameOpt_size_item (env : Env) (line : Line) (tag key : CStr) (st : ImportState)
    (h1 : NM_OPENVPN_KEY_REMOTE ≠ key) (h2 : NM_OPENVPN_KEY_CONNECTION_TYPE ≠ key) :
    FrameOpt st (import_size_item env line tag key st) := by
  intro b hb
  unfold import_size_item at hb
  try dsimp only at hb
  repeat' split at hb
  all_goals cases hb
  all_goals first | exact frame_refl _ | exact frame_add _ _ _ h1 h2

theorem frameOpt_num_seconds (env : Env) (line : Line) (tag key : CStr) (st : ImportState)
    (h1 : NM_OPENVPN_KEY_REMOTE ≠ key) (h2 : NM_OPENVPN_KEY_CONNECTION_TYPE ≠ key) :
    FrameOpt st (handle_num_seconds_item env line tag key st) := by
  intro b hb
  unfold handle_num_seconds_item at hb
  try dsimp only at hb
  repeat' split at hb
  all_goals cases hb
  all_goals first | exact frame_refl _ | exact frame_add _ _ _ h1 h2

theorem frameOpt_flag (line : Line) (tag key : CStr) (st : ImportState)
    (h1 : NM_OPENVPN_KEY_REMOTE ≠ key) (h2 : NM_OPENVPN_KEY_CONNECTION_TYPE ≠ key) :
    FrameOpt st (import_flag line tag key st) := by
  intro b hb
  unfold import_flag at hb
  repeat' split at hb
  all_goals cases hb
  all_goals first | exact frame_refl _ | exact frame_add _ _ _ h1 h2

theorem frameOpt_key_direction (env : Env) (line : Line) (st : ImportState) :
    FrameOpt st (import_key_direction env line st) := by
  intro b hb
  unfold import_key_direction at hb
  repeat' split at hb
  all_goals cases hb
  all_goals exact ⟨rfl, rfl, rfl, rfl, rfl, rfl⟩

theorem frameOpt_proto (env : Env) (line : Line) (st : ImportState) :
    FrameOpt st (import_proto env line st) := by
  intro b hb
  unfold import_proto at hb
  try dsimp only at hb
  repeat' split at hb
  all_goals cases hb
  all_goals first | exact frame_refl _ | exact frame_add _ _ _ (by decide) (by decide)

theorem frameOpt_reneg_sec (env : Env) (line : Line) (st : ImportState) :
    FrameOpt st (import_reneg_sec env line st) := by
  intro b hb
  unfold import_reneg_sec at hb
  try dsimp only at hb
  repeat' split at hb
  all_goals cases hb
  all_goals first | exact frame_refl _ | exact frame_add _ _ _ (by decide) (by decide)

theorem frameOpt_proxy_retry (line : Line) (st : ImportState) :
    FrameOpt st (import_proxy_retry line st) := by
  intro b hb
  unfold import_proxy_retry at hb
  repeat' split at hb
  all_goals cases hb
  all_goals first | exact frame_refl _ | exact frame_add _ _ _ (by decide) (by decide)

theorem frameOpt_port (env : Env) (line : Line) (st : ImportState) :
    FrameOpt st (import_port env line st) := by
  intro b hb
  unfold import_port at hb
  try dsimp only at hb
  repeat' split at hb
  all_goals cases hb
  all_goals first | exact frame_refl _ | exact frame_add _ _ _ (by decide) (by decide)

theorem frameOpt_keepalive (env : Env) (line : Line) (st : ImportState) :
    FrameOpt st (import_keepalive env line st) := by
  intro b hb
  unfold import_keepalive at hb
  try dsimp only at hb
  repeat' split at hb
  all_goals cases hb
  all_goals first
    | exact frame_refl _
    | exact frame_trans (frame_add _ _ _ (by decide) (by decide))
        (frame_add _ _ _ (by decide) (by decide))

theorem frameOpt_keysize (env : Env) (line : Line) (st : ImportState) :
    FrameOpt st (import_keysize env line st) := by
  intro b hb
  unfold import_keysize at hb
  try dsimp only at hb
  repeat' split at hb
  all_goals cases hb
  all_goals first | exact frame_refl _ | exact frame_add _ _ _ (by decide) (by decide)

theorem frameOpt_tls_remote (env : Env) (line : Line) (st : ImportState) :
    FrameOpt st (import_tls_remote env line st) := by
  intro b hb
  unfold import_tls_remote at hb
  try dsimp only at hb
  repeat' split at hb
  all_goals cases hb
  all_goals first | exact frame_refl _ | exact frame_add _ _ _ (by decide) (by decide)

theorem frameOpt_ifconfig (env : Env) (line : Line) (st : ImportState) :
    FrameOpt st (import_ifconfig env line st) := by
  intro b hb
  unfold import_ifconfig at hb
  try dsimp only at hb
  repeat' split at hb
  all_goals cases hb
  all_goals first
    | exact frame_refl _
    | exact frame_trans (frame_add _ _ _ (by decide) (by decide))
        (frame_add _ _ _ (by decide) (by decide))

theorem frameOpt_route (env : Env) (line : Line) (st : ImportState) :
    FrameOpt st (import_route env line st) := by
  intro b hb
  unfold import_route at hb
  try dsimp only at hb
  repeat' split at hb
  all_goals cases hb
  all_goals exact ⟨rfl, rfl, rfl, rfl, rfl, rfl⟩

theorem frame_handle_path_item (env : Env) (line : Line) (tag key : CStr) (st : ImportState)
    (path : CStr) (h1 : NM_OPENVPN_KEY_REMOTE ≠ key) (h2 : NM_OPENVPN_KEY_CONNECTION_TYPE ≠ key) :
    Frame st (handle_path_item env line tag key st path).2.1 := by
  unfold handle_path_item
  try dsimp only
  repeat' split
  all_goals first | exact frame_refl _ | exact frame_add _ _ _ h1 h2

theorem frameOpt_path (env : Env) (dp : CStr) (line : Line) (tag key : CStr) (st : ImportState)
    (h1 : NM_OPENVPN_KEY_REMOTE ≠ key) (h2 : NM_OPENVPN_KEY_CONNECTION_TYPE ≠ key) :
    FrameOpt st (import_path env dp line tag key st) := by
  intro b hb
  unfold import_path at hb
  try dsimp only at hb
  split at hb
  · cases hb
    exact frame_handle_path_item env line tag key st dp h1 h2
  · cases hb

theorem frame_pkcs12 (env : Env) (dp : CStr) (line : Line) (st : ImportState) :
    Frame st (import_pkcs12 env dp line st).2 := by
  unfold import_pkcs12
  try dsimp only
  have f1 := frame_handle_path_item env line TAG_PKCS12 NM_OPENVPN_KEY_CA st dp (by decide)
    (by decide)
  have f2 := frame_handle_path_item env line TAG_PKCS12 NM_OPENVPN_KEY_CERT
    (handle_path_item env line TAG_PKCS12 NM_OPENVPN_KEY_CA st dp).2.1 dp (by decide) (by decide)
  have f3 := frame_handle_path_item env line TAG_PKCS12 NM_OPENVPN_KEY_KEY
    (handle_path_item env line TAG_PKCS12 NM_OPENVPN_KEY_CERT
      (handle_path_item env line TAG_PKCS12 NM_OPENVPN_KEY_CA st dp).2.1 dp).2.1 dp
    (by decide) (by decide)
  split_ifs
  · exact frame_trans f1 (frame_trans f2 f3)
  · exact frame_trans f1 f2
  · exact f1

theorem frameOpt_tls_auth (env : Env) (dp : CStr) (line : Line) (st : ImportState) :
    FrameOpt st (import_tls_auth env dp line st) := by
  intro b hb
  unfold import_tls_auth at hb
  try dsimp only at hb
  split at hb
  · cases hb
    exact frame_trans (frame_handle_path_item env line _ _ st dp (by decide) (by decide))
      (frame_handle_direction _ _ _ (by decide) (by decide))
  · cases hb

theorem frameOpt_proxy (env : Env) (path : CStr) (line : Line) (st : ImportState) :
    FrameOpt st (import_proxy env path line st) := by
  intro b hb
  unfold import_proxy at hb
  try dsimp only at hb
  repeat' split at hb
  all_goals cases hb
  all_goals first
    | exact frame_refl _
    | exact ⟨rfl, rfl, rfl, rfl,
        by simp only [ImportState.add,
          get_add_ne _ _ _ _ (show NM_OPENVPN_KEY_REMOTE ≠ NM_OPENVPN_KEY_PROXY_TYPE by decide),
          get_add_ne _ _ _ _ (show NM_OPENVPN_KEY_REMOTE ≠ NM_OPENVPN_KEY_PROXY_SERVER by decide),
          get_add_ne _ _ _ _ (show NM_OPENVPN_KEY_REMOTE ≠ NM_OPENVPN_KEY_PROXY_PORT by decide),
          get_add_ne _ _ _ _
            (show NM_OPENVPN_KEY_REMOTE ≠ NM_OPENVPN_KEY_HTTP_PROXY_USERNAME by decide)],
        by simp only [ImportState.add,
          get_add_ne _ _ _ _
            (show NM_OPENVPN_KEY_CONNECTION_TYPE ≠ NM_OPENVPN_KEY_PROXY_TYPE by decide),
          get_add_ne _ _ _ _
            (show NM_OPENVPN_KEY_CONNECTION_TYPE ≠ NM_OPENVPN_KEY_PROXY_SERVER by decide),
          get_add_ne _ _ _ _
            (show NM_OPENVPN_KEY_CONNECTION_TYPE ≠ NM_OPENVPN_KEY_PROXY_PORT by decide),
          get_add_ne _ _ _ _
            (show NM_OPENVPN_KEY_CONNECTION_TYPE ≠ NM_OPENVPN_KEY_HTTP_PROXY_USERNAME by decide)]⟩

theorem head_of_first_word (t : CStr) (c : Char) (cs : CStr) (h : first_word t = c :: cs) :
    t.head? = some c := by
  unfold first_word at h
  cases t with
  | nil => simp at h
  | cons a t =>
    simp only [List.takeWhile_cons] at h
    split_ifs at h
    · simp only [List.cons.injEq] at h
      simp [h.1]

theorem import_head_client (env : Env) (path : CStr) (line : Line) (st : ImportState)
    (h : is_client_line line = true) :
    import_head env path line st = some { st with have_client := true } := by
  unfold is_client_line at h
  simp [import_head, import_client, h]

theorem import_head_remote (env : Env) (path : CStr) (line : Line) (st : ImportState)
    (h : first_word line.text = "remote".toList) :
    import_head env path line st = import_remote env line st := by
  have hr : import_remote env line st ≠ none := by
    unfold import_remote
    simp only [is_option_REMOTE, h, decide_True, Bool.not_true, Bool.false_eq_true, if_false]
    split <;> simp
  obtain ⟨x, hx⟩ := Option.ne_none_iff_exists'.mp hr
  simp [import_head, import_client, import_key_direction, import_one_arg, import_keyword,
    import_proto, import_flag, import_size_item, import_reneg_sec, import_proxy_retry,
    import_proxy, is_option_AUTH, is_option_AUTH_USER_PASS, is_option_CA, is_option_CERT, is_option_CIPHER, is_option_KEYSIZE, is_option_CLIENT, is_option_COMP_LZO, is_option_FLOAT, is_option_DEV, is_option_DEV_TYPE, is_option_FRAGMENT, is_option_IFCONFIG, is_option_KEY, is_option_KEEPALIVE, is_option_MSSFIX, is_option_PING, is_option_PING_EXIT, is_option_PING_RESTART, is_option_PKCS12, is_option_PORT, is_option_PROTO, is_option_HTTP_PROXY, is_option_HTTP_PROXY_RETRY, is_option_SOCKS_PROXY, is_option_SOCKS_PROXY_RETRY, is_option_REMOTE, is_option_REMOTE_RANDOM, is_option_RENEG_SEC, is_option_RPORT, is_option_SECRET, is_option_TLS_AUTH, is_option_KEY_DIRECTION, is_option_TLS_CLIENT, is_option_TLS_REMOTE, is_option_REMOTE_CERT_TLS, is_option_TUN_MTU, is_option_ROUTE, h, hx]

theorem import_head_frame (env : Env) (path : CStr) (line : Line) (st : ImportState)
    (h1 : is_client_line line = false) (h2 : first_word line.text ≠ "remote".toList) :
    FrameOpt st (import_head env path line st) := by
  have hc : import_client line st = none := by
    unfold is_client_line at h1
    simp [import_client, h1]
  have hr : import_remote env line st = none := by
    unfold import_remote
    rw [is_option_REMOTE, decide_eq_false h2]
    rfl
  unfold import_head
  rw [hc, hr]
  refine frameOpt_or (frameOpt_none _) ?_
  refine frameOpt_or (frameOpt_key_direction _ _ _) ?_
  refine frameOpt_or (frameOpt_one_arg _ _ _ _ _ (by decide) (by decide)) ?_
  refine frameOpt_or (frameOpt_keyword _ _ _ _ _ _ _ (by decide) (by decide)) ?_
  refine frameOpt_or (frameOpt_proto _ _ _) ?_
  refine frameOpt_or (frameOpt_flag _ _ _ _ (by decide) (by decide)) ?_
  refine frameOpt_or (frameOpt_size_item _ _ _ _ _ (by decide) (by decide)) ?_
  refine frameOpt_or (frameOpt_size_item _ _ _ _ _ (by decide) (by decide)) ?_
  refine frameOpt_or (frameOpt_flag _ _ _ _ (by decide) (by decide)) ?_
  refine frameOpt_or (frameOpt_flag _ _ _ _ (by decide) (by decide)) ?_
  refine frameOpt_or (frameOpt_reneg_sec _ _ _) ?_
  refine frameOpt_or (frameOpt_proxy_retry _ _) ?_
  refine frameOpt_or (frameOpt_proxy _ _ _ _) ?_
  refine frameOpt_or (frameOpt_none _) ?_
  refine frameOpt_or (frameOpt_flag _ _ _ _ (by decide) (by decide)) ?_
  refine frameOpt_or (frameOpt_port _ _ _) ?_
  refine frameOpt_or (frameOpt_num_seconds _ _ _ _ _ (by decide) (by decide)) ?_
  refine frameOpt_or (frameOpt_num_seconds _ _ _ _ _ (by decide) (by decide)) ?_
  exact frameOpt_num_seconds _ _ _ _ _ (by decide) (by decide)

theorem import_certs_frame (env : Env) (dp : CStr) (line : Line) (st : ImportState) :
    FrameOpt st (import_certs env dp line st) := by
  unfold import_certs
  refine frameOpt_or (frameOpt_path _ _ _ _ _ _ (by decide) (by decide)) ?_
  refine frameOpt_or (frameOpt_path _ _ _ _ _ _ (by decide) (by decide)) ?_
  exact frameOpt_path _ _ _ _ _ _ (by decide) (by decide)

theorem import_tail_frame (env : Env) (dp : CStr) (line : Line) (st : ImportState)
    (h1 : first_word line.text ≠ "secret".toList)
    (h2 : first_word line.text ≠ "auth-user-pass".toList) :
    FrameOpt st (import_tail env dp line st) := by
  have hs : import_secret env dp line st = none := by
    unfold import_secret handle_path_item
    rw [is_option_SECRET, decide_eq_false h1]
    rfl
  have ha : import_auth_user_pass line st = none := by
    unfold import_auth_user_pass
    rw [is_option_AUTH_USER_PASS, decide_eq_false h2]
    rfl
  unfold import_tail
  rw [hs, ha]
  refine frameOpt_or (frameOpt_none _) ?_
  refine frameOpt_or (frameOpt_tls_auth _ _ _ _) ?_
  refine frameOpt_or (frameOpt_one_arg _ _ _ _ _ (by decide) (by decide)) ?_
  refine frameOpt_or (frameOpt_keepalive _ _ _) ?_
  refine frameOpt_or (frameOpt_keysize _ _ _) ?_
  refine frameOpt_or (frameOpt_tls_remote _ _ _) ?_
  refine frameOpt_or (frameOpt_keyword _ _ _ _ _ _ _ (by decide) (by decide)) ?_
  refine frameOpt_or (frameOpt_ifconfig _ _ _) ?_
  refine frameOpt_or (frameOpt_none _) ?_
  refine frameOpt_or (frameOpt_one_arg _ _ _ _ _ (by decide) (by decide)) ?_
  exact frameOpt_route _ _ _

theorem import_head_none (env : Env) (path : CStr) (line : Line) (st : ImportState)
    (h : first_word line.text = "secret".toList ∨ first_word line.text = "auth-user-pass".toList) :
    import_head env path line st = none := by
  rcases h with h | h <;>
  simp [import_head, import_client, import_key_direction, import_one_arg, import_keyword,
    import_proto, import_flag, import_size_item, import_reneg_sec, import_proxy_retry,
    import_proxy, import_remote, import_port, handle_num_seconds_item, is_option_AUTH, is_option_AUTH_USER_PASS, is_option_CA, is_option_CERT, is_option_CIPHER, is_option_KEYSIZE, is_option_CLIENT, is_option_COMP_LZO, is_option_FLOAT, is_option_DEV, is_option_DEV_TYPE, is_option_FRAGMENT, is_option_IFCONFIG, is_option_KEY, is_option_KEEPALIVE, is_option_MSSFIX, is_option_PING, is_option_PING_EXIT, is_option_PING_RESTART, is_option_PKCS12, is_option_PORT, is_option_PROTO, is_option_HTTP_PROXY, is_option_HTTP_PROXY_RETRY, is_option_SOCKS_PROXY, is_option_SOCKS_PROXY_RETRY, is_option_REMOTE, is_option_REMOTE_RANDOM, is_option_RENEG_SEC, is_option_RPORT, is_option_SECRET, is_option_TLS_AUTH, is_option_KEY_DIRECTION, is_option_TLS_CLIENT, is_option_TLS_REMOTE, is_option_REMOTE_CERT_TLS, is_option_TUN_MTU, is_option_ROUTE, h]

theorem import_pkcs12_none (env : Env) (dp : CStr) (line : Line) (st : ImportState)
    (h : first_word line.text ≠ "pkcs12".toList) :
    import_pkcs12 env dp line st = (false, st) := by
  unfold import_pkcs12 handle_path_item
  rw [is_option_PKCS12, decide_eq_false h]
  rfl

theorem import_certs_none (env : Env) (dp : CStr) (line : Line) (st : ImportState)
    (h : first_word line.text = "secret".toList ∨ first_word line.text = "auth-user-pass".toList) :
    import_certs env dp line st = none := by
  rcases h with h | h <;>
  simp [import_certs, import_path, handle_path_item, is_option_AUTH, is_option_AUTH_USER_PASS, is_option_CA, is_option_CERT, is_option_CIPHER, is_option_KEYSIZE, is_option_CLIENT, is_option_COMP_LZO, is_option_FLOAT, is_option_DEV, is_option_DEV_TYPE, is_option_FRAGMENT, is_option_IFCONFIG, is_option_KEY, is_option_KEEPALIVE, is_option_MSSFIX, is_option_PING, is_option_PING_EXIT, is_option_PING_RESTART, is_option_PKCS12, is_option_PORT, is_option_PROTO, is_option_HTTP_PROXY, is_option_HTTP_PROXY_RETRY, is_option_SOCKS_PROXY, is_option_SOCKS_PROXY_RETRY, is_option_REMOTE, is_option_REMOTE_RANDOM, is_option_RENEG_SEC, is_option_RPORT, is_option_SECRET, is_option_TLS_AUTH, is_option_KEY_DIRECTION, is_option_TLS_CLIENT, is_option_TLS_REMOTE, is_option_REMOTE_CERT_TLS, is_option_TUN_MTU, is_option_ROUTE, h]

theorem handle_blob_item_no_start (env : Env) (cur : CStr) (rest : List CStr) (key : CStr)
    (st : ImportState) (name : CStr) (c : Char) (hc : cur.head? = some c) (hne : c ≠ '<') :
    handle_blob_item env cur rest key st name = .no_start := by
  unfold handle_blob_item
  cases hk : blob_tags key with
  | none => rfl
  | some p =>
    obtain ⟨s, e⟩ := p
    have hs : s.head? = some '<' := by
      unfold blob_tags at hk
      split_ifs at hk <;> simp only [Option.some.injEq, Prod.mk.injEq] at hk <;>
        (obtain ⟨rfl, rfl⟩ := hk; rfl)
    have : cur.take s.length ≠ s := by
      intro heq
      cases cur with
      | nil => simp at hc
      | cons a cur =>
        cases s with
        | nil => simp at hs
        | cons b s =>
          simp only [List.length_cons, List.take_succ_cons, List.cons.injEq] at heq
          simp only [List.head?_cons, Option.some.injEq] at hc hs
          rw [← hc, heq.1, hs] at hne
          exact hne rfl
    simp [this]

theorem blob_lines_end (e : CStr) (rest : List CStr) (acc : CStr) (n : Nat) (c : CStr) (m : Nat)
    (h : blob_lines e rest acc n = some (c, m)) : n < m ∧ rest.get? (m - n - 1) = some e := by
  induction rest generalizing acc n with
  | nil => simp [blob_lines] at h
  | cons l ls ih =>
    unfold blob_lines at h
    split_ifs at h with h1 h2
    · obtain ⟨h3, h4⟩ := ih _ _ h
      refine ⟨by omega, ?_⟩
      have : m - n - 1 = (m - (n + 1) - 1) + 1 := by omega
      rw [this, List.get?_cons_succ]
      exact h4
    · simp only [Option.some.injEq, Prod.mk.injEq] at h
      obtain ⟨-, rfl⟩ := h
      refine ⟨by omega, ?_⟩
      simp [h2]
    · obtain ⟨h3, h4⟩ := ih _ _ h
      refine ⟨by omega, ?_⟩
      have : m - n - 1 = (m - (n + 1) - 1) + 1 := by omega
      rw [this, List.get?_cons_succ]
      exact h4

theorem blob_tags_end (key s e : CStr) (h : blob_tags key = some (s, e)) : e ∈ END_TAGS := by
  unfold blob_tags at h
  split_ifs at h <;> simp only [Option.some.injEq, Prod.mk.injEq] at h <;>
    (obtain ⟨-, rfl⟩ := h; simp [END_TAGS])

theorem handle_blob_item_spec (env : Env) (cur : CStr) (rest : List CStr) (key : CStr)
    (st : ImportState) (name : CStr) (h1 : NM_OPENVPN_KEY_REMOTE ≠ key)
    (h2 : NM_OPENVPN_KEY_CONNECTION_TYPE ≠ key) (ok : Bool) (st1 : ImportState) (adv : Nat)
    (h : handle_blob_item env cur rest key st name = .stopped ok st1 adv) :
    Frame st st1 ∧ ∃ e ∈ END_TAGS, rest.get? (adv - 1) = some e := by
  unfold handle_blob_item at h
  cases hk : blob_tags key with
  | none => simp [hk] at h
  | some p =>
    obtain ⟨s, e⟩ := p
    simp only [hk] at h
    by_cases hst : (cur.take s.length != s) = true
    · simp [hst] at h
    · simp only [hst, if_false] at h
      cases hb : blob_lines e rest [] 0 with
      | none => simp [hb] at h
      | some q =>
        obtain ⟨c, m⟩ := q
        have hend := blob_lines_end e rest [] 0 c m hb
        simp only [hb] at h
        have hadv : rest.get? (m - 1) = some e := by simpa using hend.2
        have hfr : ∀ (s' : ImportState), s'.data = st.data → s'.have_client = st.have_client →
            s'.have_remote = st.have_remote → s'.have_pass = st.have_pass →
            s'.have_sk = st.have_sk → ∀ p, Frame st (s'.add key p) := by
          intro s' e1 e2 e3 e4 e5 p
          refine ⟨e2, e3, e4, e5, ?_, ?_⟩
          · simp only [ImportState.add, e1]; exact get_add_ne _ _ _ _ h1
          · simp only [ImportState.add, e1]; exact get_add_ne _ _ _ _ h2
        cases hd : st.cert_dir <;> simp only [hd] at h <;> (try split_ifs at h) <;>
          simp only [BlobResult.stopped.injEq] at h <;>
          obtain ⟨-, rfl, rfl⟩ := h <;>
          refine ⟨?_, e, blob_tags_end key s e hk, hadv⟩
        all_goals first
          | exact frame_refl _
          | exact ⟨rfl, rfl, rfl, rfl, rfl, rfl⟩
          | exact hfr _ rfl rfl rfl rfl rfl _

theorem import_blob_spec (env : Env) (name key : CStr) (st : ImportState) (line cur : Line)
    (rest : List CStr) (skip : Nat) (h1 : NM_OPENVPN_KEY_REMOTE ≠ key)
    (h2 : NM_OPENVPN_KEY_CONNECTION_TYPE ≠ key) (hc : CursorOk line cur) :
    match import_blob env name key st cur rest skip with
    | .handled st1 _ => Frame st st1
    | .undefined => True
    | .pass st1 cur1 _ _ => Frame st st1 ∧ CursorOk line cur1 := by
  unfold import_blob
  cases hb : handle_blob_item env cur.text rest key st name with
  | no_start => exact ⟨frame_refl _, hc⟩
  | ran_off => trivial
  | stopped ok st1 adv =>
    obtain ⟨hf, e, he, hg⟩ := handle_blob_item_spec env cur.text rest key st name h1 h2 ok st1 adv hb
    cases ok with
    | true => exact hf
    | false =>
      refine ⟨hf, Or.inr ?_⟩
      simp only [hg, Option.getD_some]
      exact he

theorem end_tags_words : ∀ t ∈ END_TAGS,
    first_word t ≠ "secret".toList ∧ first_word t ≠ "auth-user-pass".toList := by
  decide

theorem cursor_words (line cur : Line) (hc : CursorOk line cur)
    (h1 : first_word line.text ≠ "secret".toList)
    (h2 : first_word line.text ≠ "auth-user-pass".toList) :
    first_word cur.text ≠ "secret".toList ∧ first_word cur.text ≠ "auth-user-pass".toList := by
  rcases hc with rfl | hc
  · exact ⟨h1, h2⟩
  · exact end_tags_words _ hc

theorem import_blobs_frame (env : Env) (dp name : CStr) (line : Line) (rest : List CStr)
    (st st1 : ImportState) (skip : Nat)
    (h1 : first_word line.text ≠ "secret".toList)
    (h2 : first_word line.text ≠ "auth-user-pass".toList)
    (h : import_blobs env dp name line rest st = .next st1 skip) : Frame st st1 := by
  unfold import_blobs at h
  have s1 := import_blob_spec env name NM_OPENVPN_KEY_CA st line line rest 0 (by decide)
    (by decide) (Or.inl rfl)
  cases hb1 : import_blob env name NM_OPENVPN_KEY_CA st line rest 0 with
  | undefined => simp [hb1] at h
  | handled a k =>
    simp only [hb1, LineStep.next.injEq] at h s1
    obtain ⟨rfl, -⟩ := h
    exact s1
  | pass a c1 r1 k1 =>
    simp only [hb1] at h s1
    obtain ⟨f1, hc1⟩ := s1
    have s2 := import_blob_spec env name NM_OPENVPN_KEY_CERT a line c1 r1 k1 (by decide)
      (by decide) hc1
    cases hb2 : import_blob env name NM_OPENVPN_KEY_CERT a c1 r1 k1 with
    | undefined => simp [hb2] at h
    | handled b k =>
      simp only [hb2, LineStep.next.injEq] at h s2
      obtain ⟨rfl, -⟩ := h
      exact frame_trans f1 s2
    | pass b c2 r2 k2 =>
      simp only [hb2] at h s2
      obtain ⟨f2, hc2⟩ := s2
      have s3 := import_blob_spec env name NM_OPENVPN_KEY_KEY b line c2 r2 k2 (by decide)
        (by decide) hc2
      cases hb3 : import_blob env name NM_OPENVPN_KEY_KEY b c2 r2 k2 with
      | undefined => simp [hb3] at h
      | handled c k =>
        simp only [hb3, LineStep.next.injEq] at h s3
        obtain ⟨rfl, -⟩ := h
        exact frame_trans f1 (frame_trans f2 s3)
      | pass c c3 r3 k3 =>
        simp only [hb3] at h s3
        obtain ⟨f3, hc3⟩ := s3
        have s4 := import_blob_spec env name NM_OPENVPN_KEY_TA c line c3 r3 k3 (by decide)
          (by decide) hc3
        cases hb4 : import_blob env name NM_OPENVPN_KEY_TA c c3 r3 k3 with
        | undefined => simp [hb4] at h
        | handled d k =>
          simp only [hb4, LineStep.next.injEq] at h s4
          obtain ⟨rfl, -⟩ := h
          exact frame_trans f1 (frame_trans f2 (frame_trans f3 (frame_trans s4
            (frame_handle_direction _ _ _ (by decide) (by decide)))))
        | pass d c4 r4 k4 =>
          simp only [hb4] at h s4
          obtain ⟨f4, hc4⟩ := s4
          have f123 := frame_trans f1 (frame_trans f2 (frame_trans f3 f4))
          obtain ⟨w1, w2⟩ := cursor_words line c4 hc4 h1 h2
          have ft := import_tail_frame env dp c4 d w1 w2
          cases ht : import_tail env dp c4 d with
          | none =>
            simp only [ht, LineStep.next.injEq] at h
            obtain ⟨rfl, -⟩ := h
            exact f123
          | some x =>
            simp only [ht, LineStep.next.injEq] at h
            obtain ⟨rfl, -⟩ := h
            exact frame_trans f123 (ft x ht)

theorem import_blob_no_start (env : Env) (name key : CStr) (st : ImportState) (cur : Line)
    (rest : List CStr) (skip : Nat) (c : Char) (hc : cur.text.head? = some c) (hne : c ≠ '<') :
    import_blob env name key st cur rest skip = .pass st cur rest skip := by
  unfold import_blob
  rw [handle_blob_item_no_start env cur.text rest key st name c hc hne]

theorem import_blobs_no_start (env : Env) (dp name : CStr) (line : Line) (rest : List CStr)
    (st : ImportState) (c : Char) (hc : line.text.head? = some c) (hne : c ≠ '<') :
    import_blobs env dp name line rest st
      = match import_tail env dp line st with
        | some st5 => .next st5 0
        | none => .next st 0 := by
  unfold import_blobs
  simp only [import_blob_no_start env name _ st line rest 0 c hc hne]

theorem import_tail_secret (env : Env) (dp : CStr) (line : Line) (st : ImportState)
    (h : first_word line.text = "secret".toList) :
    import_tail env dp line st = import_secret env dp line st := by
  cases hs : import_secret env dp line st with
  | some x => simp [import_tail, hs]
  | none =>
    simp [import_tail, hs, import_tls_auth, handle_path_item, import_one_arg, import_keepalive,
      import_keysize, import_tls_remote, import_keyword, import_ifconfig, import_auth_user_pass,
      import_route, is_option_AUTH, is_option_AUTH_USER_PASS, is_option_CA, is_option_CERT, is_option_CIPHER, is_option_KEYSIZE, is_option_CLIENT, is_option_COMP_LZO, is_option_FLOAT, is_option_DEV, is_option_DEV_TYPE, is_option_FRAGMENT, is_option_IFCONFIG, is_option_KEY, is_option_KEEPALIVE, is_option_MSSFIX, is_option_PING, is_option_PING_EXIT, is_option_PING_RESTART, is_option_PKCS12, is_option_PORT, is_option_PROTO, is_option_HTTP_PROXY, is_option_HTTP_PROXY_RETRY, is_option_SOCKS_PROXY, is_option_SOCKS_PROXY_RETRY, is_option_REMOTE, is_option_REMOTE_RANDOM, is_option_RENEG_SEC, is_option_RPORT, is_option_SECRET, is_option_TLS_AUTH, is_option_KEY_DIRECTION, is_option_TLS_CLIENT, is_option_TLS_REMOTE, is_option_REMOTE_CERT_TLS, is_option_TUN_MTU, is_option_ROUTE, h]

theorem import_tail_auth_user_pass (env : Env) (dp : CStr) (line : Line) (st : ImportState)
    (h : first_word line.text = "auth-user-pass".toList) :
    import_tail env dp line st = some { st with have_pass := true } := by
  simp [import_tail, import_secret, import_tls_auth, handle_path_item, import_one_arg,
    import_keepalive, import_keysize, import_tls_remote, import_keyword, import_ifconfig,
    import_auth_user_pass, import_route, is_option_AUTH, is_option_AUTH_USER_PASS, is_option_CA, is_option_CERT, is_option_CIPHER, is_option_KEYSIZE, is_option_CLIENT, is_option_COMP_LZO, is_option_FLOAT, is_option_DEV, is_option_DEV_TYPE, is_option_FRAGMENT, is_option_IFCONFIG, is_option_KEY, is_option_KEEPALIVE, is_option_MSSFIX, is_option_PING, is_option_PING_EXIT, is_option_PING_RESTART, is_option_PKCS12, is_option_PORT, is_option_PROTO, is_option_HTTP_PROXY, is_option_HTTP_PROXY_RETRY, is_option_SOCKS_PROXY, is_option_SOCKS_PROXY_RETRY, is_option_REMOTE, is_option_REMOTE_RANDOM, is_option_RENEG_SEC, is_option_RPORT, is_option_SECRET, is_option_TLS_AUTH, is_option_KEY_DIRECTION, is_option_TLS_CLIENT, is_option_TLS_REMOTE, is_option_REMOTE_CERT_TLS, is_option_TUN_MTU, is_option_ROUTE, h]

theorem get_args_ne_nil (l : CStr) : ∀ i ∈ get_args l, i ≠ [] := by
  intro i hi
  unfold get_args at hi
  simp only [List.mem_filter, bne_iff_ne, ne_eq] at hi
  exact hi.2

theorem remote_entry_ne_nil (items : List CStr) (e : CStr) (h : remote_entry items = some e)
    (hi : ∀ i ∈ items, i ≠ []) : e ≠ [] := by
  unfold remote_entry at h
  split at h
  · simp only [Option.some.injEq] at h
    subst h
    exact hi _ (List.mem_cons_self _ _)
  · split at h
    · simp only [Option.some.injEq] at h
      subst h
      simp
    · cases h
  · split at h
    · split at h
      · simp only [Option.some.injEq] at h
        subst h
        simp
      · cases h
    · cases h
  · cases h

theorem lineSpec_of_frame (env : Env) (line : Line) (a b : ImportState) (hf : Frame a b)
    (h1 : is_client_line line = false) (h2 : accepted_remote env line = none)
    (h3 : is_auth_user_pass_line line = false) (h4 : accepted_secret env line = false) :
    LineSpec env line a b := by
  obtain ⟨f1, f2, f3, f4, f5, f6⟩ := hf
  refine ⟨?_, ?_, ?_, ?_, ?_, f6⟩
  · rw [f1, h1, Bool.or_false]
  · rw [f2, h2]; simp
  · rw [f3, h3, Bool.or_false]
  · rw [f4, h4, Bool.or_false]
  · rw [f5, h2]

theorem client_line_word (line : Line) (h : is_client_line line = true) :
    first_word line.text = "client".toList ∨ first_word line.text = "tls-client".toList := by
  unfold is_client_line at h
  rw [is_option_CLIENT, is_option_TLS_CLIENT] at h
  simpa using h

theorem client_line_false (line : Line) (h1 : first_word line.text ≠ "client".toList)
    (h2 : first_word line.text ≠ "tls-client".toList) : is_client_line line = false := by
  unfold is_client_line
  rw [is_option_CLIENT, is_option_TLS_CLIENT, decide_eq_false h1, decide_eq_false h2]
  rfl

theorem accepted_remote_none (env : Env) (line : Line)
    (h : first_word line.text ≠ "remote".toList) : accepted_remote env line = none := by
  unfold accepted_remote
  rw [is_option_REMOTE, decide_eq_false h]
  rfl

theorem accepted_secret_false (env : Env) (line : Line)
    (h : first_word line.text ≠ "secret".toList) : accepted_secret env line = false := by
  unfold accepted_secret
  rw [is_option_SECRET, decide_eq_false h]
  rfl

theorem auth_user_pass_false (line : Line)
    (h : first_word line.text ≠ "auth-user-pass".toList) :
    is_auth_user_pass_line line = false := by
  unfold is_auth_user_pass_line
  rw [is_option_AUTH_USER_PASS, decide_eq_false h]

theorem word_ne (w a b : CStr) (h : w = a) (hab : a ≠ b) : w ≠ b := h ▸ hab

theorem import_line_spec (env : Env) (path dp name : CStr) (line : Line) (rest : List CStr)
    (st st1 : ImportState) (skip : Nat)
    (h : import_line env path dp name line rest st = .next st1 skip) :
    LineSpec env line st st1 := by
  unfold import_line at h
  by_cases hcl : is_client_line line = true
  · -- the client block takes the line
    rw [import_head_client env path line st hcl] at h
    simp only [LineStep.next.injEq] at h
    obtain ⟨rfl, -⟩ := h
    have hw := client_line_word line hcl
    have e2 : accepted_remote env line = none :=
      accepted_remote_none env line (by rcases hw with hw | hw <;> exact word_ne _ _ _ hw (by decide))
    have e3 : is_auth_user_pass_line line = false :=
      auth_user_pass_false line (by rcases hw with hw | hw <;> exact word_ne _ _ _ hw (by decide))
    have e4 : accepted_secret env line = false :=
      accepted_secret_false env line (by rcases hw with hw | hw <;> exact word_ne _ _ _ hw (by decide))
    refine ⟨?_, ?_, ?_, ?_, ?_, rfl⟩
    · simp [hcl]
    · simp [e2]
    · simp [e3]
    · simp [e4]
    · simp [e2]
  · have hcl' : is_client_line line = false := by simpa using hcl
    by_cases hrm : first_word line.text = "remote".toList
    · -- the remote block takes the line
      rw [import_head_remote env path line st hrm] at h
      have e3 : is_auth_user_pass_line line = false :=
        auth_user_pass_false line (word_ne _ _ _ hrm (by decide))
      have e4 : accepted_secret env line = false :=
        accepted_secret_false env line (word_ne _ _ _ hrm (by decide))
      have hacc : accepted_remote env line
          = remote_entry (get_args (arg_text env line TAG_REMOTE)) := by
        unfold accepted_remote
        rw [is_option_REMOTE, decide_eq_true hrm]
        rfl
      unfold import_remote at h
      rw [is_option_REMOTE, decide_eq_true hrm] at h
      simp only [Bool.not_true, Bool.false_eq_true, if_false] at h
      cases he : remote_entry (get_args (arg_text env line TAG_REMOTE)) with
      | none =>
        simp only [he, LineStep.next.injEq] at h
        obtain ⟨rfl, -⟩ := h
        exact lineSpec_of_frame env line _ _ (frame_refl _) hcl' (hacc.trans he) e3 e4
      | some entry =>
        simp only [he, LineStep.next.injEq] at h
        obtain ⟨rfl, -⟩ := h
        have hne := remote_entry_ne_nil _ _ he (get_args_ne_nil _)
        refine ⟨?_, ?_, ?_, ?_, ?_, ?_⟩
        · simp [ImportState.add, hcl']
        · simp [ImportState.add, hacc, he]
        · simp [ImportState.add, e3]
        · simp [ImportState.add, e4]
        · rw [hacc, he]
          simp only [ImportState.add]
          rw [get_add_eq _ _ _ (by decide)]
          · cases nm_setting_vpn_get_data_item st.data NM_OPENVPN_KEY_REMOTE <;> rfl
          · cases hp : nm_setting_vpn_get_data_item st.data NM_OPENVPN_KEY_REMOTE with
            | none => exact hne
            | some p => simp
        · simp only [ImportState.add]
          exact get_add_ne _ _ _ _ (by decide)
    · have e2 := accepted_remote_none env line hrm
      by_cases hsec : first_word line.text = "secret".toList
      · -- the secret block takes the line, or nothing does
        have e3 : is_auth_user_pass_line line = false :=
          auth_user_pass_false line (word_ne _ _ _ hsec (by decide))
        have hhead : line.text.head? = some 's' := head_of_first_word _ _ _ hsec
        rw [import_head_none env path line st (Or.inl hsec),
          import_pkcs12_none env dp line st (word_ne _ _ _ hsec (by decide))] at h
        simp only [Bool.false_eq_true, if_false,
          import_certs_none env dp line st (Or.inl hsec),
          import_blobs_no_start env dp name line rest st 's' hhead (by decide),
          import_tail_secret env dp line st hsec] at h
        unfold import_secret handle_path_item at h
        rw [is_option_SECRET, decide_eq_true hsec] at h
        simp only [Bool.not_true, Bool.false_eq_true, if_false] at h
        have hacc : accepted_secret env line = (unquote (arg_text env line TAG_SECRET)).isSome := by
          unfold accepted_secret
          rw [is_option_SECRET, decide_eq_true hsec]
          rfl
        cases hu : unquote (arg_text env line TAG_SECRET) with
        | none =>
          simp only [hu, Bool.false_eq_true, if_false, LineStep.next.injEq] at h
          obtain ⟨rfl, -⟩ := h
          exact lineSpec_of_frame env line _ _ (frame_refl _) hcl' e2 e3 (by rw [hacc, hu]; rfl)
        | some p =>
          obtain ⟨file, leftover⟩ := p
          simp only [hu, if_true, LineStep.next.injEq] at h
          obtain ⟨rfl, -⟩ := h
          have hf : Frame st (handle_direction NM_OPENVPN_KEY_STATIC_KEY_DIRECTION leftover
              (st.add NM_OPENVPN_KEY_STATIC_KEY
                (if (!g_path_is_absolute file) = true then g_build_filename [dp, file] else file))) :=
            frame_trans (frame_add _ _ _ (by decide) (by decide))
              (frame_handle_direction _ _ _ (by decide) (by decide))
          obtain ⟨f1, f2, f3, f4, f5, f6⟩ := hf
          refine ⟨?_, ?_, ?_, ?_, ?_, ?_⟩
          · simp only [f1, hcl', Bool.or_false]
          · simp only [f2, e2, Option.isSome_none, Bool.or_false]
          · simp only [f3, e3, Bool.or_false]
          · simp [hacc, hu]
          · simp only [f5, e2]
          · exact f6
      · have e4 := accepted_secret_false env line hsec
        by_cases haup : first_word line.text = "auth-user-pass".toList
        · -- the auth-user-pass block takes the line
          have hhead : line.text.head? = some 'a' := head_of_first_word _ _ _ haup
          rw [import_head_none env path line st (Or.inr haup),
            import_pkcs12_none env dp line st (word_ne _ _ _ haup (by decide))] at h
          simp only [Bool.false_eq_true, if_false,
            import_certs_none env dp line st (Or.inr haup),
            import_blobs_no_start env dp name line rest st 'a' hhead (by decide),
            import_tail_auth_user_pass env dp line st haup, LineStep.next.injEq] at h
          obtain ⟨rfl, -⟩ := h
          have e3 : is_auth_user_pass_line line = true := by
            unfold is_auth_user_pass_line
            rw [is_option_AUTH_USER_PASS, decide_eq_true haup]
          refine ⟨?_, ?_, ?_, ?_, ?_, rfl⟩
          · simp [hcl']
          · simp [e2]
          · simp [e3]
          · simp [e4]
          · simp [e2]
        · -- any other line leaves the frame alone
          have e3 := auth_user_pass_false line haup
          refine lineSpec_of_frame env line _ _ ?_ hcl' e2 e3 e4
          have fh := import_head_frame env path line st hcl' hrm
          cases hh : import_head env path line st with
          | some x =>
            simp only [hh, LineStep.next.injEq] at h
            obtain ⟨rfl, -⟩ := h
            exact fh x hh
          | none =>
            simp only [hh] at h
            have fp := frame_pkcs12 env dp line st
            split_ifs at h with hp
            · simp only [LineStep.next.injEq] at h
              obtain ⟨rfl, -⟩ := h
              exact fp
            · have fc := import_certs_frame env dp line (import_pkcs12 env dp line st).2
              cases hc : import_certs env dp line (import_pkcs12 env dp line st).2 with
              | some x =>
                simp only [hc, LineStep.next.injEq] at h
                obtain ⟨rfl, -⟩ := h
                exact frame_trans fp (fc x hc)
              | none =>
                simp only [hc] at h
                exact frame_trans fp (import_blobs_frame env dp name line rest _ _ _ hsec haup h)

/-! ## The importer: the line loop -/

theorem intercalate_cons_cons (sep a b : CStr) (l : List CStr) :
    List.intercalate sep (a :: b :: l) = a ++ sep ++ List.intercalate sep (b :: l) := by
  simp [List.intercalate, List.intersperse]

theorem add_entries_some (p : CStr) (es : List CStr) :
    add_entries (some p) es = some (List.intercalate ", ".toList (p :: es)) := by
  induction es generalizing p with
  | nil => simp [add_entries, List.intercalate]
  | cons e es ih =>
    have : add_entries (some p) (e :: es) = add_entries (some (p ++ ", ".toList ++ e)) es := rfl
    rw [this, ih, intercalate_cons_cons]
    cases es with
    | nil => simp [List.intercalate]
    | cons f fs =>
      rw [intercalate_cons_cons, intercalate_cons_cons]
      simp

theorem add_entries_none (es : List CStr) : add_entries none es = remote_value es := by
  cases es with
  | nil => rfl
  | cons e es =>
    have : add_entries none (e :: es) = add_entries (some e) es := rfl
    rw [this, add_entries_some]
    simp [remote_value]

theorem import_lines_spec (env : Env) (path dp name : CStr) (lines : List CStr) :
    ∀ (st : ImportState) (skip : Nat) (st' : ImportState),
      import_lines env path dp name st skip lines = some st' →
      st'.have_client
          = (st.have_client || (dispatched env path dp name st skip lines).any is_client_line)
      ∧ st'.have_remote
          = (st.have_remote || (dispatched env path dp name st skip lines).any
              (fun l => (accepted_remote env l).isSome))
      ∧ st'.have_pass
          = (st.have_pass || (dispatched env path dp name st skip lines).any is_auth_user_pass_line)
      ∧ st'.have_sk
          = (st.have_sk || (dispatched env path dp name st skip lines).any (accepted_secret env))
      ∧ nm_setting_vpn_get_data_item st'.data NM_OPENVPN_KEY_REMOTE
          = add_entries (nm_setting_vpn_get_data_item st.data NM_OPENVPN_KEY_REMOTE)
              ((dispatched env path dp name st skip lines).filterMap (accepted_remote env))
      ∧ nm_setting_vpn_get_data_item st'.data NM_OPENVPN_KEY_CONNECTION_TYPE
          = nm_setting_vpn_get_data_item st.data NM_OPENVPN_KEY_CONNECTION_TYPE := by
  induction lines with
  | nil =>
    intro st skip st' h
    simp only [import_lines, Option.some.injEq] at h
    subst h
    simp [dispatched, add_entries]
  | cons piece rest ih =>
    intro st skip st' h
    cases skip with
    | succ k =>
      simp only [import_lines] at h
      simp only [dispatched]
      exact ih st k st' h
    | zero =>
      simp only [import_lines] at h
      simp only [dispatched]
      split_ifs at h with hempty
      · simp only [hempty, if_true]
        exact ih st 0 st' h
      · simp only [hempty, if_false]
        cases hl : import_line env path dp name (strip_comment piece) rest st with
        | undefined => simp [hl] at h
        | next st1 k =>
          simp only [hl] at h ⊢
          obtain ⟨a1, a2, a3, a4, a5, a6⟩ :=
            import_line_spec env path dp name (strip_comment piece) rest st st1 k hl
          obtain ⟨b1, b2, b3, b4, b5, b6⟩ := ih st1 k st' h
          refine ⟨?_, ?_, ?_, ?_, ?_, ?_⟩
          · rw [b1, a1, List.any_cons, Bool.or_assoc]
          · rw [b2, a2, List.any_cons, Bool.or_assoc]
          · rw [b3, a3, List.any_cons, Bool.or_assoc]
          · rw [b4, a4, List.any_cons, Bool.or_assoc]
          · rw [b5, a5]
            cases hacc : accepted_remote env (strip_comment piece) with
            | none => simp [List.filterMap_cons, hacc]
            | some e => simp [List.filterMap_cons, hacc, add_entries]
          · rw [b6, a6]

theorem end_tags_no_start : ∀ t ∈ END_TAGS, ∀ key ∈ BLOB_KEYS,
    (match blob_tags key with
    | some (s, _) => t.take s.length != s
    | none => true) = true := by
  decide

theorem blob_keys_frame : ∀ key ∈ BLOB_KEYS,
    NM_OPENVPN_KEY_REMOTE ≠ key ∧ NM_OPENVPN_KEY_CONNECTION_TYPE ≠ key := by
  decide

theorem handle_blob_item_closed (env : Env) (line : Line) (rest : List CStr) (cur : Line)
    (rest1 : List CStr) (key : CStr) (st : ImportState) (name : CStr)
    (hkey : key ∈ BLOB_KEYS) (hc : CursorAt line rest cur rest1)
    (hclosed : block_closed line.text rest = true) :
    handle_blob_item env cur.text rest1 key st name ≠ .ran_off := by
  unfold handle_blob_item
  cases hk : blob_tags key with
  | none => simp
  | some p =>
    obtain ⟨s, e⟩ := p
    simp only
    by_cases hst : (cur.text.take s.length != s) = true
    · simp [hst]
    · simp only [hst, if_false]
      rcases hc with ⟨rfl, rfl⟩ | hc
      · unfold block_closed at hclosed
        rw [List.all_eq_true] at hclosed
        have := hclosed key hkey
        simp only [hk, Bool.or_eq_true] at this
        rcases this with h1 | h1
        · exact absurd h1 hst
        · obtain ⟨q, hq⟩ := Option.isSome_iff_exists.mp h1
          obtain ⟨c, m⟩ := q
          simp only [hq]
          cases st.cert_dir <;> simp only <;> (try split_ifs) <;> simp
      · have := end_tags_no_start cur.text hc key hkey
        simp only [hk] at this
        exact absurd this hst

theorem import_blob_closed (env : Env) (name key : CStr) (st : ImportState) (line : Line)
    (rest : List CStr) (cur : Line) (rest1 : List CStr) (skip : Nat)
    (hkey : key ∈ BLOB_KEYS) (hc : CursorAt line rest cur rest1)
    (hclosed : block_closed line.text rest = true) :
    match import_blob env name key st cur rest1 skip with
    | .handled _ _ => True
    | .undefined => False
    | .pass _ cur1 rest2 _ => CursorAt line rest cur1 rest2 := by
  have hne := handle_blob_item_closed env line rest cur rest1 key st name hkey hc hclosed
  unfold import_blob
  cases hb : handle_blob_item env cur.text rest1 key st name with
  | no_start => exact hc
  | ran_off => exact absurd hb hne
  | stopped ok st1 adv =>
    cases ok with
    | true => trivial
    | false =>
      right
      obtain ⟨k1, k2⟩ := blob_keys_frame key hkey
      obtain ⟨-, e, he, hg⟩ :=
        handle_blob_item_spec env cur.text rest1 key st name k1 k2 false st1 adv hb
      simp only [hg, Option.getD_some]
      exact he


theorem import_blobs_closed (env : Env) (dp name : CStr) (line : Line) (rest : List CStr)
    (st : ImportState) (hclosed : block_closed line.text rest = true) :
    import_blobs env dp name line rest st ≠ .undefined := by
  unfold import_blobs
  have s1 := import_blob_closed env name NM_OPENVPN_KEY_CA st line rest line rest 0 (by decide)
    (Or.inl ⟨rfl, rfl⟩) hclosed
  cases hb1 : import_blob env name NM_OPENVPN_KEY_CA st line rest 0 with
  | undefined => simp [hb1] at s1
  | handled a k => simp
  | pass a c1 r1 k1 =>
    simp only [hb1] at s1 ⊢
    have s2 := import_blob_closed env name NM_OPENVPN_KEY_CERT a line rest c1 r1 k1 (by decide)
      s1 hclosed
    cases hb2 : import_blob env name NM_OPENVPN_KEY_CERT a c1 r1 k1 with
    | undefined => simp [hb2] at s2
    | handled b k => simp
    | pass b c2 r2 k2 =>
      simp only [hb2] at s2 ⊢
      have s3 := import_blob_closed env name NM_OPENVPN_KEY_KEY b line rest c2 r2 k2 (by decide)
        s2 hclosed
      cases hb3 : import_blob env name NM_OPENVPN_KEY_KEY b c2 r2 k2 with
      | undefined => simp [hb3] at s3
      | handled c k => simp
      | pass c c3 r3 k3 =>
        simp only [hb3] at s3 ⊢
        have s4 := import_blob_closed env name NM_OPENVPN_KEY_TA c line rest c3 r3 k3
          (by decide) s3 hclosed
        cases hb4 : import_blob env name NM_OPENVPN_KEY_TA c c3 r3 k3 with
        | undefined => simp [hb4] at s4
        | handled d k => simp
        | pass d c4 r4 k4 =>
          simp only
          cases import_tail env dp c4 d <;> simp

theorem import_line_closed (env : Env) (path dp name : CStr) (line : Line) (rest : List CStr)
    (st : ImportState) (hclosed : block_closed line.text rest = true) :
    import_line env path dp name line rest st ≠ .undefined := by
  unfold import_line
  cases import_head env path line st with
  | some x => simp
  | none =>
    simp only
    split_ifs
    · simp
    · cases import_certs env dp line (import_pkcs12 env dp line st).2 with
      | some x => simp
      | none => exact import_blobs_closed env dp name line rest _ hclosed

theorem import_lines_closed (env : Env) (path dp name : CStr) (lines : List CStr)
    (hclosed : blocks_closed lines = true) :
    ∀ (st : ImportState) (skip : Nat),
      (import_lines env path dp name st skip lines).isSome = true := by
  induction lines with
  | nil => intro st skip; simp [import_lines]
  | cons piece rest ih =>
    simp only [blocks_closed, Bool.and_eq_true] at hclosed
    obtain ⟨h1, h2⟩ := hclosed
    intro st skip
    cases skip with
    | succ k =>
      simp only [import_lines]
      exact ih h2 st k
    | zero =>
      simp only [import_lines]
      split_ifs
      · exact ih h2 st 0
      · have := import_line_closed env path dp name (strip_comment piece) rest st h1
        cases hl : import_line env path dp name (strip_comment piece) rest st with
        | undefined => exact absurd hl this
        | next st1 k =>
          simp only
          exact ih h2 st1 k

theorem strsplit_pieces_ne_nil (d s : CStr) : strsplit_pieces d s ≠ [] := by
  cases s with
  | nil => simp [strsplit_pieces]
  | cons c cs =>
    unfold strsplit_pieces
    split_ifs
    · simp
    · split <;> simp

theorem strsplit_pieces_length (d s : CStr) :
    (strsplit_pieces d s).length ≤ 1 ↔ ∀ c ∈ s, d.contains c = false := by
  induction s with
  | nil => simp [strsplit_pieces]
  | cons c cs ih =>
    have hne := strsplit_pieces_ne_nil d cs
    unfold strsplit_pieces
    by_cases hc : d.contains c = true
    · simp only [hc, if_true, List.length_cons, List.mem_cons, forall_eq_or_imp]
      constructor
      · intro h
        have : (strsplit_pieces d cs).length = 0 := by omega
        exact absurd (List.length_eq_zero.mp this) hne
      · intro h
        simp [hc] at h
    · simp only [hc, if_false, List.mem_cons, forall_eq_or_imp]
      cases hp : strsplit_pieces d cs with
      | nil => exact absurd hp hne
      | cons p ps =>
        rw [hp] at ih
        simp only [List.length_cons] at ih
        simp only [Bool.false_eq_true, if_false, List.length_cons, true_and]
        exact ih

theorem g_strsplit_set_length (s d : CStr) :
    (g_strsplit_set s d).length ≤ 1 ↔ ∀ c ∈ s, d.contains c = false := by
  unfold g_strsplit_set
  split_ifs with h
  · subst h
    simp
  · exact strsplit_pieces_length d s

/-! ## The importer: the entries of the remote value -/

theorem to_gint_small (x : Int) (h0 : 0 ≤ x) (h1 : x < 2147483648) : to_gint x = x := by
  unfold to_gint
  have : x % 4294967296 = x := Int.emod_eq_of_lt h0 (by omega)
  simp only [this]
  split_ifs
  · rfl

theorem print_int_nonneg (x : Int) (h0 : 0 ≤ x) : print_int x = print_nat x.toNat := by
  unfold print_int
  have : ¬ x < 0 := by omega
  simp only [this, if_false]
  congr 1
  omega

theorem parse_port_form (str port : CStr) (h : parse_port str = some port) :
    ∃ n : Nat, 0 < n ∧ n < 65536 ∧ port = print_nat n := by
  unfold parse_port at h
  simp only at h
  split_ifs at h with hc
  simp only [Option.some.injEq] at h
  obtain ⟨-, h1, h2⟩ := hc
  refine ⟨(strtol str).1.toNat, by omega, by omega, ?_⟩
  rw [← h, to_gint_small _ (by omega) (by omega), print_int_nonneg _ (by omega)]

theorem remote_entry_form (items : List CStr) (e : CStr) (h : remote_entry items = some e) :
    ∃ host, items.head? = some host ∧ EntryForm host e := by
  unfold remote_entry at h
  split at h
  · simp only [Option.some.injEq] at h
    exact ⟨_, rfl, Or.inl h.symm⟩
  · rename_i host port_item
    cases hp : parse_port port_item with
    | none => simp [hp] at h
    | some port =>
      simp only [hp, Option.some.injEq] at h
      obtain ⟨n, h0, h1, rfl⟩ := parse_port_form _ _ hp
      exact ⟨host, rfl, Or.inr ⟨n, h0, h1, Or.inl h.symm⟩⟩
  · rename_i host port_item proto
    cases hp : parse_port port_item with
    | none => simp [hp] at h
    | some port =>
      obtain ⟨n, h0, h1, rfl⟩ := parse_port_form _ _ hp
      simp only [hp] at h
      cases hq : parse_protocol proto with
      | none => simp [hq] at h
      | some b =>
        simp only [hq, Option.some.injEq] at h
        refine ⟨host, rfl, Or.inr ⟨n, h0, h1, Or.inr ⟨proto, ?_, h.symm⟩⟩⟩
        unfold parse_protocol at hq
        split_ifs at hq with q1 q2
        · exact Or.inl q1
        · exact Or.inr q2
  · cases h

theorem strsplit_pieces_clean (d s : CStr) :
    ∀ p ∈ strsplit_pieces d s, ∀ c ∈ p, d.contains c = false := by
  induction s with
  | nil => simp [strsplit_pieces]
  | cons a s ih =>
    unfold strsplit_pieces
    by_cases ha : d.contains a = true
    · simp only [ha, if_true, List.mem_cons]
      rintro p (rfl | hp)
      · simp
      · exact ih p hp
    · have ha' : d.contains a = false := by simpa using ha
      simp only [ha', Bool.false_eq_true, if_false]
      cases hs : strsplit_pieces d s with
      | nil =>
        simp only [List.mem_singleton]
        rintro p rfl c hc
        simp only [List.mem_singleton] at hc
        subst hc
        exact ha'
      | cons q qs =>
        rw [hs] at ih
        simp only [List.mem_cons]
        rintro p (rfl | hp) c hc
        · simp only [List.mem_cons] at hc
          rcases hc with rfl | hc
          · exact ha'
          · exact ih q (List.mem_cons_self _ _) c hc
        · exact ih p (List.mem_cons_of_mem _ hp) c hc

theorem get_args_no_space (l : CStr) : ∀ i ∈ get_args l, ' ' ∉ i := by
  intro i hi hsp
  unfold get_args g_strsplit_set at hi
  simp only [List.mem_filter] at hi
  split_ifs at hi
  · simp at hi
  · have := strsplit_pieces_clean _ _ i hi.1 ' ' hsp
    simp at this

theorem nat_digits_chars (fuel n : Nat) (acc : CStr) :
    ∀ c ∈ nat_digits fuel n acc, c ∈ acc ∨ c.isDigit = true := by
  induction fuel generalizing n acc with
  | zero => intro c hc; exact Or.inl hc
  | succ f ih =>
    intro c hc
    unfold nat_digits at hc
    have hd : (Char.ofNat (48 + n % 10)).isDigit = true := by
      have : n % 10 < 10 := Nat.mod_lt _ (by decide)
      interval_cases (n % 10) <;> decide
    simp only at hc
    split_ifs at hc
    · simp only [List.mem_cons] at hc
      rcases hc with rfl | hc
      · exact Or.inr hd
      · exact Or.inl hc
    · rcases ih _ _ c hc with h | h
      · simp only [List.mem_cons] at h
        rcases h with rfl | h
        · exact Or.inr hd
        · exact Or.inl h
      · exact Or.inr h

theorem print_nat_digits (n : Nat) : ∀ c ∈ print_nat n, c.isDigit = true := by
  intro c hc
  rcases nat_digits_chars _ _ _ c hc with h | h
  · simp at h
  · exact h

theorem entry_form_no_space (host e : CStr) (h : EntryForm host e) (hh : ' ' ∉ host) :
    ' ' ∉ e := by
  have hd : ∀ n, ' ' ∉ print_nat n := by
    intro n hc
    have := print_nat_digits n ' ' hc
    revert this
    decide
  rcases h with rfl | ⟨n, -, -, rfl | ⟨proto, hp, rfl⟩⟩
  · exact hh
  · simp only [List.mem_append, List.mem_singleton, not_or]
    exact ⟨⟨hh, by decide⟩, hd n⟩
  · simp only [List.mem_append, List.mem_singleton, not_or]
    refine ⟨⟨⟨⟨hh, by decide⟩, hd n⟩, by decide⟩, ?_⟩
    rcases hp with rfl | rfl <;> decide

theorem accepted_remote_form (env : Env) (line : Line) (e : CStr)
    (h : accepted_remote env line = some e) :
    ∃ host, host ≠ [] ∧ ' ' ∉ host ∧ EntryForm host e := by
  unfold accepted_remote at h
  split_ifs at h
  obtain ⟨host, hh, hf⟩ := remote_entry_form _ _ h
  have hmem : host ∈ get_args (arg_text env line TAG_REMOTE) := List.mem_of_mem_head? hh
  exact ⟨host, get_args_ne_nil _ _ hmem, get_args_no_space _ _ hmem, hf⟩

theorem strsplit_pieces_whole (d s : CStr) (h : ∀ c ∈ s, d.contains c = false) :
    strsplit_pieces d s = [s] := by
  induction s with
  | nil => rfl
  | cons a s ih =>
    unfold strsplit_pieces
    have ha := h a (List.mem_cons_self _ _)
    simp only [ha, Bool.false_eq_true, if_false, ih (fun c hc => h c (List.mem_cons_of_mem _ hc))]

theorem strsplit_pieces_append (d a b : CStr) (c : Char) (ha : ∀ x ∈ a, d.contains x = false)
    (hc : d.contains c = true) :
    strsplit_pieces d (a ++ c :: b) = a :: strsplit_pieces d b := by
  induction a with
  | nil =>
    rw [List.nil_append, strsplit_pieces]
    simp only [hc, if_true]
  | cons x a ih =>
    have hx := ha x (List.mem_cons_self _ _)
    simp only [List.cons_append]
    rw [strsplit_pieces]
    simp only [hx, Bool.false_eq_true, if_false, ih (fun y hy => ha y (List.mem_cons_of_mem _ hy))]

theorem trim_blanks_clean (e : CStr) (h : ' ' ∉ e) :
    trim_blanks e = e ∧ trim_blanks (' ' :: e) = e := by
  have h1 : e.dropWhile (fun c => c == ' ') = e := by
    cases e with
    | nil => rfl
    | cons a e =>
      have : a ≠ ' ' := fun ha => h (ha ▸ List.mem_cons_self _ _)
      simp [List.dropWhile_cons, this]
  have h2 : e.rdropWhile (fun c => c == ' ') = e := by
    rw [List.rdropWhile_eq_self_iff]
    intro hne hl
    simp only [beq_iff_eq] at hl
    exact h (hl ▸ List.getLast_mem hne)
  unfold trim_blanks
  refine ⟨by rw [h1, h2], ?_⟩
  simp only [List.dropWhile_cons, beq_self_eq_true, if_true]
  rw [h1, h2]

theorem split_join_aux (es : List CStr) (hne : es ≠ [])
    (h : ∀ e ∈ es, ',' ∉ e ∧ ' ' ∉ e) :
    split_remote (List.intercalate ", ".toList es) = es
    ∧ split_remote (' ' :: List.intercalate ", ".toList es) = es := by
  induction es with
  | nil => exact absurd rfl hne
  | cons e es ih =>
    obtain ⟨hc, hs⟩ := h e (List.mem_cons_self _ _)
    have hclean : ∀ x ∈ e, [','].contains x = false := by
      intro x hx
      have : x ≠ ',' := fun hxc => hc (hxc ▸ hx)
      simpa using this
    have hclean2 : ∀ x ∈ ' ' :: e, [','].contains x = false := by
      intro x hx
      simp only [List.mem_cons] at hx
      rcases hx with rfl | hx
      · decide
      · exact hclean x hx
    obtain ⟨t1, t2⟩ := trim_blanks_clean e hs
    cases es with
    | nil =>
      have : List.intercalate ", ".toList [e] = e := by simp [List.intercalate]
      rw [this]
      unfold split_remote
      rw [strsplit_pieces_whole _ _ hclean, strsplit_pieces_whole _ _ hclean2]
      simp [t1, t2]
    | cons f fs =>
      obtain ⟨-, i2⟩ := ih (by simp) (fun x hx => h x (List.mem_cons_of_mem _ hx))
      have : List.intercalate ", ".toList (e :: f :: fs)
          = e ++ ',' :: (' ' :: List.intercalate ", ".toList (f :: fs)) := by
        rw [intercalate_cons_cons]
        simp
      rw [this]
      unfold split_remote at i2 ⊢
      constructor
      · rw [strsplit_pieces_append _ _ _ _ hclean (by decide), List.map_cons, t1, i2]
      · rw [← List.cons_append, strsplit_pieces_append _ _ _ _ hclean2 (by decide), List.map_cons,
          t2, i2]

/-! ## The importer: the outcome -/

theorem do_import_eq (env : Env) (path contents : CStr) :
    do_import env path contents
      = if (import_pieces env contents).length ≤ 1 then
          .error .FILE_NOT_READABLE MSG_NOT_A_FILE []
        else
          match import_scan env path contents with
          | none => .undefined
          | some st =>
            if !st.have_client && !st.have_sk then
              .error .FILE_NOT_OPENVPN MSG_NOT_CLIENT st.written
            else if !st.have_remote then .error .FILE_NOT_OPENVPN MSG_NO_REMOTE st.written
            else .connection (import_finish env (import_basename path) st) st.written := by
  rfl

theorem import_scan_spec (env : Env) (path contents : CStr) (st : ImportState)
    (h : import_scan env path contents = some st) :
    st.have_client = (import_seen env path contents).any is_client_line
    ∧ st.have_remote = (import_seen env path contents).any (fun l => (accepted_remote (env.run contents) l).isSome)
    ∧ st.have_pass = (import_seen env path contents).any is_auth_user_pass_line
    ∧ st.have_sk = (import_seen env path contents).any (accepted_secret (env.run contents))
    ∧ nm_setting_vpn_get_data_item st.data NM_OPENVPN_KEY_REMOTE
        = remote_value (import_entries env path contents)
    ∧ nm_setting_vpn_get_data_item st.data NM_OPENVPN_KEY_CONNECTION_TYPE = none := by
  obtain ⟨a1, a2, a3, a4, a5, a6⟩ := import_lines_spec (env.run contents) path _ _ _ _ _ _ h
  refine ⟨by simpa [import_init] using a1, by simpa [import_init] using a2,
    by simpa [import_init] using a3, by simpa [import_init] using a4, ?_, ?_⟩
  · rw [a5]
    exact add_entries_none _
  · rw [a6]
    rfl

theorem import_finish_get (env : Env) (name : CStr) (st : ImportState) (k : CStr)
    (hk : k ≠ NM_OPENVPN_KEY_CONNECTION_TYPE) :
    nm_setting_vpn_get_data_item (import_finish env name st).data k
      = nm_setting_vpn_get_data_item st.data k := by
  unfold import_finish
  exact get_add_ne _ _ _ _ hk

theorem import_connection_type_spec (st : ImportState) :
    import_connection_type st
      = spec_connection_type st.have_pass
          (nm_setting_vpn_get_data_item st.data NM_OPENVPN_KEY_CA).isSome
          ((nm_setting_vpn_get_data_item st.data NM_OPENVPN_KEY_CA).isSome
            && (nm_setting_vpn_get_data_item st.data NM_OPENVPN_KEY_CERT).isSome
            && (nm_setting_vpn_get_data_item st.data NM_OPENVPN_KEY_KEY).isSome)
          st.have_sk := by
  unfold import_connection_type spec_connection_type
  cases st.have_pass <;> cases st.have_sk <;>
    cases (nm_setting_vpn_get_data_item st.data NM_OPENVPN_KEY_CA).isSome <;>
    cases (nm_setting_vpn_get_data_item st.data NM_OPENVPN_KEY_CERT).isSome <;>
    cases (nm_setting_vpn_get_data_item st.data NM_OPENVPN_KEY_KEY).isSome <;> rfl

theorem spec_connection_type_values (a b c d : Bool) :
    spec_connection_type a b c d ∈ [NM_OPENVPN_CONTYPE_TLS, NM_OPENVPN_CONTYPE_PASSWORD,
      NM_OPENVPN_CONTYPE_PASSWORD_TLS, NM_OPENVPN_CONTYPE_STATIC_KEY] := by
  cases a <;> cases b <;> cases c <;> cases d <;> decide

theorem do_import_connection (env : Env) (path contents : CStr) (c : Connection)
    (w : List (CStr × CStr)) (h : do_import env path contents = .connection c w) :
    ∃ st, import_scan env path contents = some st
      ∧ c = import_finish env (import_basename path) st ∧ w = st.written
      ∧ (st.have_client || st.have_sk) = true ∧ st.have_remote = true := by
  rw [do_import_eq] at h
  split_ifs at h
  cases hs : import_scan env path contents with
  | none => simp [hs] at h
  | some st =>
    simp only [hs] at h
    split_ifs at h with h1 h2
    simp only [ImportResult.connection.injEq] at h
    refine ⟨st, rfl, h.1.symm, h.2.symm, ?_, ?_⟩
    · revert h1; cases st.have_client <;> cases st.have_sk <;> simp
    · simpa using h2

/-! ## Claims about the importer -/

/-- C3, as stated, fails: the line `remote a,b` is accepted as one directive
with the entry `a,b`, and a second directive adds `c:443:tcp`; the stored
value `a,b, c:443:tcp` split at commas gives three entries for two accepted
directives. -/
theorem do_import_remote_comma :
    import_entries env_plain conf_path conf_comma = ["a,b".toList, "c:443:tcp".toList]
    ∧ (∃ c w, do_import env_plain conf_path conf_comma = .connection c w
        ∧ nm_setting_vpn_get_data_item c.data NM_OPENVPN_KEY_REMOTE = some "a,b, c:443:tcp".toList)
    ∧ split_remote "a,b, c:443:tcp".toList = ["a".toList, "b".toList, "c:443:tcp".toList] := by
  refine ⟨by decide, ⟨_, _, rfl, by decide⟩, by decide⟩

/-- C3, amended: after the scan the `remote` setting is the entries of the
accepted `remote` directives, in the order of the file, joined by a comma and
a space (and absent when there is none), so that a later directive only
appends; each entry is `host`, `host:port` or `host:port:protocol` with the
port in canonical decimal; and when no entry contains a comma, splitting the
value at commas and trimming blanks gives back exactly the entries.  The
connection returned holds the same value. -/
theorem do_import_remote (env : Env) (path contents : CStr) (st : ImportState)
    (h : import_scan env path contents = some st) :
    nm_setting_vpn_get_data_item st.data NM_OPENVPN_KEY_REMOTE
        = remote_value (import_entries env path contents)
    ∧ (∀ e ∈ import_entries env path contents,
        ∃ host, host ≠ [] ∧ ' ' ∉ host ∧ EntryForm host e)
    ∧ (import_entries env path contents ≠ [] →
        (∀ e ∈ import_entries env path contents, ',' ∉ e) →
        ∀ v, nm_setting_vpn_get_data_item st.data NM_OPENVPN_KEY_REMOTE = some v →
          split_remote v = import_entries env path contents)
    ∧ (∀ c w, do_import env path contents = .connection c w →
        nm_setting_vpn_get_data_item c.data NM_OPENVPN_KEY_REMOTE
          = nm_setting_vpn_get_data_item st.data NM_OPENVPN_KEY_REMOTE) := by
  have hv := (import_scan_spec env path contents st h).2.2.2.2.1
  have hform : ∀ e ∈ import_entries env path contents,
      ∃ host, host ≠ [] ∧ ' ' ∉ host ∧ EntryForm host e := by
    intro e he
    unfold import_entries at he
    obtain ⟨l, -, hl⟩ := List.mem_filterMap.mp he
    exact accepted_remote_form (env.run contents) l e hl
  refine ⟨hv, hform, ?_, ?_⟩
  · intro hne hc v hval
    rw [hv, remote_value, if_neg hne] at hval
    simp only [Option.some.injEq] at hval
    rw [← hval]
    refine (split_join_aux _ hne ?_).1
    intro e he
    obtain ⟨host, -, hs, hf⟩ := hform e he
    exact ⟨hc e he, entry_form_no_space host e hf hs⟩
  · intro c w hcw
    obtain ⟨st2, h2, rfl, -, -, -⟩ := do_import_connection env path contents c w hcw
    rw [h] at h2
    cases h2
    exact import_finish_get env _ st NM_OPENVPN_KEY_REMOTE (by decide)

theorem do_import_remote_witness :
    (∃ st, import_scan env_plain conf_path conf_tls = some st)
    ∧ import_entries env_plain conf_path conf_tls = ["vpn.example.com:1194:udp".toList]
    ∧ ∃ c w, do_import env_plain conf_path conf_tls = .connection c w
        ∧ nm_setting_vpn_get_data_item c.data NM_OPENVPN_KEY_REMOTE
            = remote_value (import_entries env_plain conf_path conf_tls) := by
  refine ⟨⟨_, rfl⟩, by decide, _, _, rfl, ?_⟩
  have h := do_import_remote env_plain conf_path conf_tls _ rfl
  rw [h.2.2.2 _ _ rfl]
  exact h.1

/-- C4: a buffer without line terminator fails with `FILE_NOT_READABLE`, and
this is the only way to that error; a buffer with a terminator and without an
unterminated inline block is scanned to the end and then fails with
`FILE_NOT_OPENVPN` exactly when no `client` / `tls-client` line and no accepted
`secret` directive was seen (reported first) or no `remote` directive was
accepted, and returns a connection in every other case. -/
theorem do_import_outcome (env : Env) (path contents : CStr) :
    ((import_pieces env contents).length ≤ 1
        ↔ ∀ c ∈ import_text env contents, c ≠ cr ∧ c ≠ lf)
    ∧ ((import_pieces env contents).length ≤ 1 →
        do_import env path contents = .error .FILE_NOT_READABLE MSG_NOT_A_FILE [])
    ∧ (1 < (import_pieces env contents).length →
        blocks_closed (import_pieces env contents) = true →
        ∃ st, import_scan env path contents = some st
          ∧ do_import env path contents
            = if !(import_seen env path contents).any is_client_line
                  && !(import_seen env path contents).any (accepted_secret (env.run contents)) then
                .error .FILE_NOT_OPENVPN MSG_NOT_CLIENT st.written
              else if !(import_seen env path contents).any
                  (fun l => (accepted_remote (env.run contents) l).isSome) then
                .error .FILE_NOT_OPENVPN MSG_NO_REMOTE st.written
              else .connection (import_finish env (import_basename path) st) st.written) := by
  refine ⟨?_, ?_, ?_⟩
  · unfold import_pieces
    rw [g_strsplit_set_length]
    constructor
    · intro h c hc
      have := h c hc
      simpa [not_or] using this
    · intro h c hc
      have := h c hc
      simpa [not_or] using this
  · intro h
    rw [do_import_eq, if_pos h]
  · intro h hclosed
    have hsome := import_lines_closed (env.run contents) path (import_default_path env path)
      (import_basename path) _ hclosed (import_init env) 0
    obtain ⟨st, hst⟩ := Option.isSome_iff_exists.mp hsome
    have hst' : import_scan env path contents = some st := hst
    obtain ⟨a1, a2, -, a4, -, -⟩ := import_scan_spec env path contents st hst'
    refine ⟨st, hst', ?_⟩
    rw [do_import_eq, if_neg (by omega), hst', ← a1, ← a2, ← a4]

theorem do_import_outcome_witness :
    1 < (import_pieces env_plain conf_tls).length
    ∧ blocks_closed (import_pieces env_plain conf_tls) = true
    ∧ ∃ st, import_scan env_plain conf_path conf_tls = some st
        ∧ do_import env_plain conf_path conf_tls
          = if !(import_seen env_plain conf_path conf_tls).any is_client_line
                && !(import_seen env_plain conf_path conf_tls).any (accepted_secret (env_plain.run conf_tls)) then
              .error .FILE_NOT_OPENVPN MSG_NOT_CLIENT st.written
            else if !(import_seen env_plain conf_path conf_tls).any
                (fun l => (accepted_remote (env_plain.run conf_tls) l).isSome) then
              .error .FILE_NOT_OPENVPN MSG_NO_REMOTE st.written
            else .connection (import_finish env_plain (import_basename conf_path) st) st.written :=
  ⟨by decide, by decide,
    (do_import_outcome env_plain conf_path conf_tls).2.2 (by decide) (by decide)⟩

/-- C5: on a successful import no directive has written the connection type
during the scan; it is stored once, after the scan, and is the function of the
specification of four facts: `auth-user-pass` seen, `ca` set, `ca`, `cert` and
`key` all set, a `secret` directive accepted.  It is one of `tls`, `password`,
`password-tls` and `static-key`. -/
theorem do_import_connection_type (env : Env) (path contents : CStr) (c : Connection)
    (w : List (CStr × CStr)) (h : do_import env path contents = .connection c w) :
    ∃ st, import_scan env path contents = some st
      ∧ nm_setting_vpn_get_data_item st.data NM_OPENVPN_KEY_CONNECTION_TYPE = none
      ∧ st.have_pass = (import_seen env path contents).any is_auth_user_pass_line
      ∧ st.have_sk = (import_seen env path contents).any (accepted_secret (env.run contents))
      ∧ nm_setting_vpn_get_data_item c.data NM_OPENVPN_KEY_CONNECTION_TYPE
          = some (spec_connection_type st.have_pass
              (nm_setting_vpn_get_data_item c.data NM_OPENVPN_KEY_CA).isSome
              ((nm_setting_vpn_get_data_item c.data NM_OPENVPN_KEY_CA).isSome
                && (nm_setting_vpn_get_data_item c.data NM_OPENVPN_KEY_CERT).isSome
                && (nm_setting_vpn_get_data_item c.data NM_OPENVPN_KEY_KEY).isSome)
              st.have_sk)
      ∧ spec_connection_type st.have_pass
            (nm_setting_vpn_get_data_item c.data NM_OPENVPN_KEY_CA).isSome
            ((nm_setting_vpn_get_data_item c.data NM_OPENVPN_KEY_CA).isSome
              && (nm_setting_vpn_get_data_item c.data NM_OPENVPN_KEY_CERT).isSome
              && (nm_setting_vpn_get_data_item c.data NM_OPENVPN_KEY_KEY).isSome)
            st.have_sk
          ∈ [NM_OPENVPN_CONTYPE_TLS, NM_OPENVPN_CONTYPE_PASSWORD,
              NM_OPENVPN_CONTYPE_PASSWORD_TLS, NM_OPENVPN_CONTYPE_STATIC_KEY] := by
  obtain ⟨st, hst, rfl, -, -, -⟩ := do_import_connection env path contents c w h
  obtain ⟨-, -, a3, a4, -, a6⟩ := import_scan_spec env path contents st hst
  refine ⟨st, hst, a6, a3, a4, ?_, spec_connection_type_values _ _ _ _⟩
  rw [import_finish_get env _ st NM_OPENVPN_KEY_CA (by decide),
    import_finish_get env _ st NM_OPENVPN_KEY_CERT (by decide),
    import_finish_get env _ st NM_OPENVPN_KEY_KEY (by decide)]
  have hne : import_connection_type st ≠ [] := by
    rw [import_connection_type_spec]
    intro h0
    have := spec_connection_type_values st.have_pass
      (nm_setting_vpn_get_data_item st.data NM_OPENVPN_KEY_CA).isSome
      ((nm_setting_vpn_get_data_item st.data NM_OPENVPN_KEY_CA).isSome
        && (nm_setting_vpn_get_data_item st.data NM_OPENVPN_KEY_CERT).isSome
        && (nm_setting_vpn_get_data_item st.data NM_OPENVPN_KEY_KEY).isSome) st.have_sk
    rw [h0] at this
    revert this
    decide
  unfold import_finish
  simp only
  rw [get_add_eq _ _ _ (by decide) hne, import_connection_type_spec]

theorem do_import_connection_type_witness :
    ∃ c w, do_import env_plain conf_path conf_tls = .connection c w
      ∧ nm_setting_vpn_get_data_item c.data NM_OPENVPN_KEY_CONNECTION_TYPE
          = some NM_OPENVPN_CONTYPE_TLS
      ∧ ∃ st, import_scan env_plain conf_path conf_tls = some st
        ∧ nm_setting_vpn_get_data_item c.data NM_OPENVPN_KEY_CONNECTION_TYPE
          = some (spec_connection_type st.have_pass
              (nm_setting_vpn_get_data_item c.data NM_OPENVPN_KEY_CA).isSome
              ((nm_setting_vpn_get_data_item c.data NM_OPENVPN_KEY_CA).isSome
                && (nm_setting_vpn_get_data_item c.data NM_OPENVPN_KEY_CERT).isSome
                && (nm_setting_vpn_get_data_item c.data NM_OPENVPN_KEY_KEY).isSome)
              st.have_sk) := by
  refine ⟨_, _, rfl, by decide, ?_⟩
  obtain ⟨st, h1, -, -, -, h5, -⟩ :=
    do_import_connection_type env_plain conf_path conf_tls _ _ rfl
  exact ⟨st, h1, h5⟩

/-- C6, as stated, fails: a configuration with the line `secret "abc`, whose
quote is never closed, is imported without any error, the file taken to be
`abc`; and so is one whose `secret` line ends in a backslash. -/
theorem do_import_open_quote_accepted :
    (∃ c w, do_import env_plain conf_path conf_open_quote = .connection c w
      ∧ nm_setting_vpn_get_data_item c.data NM_OPENVPN_KEY_STATIC_KEY
          = some "/etc/vpn/abc".toList)
    ∧ (∃ c w, do_import env_plain conf_path conf_backslash = .connection c w
      ∧ nm_setting_vpn_get_data_item c.data NM_OPENVPN_KEY_STATIC_KEY
          = some ("/etc/vpn/abc".toList ++ [bslash])) := by
  refine ⟨⟨_, _, rfl, by decide⟩, ⟨_, _, rfl, by decide⟩⟩

/-- C6, amended: `do_import` has no structural error.  Whatever the buffer, it
returns a connection, or fails with `FILE_NOT_READABLE` for a buffer without
lines, or with `FILE_NOT_OPENVPN` for a missing client marker or a missing
remote (or its run is undefined); none of these errors names a quote or an
offset.  The arguments of a directive are read by `unquote`, which takes a
quote that is never closed to run to the end of the line, and a backslash at
the end of the line literally. -/
theorem do_import_no_structural_error (env : Env) (path contents : CStr) :
    (do_import env path contents = .undefined
      ∨ (∃ c w, do_import env path contents = .connection c w)
      ∨ (∃ w, do_import env path contents = .error .FILE_NOT_READABLE MSG_NOT_A_FILE w)
      ∨ (∃ w, do_import env path contents = .error .FILE_NOT_OPENVPN MSG_NOT_CLIENT w)
      ∨ (∃ w, do_import env path contents = .error .FILE_NOT_OPENVPN MSG_NO_REMOTE w))
    ∧ unquote ([dquote] ++ "abc".toList) = some ("abc".toList, none)
    ∧ unquote ("abc".toList ++ [bslash]) = some ("abc".toList ++ [bslash], none) := by
  refine ⟨?_, by decide, by decide⟩
  rw [do_import_eq]
  split_ifs
  · exact Or.inr (Or.inr (Or.inl ⟨_, rfl⟩))
  · cases import_scan env path contents with
    | none => exact Or.inl rfl
    | some st =>
      simp only
      split_ifs
      · exact Or.inr (Or.inr (Or.inr (Or.inl ⟨_, rfl⟩)))
      · exact Or.inr (Or.inr (Or.inr (Or.inr ⟨_, rfl⟩)))
      · exact Or.inr (Or.inl ⟨_, _, rfl⟩)

/-! ## Claims about the tokenizer -/

/-- C1: the line `key "a\"b" 1` is tokenized into the three arguments `key`,
`a"b` and `1`.  In general, at a backslash inside a double-quoted span the
backslash is stepped over and the character behind it is appended to the
output as it is, the span staying open, whatever that character is; and a
double-quoted span in which every character is escaped yields exactly these
characters as its one argument. -/
theorem args_parse_line_double_quote (st : ArgsState) (c : Char) (s : CStr)
    (hmode : st.mode = .quoted dquote) (hs : ∀ x ∈ s, x ≠ nul ∧ x ≠ lf) :
    args_parse_line line_escaped_quote
        = .ok (some ["key".toList, ['a', dquote, 'b'], "1".toList])
    ∧ args_step (args_step st bslash) c
        = { st with pos := st.pos + 1 + 1, buf := _strbuf_append_c st.buf c }
    ∧ args_parse_line ([dquote] ++ escape_all s ++ [dquote]) = .ok (some [s]) := by
  refine ⟨by decide, ?_, args_parse_line_quoted s hs⟩
  obtain ⟨mode, ws, pos, index, buf⟩ := st
  simp only at hmode
  subst hmode
  have hb : bslash ≠ dquote := by decide
  simp [args_step, hb]

theorem args_parse_line_double_quote_witness :
    args_parse_line line_escaped_quote
        = .ok (some ["key".toList, ['a', dquote, 'b'], "1".toList])
    ∧ args_step (args_step
          { mode := .quoted dquote, word_start := 4, pos := 6, index := [0, 4],
            buf := { data := "key".toList ++ [nul, 'a'], len := 8 } } bslash) dquote
        = { mode := .quoted dquote, word_start := 4, pos := 8, index := [0, 4],
            buf := { data := "key".toList ++ [nul, 'a', dquote], len := 7 } }
    ∧ args_parse_line ([dquote] ++ escape_all ['a', dquote, 'b'] ++ [dquote])
        = .ok (some [['a', dquote, 'b']]) :=
  args_parse_line_double_quote
    { mode := .quoted dquote, word_start := 4, pos := 6, index := [0, 4],
      buf := { data := "key".toList ++ [nul, 'a'], len := 8 } }
    dquote ['a', dquote, 'b'] rfl (by decide)

/-- C2, as stated, fails: the line `a\` followed by a carriage return holds
neither NUL nor a line feed, has no quote, and its last character is the
carriage return, not a backslash; yet `args_parse_line` drops the carriage
return first and fails with a trailing backslash for the argument at 0. -/
theorem args_parse_line_backslash_cr :
    (∀ c ∈ line_backslash_cr, c ≠ nul ∧ c ≠ lf)
    ∧ line_backslash_cr.getLast? = some cr
    ∧ spec_failure line_backslash_cr = none
    ∧ args_parse_line line_backslash_cr = .error (.trailing_backslash 0) := by
  refine ⟨by decide, by decide, by decide, by decide⟩

/-- C2, amended: a line free of NUL and line feed is never rejected, and
`args_parse_line` fails on it exactly when the line, without the one carriage
return that may end it, is neither blank nor a comment and ends inside a quote
opened by `"` or `'`, or right behind an escaping backslash outside quotes;
the error then carries the kind of quote, or the trailing backslash, and the
offset in the line as passed at which the argument began, which the text
prints.  A failure returns no argument vector.  For `secret "abc` the error is
the unterminated double quote at position 7. -/
theorem args_parse_line_failure (line : CStr) (h : ∀ c ∈ line, c ≠ nul ∧ c ≠ lf) :
    args_parse_line line ≠ .rejected
    ∧ (∀ e, args_parse_line line = .error e ↔ spec_failure (drop_cr line) = some e)
    ∧ (∀ q ws, args_parse_line line = .error (.unterminated q ws) → q = dquote ∨ q = squote)
    ∧ (∀ e, args_parse_line line = .error e → ∀ v, args_parse_line line ≠ .ok v)
    ∧ (∀ ws, (ArgsError.unterminated dquote ws).text
        = "unterminated double quote at position ".toList ++ print_nat ws)
    ∧ (∀ ws, (ArgsError.unterminated squote ws).text
        = "unterminated single quote at position ".toList ++ print_nat ws)
    ∧ (∀ ws, (ArgsError.trailing_backslash ws).text
        = "trailing escaping backslash at position ".toList ++ print_nat ws)
    ∧ args_parse_line line_open_quote = .error (.unterminated dquote 7)
    ∧ (ArgsError.unterminated dquote 7).text
        = "unterminated double quote at position 7".toList := by
  have hany : line.any (fun c => c == nul || c == lf) = false := by
    rw [Bool.eq_false_iff]
    intro hc
    obtain ⟨c, hc1, hc2⟩ := List.any_eq_true.mp hc
    have := h c hc1
    simp_all
  refine ⟨?_, fun e => args_parse_line_error_iff line h e, ?_, ?_, ?_, ?_, ?_,
    by decide, by decide⟩
  · unfold args_parse_line
    simp only [hany, Bool.false_eq_true, if_false]
    generalize (if line.getLast? = some cr then line.dropLast else line) = L
    cases _ch_skip_over_leading_whitespace L with
    | nil => simp
    | cons c cs =>
      simp only
      split_ifs
      · simp
      · cases args_loop _ (c :: cs) <;> simp
  · intro q ws he
    have hs := (args_parse_line_error_iff line h _).mp he
    unfold spec_failure at hs
    split at hs
    · cases hs
    · split_ifs at hs
      exact lex_failure_quote _ (lex_run_wf _ .between 0 trivial) q ws hs
  · intro e he v hv
    rw [he] at hv
    cases hv
  · intro ws
    simp [ArgsError.text]
  · intro ws
    have : squote ≠ dquote := by decide
    simp [ArgsError.text, this]
  · intro ws
    rfl

theorem args_parse_line_failure_witness :
    (∀ c ∈ line_open_quote, c ≠ nul ∧ c ≠ lf)
    ∧ spec_failure (drop_cr line_open_quote) = some (.unterminated dquote 7)
    ∧ args_parse_line line_open_quote = .error (.unterminated dquote 7) :=
  ⟨by decide, by decide,
    ((args_parse_line_failure line_open_quote (by decide)).2.1 _).mpr (by decide)⟩

/-! ## Round trip -/

theorem strip_comment_clean (piece : CStr) (h1 : hash ∉ piece) (h2 : semi ∉ piece) :
    strip_comment piece = { text := piece, beyond := none } := by
  unfold strip_comment
  simp only [takeWhile_ne_self hash piece h1, takeWhile_ne_self semi piece h2,
    contains_false _ _ h1, contains_false _ _ h2]
  simp

theorem join_remote_ne_nil_word (prev : Option CStr) (h : CStr) (hh : h ≠ []) :
    join_remote prev h ≠ [] := by
  cases prev with
  | none => exact hh
  | some p => simp [join_remote, hh]

theorem scan_data_get_ne (hs : List CStr) (data : List (CStr × CStr)) (k : CStr)
    (hk : k ≠ NM_OPENVPN_KEY_REMOTE) :
    nm_setting_vpn_get_data_item (scan_data data hs) k = nm_setting_vpn_get_data_item data k := by
  induction hs generalizing data with
  | nil => rfl
  | cons h hs ih =>
    have : scan_data data (h :: hs)
        = scan_data (nm_setting_vpn_add_data_item data NM_OPENVPN_KEY_REMOTE
            (join_remote (nm_setting_vpn_get_data_item data NM_OPENVPN_KEY_REMOTE) h)) hs := rfl
    rw [this, ih, get_add_ne _ _ _ _ hk]

theorem scan_data_get_remote (hs : List CStr) (data : List (CStr × CStr))
    (hhs : ∀ h ∈ hs, h ≠ []) :
    nm_setting_vpn_get_data_item (scan_data data hs) NM_OPENVPN_KEY_REMOTE
      = add_entries (nm_setting_vpn_get_data_item data NM_OPENVPN_KEY_REMOTE) hs := by
  induction hs generalizing data with
  | nil => rfl
  | cons h hs ih =>
    have h1 : scan_data data (h :: hs)
        = scan_data (nm_setting_vpn_add_data_item data NM_OPENVPN_KEY_REMOTE
            (join_remote (nm_setting_vpn_get_data_item data NM_OPENVPN_KEY_REMOTE) h)) hs := rfl
    have h2 : add_entries (nm_setting_vpn_get_data_item data NM_OPENVPN_KEY_REMOTE) (h :: hs)
        = add_entries (some (join_remote
            (nm_setting_vpn_get_data_item data NM_OPENVPN_KEY_REMOTE) h)) hs := rfl
    rw [h1, h2, ih _ (fun x hx => hhs x (List.mem_cons_of_mem _ hx)),
      get_add_eq _ _ _ (by decide)
        (join_remote_ne_nil_word _ h (hhs h (List.mem_cons_self _ _)))]

theorem scan_remotes_cons (st : ImportState) (h : CStr) (hs : List CStr) :
    scan_remotes ({ st with have_remote := true }.add NM_OPENVPN_KEY_REMOTE
        (join_remote (nm_setting_vpn_get_data_item st.data NM_OPENVPN_KEY_REMOTE) h)) hs
      = scan_remotes st (h :: hs) := by
  simp [scan_remotes, scan_data, ImportState.add]

theorem scan_remotes_nil (st : ImportState) : scan_remotes st [] = st := by
  simp [scan_remotes, scan_data]

theorem import_lines_client (env : Env) (path dp name : CStr) (rest : List CStr)
    (st : ImportState) :
    import_lines env path dp name st 0 ("client".toList :: rest)
      = import_lines env path dp name { st with have_client := true } 0 rest := by
  rfl

theorem import_text_client (env : Env) (t : CStr) (henv : ∀ t, env.utf8_validate t = true) :
    import_text env ("client\n".toList ++ t) = "client\n".toList ++ t := by
  unfold import_text
  simp only [henv, Bool.not_true, Bool.false_eq_true, if_false]
  have hb : ("client\n".toList ++ t).take 3 ≠ UTF8_BOM := by
    have : ("client\n".toList ++ t).take 3 = "cli".toList := rfl
    rw [this]
    decide
  rw [if_neg hb]

theorem import_finish_plain (env : Env) (name : CStr) (st : ImportState)
    (hpass : st.have_pass = false) (hsk : st.have_sk = false)
    (hca : nm_setting_vpn_get_data_item st.data NM_OPENVPN_KEY_CA = none) :
    import_finish env name st
      = { id := name,
          data := nm_setting_vpn_add_data_item st.data NM_OPENVPN_KEY_CONNECTION_TYPE
            NM_OPENVPN_CONTYPE_TLS,
          secrets := st.secrets, secret_flags := st.secret_flags, routes := st.routes } := by
  unfold import_finish import_connection_type
  simp [hpass, hsk, hca]

theorem do_import_of_scan (env : Env) (path contents : CStr) (st : ImportState)
    (hlen : 1 < (import_pieces env contents).length)
    (hscan : import_scan env path contents = some st)
    (hclient : st.have_client = true) (hremote : st.have_remote = true) :
    do_import env path contents
      = .connection (import_finish env (import_basename path) st) st.written := by
  rw [do_import_eq, if_neg (by omega), hscan]
  simp [hclient, hremote]

/-! ## Certificate lines of the export -/

theorem lookup_filter_keys (p : CStr → Bool) (m : List (CStr × CStr)) (k : CStr) :
    (m.filter (fun e => p e.1)).lookup k = if p k then m.lookup k else none := by
  induction m with
  | nil => simp
  | cons e m ih =>
    obtain ⟨a, v⟩ := e
    by_cases hk : k = a
    · subst hk
      by_cases hp : p k = true
      · simp [List.filter_cons, hp, List.lookup_cons]
      · have hp' : p k = false := by simpa using hp
        simp only [List.filter_cons, hp', Bool.false_eq_true, if_false, ih]
    · have hka : (k == a) = false := by simpa using hk
      by_cases hp : p a = true
      · simp only [List.filter_cons, hp, if_true, List.lookup_cons, hka, ih]
      · have hp' : p a = false := by simpa using hp
        simp only [List.filter_cons, hp', Bool.false_eq_true, if_false, List.lookup_cons, hka, ih]

theorem drop_certs_get (c : Connection) (k : CStr) :
    nm_setting_vpn_get_data_item (drop_certs c).data k
      = if k = NM_OPENVPN_KEY_CA ∨ k = NM_OPENVPN_KEY_CERT ∨ k = NM_OPENVPN_KEY_KEY then none
        else nm_setting_vpn_get_data_item c.data k := by
  unfold nm_setting_vpn_get_data_item drop_certs
  rw [lookup_filter_keys (fun a => a != NM_OPENVPN_KEY_CA && a != NM_OPENVPN_KEY_CERT
    && a != NM_OPENVPN_KEY_KEY) c.data k]
  by_cases h1 : k = NM_OPENVPN_KEY_CA
  · simp [h1]
  · by_cases h2 : k = NM_OPENVPN_KEY_CERT
    · simp [h2]
    · by_cases h3 : k = NM_OPENVPN_KEY_KEY
      · simp [h3]
      · simp [h1, h2, h3]

theorem drop_certs_get_other (c : Connection) (k : CStr) (h1 : k ≠ NM_OPENVPN_KEY_CA)
    (h2 : k ≠ NM_OPENVPN_KEY_CERT) (h3 : k ≠ NM_OPENVPN_KEY_KEY) :
    nm_setting_vpn_get_data_item (drop_certs c).data k = nm_setting_vpn_get_data_item c.data k := by
  rw [drop_certs_get]
  simp [h1, h2, h3]

theorem drop_certs_get_nonempty (c : Connection) (k : CStr) (h1 : k ≠ NM_OPENVPN_KEY_CA)
    (h2 : k ≠ NM_OPENVPN_KEY_CERT) (h3 : k ≠ NM_OPENVPN_KEY_KEY) :
    get_nonempty (drop_certs c).data k = get_nonempty c.data k := by
  unfold get_nonempty
  rw [drop_certs_get_other c k h1 h2 h3]

theorem drop_certs_is_yes (c : Connection) (k : CStr) (h1 : k ≠ NM_OPENVPN_KEY_CA)
    (h2 : k ≠ NM_OPENVPN_KEY_CERT) (h3 : k ≠ NM_OPENVPN_KEY_KEY) :
    is_yes (drop_certs c).data k = is_yes c.data k := by
  unfold is_yes
  rw [drop_certs_get_other c k h1 h2 h3]

theorem drop_certs_none (c : Connection) (k : CStr)
    (h : k = NM_OPENVPN_KEY_CA ∨ k = NM_OPENVPN_KEY_CERT ∨ k = NM_OPENVPN_KEY_KEY) :
    get_nonempty (drop_certs c).data k = none := by
  unfold get_nonempty
  rw [drop_certs_get, if_pos h]

theorem export_proxy_drop_certs (path : CStr) (c : Connection) :
    export_proxy path (drop_certs c) = export_proxy path c := by
  unfold export_proxy
  rw [drop_certs_get_nonempty c _ (by decide) (by decide) (by decide),
    drop_certs_get_other c NM_OPENVPN_KEY_PROXY_SERVER (by decide) (by decide) (by decide),
    drop_certs_get_other c NM_OPENVPN_KEY_PROXY_PORT (by decide) (by decide) (by decide),
    drop_certs_get_other c NM_OPENVPN_KEY_HTTP_PROXY_USERNAME (by decide) (by decide) (by decide),
    drop_certs_is_yes c _ (by decide) (by decide) (by decide)]
  rfl
theorem export_options_split (path : CStr) (c : Connection) (ctype : CStr) :
    (export_options path c ctype).1
      = export_certs
          (if ctype = NM_OPENVPN_CONTYPE_TLS ∨ ctype = NM_OPENVPN_CONTYPE_PASSWORD_TLS
              ∨ ctype = NM_OPENVPN_CONTYPE_PASSWORD then get_nonempty c.data NM_OPENVPN_KEY_CA
           else none)
          (if ctype = NM_OPENVPN_CONTYPE_TLS ∨ ctype = NM_OPENVPN_CONTYPE_PASSWORD_TLS then
            get_nonempty c.data NM_OPENVPN_KEY_CERT else none)
          (if ctype = NM_OPENVPN_CONTYPE_TLS ∨ ctype = NM_OPENVPN_CONTYPE_PASSWORD_TLS then
            get_nonempty c.data NM_OPENVPN_KEY_KEY else none)
        ++ (export_options path (drop_certs c) ctype).1 := by
  have hroutes : (drop_certs c).routes = c.routes := rfl
  unfold export_options
  simp only [export_proxy_drop_certs, hroutes,
    drop_certs_none c NM_OPENVPN_KEY_CA (Or.inl rfl),
    drop_certs_none c NM_OPENVPN_KEY_CERT (Or.inr (Or.inl rfl)),
    drop_certs_none c NM_OPENVPN_KEY_KEY (Or.inr (Or.inr rfl)),
    drop_certs_get_nonempty c NM_OPENVPN_KEY_STATIC_KEY (by decide) (by decide) (by decide),
    drop_certs_get_nonempty c NM_OPENVPN_KEY_STATIC_KEY_DIRECTION (by decide) (by decide)
      (by decide),
    drop_certs_get_nonempty c NM_OPENVPN_KEY_DEV (by decide) (by decide) (by decide),
    drop_certs_get_nonempty c NM_OPENVPN_KEY_DEV_TYPE (by decide) (by decide) (by decide),
    drop_certs_get_nonempty c NM_OPENVPN_KEY_RENEG_SECONDS (by decide) (by decide) (by decide),
    drop_certs_get_nonempty c NM_OPENVPN_KEY_CIPHER (by decide) (by decide) (by decide),
    drop_certs_get_nonempty c NM_OPENVPN_KEY_KEYSIZE (by decide) (by decide) (by decide),
    drop_certs_get_nonempty c NM_OPENVPN_KEY_TUNNEL_MTU (by decide) (by decide) (by decide),
    drop_certs_get_nonempty c NM_OPENVPN_KEY_FRAGMENT_SIZE (by decide) (by decide) (by decide),
    drop_certs_get_nonempty c NM_OPENVPN_KEY_PORT (by decide) (by decide) (by decide),
    drop_certs_get_nonempty c NM_OPENVPN_KEY_PING (by decide) (by decide) (by decide),
    drop_certs_get_nonempty c NM_OPENVPN_KEY_PING_EXIT (by decide) (by decide) (by decide),
    drop_certs_get_nonempty c NM_OPENVPN_KEY_PING_RESTART (by decide) (by decide) (by decide),
    drop_certs_get_nonempty c NM_OPENVPN_KEY_LOCAL_IP (by decide) (by decide) (by decide),
    drop_certs_get_nonempty c NM_OPENVPN_KEY_REMOTE_IP (by decide) (by decide) (by decide),
    drop_certs_get_nonempty c NM_OPENVPN_KEY_TLS_REMOTE (by decide) (by decide) (by decide),
    drop_certs_get_nonempty c NM_OPENVPN_KEY_REMOTE_CERT_TLS (by decide) (by decide) (by decide),
    drop_certs_get_nonempty c NM_OPENVPN_KEY_TA (by decide) (by decide) (by decide),
    drop_certs_get_nonempty c NM_OPENVPN_KEY_TA_DIR (by decide) (by decide) (by decide),
    drop_certs_is_yes c NM_OPENVPN_KEY_TAP_DEV (by decide) (by decide) (by decide),
    drop_certs_is_yes c NM_OPENVPN_KEY_COMP_LZO (by decide) (by decide) (by decide),
    drop_certs_is_yes c NM_OPENVPN_KEY_FLOAT (by decide) (by decide) (by decide),
    drop_certs_is_yes c NM_OPENVPN_KEY_MSSFIX (by decide) (by decide) (by decide),
    drop_certs_is_yes c NM_OPENVPN_KEY_PROTO_TCP (by decide) (by decide) (by decide),
    ite_self, export_certs, opt_line, List.nil_append, List.append_assoc]
  by_cases h1 : ctype = NM_OPENVPN_CONTYPE_TLS ∨ ctype = NM_OPENVPN_CONTYPE_PASSWORD_TLS <;>
    by_cases h2 : ctype = NM_OPENVPN_CONTYPE_PASSWORD <;>
    simp [h1, h2, or_assoc]
/-- C11, as stated, fails: with the connection type `password` and `ca`,
`cert` and `key` all set to `/p`, the export writes the line `ca /p` and no
`pkcs12` line; with the type `static-key` and the same three settings it
writes none of the four lines. -/
theorem do_export_one_file_password :
    do_export true export_path
        (conn_certs NM_OPENVPN_CONTYPE_PASSWORD (some "/p".toList) (some "/p".toList)
          (some "/p".toList))
      = .success ("client\nremote h\nca /p\nauth-user-pass\ndev tun\nproto udp\n".toList
          ++ EXPORT_TRAILER) none
    ∧ do_export true export_path
        (conn_certs NM_OPENVPN_CONTYPE_STATIC_KEY (some "/p".toList) (some "/p".toList)
          (some "/p".toList))
      = .success ("client\nremote h\ndev tun\nproto udp\n".toList ++ EXPORT_TRAILER) none := by
  constructor <;> decide

/-- C11, amended: the text of a successful export is what is printed in front
(`client`, gateways, `remote-random`), then the certificate lines, then what
the export of the same connection without `ca`, `cert` and `key` prints as
options.  For the connection types `tls` and `password-tls` the certificate
lines are the single line `pkcs12 <path>` when `ca`, `cert` and `key` are all
set, not empty, to one path, and else a `ca`, `cert` and `key` line for each of
the three that is set and not empty.  For the type `password` they are the `ca`
line alone, when `ca` is set and not empty; for any other type there is
none. -/
theorem do_export_cert_lines (can_open : Bool) (path : CStr) (c : Connection) (text : CStr)
    (auth : Option (CStr × CStr)) (h : do_export can_open path c = .success text auth) :
    ∃ ctype lines,
      get_nonempty c.data NM_OPENVPN_KEY_CONNECTION_TYPE = some ctype
      ∧ text = export_front c ++ lines ++ (export_options path (drop_certs c) ctype).1
      ∧ ((ctype = NM_OPENVPN_CONTYPE_TLS ∨ ctype = NM_OPENVPN_CONTYPE_PASSWORD_TLS) →
          (∀ p, get_nonempty c.data NM_OPENVPN_KEY_CA = some p →
            get_nonempty c.data NM_OPENVPN_KEY_CERT = some p →
            get_nonempty c.data NM_OPENVPN_KEY_KEY = some p →
            lines = "pkcs12 ".toList ++ p ++ [lf])
          ∧ (¬ (∃ p, get_nonempty c.data NM_OPENVPN_KEY_CA = some p
                ∧ get_nonempty c.data NM_OPENVPN_KEY_CERT = some p
                ∧ get_nonempty c.data NM_OPENVPN_KEY_KEY = some p) →
            lines = opt_line "ca".toList (get_nonempty c.data NM_OPENVPN_KEY_CA)
              ++ opt_line "cert".toList (get_nonempty c.data NM_OPENVPN_KEY_CERT)
              ++ opt_line "key".toList (get_nonempty c.data NM_OPENVPN_KEY_KEY)))
      ∧ (ctype = NM_OPENVPN_CONTYPE_PASSWORD →
          lines = opt_line "ca".toList (get_nonempty c.data NM_OPENVPN_KEY_CA))
      ∧ (ctype ≠ NM_OPENVPN_CONTYPE_TLS → ctype ≠ NM_OPENVPN_CONTYPE_PASSWORD_TLS →
          ctype ≠ NM_OPENVPN_CONTYPE_PASSWORD → lines = []) := by
  unfold do_export at h
  cases can_open with
  | false => simp at h
  | true =>
    cases hg : get_nonempty c.data NM_OPENVPN_KEY_REMOTE with
    | none => simp [hg] at h
    | some g =>
      cases ht : get_nonempty c.data NM_OPENVPN_KEY_CONNECTION_TYPE with
      | none => simp [hg, ht] at h
      | some t =>
        simp only [hg, ht, Bool.not_true, Bool.false_eq_true, if_false,
          ExportResult.success.injEq] at h
        obtain ⟨htext, -⟩ := h
        refine ⟨t, export_certs
          (if t = NM_OPENVPN_CONTYPE_TLS ∨ t = NM_OPENVPN_CONTYPE_PASSWORD_TLS
              ∨ t = NM_OPENVPN_CONTYPE_PASSWORD then get_nonempty c.data NM_OPENVPN_KEY_CA
           else none)
          (if t = NM_OPENVPN_CONTYPE_TLS ∨ t = NM_OPENVPN_CONTYPE_PASSWORD_TLS then
            get_nonempty c.data NM_OPENVPN_KEY_CERT else none)
          (if t = NM_OPENVPN_CONTYPE_TLS ∨ t = NM_OPENVPN_CONTYPE_PASSWORD_TLS then
            get_nonempty c.data NM_OPENVPN_KEY_KEY else none), rfl, ?_, ?_, ?_, ?_⟩
        · rw [← htext]
          simp only [export_text]
          rw [export_options_split]
          simp only [export_front, hg, List.append_assoc]
        · intro htls
          have h3 : t = NM_OPENVPN_CONTYPE_TLS ∨ t = NM_OPENVPN_CONTYPE_PASSWORD_TLS
              ∨ t = NM_OPENVPN_CONTYPE_PASSWORD := by
            rcases htls with h1 | h1
            · exact Or.inl h1
            · exact Or.inr (Or.inl h1)
          simp only [if_pos h3, if_pos htls]
          constructor
          · intro p h1 h2 h4
            rw [h1, h2, h4]
            simp [export_certs]
          · intro hno
            cases h1 : get_nonempty c.data NM_OPENVPN_KEY_CA with
            | none => simp [export_certs]
            | some a =>
              cases h2 : get_nonempty c.data NM_OPENVPN_KEY_CERT with
              | none => simp [export_certs]
              | some b =>
                cases h4 : get_nonempty c.data NM_OPENVPN_KEY_KEY with
                | none => simp [export_certs]
                | some d =>
                  have hne : ¬ (a = b ∧ a = d) := by
                    rintro ⟨rfl, rfl⟩
                    exact hno ⟨a, h1, h2, h4⟩
                  simp [export_certs, hne]
        · intro hp
          have h1 : ¬ (t = NM_OPENVPN_CONTYPE_TLS ∨ t = NM_OPENVPN_CONTYPE_PASSWORD_TLS) := by
            rw [hp]
            decide
          have h3 : t = NM_OPENVPN_CONTYPE_TLS ∨ t = NM_OPENVPN_CONTYPE_PASSWORD_TLS
              ∨ t = NM_OPENVPN_CONTYPE_PASSWORD := Or.inr (Or.inr hp)
          simp only [if_pos h3, if_neg h1]
          cases get_nonempty c.data NM_OPENVPN_KEY_CA <;> simp [export_certs, opt_line]
        · intro h1 h2 h3
          have h4 : ¬ (t = NM_OPENVPN_CONTYPE_TLS ∨ t = NM_OPENVPN_CONTYPE_PASSWORD_TLS) := by
            rintro (h | h)
            · exact h1 h
            · exact h2 h
          have h5 : ¬ (t = NM_OPENVPN_CONTYPE_TLS ∨ t = NM_OPENVPN_CONTYPE_PASSWORD_TLS
              ∨ t = NM_OPENVPN_CONTYPE_PASSWORD) := by
            rintro (h | h | h)
            · exact h1 h
            · exact h2 h
            · exact h3 h
          simp only [if_neg h5, if_neg h4]
          simp [export_certs, opt_line]

theorem do_export_cert_lines_witness :
    do_export true export_path
        (conn_certs NM_OPENVPN_CONTYPE_TLS (some "/p".toList) (some "/p".toList)
          (some "/p".toList))
      = .success ("client\nremote h\npkcs12 /p\ndev tun\nproto udp\n".toList
          ++ EXPORT_TRAILER) none
    ∧ do_export true export_path
        (conn_certs NM_OPENVPN_CONTYPE_TLS (some "/a".toList) none (some "/k".toList))
      = .success ("client\nremote h\nca /a\nkey /k\ndev tun\nproto udp\n".toList
          ++ EXPORT_TRAILER) none
    ∧ ∃ lines,
      "client\nremote h\npkcs12 /p\ndev tun\nproto udp\n".toList ++ EXPORT_TRAILER
        = export_front (conn_certs NM_OPENVPN_CONTYPE_TLS (some "/p".toList) (some "/p".toList)
            (some "/p".toList)) ++ lines
          ++ (export_options export_path
              (drop_certs (conn_certs NM_OPENVPN_CONTYPE_TLS (some "/p".toList)
                (some "/p".toList) (some "/p".toList))) NM_OPENVPN_CONTYPE_TLS).1
      ∧ lines = "pkcs12 /p\n".toList := by
  refine ⟨by decide, by decide, ?_⟩
  obtain ⟨ctype, lines, h1, h2, h3, -⟩ := do_export_cert_lines true export_path
    (conn_certs NM_OPENVPN_CONTYPE_TLS (some "/p".toList) (some "/p".toList) (some "/p".toList))
    ("client\nremote h\npkcs12 /p\ndev tun\nproto udp\n".toList ++ EXPORT_TRAILER) none
    (by decide)
  have hc : ctype = NM_OPENVPN_CONTYPE_TLS := by
    have : get_nonempty (conn_certs NM_OPENVPN_CONTYPE_TLS (some "/p".toList)
        (some "/p".toList) (some "/p".toList)).data NM_OPENVPN_KEY_CONNECTION_TYPE
        = some NM_OPENVPN_CONTYPE_TLS := by decide
    rw [this] at h1
    exact (Option.some.inj h1).symm
  subst hc
  exact ⟨lines, h2, (h3 (Or.inl rfl)).1 "/p".toList (by decide) (by decide) (by decide)⟩

/-! ## The `pkcs12` line -/

theorem import_head_none_pkcs12 (env : Env) (path : CStr) (line : Line) (st : ImportState)
    (h : first_word line.text = "pkcs12".toList) :
    import_head env path line st = none := by
  simp [import_head, import_client, import_key_direction, import_one_arg, import_keyword,
    import_proto, import_flag, import_size_item, import_reneg_sec, import_proxy_retry,
    import_proxy, import_remote, import_port, handle_num_seconds_item, is_option_AUTH, is_option_AUTH_USER_PASS, is_option_CA, is_option_CERT, is_option_CIPHER, is_option_KEYSIZE, is_option_CLIENT, is_option_COMP_LZO, is_option_FLOAT, is_option_DEV, is_option_DEV_TYPE, is_option_FRAGMENT, is_option_IFCONFIG, is_option_KEY, is_option_KEEPALIVE, is_option_MSSFIX, is_option_PING, is_option_PING_EXIT, is_option_PING_RESTART, is_option_PKCS12, is_option_PORT, is_option_PROTO, is_option_HTTP_PROXY, is_option_HTTP_PROXY_RETRY, is_option_SOCKS_PROXY, is_option_SOCKS_PROXY_RETRY, is_option_REMOTE, is_option_REMOTE_RANDOM, is_option_RENEG_SEC, is_option_RPORT, is_option_SECRET, is_option_TLS_AUTH, is_option_KEY_DIRECTION, is_option_TLS_CLIENT, is_option_TLS_REMOTE, is_option_REMOTE_CERT_TLS, is_option_TUN_MTU, is_option_ROUTE, h]

theorem rdropWhile_ne_nil (p : Char → Bool) (b : CStr) (c : Char) (hc : b.head? = some c)
    (hp : p c = false) : b.rdropWhile p ≠ [] := by
  intro h
  rw [List.rdropWhile_eq_nil_iff] at h
  cases b with
  | nil => simp at hc
  | cons a t =>
    simp only [List.head?_cons, Option.some.injEq] at hc
    have := h a (List.mem_cons_self _ _)
    rw [hc, hp] at this
    cases this

theorem g_build_filename_ne_nil (a b : CStr) (hb : b ≠ []) (hrel : g_path_is_absolute b = false) :
    g_build_filename [a, b] ≠ [] := by
  obtain ⟨c, t, rfl⟩ : ∃ c t, b = c :: t := by
    cases b with
    | nil => exact absurd rfl hb
    | cons c t => exact ⟨c, t, rfl⟩
  have hc : c ≠ '/' := by
    intro h
    simp [g_path_is_absolute, h] at hrel
  have hc' : (c == '/') = false := by simpa using hc
  have hstart : (c :: t).dropWhile (fun x => x == '/') = c :: t := by
    simp [List.dropWhile_cons, hc']
  have hcore : ((c :: t).dropWhile (fun x => x == '/')).rdropWhile (fun x => x == '/') ≠ [] := by
    rw [hstart]
    exact rdropWhile_ne_nil _ _ c rfl hc'
  have hlead : (c :: t).takeWhile (fun x => x == '/') = [] := by
    simp [List.takeWhile_cons, hc']
  unfold g_build_filename
  simp only [List.foldl_cons, List.foldl_nil]
  by_cases ha : a = []
  · subst ha
    simp [build_path_step, hstart, hcore, hlead, hstart ▸ hcore]
  · by_cases hca : (a.dropWhile (fun x => x == '/')).rdropWhile (fun x => x == '/') = []
    · simp [build_path_step, ha, hca, hstart, hlead, hstart ▸ hcore]
    · simp [build_path_step, ha, hca, hstart, hlead, hstart ▸ hcore]
theorem handle_path_item_taken (env : Env) (line : Line) (tag key : CStr) (st : ImportState)
    (dp file : CStr) (leftover : Option CStr) (hopt : args_is_option line.text tag = true)
    (hu : unquote (arg_text env line tag) = some (file, leftover)) :
    handle_path_item env line tag key st dp
      = (true, st.add key (if g_path_is_absolute file then file
          else g_build_filename [dp, file]), leftover) := by
  unfold handle_path_item
  simp only [hopt, Bool.not_true, Bool.false_eq_true, if_false, hu]
  cases g_path_is_absolute file <;> simp

/-- C12: a line whose keyword is `pkcs12` and whose argument unquotes to a
file name that is not empty sets `ca`, `cert` and `key` to one value: the file
itself when it is an absolute path, else `g_build_filename` of the directory
of the configuration file and the file.  The round of the loop ends there
(`continue`): no block behind the `pkcs12` block runs on the line, and the scan
goes on with the next line. -/
theorem import_pkcs12_line (env : Env) (path dp name : CStr) (line : Line) (rest : List CStr)
    (st : ImportState) (file : CStr) (leftover : Option CStr)
    (hw : first_word line.text = "pkcs12".toList)
    (hu : unquote (arg_text env line TAG_PKCS12) = some (file, leftover)) (hfile : file ≠ []) :
    ∃ full st1,
      full = (if g_path_is_absolute file then file else g_build_filename [dp, file])
      ∧ full ≠ []
      ∧ st1 = ((st.add NM_OPENVPN_KEY_CA full).add NM_OPENVPN_KEY_CERT full).add
          NM_OPENVPN_KEY_KEY full
      ∧ import_line env path dp name line rest st = .next st1 0
      ∧ nm_setting_vpn_get_data_item st1.data NM_OPENVPN_KEY_CA = some full
      ∧ nm_setting_vpn_get_data_item st1.data NM_OPENVPN_KEY_CERT = some full
      ∧ nm_setting_vpn_get_data_item st1.data NM_OPENVPN_KEY_KEY = some full
      ∧ (∀ k, k ≠ NM_OPENVPN_KEY_CA → k ≠ NM_OPENVPN_KEY_CERT → k ≠ NM_OPENVPN_KEY_KEY →
          nm_setting_vpn_get_data_item st1.data k = nm_setting_vpn_get_data_item st.data k) := by
  have hopt : args_is_option line.text TAG_PKCS12 = true := by
    rw [is_option_PKCS12, decide_eq_true hw]
  have hfull : (if g_path_is_absolute file then file else g_build_filename [dp, file]) ≠ [] := by
    cases habs : g_path_is_absolute file with
    | true => simpa using hfile
    | false => simpa using g_build_filename_ne_nil dp file hfile habs
  refine ⟨_, _, rfl, hfull, rfl, ?_, ?_, ?_, ?_, ?_⟩
  · unfold import_line
    rw [import_head_none_pkcs12 env path line st hw]
    simp only [import_pkcs12, handle_path_item_taken env line TAG_PKCS12 _ _ dp file leftover
      hopt hu, if_true]
  · show nm_setting_vpn_get_data_item (nm_setting_vpn_add_data_item
      (nm_setting_vpn_add_data_item (nm_setting_vpn_add_data_item st.data _ _) _ _) _ _) _ = _
    rw [get_add_ne _ _ _ _ (by decide), get_add_ne _ _ _ _ (by decide),
      get_add_eq _ _ _ (by decide) hfull]
  · show nm_setting_vpn_get_data_item (nm_setting_vpn_add_data_item
      (nm_setting_vpn_add_data_item (nm_setting_vpn_add_data_item st.data _ _) _ _) _ _) _ = _
    rw [get_add_ne _ _ _ _ (by decide), get_add_eq _ _ _ (by decide) hfull]
  · show nm_setting_vpn_get_data_item (nm_setting_vpn_add_data_item
      (nm_setting_vpn_add_data_item (nm_setting_vpn_add_data_item st.data _ _) _ _) _ _) _ = _
    rw [get_add_eq _ _ _ (by decide) hfull]
  · intro k h1 h2 h3
    show nm_setting_vpn_get_data_item (nm_setting_vpn_add_data_item
      (nm_setting_vpn_add_data_item (nm_setting_vpn_add_data_item st.data _ _) _ _) _ _) _ = _
    rw [get_add_ne _ _ _ _ h3, get_add_ne _ _ _ _ h2, get_add_ne _ _ _ _ h1]

theorem import_pkcs12_line_witness :
    (∃ c w, do_import env_plain conf_path conf_pkcs12 = .connection c w
      ∧ nm_setting_vpn_get_data_item c.data NM_OPENVPN_KEY_CA = some "/etc/vpn/certs.p12".toList
      ∧ nm_setting_vpn_get_data_item c.data NM_OPENVPN_KEY_CERT = some "/etc/vpn/certs.p12".toList
      ∧ nm_setting_vpn_get_data_item c.data NM_OPENVPN_KEY_KEY = some "/etc/vpn/certs.p12".toList)
    ∧ (∃ c w, do_import env_plain conf_path conf_pkcs12_abs = .connection c w
      ∧ nm_setting_vpn_get_data_item c.data NM_OPENVPN_KEY_CA = some "/keys/certs.p12".toList
      ∧ nm_setting_vpn_get_data_item c.data NM_OPENVPN_KEY_CERT = some "/keys/certs.p12".toList
      ∧ nm_setting_vpn_get_data_item c.data NM_OPENVPN_KEY_KEY = some "/keys/certs.p12".toList)
    ∧ ∃ full st1,
      full = "/etc/vpn/certs.p12".toList
      ∧ import_line env_plain conf_path "/etc/vpn".toList "my".toList
          { text := "pkcs12 certs.p12".toList, beyond := none } [] (import_init env_plain)
        = .next st1 0
      ∧ nm_setting_vpn_get_data_item st1.data NM_OPENVPN_KEY_CA = some full
      ∧ nm_setting_vpn_get_data_item st1.data NM_OPENVPN_KEY_CERT = some full
      ∧ nm_setting_vpn_get_data_item st1.data NM_OPENVPN_KEY_KEY = some full := by
  refine ⟨⟨_, _, rfl, by decide, by decide, by decide⟩,
    ⟨_, _, rfl, by decide, by decide, by decide⟩, ?_⟩
  obtain ⟨full, st1, h1, -, -, h4, h5, h6, h7, -⟩ :=
    import_pkcs12_line env_plain conf_path "/etc/vpn".toList "my".toList
      { text := "pkcs12 certs.p12".toList, beyond := none } [] (import_init env_plain)
      "certs.p12".toList none (by decide) (by decide) (by decide)
  refine ⟨full, st1, ?_, h4, h5, h6, h7⟩
  rw [h1]
  decide

/-! ## Inline blocks -/

theorem blob_content_cons (l : CStr) (ls : List CStr) :
    blob_content (l :: ls)
      = if l = [] ∨ l.head? = some hash ∨ l.head? = some semi then blob_content ls
        else l ++ [lf] ++ blob_content ls := by
  unfold blob_content
  by_cases h : l = [] ∨ l.head? = some hash ∨ l.head? = some semi
  · have hs : blob_skipped l = true := by simp [blob_skipped, h]
    rw [if_pos h, List.filter_cons]
    simp only [hs, Bool.not_true, Bool.false_eq_true, if_false]
  · have hs : blob_skipped l = false := by simp [blob_skipped, h]
    rw [if_neg h, List.filter_cons]
    simp only [hs, Bool.not_false, if_true, List.flatMap_cons]

theorem blob_lines_first (e : CStr) (he : blob_skipped e = false) (pre post : List CStr)
    (hpre : e ∉ pre) (acc : CStr) (n : Nat) :
    blob_lines e (pre ++ e :: post) acc n = some (acc ++ blob_content pre, n + pre.length + 1) := by
  have he' : ¬ (e = [] ∨ e.head? = some hash ∨ e.head? = some semi) := by
    simpa [blob_skipped] using he
  induction pre generalizing acc n with
  | nil =>
    simp only [List.nil_append, blob_lines, he', if_false, if_true, List.length_nil]
    simp [blob_content]
  | cons l ls ih =>
    have hl : l ≠ e := fun h => hpre (h ▸ List.mem_cons_self _ _)
    have hls : e ∉ ls := fun h => hpre (List.mem_cons_of_mem _ h)
    rw [List.cons_append, blob_lines, blob_content_cons]
    by_cases hs : l = [] ∨ l.head? = some hash ∨ l.head? = some semi
    · rw [if_pos hs, if_pos hs, ih hls]
      simp only [List.length_cons]
      congr 2
      omega
    · rw [if_neg hs, if_neg hl, if_neg hs, ih hls]
      simp only [List.length_cons, List.append_assoc]
      congr 2
      omega

theorem handle_blob_item_extract (env : Env) (cur : CStr) (pre post : List CStr)
    (key s e : CStr) (st : ImportState) (name : CStr)
    (hkey : blob_tags key = some (s, e)) (hstart : cur.take s.length = s)
    (he : blob_skipped e = false) (hpre : e ∉ pre)
    (hdir : st.cert_dir = .is_dir ∨ (st.cert_dir = .missing ∧ env.mkdir_ok = true))
    (hwrite : env.set_contents_ok (blob_path env name key) = true) :
    handle_blob_item env cur (pre ++ e :: post) key st name
      = .stopped true
          (blob_stored env name key (blob_content pre) st)
          (pre.length + 1) := by
  unfold handle_blob_item
  have hb := blob_lines_first e he pre post hpre [] 0
  simp only [List.nil_append, Nat.zero_add] at hb
  have hst : (cur.take s.length != s) = false := by simp [hstart]
  simp only [hkey, hst, Bool.false_eq_true, if_false, hb]
  have hw : env.set_contents_ok (g_build_filename [g_build_filename [env.home_dir, ".cert".toList],
      name ++ "-".toList ++ key ++ ".pem".toList]) = true := hwrite
  rcases hdir with hd | ⟨hd, hm⟩
  · simp only [hd, hw, Bool.not_true, Bool.false_eq_true, if_false, blob_path, blob_stored]
  · simp only [hd, hm, hw, Bool.not_true, Bool.false_eq_true, if_false, blob_path, blob_stored]
theorem first_word_open_tag (t : CStr) (h : t.head? = some '<') :
    ∃ r, first_word t = '<' :: r := by
  cases t with
  | nil => simp at h
  | cons a t =>
    simp only [List.head?_cons, Option.some.injEq] at h
    subst h
    refine ⟨t.takeWhile (fun c => !g_ascii_isspace c), ?_⟩
    have : g_ascii_isspace '<' = false := by decide
    simp [first_word, List.takeWhile_cons, this]

theorem import_line_open_tag (env : Env) (path dp name : CStr) (line : Line) (rest : List CStr)
    (st : ImportState) (h : line.text.head? = some '<') :
    import_line env path dp name line rest st = import_blobs env dp name line rest st := by
  obtain ⟨r, hr⟩ := first_word_open_tag line.text h
  have h1 : import_head env path line st = none := by
    simp [import_head, import_client, import_key_direction, import_one_arg, import_keyword,
      import_proto, import_flag, import_size_item, import_reneg_sec, import_proxy_retry,
      import_proxy, import_remote, import_port, handle_num_seconds_item, is_option_AUTH, is_option_AUTH_USER_PASS, is_option_CA, is_option_CERT, is_option_CIPHER, is_option_KEYSIZE, is_option_CLIENT, is_option_COMP_LZO, is_option_FLOAT, is_option_DEV, is_option_DEV_TYPE, is_option_FRAGMENT, is_option_IFCONFIG, is_option_KEY, is_option_KEEPALIVE, is_option_MSSFIX, is_option_PING, is_option_PING_EXIT, is_option_PING_RESTART, is_option_PKCS12, is_option_PORT, is_option_PROTO, is_option_HTTP_PROXY, is_option_HTTP_PROXY_RETRY, is_option_SOCKS_PROXY, is_option_SOCKS_PROXY_RETRY, is_option_REMOTE, is_option_REMOTE_RANDOM, is_option_RENEG_SEC, is_option_RPORT, is_option_SECRET, is_option_TLS_AUTH, is_option_KEY_DIRECTION, is_option_TLS_CLIENT, is_option_TLS_REMOTE, is_option_REMOTE_CERT_TLS, is_option_TUN_MTU, is_option_ROUTE, hr]
  have h2 : import_pkcs12 env dp line st = (false, st) := by
    apply import_pkcs12_none
    rw [hr]
    simp
  have h3 : import_certs env dp line st = none := by
    simp [import_certs, import_path, handle_path_item, is_option_AUTH, is_option_AUTH_USER_PASS, is_option_CA, is_option_CERT, is_option_CIPHER, is_option_KEYSIZE, is_option_CLIENT, is_option_COMP_LZO, is_option_FLOAT, is_option_DEV, is_option_DEV_TYPE, is_option_FRAGMENT, is_option_IFCONFIG, is_option_KEY, is_option_KEEPALIVE, is_option_MSSFIX, is_option_PING, is_option_PING_EXIT, is_option_PING_RESTART, is_option_PKCS12, is_option_PORT, is_option_PROTO, is_option_HTTP_PROXY, is_option_HTTP_PROXY_RETRY, is_option_SOCKS_PROXY, is_option_SOCKS_PROXY_RETRY, is_option_REMOTE, is_option_REMOTE_RANDOM, is_option_RENEG_SEC, is_option_RPORT, is_option_SECRET, is_option_TLS_AUTH, is_option_KEY_DIRECTION, is_option_TLS_CLIENT, is_option_TLS_REMOTE, is_option_REMOTE_CERT_TLS, is_option_TUN_MTU, is_option_ROUTE, hr]
  unfold import_line
  rw [h1]
  simp only [h2, Bool.false_eq_true, if_false, h3]

theorem import_lines_skip (env : Env) (path dp name : CStr) (st : ImportState)
    (pre post : List CStr) :
    import_lines env path dp name st pre.length (pre ++ post)
      = import_lines env path dp name st 0 post := by
  induction pre with
  | nil => rfl
  | cons l ls ih =>
    rw [List.length_cons, List.cons_append, import_lines]
    exact ih
theorem no_other_start (cur s s' : CStr) (hs : cur.take s.length = s)
    (hne : s.take s'.length ≠ s'.take s.length) : cur.take s'.length ≠ s' := by
  intro h
  apply hne
  have h1 : s.take s'.length = cur.take (min s'.length s.length) := by
    rw [← List.take_take, hs]
  have h2 : s'.take s.length = cur.take (min s.length s'.length) := by
    rw [← List.take_take, h]
  rw [h1, h2, Nat.min_comm]

theorem handle_blob_item_other (env : Env) (cur : CStr) (rest : List CStr) (key s e : CStr)
    (st : ImportState) (name : CStr) (hkey : blob_tags key = some (s, e))
    (hne : cur.take s.length ≠ s) : handle_blob_item env cur rest key st name = .no_start := by
  unfold handle_blob_item
  have : (cur.take s.length != s) = true := by simpa using hne
  simp only [hkey, this, if_true]

theorem end_tag_kept (key s e : CStr) (hkey : blob_tags key = some (s, e)) :
    blob_skipped e = false := by
  have hmem := blob_tags_end key s e hkey
  have hall : ∀ t ∈ END_TAGS, blob_skipped t = false := by decide
  exact hall e hmem

theorem import_blobs_extract (env : Env) (dp name : CStr) (line : Line) (pre post : List CStr)
    (key s e : CStr) (st : ImportState)
    (hkey : blob_tags key = some (s, e)) (hstart : line.text.take s.length = s) (hpre : e ∉ pre)
    (hdir : st.cert_dir = .is_dir ∨ (st.cert_dir = .missing ∧ env.mkdir_ok = true))
    (hwrite : env.set_contents_ok (blob_path env name key) = true) :
    import_blobs env dp name line (pre ++ e :: post) st
      = .next (blob_round_end key
          ({ st with cert_dir := .is_dir,
                     written := table_insert (blob_path env name key) (blob_content pre)
                       st.written }.add key (blob_path env name key)))
          (pre.length + 1) := by
  have he := end_tag_kept key s e hkey
  have hx := handle_blob_item_extract env line.text pre post key s e st name hkey hstart he hpre
    hdir hwrite
  have hca : blob_tags NM_OPENVPN_KEY_CA = some (CA_BLOB_START_TAG, CA_BLOB_END_TAG) := by decide
  have hcert : blob_tags NM_OPENVPN_KEY_CERT = some (CERT_BLOB_START_TAG, CERT_BLOB_END_TAG) := by
    decide
  have hk : blob_tags NM_OPENVPN_KEY_KEY = some (KEY_BLOB_START_TAG, KEY_BLOB_END_TAG) := by
    decide
  have hother : ∀ k s' e', blob_tags k = some (s', e') → s.take s'.length ≠ s'.take s.length →
      import_blob env name k st line (pre ++ e :: post) 0 = .pass st line (pre ++ e :: post) 0 := by
    intro k s' e' hk' hne
    unfold import_blob
    rw [handle_blob_item_other env line.text _ k s' e' st name hk'
      (no_other_start line.text s s' hstart hne)]
  have hself : import_blob env name key st line (pre ++ e :: post) 0
      = .handled (blob_stored env name key (blob_content pre) st) (0 + (pre.length + 1)) := by
    unfold import_blob
    rw [hx]
  have hround : ∀ k x, k ≠ NM_OPENVPN_KEY_TA → blob_round_end k x = x := by
    intro k x hk'
    exact if_neg hk'
  unfold blob_tags at hkey
  split_ifs at hkey with k1 k2 k3 k4 <;>
    simp only [Option.some.injEq, Prod.mk.injEq] at hkey <;>
    obtain ⟨rfl, rfl⟩ := hkey
  · subst k1
    unfold import_blobs
    rw [hself, hround _ _ (by decide)]
    simp only [Nat.zero_add]
    rfl
  · subst k2
    unfold import_blobs
    rw [hother _ _ _ hca (by decide)]
    simp only [hself]
    rw [hround _ _ (by decide)]
    simp only [Nat.zero_add]
    rfl
  · subst k3
    unfold import_blobs
    rw [hother _ _ _ hca (by decide)]
    simp only [hother _ _ _ hcert (by decide), hother _ _ _ hk (by decide), hself]
    simp only [Nat.zero_add]
    rfl
  · subst k4
    unfold import_blobs
    rw [hother _ _ _ hca (by decide)]
    simp only [hother _ _ _ hcert (by decide), hself]
    rw [hround _ _ (by decide)]
    simp only [Nat.zero_add]
    rfl
theorem build_core_ne_nil (b : CStr) (hb : ∃ c ∈ b, c ≠ '/') :
    (b.dropWhile (fun x => x == '/')).rdropWhile (fun x => x == '/') ≠ [] := by
  rcases dropWhile_head (fun x => x == '/') b with h | ⟨c, cs, h, hc⟩
  · obtain ⟨c, hc, hne⟩ := hb
    rw [List.dropWhile_eq_nil_iff] at h
    have := h c hc
    simp at this
    exact absurd this hne
  · rw [h]
    exact rdropWhile_ne_nil _ _ c rfl hc

theorem g_build_filename_ne_nil_of_char (a b : CStr) (hb : ∃ c ∈ b, c ≠ '/') :
    g_build_filename [a, b] ≠ [] := by
  have hcore := build_core_ne_nil b hb
  have hbne : b ≠ [] := by
    rintro rfl
    obtain ⟨c, hc, -⟩ := hb
    simp at hc
  have hstart : b.dropWhile (fun x => x == '/') ≠ [] := by
    intro h
    rw [h] at hcore
    exact hcore rfl
  unfold g_build_filename
  simp only [List.foldl_cons, List.foldl_nil]
  by_cases ha : a = []
  · subst ha
    simp [build_path_step, hbne, hcore, hstart]
  · by_cases hca : (a.dropWhile (fun x => x == '/')).rdropWhile (fun x => x == '/') = []
    · simp [build_path_step, ha, hca, hbne, hcore, hstart]
    · simp [build_path_step, ha, hca, hbne, hcore, hstart]

theorem getLast_dropWhile (p : Char → Bool) (a : CStr) (x : Char) (h : a.getLast? = some x)
    (hx : p x = false) : (a.dropWhile p).getLast? = some x := by
  induction a with
  | nil => simp at h
  | cons c t ih =>
    by_cases hc : p c = true
    · cases t with
      | nil =>
        simp only [List.getLast?_singleton, Option.some.injEq] at h
        rw [h, hx] at hc
        cases hc
      | cons d t =>
        rw [List.getLast?_cons_cons] at h
        rw [List.dropWhile_cons]
        simp only [hc, if_true]
        exact ih h
    · have hc' : p c = false := by simpa using hc
      simp only [List.dropWhile_cons, hc', Bool.false_eq_true, if_false]
      exact h

theorem rdropWhile_self_of_last (p : Char → Bool) (a : CStr) (x : Char)
    (h : a.getLast? = some x) (hx : p x = false) : a.rdropWhile p = a := by
  rw [List.rdropWhile_eq_self_iff]
  intro hne
  have : a.getLast hne = x := by
    have h2 := List.getLast?_eq_getLast a hne
    rw [h] at h2
    exact (Option.some.inj h2).symm
  rw [this, hx]
  simp

theorem rtakeWhile_nil_of_last (p : Char → Bool) (a : CStr) (x : Char)
    (h : a.getLast? = some x) (hx : p x = false) : a.rtakeWhile p = [] := by
  rw [List.rtakeWhile_eq_nil_iff]
  intro hne
  have : a.getLast hne = x := by
    have h2 := List.getLast?_eq_getLast a hne
    rw [h] at h2
    exact (Option.some.inj h2).symm
  rw [this, hx]
  simp

theorem g_build_filename_join (a b : CStr) (x y z : Char)
    (ha : a.getLast? = some x) (hx : x ≠ '/')
    (hb : b.head? = some y) (hy : y ≠ '/') (hbl : b.getLast? = some z) (hz : z ≠ '/') :
    g_build_filename [a, b] = a ++ ['/'] ++ b := by
  have px : ((fun c => c == '/') x) = false := by simpa using hx
  have pz : ((fun c => c == '/') z) = false := by simpa using hz
  have py : (y == '/') = false := by simpa using hy
  have hane : a ≠ [] := by
    rintro rfl
    simp at ha
  have hbne : b ≠ [] := by
    rintro rfl
    simp at hb
  have hsa := getLast_dropWhile (fun c => c == '/') a x ha px
  have hcore_a : (a.dropWhile (fun c => c == '/')).rdropWhile (fun c => c == '/')
      = a.dropWhile (fun c => c == '/') := rdropWhile_self_of_last _ _ x hsa px
  have hsa_ne : a.dropWhile (fun c => c == '/') ≠ [] := by
    intro h
    rw [h] at hsa
    simp at hsa
  have hstart_b : b.dropWhile (fun c => c == '/') = b := by
    cases b with
    | nil => rfl
    | cons c t =>
      simp only [List.head?_cons, Option.some.injEq] at hb
      subst hb
      simp [List.dropWhile_cons, py]
  have hcore_b : b.rdropWhile (fun c => c == '/') = b := rdropWhile_self_of_last _ _ z hbl pz
  have htrail_b : b.rtakeWhile (fun c => c == '/') = [] := rtakeWhile_nil_of_last _ _ z hbl pz
  unfold g_build_filename
  simp only [List.foldl_cons, List.foldl_nil]
  simp [build_path_step, hane, hbne, hcore_a, hsa_ne, hstart_b, hcore_b, htrail_b,
    List.takeWhile_append_dropWhile]

theorem blob_path_text (env : Env) (name key : CStr) (x : Char)
    (hhome : env.home_dir.getLast? = some x) (hx : x ≠ '/')
    (hname : name.head? ≠ some '/') :
    blob_path env name key
      = env.home_dir ++ "/.cert/".toList ++ name ++ "-".toList ++ key ++ ".pem".toList := by
  unfold blob_path
  rw [g_build_filename_join env.home_dir ".cert".toList x '.' 't' hhome hx rfl (by decide)
    rfl (by decide)]
  have hhead : ∃ y, (name ++ "-".toList ++ key ++ ".pem".toList).head? = some y ∧ y ≠ '/' := by
    cases name with
    | nil => exact ⟨'-', rfl, by decide⟩
    | cons c t =>
      refine ⟨c, rfl, ?_⟩
      intro hc
      exact hname (by simp [hc])
  obtain ⟨y, hy1, hy2⟩ := hhead
  have hlast : (name ++ "-".toList ++ key ++ ".pem".toList).getLast? = some 'm' := by
    rw [List.getLast?_append]
    rfl
  rw [g_build_filename_join _ _ 't' y 'm' (by simp) (by decide) hy1 hy2 hlast (by decide)]
  simp
theorem blob_key_facts (key s e : CStr) (hkey : blob_tags key = some (s, e)) :
    key ≠ [] ∧ s.head? = some '<' ∧ s ≠ [] := by
  unfold blob_tags at hkey
  split_ifs at hkey with k1 k2 k3 k4 <;>
    simp only [Option.some.injEq, Prod.mk.injEq] at hkey <;>
    obtain ⟨rfl, rfl⟩ := hkey
  · subst k1; decide
  · subst k2; decide
  · subst k3; decide
  · subst k4; decide

theorem head_of_take (t s : CStr) (c : Char) (hs : s.head? = some c)
    (h : t.take s.length = s) : t.head? = some c := by
  cases s with
  | nil => simp at hs
  | cons a s =>
    cases t with
    | nil => simp at h
    | cons b t =>
      simp only [List.length_cons, List.take_succ_cons, List.cons.injEq] at h
      simp only [List.head?_cons] at hs ⊢
      rw [h.1]
      exact hs

theorem import_lines_block (env : Env) (path dp name piece : CStr) (pre post : List CStr)
    (key s e : CStr) (st : ImportState)
    (hkey : blob_tags key = some (s, e))
    (hstart : (strip_comment piece).text.take s.length = s) (hpre : e ∉ pre)
    (hdir : st.cert_dir = .is_dir ∨ (st.cert_dir = .missing ∧ env.mkdir_ok = true))
    (hwrite : env.set_contents_ok (blob_path env name key) = true) :
    import_line env path dp name (strip_comment piece) (pre ++ e :: post) st
        = .next (blob_round_end key (blob_stored env name key (blob_content pre) st))
            (pre.length + 1)
    ∧ import_lines env path dp name st 0 (piece :: (pre ++ e :: post))
        = import_lines env path dp name
            (blob_round_end key (blob_stored env name key (blob_content pre) st)) 0 post := by
  obtain ⟨-, hs1, hs2⟩ := blob_key_facts key s e hkey
  have hhead := head_of_take _ s '<' hs1 hstart
  have hne : (strip_comment piece).text ≠ [] := by
    intro h
    rw [h] at hhead
    simp at hhead
  have hline : import_line env path dp name (strip_comment piece) (pre ++ e :: post) st
      = .next (blob_round_end key (blob_stored env name key (blob_content pre) st))
          (pre.length + 1) := by
    rw [import_line_open_tag env path dp name _ _ st hhead]
    exact import_blobs_extract env dp name _ pre post key s e st hkey hstart hpre hdir hwrite
  refine ⟨hline, ?_⟩
  rw [import_lines]
  simp only [hne, if_false, hline]
  have := import_lines_skip env path dp name
    (blob_round_end key (blob_stored env name key (blob_content pre) st)) (pre ++ [e]) post
  simpa using this

theorem blob_stored_get (env : Env) (name key content : CStr) (st : ImportState) (s e : CStr)
    (hkey : blob_tags key = some (s, e)) :
    nm_setting_vpn_get_data_item (blob_stored env name key content st).data key
      = some (blob_path env name key) := by
  have hk := (blob_key_facts key s e hkey).1
  have hp : blob_path env name key ≠ [] := by
    apply g_build_filename_ne_nil_of_char
    exact ⟨'-', by simp, by decide⟩
  exact get_add_eq _ _ _ hk hp

theorem handle_direction_get_ne (key : CStr) (l : Option CStr) (st : ImportState) (k : CStr)
    (hk : k ≠ key) :
    nm_setting_vpn_get_data_item (handle_direction key l st).data k
      = nm_setting_vpn_get_data_item st.data k := by
  unfold handle_direction
  cases l with
  | none => rfl
  | some t =>
    simp only
    split_ifs
    · rfl
    · exact get_add_ne _ _ _ _ hk
    · exact get_add_ne _ _ _ _ hk
    · rfl
    · rfl

theorem get_append_end (pre post : List CStr) (e : CStr) :
    (pre ++ e :: post).get? (pre.length + 1 - 1) = some e := by
  rw [Nat.add_sub_cancel, List.get?_eq_getElem?, List.getElem?_append_right (Nat.le_refl _)]
  simp

/-- C13: when a line of the scan starts with the start tag of one of the four
inline blocks, a line equal to the end tag follows, and the file can be written
(`~/.cert` is a directory or can be made, and the write succeeds), then
`handle_blob_item` returns `TRUE` with the cursor on the first such line and
the path of the written file stored under the key of the block.  The path is
`g_build_filename` of the home directory, `.cert` and `<name>-<key>.pem`,
which is the text `<home>/.cert/<name>-<key>.pem` for a home directory that
does not end in a separator and a name that does not begin with one.  The line
loop goes on with the line behind the end tag: no line of the block is
dispatched. -/
theorem handle_blob_item_block (env : Env) (path dp name piece : CStr) (pre post : List CStr)
    (key s e : CStr) (st : ImportState)
    (hkey : blob_tags key = some (s, e))
    (hstart : (strip_comment piece).text.take s.length = s) (hpre : e ∉ pre)
    (hdir : st.cert_dir = .is_dir ∨ (st.cert_dir = .missing ∧ env.mkdir_ok = true))
    (hwrite : env.set_contents_ok (blob_path env name key) = true) :
    handle_blob_item env (strip_comment piece).text (pre ++ e :: post) key st name
        = .stopped true (blob_stored env name key (blob_content pre) st) (pre.length + 1)
    ∧ (pre ++ e :: post).get? (pre.length + 1 - 1) = some e
    ∧ nm_setting_vpn_get_data_item (blob_stored env name key (blob_content pre) st).data key
        = some (blob_path env name key)
    ∧ nm_setting_vpn_get_data_item
          (blob_round_end key (blob_stored env name key (blob_content pre) st)).data key
        = some (blob_path env name key)
    ∧ (∀ x, env.home_dir.getLast? = some x → x ≠ '/' → name.head? ≠ some '/' →
        blob_path env name key
          = env.home_dir ++ "/.cert/".toList ++ name ++ "-".toList ++ key ++ ".pem".toList)
    ∧ import_lines env path dp name st 0 (piece :: (pre ++ e :: post))
        = import_lines env path dp name
            (blob_round_end key (blob_stored env name key (blob_content pre) st)) 0 post := by
  have hget := blob_stored_get env name key (blob_content pre) st s e hkey
  refine ⟨handle_blob_item_extract env _ pre post key s e st name hkey hstart
      (end_tag_kept key s e hkey) hpre hdir hwrite, get_append_end pre post e, hget, ?_,
    fun x h1 h2 h3 => blob_path_text env name key x h1 h2 h3,
    (import_lines_block env path dp name piece pre post key s e st hkey hstart hpre hdir
      hwrite).2⟩
  unfold blob_round_end
  split_ifs with hta
  · rw [handle_direction_get_ne _ _ _ _ (by rw [hta]; decide)]
    exact hget
  · exact hget

theorem handle_blob_item_block_witness :
    (∃ c w, do_import env_plain conf_path conf_inline_ca = .connection c w
      ∧ nm_setting_vpn_get_data_item c.data NM_OPENVPN_KEY_CA
          = some "/home/u/.cert/my-ca.pem".toList
      ∧ nm_setting_vpn_get_data_item c.data NM_OPENVPN_KEY_REMOTE = some "h".toList
      ∧ nm_setting_vpn_get_data_item c.data NM_OPENVPN_KEY_DEV = some "tun".toList
      ∧ w = [("/home/u/.cert/my-ca.pem".toList, "remote x\n".toList)])
    ∧ handle_blob_item env_plain (strip_comment "<ca>".toList).text
          (["remote x".toList] ++ "</ca>".toList :: ["dev tun".toList, []])
          NM_OPENVPN_KEY_CA (import_init env_plain) "my".toList
        = .stopped true
            (blob_stored env_plain "my".toList NM_OPENVPN_KEY_CA
              (blob_content ["remote x".toList]) (import_init env_plain)) 2
    ∧ blob_path env_plain "my".toList NM_OPENVPN_KEY_CA = "/home/u/.cert/my-ca.pem".toList := by
  refine ⟨⟨_, _, rfl, by decide, by decide, by decide, by decide⟩, ?_, by decide⟩
  exact (handle_blob_item_block env_plain conf_path "/etc/vpn".toList "my".toList "<ca>".toList
    ["remote x".toList] ["dev tun".toList, []] NM_OPENVPN_KEY_CA CA_BLOB_START_TAG
    CA_BLOB_END_TAG (import_init env_plain) (by decide) (by decide) (by decide)
    (Or.inl rfl) (by decide)).1
/-- C14, as stated, fails: in the block `<ca>`, `LINE1`, `#note`, an empty
line, `LINE2`, `</ca>` the comment line and the empty line are stepped over;
the file written holds `LINE1` and `LINE2` only. -/
theorem blob_skips_comment_lines :
    (∃ c, do_import env_plain conf_path conf_inline_comment
        = .connection c [("/home/u/.cert/my-ca.pem".toList, "LINE1\nLINE2\n".toList)])
    ∧ blob_lines CA_BLOB_END_TAG
        ["LINE1".toList, "#note".toList, [], "LINE2".toList, "</ca>".toList, []] [] 0
      = some ("LINE1\nLINE2\n".toList, 5)
    ∧ "LINE1\nLINE2\n".toList ≠ "LINE1\n#note\n\nLINE2\n".toList := by
  refine ⟨⟨_, rfl⟩, by decide, by decide⟩

/-- C14, amended: the content that `handle_blob_item` writes for a block is
made of the lines between the start-tag line and the first line equal to the
end tag, in order and verbatim, each followed by one line feed, except the
lines that are empty or start with `#` or `;`, which are left out.  When no
line of the block is empty or starts with `#` or `;`, the content is every
line followed by a line feed; for `LINE1`, `LINE2` it is `LINE1\nLINE2\n`. -/
theorem handle_blob_item_content (env : Env) (cur : CStr) (pre post : List CStr)
    (key s e : CStr) (st : ImportState) (name : CStr)
    (hkey : blob_tags key = some (s, e)) (hstart : cur.take s.length = s) (hpre : e ∉ pre)
    (hdir : st.cert_dir = .is_dir ∨ (st.cert_dir = .missing ∧ env.mkdir_ok = true))
    (hwrite : env.set_contents_ok (blob_path env name key) = true) :
    ∃ st1,
      handle_blob_item env cur (pre ++ e :: post) key st name
        = .stopped true st1 (pre.length + 1)
      ∧ read_file env st1.written (blob_path env name key) = some (blob_content pre)
      ∧ blob_content pre
          = (pre.filter (fun l =>
              !decide (l = [] ∨ l.head? = some hash ∨ l.head? = some semi))).flatMap
              (fun l => l ++ [lf])
      ∧ ((∀ l ∈ pre, ¬ (l = [] ∨ l.head? = some hash ∨ l.head? = some semi)) →
          blob_content pre = pre.flatMap (fun l => l ++ [lf]))
      ∧ blob_content ["LINE1".toList, "LINE2".toList] = "LINE1\nLINE2\n".toList := by
  refine ⟨_, handle_blob_item_extract env cur pre post key s e st name hkey hstart
      (end_tag_kept key s e hkey) hpre hdir hwrite, ?_, rfl, ?_, by decide⟩
  · unfold read_file blob_stored ImportState.add
    simp only [lookup_table_insert_eq]
  · intro hall
    unfold blob_content
    congr 1
    rw [List.filter_eq_self]
    intro l hl
    simp [blob_skipped, hall l hl]

theorem handle_blob_item_content_witness :
    (∃ c, do_import env_plain conf_path conf_inline_lines
        = .connection c [("/home/u/.cert/my-ca.pem".toList, "LINE1\nLINE2\n".toList)])
    ∧ ∃ st1,
      handle_blob_item env_plain "<ca>".toList
          (["LINE1".toList, "LINE2".toList] ++ CA_BLOB_END_TAG :: [[]])
          NM_OPENVPN_KEY_CA (import_init env_plain) "my".toList
        = .stopped true st1 3
      ∧ read_file env_plain st1.written (blob_path env_plain "my".toList NM_OPENVPN_KEY_CA)
          = some "LINE1\nLINE2\n".toList := by
  refine ⟨⟨_, rfl⟩, ?_⟩
  obtain ⟨st1, h1, h2, -, -, h5⟩ := handle_blob_item_content env_plain "<ca>".toList
    ["LINE1".toList, "LINE2".toList] [[]] NM_OPENVPN_KEY_CA CA_BLOB_START_TAG CA_BLOB_END_TAG
    (import_init env_plain) "my".toList (by decide) (by decide) (by decide) (Or.inl rfl)
    (by decide)
  exact ⟨st1, h1, h5 ▸ h2⟩

/-- C15: a configuration whose inline block `<ca>` (or `<tls-auth>`) is never
closed does not end normally: `handle_blob_item` runs off the end of the line
vector and leaves the cursor on its terminating `NULL`, through which the loop
body then reads. -/
theorem do_import_unterminated_block :
    do_import env_plain conf_path conf_inline_open = .undefined
    ∧ do_import env_plain conf_path conf_inline_open_ta = .undefined
    ∧ handle_blob_item env_plain "<ca>".toList ["LINE1".toList, []] NM_OPENVPN_KEY_CA
        (import_init env_plain) "my".toList = .ran_off
    ∧ import_blob env_plain "my".toList NM_OPENVPN_KEY_CA (import_init env_plain)
        { text := "<ca>".toList, beyond := none } ["LINE1".toList, []] 0 = .undefined := by
  refine ⟨by decide, by decide, by decide, rfl⟩

/-! ## Numbers read by `strtol` -/

theorem strtol_no_digits (s : CStr) (h : strtol_digits s = []) : strtol s = (0, false) := by
  unfold strtol_digits at h
  unfold strtol
  simp only at h ⊢
  rw [h]
  simp [digits_value, LONG_MIN, LONG_MAX]

theorem strtol_erange (s : CStr) (h : (strtol s).2 = true) :
    (strtol s).1 = LONG_MAX ∨ (strtol s).1 = LONG_MIN := by
  unfold strtol at h ⊢
  simp only at h ⊢
  split_ifs at h ⊢ <;> simp_all

theorem parse_port_eq (str : CStr) :
    parse_port str
      = if 0 < (strtol str).1 ∧ (strtol str).1 < 65536 then
          some (print_nat (strtol str).1.toNat)
        else none := by
  unfold parse_port
  simp only
  by_cases hr : 0 < (strtol str).1 ∧ (strtol str).1 < 65536
  · have he : (strtol str).2 = false := by
      cases h2 : (strtol str).2 with
      | false => rfl
      | true =>
        rcases strtol_erange str h2 with h | h <;> rw [h] at hr <;>
          simp [LONG_MAX, LONG_MIN] at hr
    rw [if_pos hr, if_pos ⟨he, hr.1, hr.2⟩, to_gint_small _ (by omega) (by omega),
      print_int_nonneg _ (by omega)]
  · rw [if_neg hr, if_neg]
    rintro ⟨-, h1, h2⟩
    exact hr ⟨h1, h2⟩

theorem import_head_port (env : Env) (path : CStr) (line : Line) (st : ImportState)
    (item : CStr) (h : first_word line.text = "port".toList)
    (hargs : get_args (arg_text env line TAG_PORT) = [item]) :
    import_head env path line st
      = some (match parse_port item with
          | some port => st.add NM_OPENVPN_KEY_PORT port
          | none => st) := by
  cases hp : parse_port item <;>
  simp [import_head, import_client, import_key_direction, import_one_arg, import_keyword,
    import_proto, import_flag, import_size_item, import_reneg_sec, import_proxy_retry,
    import_proxy, import_remote, import_port, is_option_AUTH, is_option_AUTH_USER_PASS, is_option_CA, is_option_CERT, is_option_CIPHER, is_option_KEYSIZE, is_option_CLIENT, is_option_COMP_LZO, is_option_FLOAT, is_option_DEV, is_option_DEV_TYPE, is_option_FRAGMENT, is_option_IFCONFIG, is_option_KEY, is_option_KEEPALIVE, is_option_MSSFIX, is_option_PING, is_option_PING_EXIT, is_option_PING_RESTART, is_option_PKCS12, is_option_PORT, is_option_PROTO, is_option_HTTP_PROXY, is_option_HTTP_PROXY_RETRY, is_option_SOCKS_PROXY, is_option_SOCKS_PROXY_RETRY, is_option_REMOTE, is_option_REMOTE_RANDOM, is_option_RENEG_SEC, is_option_RPORT, is_option_SECRET, is_option_TLS_AUTH, is_option_KEY_DIRECTION, is_option_TLS_CLIENT, is_option_TLS_REMOTE, is_option_REMOTE_CERT_TLS, is_option_TUN_MTU, is_option_ROUTE, h, hargs, hp]

theorem import_head_rport (env : Env) (path : CStr) (line : Line) (st : ImportState)
    (item : CStr) (h : first_word line.text = "rport".toList)
    (hargs : get_args (arg_text env line TAG_RPORT) = [item]) :
    import_head env path line st
      = some (match parse_port item with
          | some port => st.add NM_OPENVPN_KEY_PORT port
          | none => st) := by
  cases hp : parse_port item <;>
  simp [import_head, import_client, import_key_direction, import_one_arg, import_keyword,
    import_proto, import_flag, import_size_item, import_reneg_sec, import_proxy_retry,
    import_proxy, import_remote, import_port, is_option_AUTH, is_option_AUTH_USER_PASS, is_option_CA, is_option_CERT, is_option_CIPHER, is_option_KEYSIZE, is_option_CLIENT, is_option_COMP_LZO, is_option_FLOAT, is_option_DEV, is_option_DEV_TYPE, is_option_FRAGMENT, is_option_IFCONFIG, is_option_KEY, is_option_KEEPALIVE, is_option_MSSFIX, is_option_PING, is_option_PING_EXIT, is_option_PING_RESTART, is_option_PKCS12, is_option_PORT, is_option_PROTO, is_option_HTTP_PROXY, is_option_HTTP_PROXY_RETRY, is_option_SOCKS_PROXY, is_option_SOCKS_PROXY_RETRY, is_option_REMOTE, is_option_REMOTE_RANDOM, is_option_RENEG_SEC, is_option_RPORT, is_option_SECRET, is_option_TLS_AUTH, is_option_KEY_DIRECTION, is_option_TLS_CLIENT, is_option_TLS_REMOTE, is_option_REMOTE_CERT_TLS, is_option_TUN_MTU, is_option_ROUTE, h, hargs, hp]

theorem remote_entry_bad_port (host port_item : CStr) (more : List CStr)
    (hp : parse_port port_item = none) : remote_entry (host :: port_item :: more) = none := by
  unfold remote_entry
  cases more with
  | nil => simp [hp]
  | cons a t =>
    cases t with
    | nil => simp [hp]
    | cons b u => rfl
theorem nat_digits_ne_nil (fuel n : Nat) (acc : CStr) (h : acc ≠ []) :
    nat_digits fuel n acc ≠ [] := by
  induction fuel generalizing n acc with
  | zero => exact h
  | succ f ih =>
    unfold nat_digits
    simp only
    split_ifs
    · simp
    · exact ih _ _ (by simp)

theorem print_nat_ne_nil (n : Nat) : print_nat n ≠ [] := by
  unfold print_nat nat_digits
  simp only
  split_ifs
  · simp
  · exact nat_digits_ne_nil _ _ _ (by simp)

theorem import_line_of_head (env : Env) (path dp name : CStr) (line : Line) (rest : List CStr)
    (st st1 : ImportState) (h : import_head env path line st = some st1) :
    import_line env path dp name line rest st = .next st1 0 := by
  unfold import_line
  rw [h]

/-- C18: `parse_port` returns the decimal text of the number `n` that
`strtol` reads from its argument when `0 < n < 65536`, and nothing otherwise;
in particular nothing for an argument without leading digits, which reads as 0.
A `port` or `rport` line with this one argument stores the text under `port`
exactly in the first case and is consumed either way; a `remote` line with
this port argument, when it is rejected, ends its round with nothing changed
and is not an accepted remote. -/
theorem parse_port_range (env : Env) (path dp name : CStr) (line : Line) (rest : List CStr)
    (st : ImportState) (str : CStr) :
    parse_port str
        = (if 0 < (strtol str).1 ∧ (strtol str).1 < 65536 then
            some (print_nat (strtol str).1.toNat)
          else none)
    ∧ (strtol_digits str = [] → parse_port str = none)
    ∧ ((first_word line.text = "port".toList ∧ get_args (arg_text env line TAG_PORT) = [str])
        ∨ (first_word line.text = "rport".toList
            ∧ get_args (arg_text env line TAG_RPORT) = [str]) →
        (0 < (strtol str).1 ∧ (strtol str).1 < 65536 →
          import_line env path dp name line rest st
              = .next (st.add NM_OPENVPN_KEY_PORT (print_nat (strtol str).1.toNat)) 0
            ∧ nm_setting_vpn_get_data_item
                (st.add NM_OPENVPN_KEY_PORT (print_nat (strtol str).1.toNat)).data
                NM_OPENVPN_KEY_PORT = some (print_nat (strtol str).1.toNat))
        ∧ (¬ (0 < (strtol str).1 ∧ (strtol str).1 < 65536) →
          import_line env path dp name line rest st = .next st 0))
    ∧ (∀ host more, first_word line.text = "remote".toList →
        get_args (arg_text env line TAG_REMOTE) = host :: str :: more →
        ¬ (0 < (strtol str).1 ∧ (strtol str).1 < 65536) →
        import_line env path dp name line rest st = .next st 0
          ∧ accepted_remote env line = none) := by
  have heq := parse_port_eq str
  refine ⟨heq, ?_, ?_, ?_⟩
  · intro hd
    rw [heq, strtol_no_digits str hd]
    simp
  · intro hline
    have hhead : import_head env path line st
        = some (match parse_port str with
          | some port => st.add NM_OPENVPN_KEY_PORT port
          | none => st) := by
      rcases hline with ⟨h1, h2⟩ | ⟨h1, h2⟩
      · exact import_head_port env path line st str h1 h2
      · exact import_head_rport env path line st str h1 h2
    constructor
    · intro hr
      rw [heq, if_pos hr] at hhead
      exact ⟨import_line_of_head env path dp name line rest st _ hhead,
        get_add_eq _ _ _ (by decide) (print_nat_ne_nil _)⟩
    · intro hr
      rw [heq, if_neg hr] at hhead
      exact import_line_of_head env path dp name line rest st _ hhead
  · intro host more hw hargs hr
    have hp : parse_port str = none := by rw [heq, if_neg hr]
    have hre := remote_entry_bad_port host str more hp
    have hopt : args_is_option line.text TAG_REMOTE = true := by
      rw [is_option_REMOTE, decide_eq_true hw]
    constructor
    · apply import_line_of_head
      rw [import_head_remote env path line st hw]
      unfold import_remote
      simp only [hopt, Bool.not_true, Bool.false_eq_true, if_false, hargs, hre]
    · unfold accepted_remote
      simp only [hopt, if_true, hargs, hre]

theorem parse_port_range_witness :
    parse_port "1194".toList = some "1194".toList
    ∧ parse_port "007".toList = some "7".toList
    ∧ parse_port "65535".toList = some "65535".toList
    ∧ parse_port "65536".toList = none
    ∧ parse_port "0".toList = none
    ∧ parse_port "-5".toList = none
    ∧ parse_port "abc".toList = none
    ∧ parse_port "99999999999999999999".toList = none
    ∧ import_line env_plain conf_path "/etc/vpn".toList "my".toList
          { text := "port 1194".toList, beyond := none } [] (import_init env_plain)
        = .next ((import_init env_plain).add NM_OPENVPN_KEY_PORT "1194".toList) 0
    ∧ import_line env_plain conf_path "/etc/vpn".toList "my".toList
          { text := "remote h 0".toList, beyond := none } [] (import_init env_plain)
        = .next (import_init env_plain) 0 := by
  have h := parse_port_range env_plain conf_path "/etc/vpn".toList "my".toList
    { text := "port 1194".toList, beyond := none } [] (import_init env_plain) "1194".toList
  have h2 := parse_port_range env_plain conf_path "/etc/vpn".toList "my".toList
    { text := "remote h 0".toList, beyond := none } [] (import_init env_plain) "0".toList
  refine ⟨by decide, by decide, by decide, by decide, by decide, by decide, by decide, by decide,
    ?_, ?_⟩
  · exact ((h.2.2.1 (Or.inl ⟨by decide, by decide⟩)).1 (by decide)).1
  · exact (h2.2.2.2 "h".toList [] (by decide) (by decide) (by decide)).1

/-! ## Numeric directives -/

theorem strtol_in_range (s : CStr) (hi : Int) (hhi : hi < LONG_MAX) :
    ((strtol s).2 = false ∧ (strtol s).1 ≥ 0 ∧ (strtol s).1 ≤ hi)
      ↔ (0 ≤ (strtol s).1 ∧ (strtol s).1 ≤ hi) := by
  constructor
  · rintro ⟨-, h1, h2⟩
    exact ⟨h1, h2⟩
  · rintro ⟨h1, h2⟩
    refine ⟨?_, h1, h2⟩
    cases he : (strtol s).2 with
    | false => rfl
    | true =>
      rcases strtol_erange s he with h | h
      · rw [h] at h2
        omega
      · rw [h] at h1
        simp [LONG_MIN] at h1

theorem print_stored (n : Int) (h0 : 0 ≤ n) (h1 : n ≤ G_MAXINT) :
    print_int (to_gint n) = print_nat n.toNat := by
  have : n < 2147483648 := by
    simp only [G_MAXINT] at h1
    omega
  rw [to_gint_small n h0 this, print_int_nonneg n h0]

theorem import_head_reneg_sec (env : Env) (path : CStr) (line : Line) (st : ImportState)
    (item : CStr) (h : first_word line.text = "reneg-sec".toList)
    (hargs : get_args (arg_text env line TAG_RENEG_SEC) = [item]) :
    import_head env path line st
      = some (if (strtol item).2 = false ∧ (strtol item).1 ≥ 0 ∧ (strtol item).1 ≤ 604800 then
          st.add NM_OPENVPN_KEY_RENEG_SECONDS (print_int (to_gint (strtol item).1)) else st) := by
  by_cases hc : (strtol item).2 = false ∧ (strtol item).1 ≥ 0 ∧ (strtol item).1 ≤ 604800 <;>
  simp [import_head, import_client, import_key_direction, import_one_arg, import_keyword,
    import_proto, import_flag, import_size_item, import_reneg_sec, is_option_AUTH, is_option_AUTH_USER_PASS, is_option_CA, is_option_CERT, is_option_CIPHER, is_option_KEYSIZE, is_option_CLIENT, is_option_COMP_LZO, is_option_FLOAT, is_option_DEV, is_option_DEV_TYPE, is_option_FRAGMENT, is_option_IFCONFIG, is_option_KEY, is_option_KEEPALIVE, is_option_MSSFIX, is_option_PING, is_option_PING_EXIT, is_option_PING_RESTART, is_option_PKCS12, is_option_PORT, is_option_PROTO, is_option_HTTP_PROXY, is_option_HTTP_PROXY_RETRY, is_option_SOCKS_PROXY, is_option_SOCKS_PROXY_RETRY, is_option_REMOTE, is_option_REMOTE_RANDOM, is_option_RENEG_SEC, is_option_RPORT, is_option_SECRET, is_option_TLS_AUTH, is_option_KEY_DIRECTION, is_option_TLS_CLIENT, is_option_TLS_REMOTE, is_option_REMOTE_CERT_TLS, is_option_TUN_MTU, is_option_ROUTE, h, hargs, hc]

theorem import_head_tun_mtu (env : Env) (path : CStr) (line : Line) (st : ImportState)
    (item : CStr) (h : first_word line.text = "tun-mtu".toList)
    (hargs : get_args (arg_text env line TAG_TUN_MTU) = [item]) :
    import_head env path line st
      = some (if (strtol item).2 = false ∧ (strtol item).1 ≥ 0 ∧ (strtol item).1 < 65535 then
          st.add NM_OPENVPN_KEY_TUNNEL_MTU (print_int (to_gint (strtol item).1)) else st) := by
  by_cases hc : (strtol item).2 = false ∧ (strtol item).1 ≥ 0 ∧ (strtol item).1 < 65535 <;>
  simp [import_head, import_client, import_key_direction, import_one_arg, import_keyword,
    import_proto, import_flag, import_size_item, is_option_AUTH, is_option_AUTH_USER_PASS, is_option_CA, is_option_CERT, is_option_CIPHER, is_option_KEYSIZE, is_option_CLIENT, is_option_COMP_LZO, is_option_FLOAT, is_option_DEV, is_option_DEV_TYPE, is_option_FRAGMENT, is_option_IFCONFIG, is_option_KEY, is_option_KEEPALIVE, is_option_MSSFIX, is_option_PING, is_option_PING_EXIT, is_option_PING_RESTART, is_option_PKCS12, is_option_PORT, is_option_PROTO, is_option_HTTP_PROXY, is_option_HTTP_PROXY_RETRY, is_option_SOCKS_PROXY, is_option_SOCKS_PROXY_RETRY, is_option_REMOTE, is_option_REMOTE_RANDOM, is_option_RENEG_SEC, is_option_RPORT, is_option_SECRET, is_option_TLS_AUTH, is_option_KEY_DIRECTION, is_option_TLS_CLIENT, is_option_TLS_REMOTE, is_option_REMOTE_CERT_TLS, is_option_TUN_MTU, is_option_ROUTE, h, hargs, hc]

theorem import_head_fragment (env : Env) (path : CStr) (line : Line) (st : ImportState)
    (item : CStr) (h : first_word line.text = "fragment".toList)
    (hargs : get_args (arg_text env line TAG_FRAGMENT) = [item]) :
    import_head env path line st
      = some (if (strtol item).2 = false ∧ (strtol item).1 ≥ 0 ∧ (strtol item).1 < 65535 then
          st.add NM_OPENVPN_KEY_FRAGMENT_SIZE (print_int (to_gint (strtol item).1)) else st) := by
  by_cases hc : (strtol item).2 = false ∧ (strtol item).1 ≥ 0 ∧ (strtol item).1 < 65535 <;>
  simp [import_head, import_client, import_key_direction, import_one_arg, import_keyword,
    import_proto, import_flag, import_size_item, is_option_AUTH, is_option_AUTH_USER_PASS, is_option_CA, is_option_CERT, is_option_CIPHER, is_option_KEYSIZE, is_option_CLIENT, is_option_COMP_LZO, is_option_FLOAT, is_option_DEV, is_option_DEV_TYPE, is_option_FRAGMENT, is_option_IFCONFIG, is_option_KEY, is_option_KEEPALIVE, is_option_MSSFIX, is_option_PING, is_option_PING_EXIT, is_option_PING_RESTART, is_option_PKCS12, is_option_PORT, is_option_PROTO, is_option_HTTP_PROXY, is_option_HTTP_PROXY_RETRY, is_option_SOCKS_PROXY, is_option_SOCKS_PROXY_RETRY, is_option_REMOTE, is_option_REMOTE_RANDOM, is_option_RENEG_SEC, is_option_RPORT, is_option_SECRET, is_option_TLS_AUTH, is_option_KEY_DIRECTION, is_option_TLS_CLIENT, is_option_TLS_REMOTE, is_option_REMOTE_CERT_TLS, is_option_TUN_MTU, is_option_ROUTE, h, hargs, hc]

theorem import_head_ping (env : Env) (path : CStr) (line : Line) (st : ImportState)
    (item tag key : CStr)
    (h : (first_word line.text = "ping".toList ∧ tag = TAG_PING ∧ key = NM_OPENVPN_KEY_PING)
      ∨ (first_word line.text = "ping-exit".toList ∧ tag = TAG_PING_EXIT
          ∧ key = NM_OPENVPN_KEY_PING_EXIT)
      ∨ (first_word line.text = "ping-restart".toList ∧ tag = TAG_PING_RESTART
          ∧ key = NM_OPENVPN_KEY_PING_RESTART))
    (hargs : get_args (arg_text env line tag) = [item]) :
    import_head env path line st
      = some (if (strtol item).2 = false ∧ (strtol item).1 ≥ 0 ∧ (strtol item).1 ≤ G_MAXINT then
          st.add key (print_int (to_gint (strtol item).1)) else st) := by
  have hg : ∀ x : Int, 0 ≤ x → x ≤ G_MAXINT → to_gint x ≥ 0 := by
    intro x h0 h1
    have : x < 2147483648 := by
      simp only [G_MAXINT] at h1
      omega
    rw [to_gint_small x h0 this]
    exact h0
  by_cases hc : (strtol item).2 = false ∧ (strtol item).1 ≥ 0 ∧ (strtol item).1 ≤ G_MAXINT
  · have hs : parse_seconds item = to_gint (strtol item).1 := by
      unfold parse_seconds
      simp only [hc, and_self, if_true]
    have hge : parse_seconds item ≥ 0 := hs ▸ hg _ hc.2.1 hc.2.2
    rcases h with ⟨h, rfl, rfl⟩ | ⟨h, rfl, rfl⟩ | ⟨h, rfl, rfl⟩ <;>
    simp [import_head, import_client, import_key_direction, import_one_arg, import_keyword,
      import_proto, import_flag, import_size_item, import_reneg_sec, import_proxy_retry,
      import_proxy, import_remote, import_port, handle_num_seconds_item, is_option_AUTH, is_option_AUTH_USER_PASS, is_option_CA, is_option_CERT, is_option_CIPHER, is_option_KEYSIZE, is_option_CLIENT, is_option_COMP_LZO, is_option_FLOAT, is_option_DEV, is_option_DEV_TYPE, is_option_FRAGMENT, is_option_IFCONFIG, is_option_KEY, is_option_KEEPALIVE, is_option_MSSFIX, is_option_PING, is_option_PING_EXIT, is_option_PING_RESTART, is_option_PKCS12, is_option_PORT, is_option_PROTO, is_option_HTTP_PROXY, is_option_HTTP_PROXY_RETRY, is_option_SOCKS_PROXY, is_option_SOCKS_PROXY_RETRY, is_option_REMOTE, is_option_REMOTE_RANDOM, is_option_RENEG_SEC, is_option_RPORT, is_option_SECRET, is_option_TLS_AUTH, is_option_KEY_DIRECTION, is_option_TLS_CLIENT, is_option_TLS_REMOTE, is_option_REMOTE_CERT_TLS, is_option_TUN_MTU, is_option_ROUTE, h, hargs, hc,
      hge] <;> rw [hs]
  · have hs : parse_seconds item = -1 := by
      unfold parse_seconds
      simp only [hc, if_false]
    rcases h with ⟨h, rfl, rfl⟩ | ⟨h, rfl, rfl⟩ | ⟨h, rfl, rfl⟩ <;>
    simp [import_head, import_client, import_key_direction, import_one_arg, import_keyword,
      import_proto, import_flag, import_size_item, import_reneg_sec, import_proxy_retry,
      import_proxy, import_remote, import_port, handle_num_seconds_item, is_option_AUTH, is_option_AUTH_USER_PASS, is_option_CA, is_option_CERT, is_option_CIPHER, is_option_KEYSIZE, is_option_CLIENT, is_option_COMP_LZO, is_option_FLOAT, is_option_DEV, is_option_DEV_TYPE, is_option_FRAGMENT, is_option_IFCONFIG, is_option_KEY, is_option_KEEPALIVE, is_option_MSSFIX, is_option_PING, is_option_PING_EXIT, is_option_PING_RESTART, is_option_PKCS12, is_option_PORT, is_option_PROTO, is_option_HTTP_PROXY, is_option_HTTP_PROXY_RETRY, is_option_SOCKS_PROXY, is_option_SOCKS_PROXY_RETRY, is_option_REMOTE, is_option_REMOTE_RANDOM, is_option_RENEG_SEC, is_option_RPORT, is_option_SECRET, is_option_TLS_AUTH, is_option_KEY_DIRECTION, is_option_TLS_CLIENT, is_option_TLS_REMOTE, is_option_REMOTE_CERT_TLS, is_option_TUN_MTU, is_option_ROUTE, h, hargs, hc,
      hs]
/-- C20: the claim is right, and the code departs from it.  The blocks of the
numeric directives mean to refuse an argument that is no number: they warn of
an invalid number of seconds or an invalid time length in their last branch.
But they read the argument with `strtol` without an end pointer and look at
`errno` only, and `strtol` reads a text without leading digits as 0 without an
error.  So the lines `ping abc` and `reneg-sec abc` store `0` under `ping` and
under `reneg-seconds`, where the claim has nothing stored. -/
theorem do_import_ping_text :
    ∃ c w, do_import env_plain conf_path conf_ping_text = .connection c w
      ∧ nm_setting_vpn_get_data_item c.data NM_OPENVPN_KEY_PING = some "0".toList
      ∧ nm_setting_vpn_get_data_item c.data NM_OPENVPN_KEY_RENEG_SECONDS = some "0".toList
      ∧ strtol "abc".toList = (0, false) := by
  refine ⟨_, _, rfl, by decide, by decide, by decide⟩

/-- What the blocks of the numeric directives compute: for `reneg-sec`, `ping`,
`ping-exit`, `ping-restart`, `tun-mtu` and `fragment` with a single argument,
the argument is read by `strtol`, and the number read is stored in decimal
under the key of the directive exactly when it lies between 0 and the largest
value of the directive (604800 for `reneg-sec`, the largest `int` for the ping
family, 65534 for `tun-mtu` and `fragment`); otherwise nothing is stored.  The
round of the loop ends with the line either way.  The text in front of the
first character that is no digit decides alone, which is why an argument
without leading digits counts as 0. -/
theorem import_numeric_directive (env : Env) (path dp name : CStr) (line : Line)
    (rest : List CStr) (st : ImportState) (item w key : CStr) (hi : Int)
    (hd : (w, key, hi) ∈ NUMERIC_DIRECTIVES) (hw : first_word line.text = w)
    (hargs : get_args (arg_text env line (w ++ [' '])) = [item]) :
    import_line env path dp name line rest st
        = .next (if 0 ≤ (strtol item).1 ∧ (strtol item).1 ≤ hi then
            st.add key (print_nat (strtol item).1.toNat) else st) 0
    ∧ (0 ≤ (strtol item).1 ∧ (strtol item).1 ≤ hi →
        nm_setting_vpn_get_data_item (st.add key (print_nat (strtol item).1.toNat)).data key
          = some (print_nat (strtol item).1.toNat))
    ∧ (strtol_digits item = [] →
        import_line env path dp name line rest st = .next (st.add key "0".toList) 0) := by
  have hkey : key ≠ [] ∧ 0 ≤ hi ∧ hi ≤ G_MAXINT := by
    have hall : ∀ d ∈ NUMERIC_DIRECTIVES, d.2.1 ≠ [] ∧ 0 ≤ d.2.2 ∧ d.2.2 ≤ G_MAXINT := by decide
    exact hall _ hd
  have hmax : hi < LONG_MAX := by
    have := hkey.2.2
    simp only [G_MAXINT] at this
    simp only [LONG_MAX]
    omega
  have hline : import_line env path dp name line rest st
      = .next (if 0 ≤ (strtol item).1 ∧ (strtol item).1 ≤ hi then
          st.add key (print_nat (strtol item).1.toNat) else st) 0 := by
    apply import_line_of_head
    have hconv : ∀ (raw : Prop) [Decidable raw],
        (raw ↔ (0 ≤ (strtol item).1 ∧ (strtol item).1 ≤ hi)) →
        (if raw then st.add key (print_int (to_gint (strtol item).1)) else st)
          = (if 0 ≤ (strtol item).1 ∧ (strtol item).1 ≤ hi then
              st.add key (print_nat (strtol item).1.toNat) else st) := by
      intro raw _ hiff
      by_cases hc : 0 ≤ (strtol item).1 ∧ (strtol item).1 ≤ hi
      · rw [if_pos hc, if_pos (hiff.mpr hc), print_stored _ hc.1 (le_trans hc.2 hkey.2.2)]
      · rw [if_neg hc, if_neg (fun h => hc (hiff.mp h))]
    simp only [NUMERIC_DIRECTIVES, List.mem_cons, Prod.mk.injEq, List.mem_singleton,
      List.not_mem_nil, or_false] at hd
    rcases hd with d1 | d2 | d3 | d4 | d5 | d6
    all_goals first
      | obtain ⟨rfl, rfl, rfl⟩ := d1
      | obtain ⟨rfl, rfl, rfl⟩ := d2
      | obtain ⟨rfl, rfl, rfl⟩ := d3
      | obtain ⟨rfl, rfl, rfl⟩ := d4
      | obtain ⟨rfl, rfl, rfl⟩ := d5
      | obtain ⟨rfl, rfl, rfl⟩ := d6
    · rw [import_head_reneg_sec env path line st item hw hargs]
      exact congrArg some (hconv _ (strtol_in_range item 604800 (by decide)))
    · rw [import_head_ping env path line st item TAG_PING NM_OPENVPN_KEY_PING
        (Or.inl ⟨hw, rfl, rfl⟩) hargs]
      exact congrArg some (hconv _ (strtol_in_range item G_MAXINT (by decide)))
    · rw [import_head_ping env path line st item TAG_PING_EXIT NM_OPENVPN_KEY_PING_EXIT
        (Or.inr (Or.inl ⟨hw, rfl, rfl⟩)) hargs]
      exact congrArg some (hconv _ (strtol_in_range item G_MAXINT (by decide)))
    · rw [import_head_ping env path line st item TAG_PING_RESTART NM_OPENVPN_KEY_PING_RESTART
        (Or.inr (Or.inr ⟨hw, rfl, rfl⟩)) hargs]
      exact congrArg some (hconv _ (strtol_in_range item G_MAXINT (by decide)))
    · rw [import_head_tun_mtu env path line st item hw hargs]
      refine congrArg some (hconv _ ?_)
      rw [← strtol_in_range item 65534 (by decide)]
      constructor <;> rintro ⟨h1, h2, h3⟩ <;> exact ⟨h1, h2, by omega⟩
    · rw [import_head_fragment env path line st item hw hargs]
      refine congrArg some (hconv _ ?_)
      rw [← strtol_in_range item 65534 (by decide)]
      constructor <;> rintro ⟨h1, h2, h3⟩ <;> exact ⟨h1, h2, by omega⟩
  refine ⟨hline, ?_, ?_⟩
  · intro _
    exact get_add_eq _ _ _ hkey.1 (print_nat_ne_nil _)
  · intro hdig
    rw [hline, strtol_no_digits item hdig, if_pos ⟨le_refl _, hkey.2.1⟩]
    rfl

theorem import_numeric_directive_witness :
    (∃ c w, do_import env_plain conf_path conf_numbers = .connection c w
      ∧ nm_setting_vpn_get_data_item c.data NM_OPENVPN_KEY_RENEG_SECONDS = some "604800".toList
      ∧ nm_setting_vpn_get_data_item c.data NM_OPENVPN_KEY_PING = some "2147483647".toList
      ∧ nm_setting_vpn_get_data_item c.data NM_OPENVPN_KEY_PING_EXIT = none
      ∧ nm_setting_vpn_get_data_item c.data NM_OPENVPN_KEY_TUNNEL_MTU = none
      ∧ nm_setting_vpn_get_data_item c.data NM_OPENVPN_KEY_FRAGMENT_SIZE = some "65534".toList
      ∧ nm_setting_vpn_get_data_item c.data NM_OPENVPN_KEY_PING_RESTART = none)
    ∧ import_line env_plain conf_path "/etc/vpn".toList "my".toList
          { text := "reneg-sec 604801".toList, beyond := none } [] (import_init env_plain)
        = .next (import_init env_plain) 0
    ∧ import_line env_plain conf_path "/etc/vpn".toList "my".toList
          { text := "ping 30".toList, beyond := none } [] (import_init env_plain)
        = .next ((import_init env_plain).add NM_OPENVPN_KEY_PING "30".toList) 0 := by
  refine ⟨⟨_, _, rfl, by decide, by decide, by decide, by decide, by decide, by decide⟩, ?_, ?_⟩
  · exact (import_numeric_directive env_plain conf_path "/etc/vpn".toList "my".toList
      { text := "reneg-sec 604801".toList, beyond := none } [] (import_init env_plain)
      "604801".toList "reneg-sec".toList NM_OPENVPN_KEY_RENEG_SECONDS 604800 (by decide)
      (by decide) (by decide)).1
  · exact (import_numeric_directive env_plain conf_path "/etc/vpn".toList "my".toList
      { text := "ping 30".toList, beyond := none } [] (import_init env_plain)
      "30".toList "ping".toList NM_OPENVPN_KEY_PING G_MAXINT (by decide)
      (by decide) (by decide)).1

/-! ## Lines taken by the blocks behind the inline blocks -/

theorem import_line_tail (env : Env) (path dp name : CStr) (line : Line) (rest : List CStr)
    (st : ImportState)
    (h : first_word line.text = "secret".toList ∨ first_word line.text = "tls-auth".toList
      ∨ first_word line.text = "keysize".toList) :
    import_line env path dp name line rest st
      = match import_tail env dp line st with
        | some st5 => .next st5 0
        | none => .next st 0 := by
  have h1 : import_head env path line st = none := by
    rcases h with h | h | h <;>
    simp [import_head, import_client, import_key_direction, import_one_arg, import_keyword,
      import_proto, import_flag, import_size_item, import_reneg_sec, import_proxy_retry,
      import_proxy, import_remote, import_port, handle_num_seconds_item, is_option_AUTH, is_option_AUTH_USER_PASS, is_option_CA, is_option_CERT, is_option_CIPHER, is_option_KEYSIZE, is_option_CLIENT, is_option_COMP_LZO, is_option_FLOAT, is_option_DEV, is_option_DEV_TYPE, is_option_FRAGMENT, is_option_IFCONFIG, is_option_KEY, is_option_KEEPALIVE, is_option_MSSFIX, is_option_PING, is_option_PING_EXIT, is_option_PING_RESTART, is_option_PKCS12, is_option_PORT, is_option_PROTO, is_option_HTTP_PROXY, is_option_HTTP_PROXY_RETRY, is_option_SOCKS_PROXY, is_option_SOCKS_PROXY_RETRY, is_option_REMOTE, is_option_REMOTE_RANDOM, is_option_RENEG_SEC, is_option_RPORT, is_option_SECRET, is_option_TLS_AUTH, is_option_KEY_DIRECTION, is_option_TLS_CLIENT, is_option_TLS_REMOTE, is_option_REMOTE_CERT_TLS, is_option_TUN_MTU, is_option_ROUTE, h]
  have h2 : import_pkcs12 env dp line st = (false, st) := by
    apply import_pkcs12_none
    rcases h with h | h | h <;> rw [h] <;> decide
  have h3 : import_certs env dp line st = none := by
    rcases h with h | h | h <;>
    simp [import_certs, import_path, handle_path_item, is_option_AUTH, is_option_AUTH_USER_PASS, is_option_CA, is_option_CERT, is_option_CIPHER, is_option_KEYSIZE, is_option_CLIENT, is_option_COMP_LZO, is_option_FLOAT, is_option_DEV, is_option_DEV_TYPE, is_option_FRAGMENT, is_option_IFCONFIG, is_option_KEY, is_option_KEEPALIVE, is_option_MSSFIX, is_option_PING, is_option_PING_EXIT, is_option_PING_RESTART, is_option_PKCS12, is_option_PORT, is_option_PROTO, is_option_HTTP_PROXY, is_option_HTTP_PROXY_RETRY, is_option_SOCKS_PROXY, is_option_SOCKS_PROXY_RETRY, is_option_REMOTE, is_option_REMOTE_RANDOM, is_option_RENEG_SEC, is_option_RPORT, is_option_SECRET, is_option_TLS_AUTH, is_option_KEY_DIRECTION, is_option_TLS_CLIENT, is_option_TLS_REMOTE, is_option_REMOTE_CERT_TLS, is_option_TUN_MTU, is_option_ROUTE, h]
  have h4 : ∃ c, line.text.head? = some c ∧ c ≠ '<' := by
    rcases h with h | h | h
    · exact ⟨'s', head_of_first_word _ _ _ h, by decide⟩
    · exact ⟨'t', head_of_first_word _ _ _ h, by decide⟩
    · exact ⟨'k', head_of_first_word _ _ _ h, by decide⟩
  obtain ⟨c, hc, hne⟩ := h4
  unfold import_line
  rw [h1]
  simp only [h2, Bool.false_eq_true, if_false, h3]
  exact import_blobs_no_start env dp name line rest st c hc hne

theorem import_tail_tls_auth (env : Env) (dp : CStr) (line : Line) (st : ImportState)
    (h : first_word line.text = "tls-auth".toList) :
    import_tail env dp line st = import_tls_auth env dp line st := by
  have hs : import_secret env dp line st = none := by
    simp [import_secret, handle_path_item, is_option_AUTH, is_option_AUTH_USER_PASS, is_option_CA, is_option_CERT, is_option_CIPHER, is_option_KEYSIZE, is_option_CLIENT, is_option_COMP_LZO, is_option_FLOAT, is_option_DEV, is_option_DEV_TYPE, is_option_FRAGMENT, is_option_IFCONFIG, is_option_KEY, is_option_KEEPALIVE, is_option_MSSFIX, is_option_PING, is_option_PING_EXIT, is_option_PING_RESTART, is_option_PKCS12, is_option_PORT, is_option_PROTO, is_option_HTTP_PROXY, is_option_HTTP_PROXY_RETRY, is_option_SOCKS_PROXY, is_option_SOCKS_PROXY_RETRY, is_option_REMOTE, is_option_REMOTE_RANDOM, is_option_RENEG_SEC, is_option_RPORT, is_option_SECRET, is_option_TLS_AUTH, is_option_KEY_DIRECTION, is_option_TLS_CLIENT, is_option_TLS_REMOTE, is_option_REMOTE_CERT_TLS, is_option_TUN_MTU, is_option_ROUTE, h]
  cases ht : import_tls_auth env dp line st with
  | some x => simp [import_tail, hs, ht]
  | none =>
    simp [import_tail, hs, ht, import_one_arg, import_keepalive,
      import_keysize, import_tls_remote, import_keyword, import_ifconfig, import_auth_user_pass,
      import_route, is_option_AUTH, is_option_AUTH_USER_PASS, is_option_CA, is_option_CERT, is_option_CIPHER, is_option_KEYSIZE, is_option_CLIENT, is_option_COMP_LZO, is_option_FLOAT, is_option_DEV, is_option_DEV_TYPE, is_option_FRAGMENT, is_option_IFCONFIG, is_option_KEY, is_option_KEEPALIVE, is_option_MSSFIX, is_option_PING, is_option_PING_EXIT, is_option_PING_RESTART, is_option_PKCS12, is_option_PORT, is_option_PROTO, is_option_HTTP_PROXY, is_option_HTTP_PROXY_RETRY, is_option_SOCKS_PROXY, is_option_SOCKS_PROXY_RETRY, is_option_REMOTE, is_option_REMOTE_RANDOM, is_option_RENEG_SEC, is_option_RPORT, is_option_SECRET, is_option_TLS_AUTH, is_option_KEY_DIRECTION, is_option_TLS_CLIENT, is_option_TLS_REMOTE, is_option_REMOTE_CERT_TLS, is_option_TUN_MTU, is_option_ROUTE, h]

theorem import_tail_keysize (env : Env) (dp : CStr) (line : Line) (st : ImportState)
    (item : CStr) (h : first_word line.text = "keysize".toList)
    (hargs : get_args (arg_text env line TAG_KEYSIZE) = [item]) :
    import_tail env dp line st
      = some (if (strtol item).2 = false ∧ (strtol item).1 > 0 ∧ (strtol item).1 ≤ 65535 then
          st.add NM_OPENVPN_KEY_KEYSIZE (print_int (to_gint (strtol item).1)) else st) := by
  by_cases hc : (strtol item).2 = false ∧ (strtol item).1 > 0 ∧ (strtol item).1 ≤ 65535 <;>
  simp [import_tail, import_secret, import_tls_auth, handle_path_item, import_one_arg,
    import_keepalive, import_keysize, is_option_AUTH, is_option_AUTH_USER_PASS, is_option_CA, is_option_CERT, is_option_CIPHER, is_option_KEYSIZE, is_option_CLIENT, is_option_COMP_LZO, is_option_FLOAT, is_option_DEV, is_option_DEV_TYPE, is_option_FRAGMENT, is_option_IFCONFIG, is_option_KEY, is_option_KEEPALIVE, is_option_MSSFIX, is_option_PING, is_option_PING_EXIT, is_option_PING_RESTART, is_option_PKCS12, is_option_PORT, is_option_PROTO, is_option_HTTP_PROXY, is_option_HTTP_PROXY_RETRY, is_option_SOCKS_PROXY, is_option_SOCKS_PROXY_RETRY, is_option_REMOTE, is_option_REMOTE_RANDOM, is_option_RENEG_SEC, is_option_RPORT, is_option_SECRET, is_option_TLS_AUTH, is_option_KEY_DIRECTION, is_option_TLS_CLIENT, is_option_TLS_REMOTE, is_option_REMOTE_CERT_TLS, is_option_TUN_MTU, is_option_ROUTE, h, hargs, hc]

theorem import_line_secret (env : Env) (path dp name : CStr) (line : Line) (rest : List CStr)
    (st : ImportState) (file : CStr) (leftover : Option CStr)
    (h : first_word line.text = "secret".toList)
    (hu : unquote (arg_text env line TAG_SECRET) = some (file, leftover)) :
    import_line env path dp name line rest st
      = .next { handle_direction NM_OPENVPN_KEY_STATIC_KEY_DIRECTION leftover
                  (st.add NM_OPENVPN_KEY_STATIC_KEY
                    (if g_path_is_absolute file then file else g_build_filename [dp, file])) with
                have_sk := true } 0 := by
  have hopt : args_is_option line.text TAG_SECRET = true := by
    rw [is_option_SECRET, decide_eq_true h]
  rw [import_line_tail env path dp name line rest st (Or.inl h), import_tail_secret env dp line st h]
  unfold import_secret
  simp only [handle_path_item_taken env line TAG_SECRET _ st dp file leftover hopt hu, if_true]

theorem import_line_tls_auth (env : Env) (path dp name : CStr) (line : Line) (rest : List CStr)
    (st : ImportState) (file : CStr) (leftover : Option CStr)
    (h : first_word line.text = "tls-auth".toList)
    (hu : unquote (arg_text env line TAG_TLS_AUTH) = some (file, leftover)) :
    import_line env path dp name line rest st
      = .next (handle_direction NM_OPENVPN_KEY_TA_DIR leftover
          (st.add NM_OPENVPN_KEY_TA
            (if g_path_is_absolute file then file else g_build_filename [dp, file]))) 0 := by
  have hopt : args_is_option line.text TAG_TLS_AUTH = true := by
    rw [is_option_TLS_AUTH, decide_eq_true h]
  rw [import_line_tail env path dp name line rest st (Or.inr (Or.inl h)),
    import_tail_tls_auth env dp line st h]
  unfold import_tls_auth
  simp only [handle_path_item_taken env line TAG_TLS_AUTH _ st dp file leftover hopt hu, if_true]

theorem import_line_key_direction (env : Env) (path dp name : CStr) (line : Line)
    (rest : List CStr) (st : ImportState) (h : first_word line.text = "key-direction".toList) :
    import_line env path dp name line rest st
      = .next { st with
                last_seen_key_direction := some (arg_text env line TAG_KEY_DIRECTION) } 0 := by
  apply import_line_of_head
  simp [import_head, import_client, import_key_direction, is_option_AUTH, is_option_AUTH_USER_PASS, is_option_CA, is_option_CERT, is_option_CIPHER, is_option_KEYSIZE, is_option_CLIENT, is_option_COMP_LZO, is_option_FLOAT, is_option_DEV, is_option_DEV_TYPE, is_option_FRAGMENT, is_option_IFCONFIG, is_option_KEY, is_option_KEEPALIVE, is_option_MSSFIX, is_option_PING, is_option_PING_EXIT, is_option_PING_RESTART, is_option_PKCS12, is_option_PORT, is_option_PROTO, is_option_HTTP_PROXY, is_option_HTTP_PROXY_RETRY, is_option_SOCKS_PROXY, is_option_SOCKS_PROXY_RETRY, is_option_REMOTE, is_option_REMOTE_RANDOM, is_option_RENEG_SEC, is_option_RPORT, is_option_SECRET, is_option_TLS_AUTH, is_option_KEY_DIRECTION, is_option_TLS_CLIENT, is_option_TLS_REMOTE, is_option_REMOTE_CERT_TLS, is_option_TUN_MTU, is_option_ROUTE, h]
/-- C19, as stated, fails: the line `keysize 65536` stores nothing; the
largest value stored is 65535. -/
theorem do_import_keysize_max :
    (∃ c w, do_import env_plain conf_path conf_keysize_max = .connection c w
      ∧ nm_setting_vpn_get_data_item c.data NM_OPENVPN_KEY_KEYSIZE = none)
    ∧ (∃ c w, do_import env_plain conf_path conf_keysize_ok = .connection c w
      ∧ nm_setting_vpn_get_data_item c.data NM_OPENVPN_KEY_KEYSIZE = some "65535".toList) := by
  refine ⟨⟨_, _, rfl, by decide⟩, ⟨_, _, rfl, by decide⟩⟩

/-- C19, amended: a `keysize` line with one argument stores the number `n`
that `strtol` reads from the argument, in decimal, under `keysize` exactly when
`0 < n <= 65535`, and nothing otherwise; the round of the loop ends with the
line either way. -/
theorem import_keysize_range (env : Env) (path dp name : CStr) (line : Line) (rest : List CStr)
    (st : ImportState) (item : CStr) (hw : first_word line.text = "keysize".toList)
    (hargs : get_args (arg_text env line TAG_KEYSIZE) = [item]) :
    import_line env path dp name line rest st
        = .next (if 0 < (strtol item).1 ∧ (strtol item).1 ≤ 65535 then
            st.add NM_OPENVPN_KEY_KEYSIZE (print_nat (strtol item).1.toNat) else st) 0
    ∧ (0 < (strtol item).1 ∧ (strtol item).1 ≤ 65535 →
        nm_setting_vpn_get_data_item
            (st.add NM_OPENVPN_KEY_KEYSIZE (print_nat (strtol item).1.toNat)).data
            NM_OPENVPN_KEY_KEYSIZE
          = some (print_nat (strtol item).1.toNat)) := by
  constructor
  · rw [import_line_tail env path dp name line rest st (Or.inr (Or.inr hw)),
      import_tail_keysize env dp line st item hw hargs]
    by_cases hc : 0 < (strtol item).1 ∧ (strtol item).1 ≤ 65535
    · have he : (strtol item).2 = false :=
        ((strtol_in_range item 65535 (by decide)).mpr ⟨by omega, hc.2⟩).1
      have hg : (65535 : Int) ≤ G_MAXINT := by decide
      simp only [if_pos hc, if_pos (show (strtol item).2 = false ∧ (strtol item).1 > 0
        ∧ (strtol item).1 ≤ 65535 from ⟨he, hc.1, hc.2⟩),
        print_stored _ (by omega : (0 : Int) ≤ (strtol item).1) (le_trans hc.2 hg)]
    · have hn : ¬ ((strtol item).2 = false ∧ (strtol item).1 > 0 ∧ (strtol item).1 ≤ 65535) :=
        fun h => hc ⟨h.2.1, h.2.2⟩
      simp only [if_neg hc, if_neg hn]
  · intro _
    exact get_add_eq _ _ _ (by decide) (print_nat_ne_nil _)

theorem import_keysize_range_witness :
    import_line env_plain conf_path "/etc/vpn".toList "my".toList
        { text := "keysize 256".toList, beyond := none } [] (import_init env_plain)
      = .next ((import_init env_plain).add NM_OPENVPN_KEY_KEYSIZE "256".toList) 0
    ∧ import_line env_plain conf_path "/etc/vpn".toList "my".toList
        { text := "keysize 0".toList, beyond := none } [] (import_init env_plain)
      = .next (import_init env_plain) 0
    ∧ import_line env_plain conf_path "/etc/vpn".toList "my".toList
        { text := "keysize 65537".toList, beyond := none } [] (import_init env_plain)
      = .next (import_init env_plain) 0 := by
  refine ⟨?_, ?_, ?_⟩
  · exact (import_keysize_range env_plain conf_path "/etc/vpn".toList "my".toList
      { text := "keysize 256".toList, beyond := none } [] (import_init env_plain)
      "256".toList (by decide) (by decide)).1
  · exact (import_keysize_range env_plain conf_path "/etc/vpn".toList "my".toList
      { text := "keysize 0".toList, beyond := none } [] (import_init env_plain)
      "0".toList (by decide) (by decide)).1
  · exact (import_keysize_range env_plain conf_path "/etc/vpn".toList "my".toList
      { text := "keysize 65537".toList, beyond := none } [] (import_init env_plain)
      "65537".toList (by decide) (by decide)).1
/-! ## Key directions -/

theorem handle_direction_eq (key l : CStr) (st : ImportState) :
    handle_direction key (some l) st
      = if g_strstrip l ≠ [] ∧ strtol (g_strstrip l) = (0, false) then st.add key "0".toList
        else if g_strstrip l ≠ [] ∧ strtol (g_strstrip l) = (1, false) then
          st.add key "1".toList
        else st := by
  unfold handle_direction
  simp only
  by_cases hne : g_strstrip l = []
  · simp [hne]
  · cases hs : strtol (g_strstrip l) with
    | mk v e =>
      cases e with
      | true => simp [hne]
      | false =>
        by_cases h0 : v = 0
        · simp [hne, h0]
        · by_cases h1 : v = 1
          · simp [hne, h1]
          · simp [hne, h0, h1]

/-- C16: the claim is right, and the code departs from it.  The function
`handle_direction` means to refuse a direction that it does not know: its last
branch warns of an unknown direction.  But it reads the argument with `strtol`
without an end pointer and looks at `errno` only, and `strtol` reads `abc` as
0 without an error.  So the lines `secret key.txt abc` and
`tls-auth ta.key abc` store the direction `0`, where the claim has no
direction stored. -/
theorem do_import_direction_text :
    (∃ c w, do_import env_plain conf_path conf_secret_text = .connection c w
      ∧ nm_setting_vpn_get_data_item c.data NM_OPENVPN_KEY_STATIC_KEY_DIRECTION
          = some "0".toList)
    ∧ (∃ c w, do_import env_plain conf_path conf_tls_auth_text = .connection c w
      ∧ nm_setting_vpn_get_data_item c.data NM_OPENVPN_KEY_TA_DIR = some "0".toList)
    ∧ strtol "abc".toList = (0, false) := by
  refine ⟨⟨_, _, rfl, by decide⟩, ⟨_, _, rfl, by decide⟩, by decide⟩

/-- What `handle_direction` computes: for a `secret` or `tls-auth` line the
text that `unquote` leaves behind the file name is handed to it; it strips the
text and, when something is left, reads it with `strtol`, and the direction is
stored, as `0` or `1`, exactly when the number read is 0 or 1 (without
overflow).  A number such as 2 stores nothing.  Whatever `handle_direction`
stores is `0` or `1`. -/
theorem handle_direction_range (env : Env) (path dp name : CStr) (line : Line)
    (rest : List CStr) (st : ImportState) (file : CStr) (leftover : Option CStr)
    (hw : (first_word line.text = "secret".toList
        ∧ unquote (arg_text env line TAG_SECRET) = some (file, leftover))
      ∨ (first_word line.text = "tls-auth".toList
        ∧ unquote (arg_text env line TAG_TLS_AUTH) = some (file, leftover))) :
    (∃ key fkey,
      ((first_word line.text = "secret".toList ∧ key = NM_OPENVPN_KEY_STATIC_KEY_DIRECTION
          ∧ fkey = NM_OPENVPN_KEY_STATIC_KEY)
        ∨ (first_word line.text = "tls-auth".toList ∧ key = NM_OPENVPN_KEY_TA_DIR
          ∧ fkey = NM_OPENVPN_KEY_TA))
      ∧ ∃ st1, import_line env path dp name line rest st = .next st1 0
        ∧ st1.data = (handle_direction key leftover
            (st.add fkey (if g_path_is_absolute file then file
              else g_build_filename [dp, file]))).data)
    ∧ (∀ key l s,
        handle_direction key (some l) s
          = if g_strstrip l ≠ [] ∧ strtol (g_strstrip l) = (0, false) then s.add key "0".toList
            else if g_strstrip l ≠ [] ∧ strtol (g_strstrip l) = (1, false) then
              s.add key "1".toList
            else s)
    ∧ (∀ key s, handle_direction key none s = s)
    ∧ (∀ key l s, g_strstrip l ≠ [] → strtol_digits (g_strstrip l) = [] →
        handle_direction key (some l) s = s.add key "0".toList)
    ∧ (∀ key l s, handle_direction key l s = s ∨ handle_direction key l s = s.add key "0".toList
        ∨ handle_direction key l s = s.add key "1".toList) := by
  refine ⟨?_, handle_direction_eq, fun _ _ => rfl, ?_, ?_⟩
  · rcases hw with ⟨h1, h2⟩ | ⟨h1, h2⟩
    · exact ⟨_, _, Or.inl ⟨h1, rfl, rfl⟩, _,
        import_line_secret env path dp name line rest st file leftover h1 h2, rfl⟩
    · exact ⟨_, _, Or.inr ⟨h1, rfl, rfl⟩, _,
        import_line_tls_auth env path dp name line rest st file leftover h1 h2, rfl⟩
  · intro key l s hne hd
    rw [handle_direction_eq, if_pos ⟨hne, strtol_no_digits _ hd⟩]
  · intro key l s
    cases l with
    | none => exact Or.inl rfl
    | some t =>
      rw [handle_direction_eq]
      split_ifs
      · exact Or.inr (Or.inl rfl)
      · exact Or.inr (Or.inr rfl)
      · exact Or.inl rfl

theorem handle_direction_range_witness :
    (∃ c w, do_import env_plain conf_path conf_directions = .connection c w
      ∧ nm_setting_vpn_get_data_item c.data NM_OPENVPN_KEY_STATIC_KEY_DIRECTION
          = some "1".toList
      ∧ nm_setting_vpn_get_data_item c.data NM_OPENVPN_KEY_TA_DIR = some "0".toList)
    ∧ (∃ c w, do_import env_plain conf_path conf_direction_two = .connection c w
      ∧ nm_setting_vpn_get_data_item c.data NM_OPENVPN_KEY_STATIC_KEY_DIRECTION = none
      ∧ nm_setting_vpn_get_data_item c.data NM_OPENVPN_KEY_TA_DIR = none)
    ∧ ∃ st1, import_line env_plain conf_path "/etc/vpn".toList "my".toList
          { text := "secret key.txt 1".toList, beyond := none } [] (import_init env_plain)
        = .next st1 0
      ∧ nm_setting_vpn_get_data_item st1.data NM_OPENVPN_KEY_STATIC_KEY_DIRECTION
          = some "1".toList := by
  refine ⟨⟨_, _, rfl, by decide, by decide⟩, ⟨_, _, rfl, by decide, by decide⟩, ?_⟩
  obtain ⟨⟨key, fkey, hk, st1, h1, h2⟩, -⟩ := handle_direction_range env_plain conf_path
    "/etc/vpn".toList "my".toList { text := "secret key.txt 1".toList, beyond := none } []
    (import_init env_plain) "key.txt".toList (some "1".toList)
    (Or.inl ⟨by decide, by decide⟩)
  refine ⟨st1, h1, ?_⟩
  rcases hk with ⟨-, rfl, rfl⟩ | ⟨hx, -, -⟩
  · rw [h2]
    decide
  · exact absurd hx (by decide)
/-- C17, as stated, fails: after `key-direction 1`, the lines
`tls-auth ta.key` and `secret key.txt`, which carry no direction of their own,
store no `ta-dir` and no `static-key-direction`. -/
theorem do_import_key_direction_unused :
    ∃ c w, do_import env_plain conf_path conf_key_direction = .connection c w
      ∧ nm_setting_vpn_get_data_item c.data NM_OPENVPN_KEY_TA = some "/etc/vpn/ta.key".toList
      ∧ nm_setting_vpn_get_data_item c.data NM_OPENVPN_KEY_TA_DIR = none
      ∧ nm_setting_vpn_get_data_item c.data NM_OPENVPN_KEY_STATIC_KEY
          = some "/etc/vpn/key.txt".toList
      ∧ nm_setting_vpn_get_data_item c.data NM_OPENVPN_KEY_STATIC_KEY_DIRECTION = none := by
  refine ⟨_, _, rfl, by decide, by decide, by decide, by decide⟩

/-- C17, amended: a `key-direction` line only records its argument.  A later
`tls-auth <path>` or `secret <path>` line without a direction of its own
stores its path and leaves `ta-dir` and `static-key-direction` as they were,
whatever was recorded.  The recorded argument is used in one place: when an
inline `<tls-auth>` block is extracted, `handle_direction` is run on it, so
that a recorded `0` or `1` is then stored as `ta-dir`. -/
theorem key_direction_inline_only (env : Env) (path dp name : CStr) (line : Line)
    (rest : List CStr) (st : ImportState) (file : CStr) :
    (first_word line.text = "key-direction".toList →
      import_line env path dp name line rest st
        = .next { st with
                  last_seen_key_direction := some (arg_text env line TAG_KEY_DIRECTION) } 0)
    ∧ (first_word line.text = "tls-auth".toList →
        unquote (arg_text env line TAG_TLS_AUTH) = some (file, none) →
        ∃ st1, import_line env path dp name line rest st = .next st1 0
          ∧ nm_setting_vpn_get_data_item st1.data NM_OPENVPN_KEY_TA_DIR
              = nm_setting_vpn_get_data_item st.data NM_OPENVPN_KEY_TA_DIR)
    ∧ (first_word line.text = "secret".toList →
        unquote (arg_text env line TAG_SECRET) = some (file, none) →
        ∃ st1, import_line env path dp name line rest st = .next st1 0
          ∧ nm_setting_vpn_get_data_item st1.data NM_OPENVPN_KEY_STATIC_KEY_DIRECTION
              = nm_setting_vpn_get_data_item st.data NM_OPENVPN_KEY_STATIC_KEY_DIRECTION)
    ∧ (∀ piece pre post,
        (strip_comment piece).text.take TLS_AUTH_BLOB_START_TAG.length
          = TLS_AUTH_BLOB_START_TAG →
        TLS_AUTH_BLOB_END_TAG ∉ pre →
        (st.cert_dir = .is_dir ∨ (st.cert_dir = .missing ∧ env.mkdir_ok = true)) →
        env.set_contents_ok (blob_path env name NM_OPENVPN_KEY_TA) = true →
        import_line env path dp name (strip_comment piece)
            (pre ++ TLS_AUTH_BLOB_END_TAG :: post) st
          = .next (handle_direction NM_OPENVPN_KEY_TA_DIR st.last_seen_key_direction
              (blob_stored env name NM_OPENVPN_KEY_TA (blob_content pre) st))
              (pre.length + 1)
        ∧ (∀ d, st.last_seen_key_direction = some d →
            (g_strstrip d = "0".toList ∨ g_strstrip d = "1".toList) →
            nm_setting_vpn_get_data_item
                (handle_direction NM_OPENVPN_KEY_TA_DIR st.last_seen_key_direction
                  (blob_stored env name NM_OPENVPN_KEY_TA (blob_content pre) st)).data
                NM_OPENVPN_KEY_TA_DIR
              = some (g_strstrip d))) := by
  refine ⟨fun h => import_line_key_direction env path dp name line rest st h, ?_, ?_, ?_⟩
  · intro h hu
    refine ⟨_, import_line_tls_auth env path dp name line rest st file none h hu, ?_⟩
    exact get_add_ne _ _ _ _ (by decide)
  · intro h hu
    refine ⟨_, import_line_secret env path dp name line rest st file none h hu, ?_⟩
    exact get_add_ne _ _ _ _ (by decide)
  · intro piece pre post hstart hpre hdir hwrite
    have hb := (import_lines_block env path dp name piece pre post NM_OPENVPN_KEY_TA
      TLS_AUTH_BLOB_START_TAG TLS_AUTH_BLOB_END_TAG st (by decide) hstart hpre hdir hwrite).1
    refine ⟨hb, ?_⟩
    intro d hd hv
    rw [hd, handle_direction_eq]
    rcases hv with hv | hv
    · rw [hv, if_pos ⟨by decide, by decide⟩]
      exact get_add_eq (blob_stored env name NM_OPENVPN_KEY_TA (blob_content pre) st).data
        NM_OPENVPN_KEY_TA_DIR "0".toList (by decide) (by decide)
    · rw [hv, if_neg (by decide), if_pos ⟨by decide, by decide⟩]
      exact get_add_eq (blob_stored env name NM_OPENVPN_KEY_TA (blob_content pre) st).data
        NM_OPENVPN_KEY_TA_DIR "1".toList (by decide) (by decide)

theorem key_direction_inline_only_witness :
    (∃ c w, do_import env_plain conf_path conf_key_direction_inline = .connection c w
      ∧ nm_setting_vpn_get_data_item c.data NM_OPENVPN_KEY_TA
          = some "/home/u/.cert/my-ta.pem".toList
      ∧ nm_setting_vpn_get_data_item c.data NM_OPENVPN_KEY_TA_DIR = some "1".toList)
    ∧ import_line env_plain conf_path "/etc/vpn".toList "my".toList
          { text := "key-direction 1".toList, beyond := none } [] (import_init env_plain)
        = .next { import_init env_plain with last_seen_key_direction := some "1".toList } 0
    ∧ ∃ st1, import_line env_plain conf_path "/etc/vpn".toList "my".toList
          { text := "tls-auth ta.key".toList, beyond := none } []
          { import_init env_plain with last_seen_key_direction := some "1".toList }
        = .next st1 0
      ∧ nm_setting_vpn_get_data_item st1.data NM_OPENVPN_KEY_TA_DIR = none := by
  refine ⟨⟨_, _, rfl, by decide, by decide⟩, ?_, ?_⟩
  · exact (key_direction_inline_only env_plain conf_path "/etc/vpn".toList "my".toList
      { text := "key-direction 1".toList, beyond := none } [] (import_init env_plain) []).1
      (by decide)
  · obtain ⟨st1, h1, h2⟩ := (key_direction_inline_only env_plain conf_path "/etc/vpn".toList
      "my".toList { text := "tls-auth ta.key".toList, beyond := none } []
      { import_init env_plain with last_seen_key_direction := some "1".toList }
      "ta.key".toList).2.1 (by decide) (by decide)
    exact ⟨st1, h1, h2⟩

theorem starts_with_iff (line w : CStr) (n : Nat) (hn : n = w.length) :
    (if line.take n != w then false
      else match line.drop n with
        | [] => true
        | c :: _ => g_ascii_isspace c) = true
      ↔ ∃ r, line = w ++ r ∧ (r = [] ∨ ∃ c cs, r = c :: cs ∧ g_ascii_isspace c = true) := by
  subst hn
  by_cases ht : line.take w.length = w
  · have hline : line = w ++ line.drop w.length := by
      conv_lhs => rw [← List.take_append_drop w.length line, ht]
    simp only [ht, bne_self_eq_false, Bool.false_eq_true, if_false]
    constructor
    · intro h
      refine ⟨line.drop w.length, hline, ?_⟩
      cases hd : line.drop w.length with
      | nil => exact Or.inl rfl
      | cons c cs =>
        rw [hd] at h
        exact Or.inr ⟨c, cs, rfl, h⟩
    · rintro ⟨r, hr, hsp⟩
      have hd : line.drop w.length = r := by
        rw [hr, List.drop_left']
        rfl
      rw [hd]
      rcases hsp with rfl | ⟨c, cs, rfl, hc⟩
      · rfl
      · exact hc
  · have hne : (line.take w.length != w) = true := by simpa using ht
    simp only [hne, if_true, Bool.false_eq_true, false_iff]
    rintro ⟨r, hr, -⟩
    apply ht
    rw [hr, List.take_left']
    rfl

theorem args_is_option_spec (line tag : CStr) (htag : tag ≠ []) :
    args_is_option line tag = true
      ↔ ∃ r, line = tag_word tag ++ r
          ∧ (r = [] ∨ ∃ c cs, r = c :: cs ∧ g_ascii_isspace c = true) := by
  obtain ⟨last, hl⟩ : ∃ last, tag.getLast? = some last := by
    cases h : tag.getLast? with
    | none => exact absurd (List.getLast?_eq_none_iff.mp h) htag
    | some l => exact ⟨l, rfl⟩
  unfold args_is_option tag_word
  simp only [hl]
  by_cases hs : g_ascii_isspace last = true
  · simp only [hs, if_true]
    have h1 : tag.take (tag.length - 1) = tag.dropLast := (List.dropLast_eq_take tag).symm
    rw [h1]
    exact starts_with_iff line tag.dropLast (tag.length - 1) (by simp)
  · simp only [hs, Bool.false_eq_true, if_false]
    rw [List.take_length]
    exact starts_with_iff line tag tag.length rfl

/-- C23: for a tag that is not empty, `args_is_option (line, tag)` is true
exactly when the line starts with the tag taken without the one whitespace
character that may end it, and what follows that start is the end of the line
or an ASCII whitespace character.  So a line that starts with a full tag that
ends in whitespace is accepted, whatever follows; `remote-random` is not
accepted for the tag `remote `, `ping-exit 5` is not accepted for `ping `, and
`clientx` is not accepted for `client`. -/
theorem args_is_option_iff (line tag : CStr) (htag : tag ≠ []) :
    (args_is_option line tag = true
      ↔ ∃ r, line = tag_word tag ++ r
          ∧ (r = [] ∨ ∃ c cs, r = c :: cs ∧ g_ascii_isspace c = true))
    ∧ (∀ (w : CStr) (c : Char) (r : CStr), g_ascii_isspace c = true →
        args_is_option (w ++ [c] ++ r) (w ++ [c]) = true)
    ∧ args_is_option "remote-random".toList TAG_REMOTE = false
    ∧ args_is_option "ping-exit 5".toList TAG_PING = false
    ∧ args_is_option "clientx".toList TAG_CLIENT = false := by
  refine ⟨args_is_option_spec line tag htag, ?_, by decide, by decide, by decide⟩
  intro w c r hc
  rw [args_is_option_spec _ _ (by simp)]
  refine ⟨c :: r, ?_, Or.inr ⟨c, r, rfl, hc⟩⟩
  unfold tag_word
  simp [hc]

theorem args_is_option_iff_witness :
    TAG_REMOTE ≠ []
    ∧ (args_is_option "remote host 1194".toList TAG_REMOTE = true
      ↔ ∃ r, "remote host 1194".toList = tag_word TAG_REMOTE ++ r
          ∧ (r = [] ∨ ∃ c cs, r = c :: cs ∧ g_ascii_isspace c = true))
    ∧ args_is_option "remote host 1194".toList TAG_REMOTE = true
    ∧ tag_word TAG_REMOTE = "remote".toList :=
  ⟨by decide, (args_is_option_iff "remote host 1194".toList TAG_REMOTE (by decide)).1,
    by decide, by decide⟩
theorem export_remote_line_default_port (e host proto : CStr)
    (he : g_strstrip e = host ++ [':', ':'] ++ proto) (h : ':' ∉ host) (hpr : proto ≠ []) :
    export_remote_line e
      = "remote ".toList ++ host ++ [' ']
          ++ (if proto = "udp".toList then "1194".toList else "443".toList)
          ++ [' '] ++ proto ++ [lf] := by
  have he2 : g_strstrip e = host ++ ':' :: (':' :: proto) := by simp [he]
  unfold export_remote_line
  simp only [he2, takeWhile_ne_append _ _ _ h, contains_append_cons, if_true, drop_append_cons]
  simp [hpr]

theorem flatMap_mem_split (f : CStr → CStr) (l : List CStr) (e : CStr) (he : e ∈ l) :
    ∃ pre post, l.flatMap f = pre ++ f e ++ post := by
  obtain ⟨a, b, rfl⟩ := List.append_of_mem he
  exact ⟨a.flatMap f, b.flatMap f, by simp [List.flatMap_append]⟩

/-- C27: a successful export prints, for every non-empty piece of the `remote`
value, the line of that piece.  For a piece with a protocol but no port,
`host::proto`, the line is `remote host 1194 proto` when the protocol is `udp`
and `remote host 443 proto` for any other protocol; for a piece with a port,
`host:port` or `host:port:proto`, the port is written as it stands; for a
piece with neither, the line is `remote host`. -/
theorem do_export_remote_port (can_open : Bool) (path : CStr) (c : Connection) (text : CStr)
    (auth : Option (CStr × CStr)) (h : do_export can_open path c = .success text auth) :
    (∃ gateways, get_nonempty c.data NM_OPENVPN_KEY_REMOTE = some gateways
      ∧ ∀ e ∈ (g_strsplit_set gateways [' ', ',']).filter (fun p => p != []),
          ∃ pre post, text = pre ++ export_remote_line e ++ post)
    ∧ (∀ e host proto : CStr, g_strstrip e = host ++ [':', ':'] ++ proto → ':' ∉ host →
        proto ≠ [] →
        export_remote_line e
          = "remote ".toList ++ host ++ [' ']
              ++ (if proto = "udp".toList then "1194".toList else "443".toList)
              ++ [' '] ++ proto ++ [lf])
    ∧ (∀ e host port : CStr, g_strstrip e = host ++ [':'] ++ port → ':' ∉ host → ':' ∉ port →
        port ≠ [] → export_remote_line e = "remote ".toList ++ host ++ [' '] ++ port ++ [lf])
    ∧ (∀ e host port proto : CStr, g_strstrip e = host ++ [':'] ++ port ++ [':'] ++ proto →
        ':' ∉ host → ':' ∉ port → port ≠ [] → proto ≠ [] →
        export_remote_line e
          = "remote ".toList ++ host ++ [' '] ++ port ++ [' '] ++ proto ++ [lf])
    ∧ (∀ e host : CStr, g_strstrip e = host → ':' ∉ host →
        export_remote_line e = "remote ".toList ++ host ++ [lf]) := by
  refine ⟨?_, export_remote_line_default_port, export_remote_line_port,
    export_remote_line_proto, export_remote_line_host⟩
  obtain ⟨g, t, hg, ht⟩ := do_export_success can_open path c text auth h
  refine ⟨g, hg, ?_⟩
  intro e he
  obtain ⟨pre, post, hsplit⟩ := flatMap_mem_split export_remote_line _ e he
  refine ⟨"client\n".toList ++ pre, post
    ++ (if is_yes c.data NM_OPENVPN_KEY_REMOTE_RANDOM then "remote-random\n".toList else [])
    ++ (export_options path c t).1, ?_⟩
  rw [ht]
  simp only [export_text, hg, Option.getD_some, export_remotes, hsplit, List.append_assoc]

theorem do_export_remote_port_witness :
    do_export true export_path conn_remote_forms
      = .success ("client\nremote a 1194 udp\nremote b 443 tcp\nremote c 80\ndev tun\nproto udp\n".toList
          ++ EXPORT_TRAILER) none
    ∧ ∃ gateways, get_nonempty conn_remote_forms.data NM_OPENVPN_KEY_REMOTE = some gateways
      ∧ ∀ e ∈ (g_strsplit_set gateways [' ', ',']).filter (fun p => p != []),
          ∃ pre post, "client\nremote a 1194 udp\nremote b 443 tcp\nremote c 80\ndev tun\nproto udp\n".toList
            ++ EXPORT_TRAILER = pre ++ export_remote_line e ++ post :=
  ⟨by decide,
   (do_export_remote_port true export_path conn_remote_forms _ none (by decide)).1⟩
theorem foldl_single_quoted (s : CStr) (st : ArgsState) (hm : st.mode = .quoted squote)
    (hs : squote ∉ s) (hlen : s.length ≤ st.buf.len) :
    s.foldl args_step st
      = { st with pos := st.pos + s.length,
                  buf := { data := st.buf.data ++ s, len := st.buf.len - s.length } } := by
  induction s generalizing st with
  | nil => simp
  | cons c cs ih =>
    have hq : squote ≠ dquote := by decide
    have hc : c ≠ squote := fun e => hs (e ▸ List.mem_cons_self _ _)
    simp only [List.length_cons] at hlen
    have hpos : 0 < st.buf.len := by omega
    have h1 : args_step st c
        = { st with pos := st.pos + 1,
                    buf := { data := st.buf.data ++ [c], len := st.buf.len - 1 } } := by
      simp [args_step, hm, hq, hc, append_c_data _ _ hpos]
    rw [List.foldl_cons, h1]
    have hih := ih { st with pos := st.pos + 1,
                             buf := { data := st.buf.data ++ [c], len := st.buf.len - 1 } }
      (by simpa using hm) (fun hx => hs (List.mem_cons_of_mem _ hx)) (by simp only; omega)
    rw [hih]
    simp only [List.length_cons, List.append_assoc, List.singleton_append]
    congr 1
    · omega
    · congr 1
      omega

theorem args_loop_single_quoted (s : CStr) (n : Nat) (hs : squote ∉ s)
    (hn : s.length + 1 ≤ n + 1) :
    args_loop (args_start n) (squote :: (s ++ [squote]))
      = .ok ([0], { data := s ++ [nul], len := n + 1 - s.length - 1 }) := by
  have hsp : g_ascii_isspace squote = false := by decide
  have h1 : args_step (args_start n) squote
      = { mode := .quoted squote, word_start := 0, pos := 1, index := [0],
          buf := { data := [], len := n + 1 } } := by
    simp [args_step, args_switch, hsp, args_start]
  rw [args_loop, List.foldl_cons, List.foldl_append, h1,
    foldl_single_quoted s _ rfl hs (by simp only; omega)]
  simp only [List.foldl_cons, List.foldl_nil, args_step, if_true, args_end, List.nil_append]
  rw [append_c_data _ _ (by simp only; omega)]

theorem any_nul_lf_false (l : CStr) (h : ∀ c ∈ l, c ≠ nul ∧ c ≠ lf) :
    l.any (fun c => c == nul || c == lf) = false := by
  rw [Bool.eq_false_iff]
  intro hc
  obtain ⟨c, hc1, hc2⟩ := List.any_eq_true.mp hc
  have := h c hc1
  simp_all

/-- C28: inside a single-quoted span nothing is escaped and only a single
quote closes the span.  At the program point inside such a span, a character
other than the single quote is appended to the output as it is, a backslash, a
double quote and whitespace included, and the span stays open; the single
quote closes the span.  For every text `s` without single quote, NUL and line
feed, tokenizing the line made of a single quote, `s` and a single quote
succeeds with exactly one argument, equal to `s`. -/
theorem args_parse_line_single_quote (st : ArgsState) (c : Char) (s : CStr)
    (hmode : st.mode = .quoted squote) (hc : c ≠ squote)
    (hs : ∀ x ∈ s, x ≠ squote ∧ x ≠ nul ∧ x ≠ lf) :
    args_step st c = { st with pos := st.pos + 1, buf := _strbuf_append_c st.buf c }
    ∧ args_step st squote = { st with pos := st.pos + 1, mode := .word }
    ∧ args_parse_line ([squote] ++ s ++ [squote]) = .ok (some [s]) := by
  have hq : squote ≠ dquote := by decide
  refine ⟨?_, ?_, ?_⟩
  · obtain ⟨mode, ws, pos, index, buf⟩ := st
    simp only at hmode
    subst hmode
    simp [args_step, hq, hc]
  · obtain ⟨mode, ws, pos, index, buf⟩ := st
    simp only at hmode
    subst hmode
    simp [args_step]
  · have hany : (squote :: (s ++ [squote])).any (fun c => c == nul || c == lf) = false := by
      apply any_nul_lf_false
      intro x hx
      simp only [List.mem_cons, List.mem_append, List.mem_singleton, List.not_mem_nil,
        or_false] at hx
      rcases hx with rfl | hx | rfl
      · decide
      · exact (hs x hx).2
      · decide
    have hlast : (squote :: (s ++ [squote])).getLast? ≠ some cr := by
      rw [← List.singleton_append, ← List.append_assoc, List.getLast?_append]
      simp
      decide
    rw [List.singleton_append, List.cons_append,
      args_parse_line_plain squote _ hany hlast (by decide) (by decide),
      args_loop_single_quoted s _ (fun hx => (hs _ hx).1 rfl)
        (by simp only [List.length_cons, List.length_append]; omega)]
    simp only [List.map_cons, List.map_nil]
    rw [cstr_at_zero s (fun c hc => (hs c hc).2.1)]

theorem args_parse_line_single_quote_witness :
    args_step
        { mode := .quoted squote, word_start := 0, pos := 2, index := [0],
          buf := { data := ['a'], len := 7 } } bslash
      = { mode := .quoted squote, word_start := 0, pos := 3, index := [0],
          buf := { data := ['a', bslash], len := 6 } }
    ∧ args_parse_line ([squote] ++ ['a', bslash, dquote, ' ', 'b'] ++ [squote])
        = .ok (some [['a', bslash, dquote, ' ', 'b']]) :=
  ⟨(args_parse_line_single_quote
      { mode := .quoted squote, word_start := 0, pos := 2, index := [0],
        buf := { data := ['a'], len := 7 } }
      bslash ['a', bslash, dquote, ' ', 'b'] rfl (by decide) (by decide)).1,
   (args_parse_line_single_quote
      { mode := .quoted squote, word_start := 0, pos := 2, index := [0],
        buf := { data := ['a'], len := 7 } }
      bslash ['a', bslash, dquote, ' ', 'b'] rfl (by decide) (by decide)).2.2⟩
theorem foldl_escaped_word (s : CStr) (st : ArgsState) (hm : st.mode = .word)
    (hlen : s.length ≤ st.buf.len) :
    (escape_all s).foldl args_step st
      = { st with pos := st.pos + 2 * s.length,
                  buf := { data := st.buf.data ++ s, len := st.buf.len - s.length } } := by
  induction s generalizing st with
  | nil => simp [escape_all]
  | cons c cs ih =>
    simp only [List.length_cons] at hlen
    have hpos : 0 < st.buf.len := by omega
    have h1 : args_step st bslash = { st with pos := st.pos + 1, mode := .word_escape } := by
      simp [args_step, args_switch, hm, bslash_not_quote]
    have h2 : args_step (args_step st bslash) c
        = { st with pos := st.pos + 2, buf := { data := st.buf.data ++ [c], len := st.buf.len - 1 } } := by
      rw [h1]
      simp [args_step, append_c_data _ _ hpos, hm]
    have : escape_all (c :: cs) = bslash :: c :: escape_all cs := by simp [escape_all]
    rw [this, List.foldl_cons, List.foldl_cons, h2]
    have hih := ih { st with pos := st.pos + 2,
                             buf := { data := st.buf.data ++ [c], len := st.buf.len - 1 } }
      (by simpa using hm) (by simp only; omega)
    rw [hih]
    simp only [List.length_cons, List.append_assoc, List.singleton_append]
    congr 1
    · omega
    · congr 1
      omega

theorem args_start_escaped (n : Nat) (c : Char) :
    args_step (args_step (args_start n) bslash) c
      = { mode := .word, word_start := 0, pos := 2, index := [0],
          buf := { data := [c], len := n } } := by
  simp [args_step, args_switch, args_start, bslash_not_space, bslash_not_quote, _strbuf_append_c]

theorem foldl_escape_all_start (c : Char) (cs : CStr) (n : Nat) (hn : cs.length + 1 ≤ n) :
    (escape_all (c :: cs)).foldl args_step (args_start n)
      = { mode := .word, word_start := 0, pos := 2 + 2 * cs.length, index := [0],
          buf := { data := c :: cs, len := n - cs.length } } := by
  have : escape_all (c :: cs) = bslash :: c :: escape_all cs := by simp [escape_all]
  rw [this, List.foldl_cons, List.foldl_cons, args_start_escaped,
    foldl_escaped_word cs _ rfl (by simp only; omega)]
  simp

theorem getLast_escape_all (s : CStr) : (escape_all s).getLast? = s.getLast? := by
  induction s using List.reverseRecOn with
  | nil => rfl
  | append_singleton l a _ => simp [escape_all, List.flatMap_append]

theorem escape_all_any (s : CStr) (h : ∀ c ∈ s, c ≠ nul ∧ c ≠ lf) :
    (escape_all s).any (fun c => c == nul || c == lf) = false := by
  apply any_nul_lf_false
  intro x hx
  simp only [escape_all, List.mem_flatMap, List.mem_cons, List.not_mem_nil, or_false] at hx
  obtain ⟨a, ha, rfl | rfl⟩ := hx
  · decide
  · exact h _ ha

theorem args_parse_line_escaped (s : CStr) (hne : s ≠ []) (h : ∀ c ∈ s, c ≠ nul ∧ c ≠ lf)
    (hcr : s.getLast? ≠ some cr) : args_parse_line (escape_all s) = .ok (some [s]) := by
  obtain ⟨c, cs, rfl⟩ := List.exists_cons_of_ne_nil hne
  have hl := escape_all_length (c :: cs)
  have hl2 := hl
  have hform : escape_all (c :: cs) = bslash :: (c :: escape_all cs) := by simp [escape_all]
  have hany := escape_all_any _ h
  have hlast : (escape_all (c :: cs)).getLast? ≠ some cr := by
    rw [getLast_escape_all]
    exact hcr
  rw [hform] at hany hlast hl ⊢
  rw [args_parse_line_plain bslash _ hany hlast (by decide) (by decide), ← hform, args_loop,
    foldl_escape_all_start c cs _ (by rw [hl2]; simp only [List.length_cons]; omega)]
  simp only [args_end]
  rw [append_c_data _ _ (by simp only [hl2, List.length_cons]; omega)]
  simp only [List.map_cons, List.map_nil]
  rw [cstr_at_zero (c :: cs) (fun x hx => (h x hx).1)]

/-- C29, as stated, fails: in the line `ab`, backslash, carriage return, the
backslash stands outside quotes and is followed by a character, the carriage
return, which is ASCII whitespace; yet that character is not added to the
argument: `args_parse_line` drops the carriage return that ends the line
before it reads the line, and fails with a trailing backslash. -/
theorem args_parse_line_escaped_cr :
    (∀ c ∈ line_word_backslash_cr, c ≠ nul ∧ c ≠ lf)
    ∧ line_word_backslash_cr = "ab".toList ++ [bslash, cr]
    ∧ g_ascii_isspace cr = true
    ∧ args_parse_line line_word_backslash_cr = .error (.trailing_backslash 0)
    ∧ args_parse_line line_word_backslash_cr ≠ .ok (some [['a', 'b', cr]]) := by
  refine ⟨by decide, by decide, by decide, by decide, by decide⟩

/-- C29, amended: in the line as `args_parse_line` reads it, which is the
line without the carriage return that may end it, a backslash outside quotes
followed by a character adds exactly that character to the current argument,
the backslash is dropped and the argument goes on, whatever the character is.
A line in which every character is escaped, and which does not end in a
carriage return, is one argument made of these characters; `a\ b c` gives the
two arguments `a b` and `c`. -/
theorem args_parse_line_escape (st : ArgsState) (c : Char) (s : CStr)
    (hmode : st.mode = .word ∨ st.mode = .between) (hne : s ≠ [])
    (hs : ∀ x ∈ s, x ≠ nul ∧ x ≠ lf) (hcr : s.getLast? ≠ some cr) :
    (args_step (args_step st bslash) c).mode = .word
    ∧ (args_step (args_step st bslash) c).buf = _strbuf_append_c st.buf c
    ∧ (st.mode = .word → (args_step (args_step st bslash) c).index = st.index)
    ∧ args_parse_line (escape_all s) = .ok (some [s])
    ∧ args_parse_line line_escaped_space = .ok (some ["a b".toList, "c".toList]) := by
  refine ⟨?_, ?_, ?_, args_parse_line_escaped s hne hs hcr, by decide⟩
  · obtain ⟨mode, ws, pos, index, buf⟩ := st
    simp only at hmode
    rcases hmode with rfl | rfl <;>
      simp [args_step, args_switch, bslash_not_space, bslash_not_quote]
  · obtain ⟨mode, ws, pos, index, buf⟩ := st
    simp only at hmode
    rcases hmode with rfl | rfl <;>
      simp [args_step, args_switch, bslash_not_space, bslash_not_quote]
  · intro hw
    obtain ⟨mode, ws, pos, index, buf⟩ := st
    simp only at hw
    subst hw
    simp [args_step, args_switch, bslash_not_quote]

theorem args_parse_line_escape_witness :
    args_step (args_step
          { mode := .word, word_start := 0, pos := 1, index := [0],
            buf := { data := ['a'], len := 6 } } bslash) ' '
        = { mode := .word, word_start := 0, pos := 3, index := [0],
            buf := { data := ['a', ' '], len := 5 } }
    ∧ args_parse_line (escape_all ['a', ' ', hash, bslash, dquote])
        = .ok (some [['a', ' ', hash, bslash, dquote]]) :=
  ⟨by decide,
   (args_parse_line_escape
      { mode := .word, word_start := 0, pos := 1, index := [0],
        buf := { data := ['a'], len := 6 } }
      ' ' ['a', ' ', hash, bslash, dquote] (Or.inl rfl) (by decide) (by decide) (by decide)).2.2.2.1⟩
theorem args_switch_index (s : ArgsState) (c : Char) : (args_switch s c).index = s.index := by
  unfold args_switch
  split_ifs <;> rfl

theorem args_step_index (s : ArgsState) (c : Char) (h : s.index ≠ []) :
    (args_step s c).index ≠ [] := by
  unfold args_step
  cases hm : s.mode with
  | between =>
    simp only
    split_ifs
    · exact h
    · rw [args_switch_index]
      simp
  | word =>
    simp only
    rw [args_switch_index]
    exact h
  | word_escape => exact h
  | quoted q =>
    simp only
    split_ifs <;> exact h
  | quoted_escape q => exact h

theorem args_foldl_index (l : CStr) (s : ArgsState) (h : s.index ≠ []) :
    (l.foldl args_step s).index ≠ [] := by
  induction l generalizing s with
  | nil => exact h
  | cons c cs ih => exact ih _ (args_step_index s c h)

theorem args_loop_index (s : ArgsState) (c : Char) (cs : CStr) (hm : s.mode = .between)
    (hc : g_ascii_isspace c = false) (index : List Nat) (buf : StrBuf)
    (h : args_loop s (c :: cs) = .ok (index, buf)) : index ≠ [] := by
  have h1 : (args_step s c).index ≠ [] := by
    unfold args_step
    simp only [hm, hc, Bool.false_eq_true, if_false]
    rw [args_switch_index]
    simp
  have h2 := args_foldl_index cs _ h1
  unfold args_loop args_end at h
  rw [List.foldl_cons] at h
  split at h
  · cases h
    exact h2
  · cases h
    exact h2
  · cases h
  · cases h
  · cases h

theorem skip_head (l : CStr) (c : Char) (cs : CStr)
    (h : _ch_skip_over_leading_whitespace l = c :: cs) : g_ascii_isspace c = false := by
  rw [skip_eq_dropWhile] at h
  rcases dropWhile_head g_ascii_isspace l with h0 | ⟨d, ds, h1, h2⟩
  · rw [h0] at h
    cases h
  · rw [h1] at h
    cases h
    exact h2

/-- C30: a line is a text free of NUL and line feed.  When the line, without
the carriage return that may end it, is empty, made of ASCII whitespace only,
or has `;` or `#` as its first character that is not whitespace,
`args_parse_line` returns `TRUE` with the `NULL` vector, which holds no
argument, and sets no error.  On every other line on which it succeeds, the
vector holds at least one argument. -/
theorem args_parse_line_blank (line : CStr) (h : ∀ c ∈ line, c ≠ nul ∧ c ≠ lf) :
    (blank_or_comment (drop_cr line) = true → args_parse_line line = .ok none)
    ∧ (blank_or_comment (drop_cr line) = false → ∀ v, args_parse_line line = .ok v →
        ∃ args, v = some args ∧ 1 ≤ args.length) := by
  have hany := any_nul_lf_false line h
  unfold blank_or_comment drop_cr args_parse_line
  simp only [hany, Bool.false_eq_true, if_false]
  generalize (if line.getLast? = some cr then line.dropLast else line) = L
  rw [← skip_eq_dropWhile]
  cases hsk : _ch_skip_over_leading_whitespace L with
  | nil => simp
  | cons c cs =>
    have hc := skip_head L c cs hsk
    simp only
    by_cases hcom : c = semi ∨ c = hash
    · have hb : (c == semi || c == hash) = true := by simpa using hcom
      simp [hcom, hb]
    · have hb : (c == semi || c == hash) = false := by simpa using hcom
      simp only [hb, Bool.false_eq_true, false_implies, true_and, hcom, if_false]
      intro _ v hv
      cases hl : args_loop
          { mode := .between, word_start := L.length - (c :: cs).length,
            pos := L.length - (c :: cs).length, index := [],
            buf := { data := [], len := (c :: cs).length + 1 } } (c :: cs) with
      | error e =>
        rw [hl] at hv
        cases hv
      | ok r =>
        obtain ⟨index, buf⟩ := r
        rw [hl] at hv
        simp only [ArgsResult.ok.injEq] at hv
        refine ⟨_, hv.symm, ?_⟩
        have hi := args_loop_index _ c cs rfl hc index buf hl
        rw [List.length_map]
        exact List.length_pos.mpr hi

theorem args_parse_line_blank_witness :
    (∀ c ∈ [' ', tab, hash, 'x', cr], c ≠ nul ∧ c ≠ lf)
    ∧ blank_or_comment (drop_cr [' ', tab, hash, 'x', cr]) = true
    ∧ args_parse_line [' ', tab, hash, 'x', cr] = .ok none
    ∧ blank_or_comment (drop_cr [' ', cr]) = true
    ∧ args_parse_line [' ', cr] = .ok none
    ∧ blank_or_comment (drop_cr "a b".toList) = false
    ∧ args_parse_line "a b".toList = .ok (some ["a".toList, "b".toList]) :=
  ⟨by decide, by decide,
   (args_parse_line_blank [' ', tab, hash, 'x', cr] (by decide)).1 (by decide),
   by decide, by decide, by decide, by decide⟩
theorem export_proxy_path (p1 p2 : CStr) (c : Connection)
    (h : nm_setting_vpn_get_data_item c.data NM_OPENVPN_KEY_HTTP_PROXY_USERNAME = none
      ∨ get_nonempty c.data NM_OPENVPN_KEY_PROXY_TYPE ≠ some "http".toList) :
    export_proxy p1 c = export_proxy p2 c := by
  unfold export_proxy
  cases ht : get_nonempty c.data NM_OPENVPN_KEY_PROXY_TYPE with
  | none => rfl
  | some t =>
    simp only
    split
    · rcases h with h | h
      · simp only [h]
      · have hne : t ≠ "http".toList := by
          intro e
          apply h
          rw [ht, e]
        simp only [hne, if_false]
    · rfl

/-- C26, as stated, fails: for a settings model with an http proxy and a
proxy user name, the `http-proxy` line names an auth file that lies next to
the destination, so two destinations give two different texts. -/
theorem do_export_names_destination :
    do_export true "/tmp/a.ovpn".toList conn_http_proxy_user
      ≠ do_export true "/tmp/b.ovpn".toList conn_http_proxy_user
    ∧ (export_proxy "/tmp/a.ovpn".toList conn_http_proxy_user).1
        = "http-proxy p 8080 /tmp/a.ovpn-httpauthfile\n".toList
    ∧ (export_proxy "/tmp/b.ovpn".toList conn_http_proxy_user).1
        = "http-proxy p 8080 /tmp/b.ovpn-httpauthfile\n".toList
    ∧ ∃ t1 t2 a1 a2,
        do_export true "/tmp/a.ovpn".toList conn_http_proxy_user = .success t1 a1
        ∧ do_export true "/tmp/b.ovpn".toList conn_http_proxy_user = .success t2 a2
        ∧ t1 ≠ t2 := by
  refine ⟨by decide, by decide, by decide, _, _, _, _, rfl, rfl, by decide⟩

/-- C26, amended: the export of a settings model that has no http proxy user
name (the user name is not set, or the proxy type is not `http`) does not
depend on the destination: for two destination paths that both can or both
cannot be opened, `do_export` gives the same outcome and byte-identical text.
With an http proxy user name the text names the auth file
`<directory>/<file name>-httpauthfile` of the destination. -/
theorem do_export_path_independent (can_open : Bool) (p1 p2 : CStr) (c : Connection)
    (h : nm_setting_vpn_get_data_item c.data NM_OPENVPN_KEY_HTTP_PROXY_USERNAME = none
      ∨ get_nonempty c.data NM_OPENVPN_KEY_PROXY_TYPE ≠ some "http".toList) :
    do_export can_open p1 c = do_export can_open p2 c := by
  have hp := export_proxy_path p1 p2 c h
  unfold do_export export_text export_options
  simp only [hp]

theorem do_export_path_independent_witness :
    nm_setting_vpn_get_data_item conn_http_proxy.data NM_OPENVPN_KEY_HTTP_PROXY_USERNAME = none
    ∧ do_export true "/tmp/a.ovpn".toList conn_http_proxy
        = .success ("client\nremote h\ndev tun\nproto udp\nhttp-proxy p 8080\n".toList
            ++ EXPORT_TRAILER) none
    ∧ do_export true "/tmp/a.ovpn".toList conn_http_proxy
        = do_export true "/tmp/b.ovpn".toList conn_http_proxy :=
  ⟨by decide, by decide,
   do_export_path_independent true "/tmp/a.ovpn".toList "/tmp/b.ovpn".toList conn_http_proxy
     (Or.inl (by decide))⟩

theorem directive_tags_off (line : Line) (hw : first_word line.text ∉ DIRECTIVE_WORDS) :
    ∀ tag ∈ DIRECTIVE_TAGS, args_is_option line.text tag = false := by
  have hall : ∀ w ∈ DIRECTIVE_WORDS, first_word line.text ≠ w := fun w hw1 e => hw (e ▸ hw1)
  have b0 : args_is_option line.text TAG_AUTH = false := by
    rw [is_option_AUTH]
    exact decide_eq_false (hall _ (by decide))
  have b1 : args_is_option line.text TAG_AUTH_USER_PASS = false := by
    rw [is_option_AUTH_USER_PASS]
    exact decide_eq_false (hall _ (by decide))
  have b2 : args_is_option line.text TAG_CA = false := by
    rw [is_option_CA]
    exact decide_eq_false (hall _ (by decide))
  have b3 : args_is_option line.text TAG_CERT = false := by
    rw [is_option_CERT]
    exact decide_eq_false (hall _ (by decide))
  have b4 : args_is_option line.text TAG_CIPHER = false := by
    rw [is_option_CIPHER]
    exact decide_eq_false (hall _ (by decide))
  have b5 : args_is_option line.text TAG_KEYSIZE = false := by
    rw [is_option_KEYSIZE]
    exact decide_eq_false (hall _ (by decide))
  have b6 : args_is_option line.text TAG_CLIENT = false := by
    rw [is_option_CLIENT]
    exact decide_eq_false (hall _ (by decide))
  have b7 : args_is_option line.text TAG_COMP_LZO = false := by
    rw [is_option_COMP_LZO]
    exact decide_eq_false (hall _ (by decide))
  have b8 : args_is_option line.text TAG_FLOAT = false := by
    rw [is_option_FLOAT]
    exact decide_eq_false (hall _ (by decide))
  have b9 : args_is_option line.text TAG_DEV = false := by
    rw [is_option_DEV]
    exact decide_eq_false (hall _ (by decide))
  have b10 : args_is_option line.text TAG_DEV_TYPE = false := by
    rw [is_option_DEV_TYPE]
    exact decide_eq_false (hall _ (by decide))
  have b11 : args_is_option line.text TAG_FRAGMENT = false := by
    rw [is_option_FRAGMENT]
    exact decide_eq_false (hall _ (by decide))
  have b12 : args_is_option line.text TAG_IFCONFIG = false := by
    rw [is_option_IFCONFIG]
    exact decide_eq_false (hall _ (by decide))
  have b13 : args_is_option line.text TAG_KEY = false := by
    rw [is_option_KEY]
    exact decide_eq_false (hall _ (by decide))
  have b14 : args_is_option line.text TAG_KEEPALIVE = false := by
    rw [is_option_KEEPALIVE]
    exact decide_eq_false (hall _ (by decide))
  have b15 : args_is_option line.text TAG_MSSFIX = false := by
    rw [is_option_MSSFIX]
    exact decide_eq_false (hall _ (by decide))
  have b16 : args_is_option line.text TAG_PING = false := by
    rw [is_option_PING]
    exact decide_eq_false (hall _ (by decide))
  have b17 : args_is_option line.text TAG_PING_EXIT = false := by
    rw [is_option_PING_EXIT]
    exact decide_eq_false (hall _ (by decide))
  have b18 : args_is_option line.text TAG_PING_RESTART = false := by
    rw [is_option_PING_RESTART]
    exact decide_eq_false (hall _ (by decide))
  have b19 : args_is_option line.text TAG_PKCS12 = false := by
    rw [is_option_PKCS12]
    exact decide_eq_false (hall _ (by decide))
  have b20 : args_is_option line.text TAG_PORT = false := by
    rw [is_option_PORT]
    exact decide_eq_false (hall _ (by decide))
  have b21 : args_is_option line.text TAG_PROTO = false := by
    rw [is_option_PROTO]
    exact decide_eq_false (hall _ (by decide))
  have b22 : args_is_option line.text TAG_HTTP_PROXY = false := by
    rw [is_option_HTTP_PROXY]
    exact decide_eq_false (hall _ (by decide))
  have b23 : args_is_option line.text TAG_HTTP_PROXY_RETRY = false := by
    rw [is_option_HTTP_PROXY_RETRY]
    exact decide_eq_false (hall _ (by decide))
  have b24 : args_is_option line.text TAG_SOCKS_PROXY = false := by
    rw [is_option_SOCKS_PROXY]
    exact decide_eq_false (hall _ (by decide))
  have b25 : args_is_option line.text TAG_SOCKS_PROXY_RETRY = false := by
    rw [is_option_SOCKS_PROXY_RETRY]
    exact decide_eq_false (hall _ (by decide))
  have b26 : args_is_option line.text TAG_REMOTE = false := by
    rw [is_option_REMOTE]
    exact decide_eq_false (hall _ (by decide))
  have b27 : args_is_option line.text TAG_REMOTE_RANDOM = false := by
    rw [is_option_REMOTE_RANDOM]
    exact decide_eq_false (hall _ (by decide))
  have b28 : args_is_option line.text TAG_RENEG_SEC = false := by
    rw [is_option_RENEG_SEC]
    exact decide_eq_false (hall _ (by decide))
  have b29 : args_is_option line.text TAG_RPORT = false := by
    rw [is_option_RPORT]
    exact decide_eq_false (hall _ (by decide))
  have b30 : args_is_option line.text TAG_SECRET = false := by
    rw [is_option_SECRET]
    exact decide_eq_false (hall _ (by decide))
  have b31 : args_is_option line.text TAG_TLS_AUTH = false := by
    rw [is_option_TLS_AUTH]
    exact decide_eq_false (hall _ (by decide))
  have b32 : args_is_option line.text TAG_KEY_DIRECTION = false := by
    rw [is_option_KEY_DIRECTION]
    exact decide_eq_false (hall _ (by decide))
  have b33 : args_is_option line.text TAG_TLS_CLIENT = false := by
    rw [is_option_TLS_CLIENT]
    exact decide_eq_false (hall _ (by decide))
  have b34 : args_is_option line.text TAG_TLS_REMOTE = false := by
    rw [is_option_TLS_REMOTE]
    exact decide_eq_false (hall _ (by decide))
  have b35 : args_is_option line.text TAG_REMOTE_CERT_TLS = false := by
    rw [is_option_REMOTE_CERT_TLS]
    exact decide_eq_false (hall _ (by decide))
  have b36 : args_is_option line.text TAG_TUN_MTU = false := by
    rw [is_option_TUN_MTU]
    exact decide_eq_false (hall _ (by decide))
  have b37 : args_is_option line.text TAG_ROUTE = false := by
    rw [is_option_ROUTE]
    exact decide_eq_false (hall _ (by decide))
  intro tag htag
  simp only [DIRECTIVE_TAGS, List.mem_cons, List.mem_singleton, List.not_mem_nil, or_false] at htag
  rcases htag with rfl | rfl | rfl | rfl | rfl | rfl | rfl | rfl | rfl | rfl | rfl | rfl | rfl | rfl | rfl | rfl | rfl | rfl | rfl | rfl | rfl | rfl | rfl | rfl | rfl | rfl | rfl | rfl | rfl | rfl | rfl | rfl | rfl | rfl | rfl | rfl | rfl | rfl
  all_goals assumption

theorem import_head_off (env : Env) (path : CStr) (line : Line) (st : ImportState)
    (h : ∀ tag ∈ DIRECTIVE_TAGS, args_is_option line.text tag = false) :
    import_head env path line st = none := by
  simp [import_head, import_client, import_key_direction, import_one_arg, import_keyword,
    import_proto, import_flag, import_size_item, import_reneg_sec, import_proxy_retry,
    import_proxy, import_remote, import_port, handle_num_seconds_item,
    h TAG_CLIENT (by decide), h TAG_TLS_CLIENT (by decide), h TAG_KEY_DIRECTION (by decide),
    h TAG_DEV (by decide), h TAG_DEV_TYPE (by decide), h TAG_PROTO (by decide),
    h TAG_MSSFIX (by decide), h TAG_TUN_MTU (by decide), h TAG_FRAGMENT (by decide),
    h TAG_COMP_LZO (by decide), h TAG_FLOAT (by decide), h TAG_RENEG_SEC (by decide),
    h TAG_HTTP_PROXY_RETRY (by decide), h TAG_SOCKS_PROXY_RETRY (by decide),
    h TAG_HTTP_PROXY (by decide), h TAG_SOCKS_PROXY (by decide), h TAG_REMOTE (by decide),
    h TAG_REMOTE_RANDOM (by decide), h TAG_PORT (by decide), h TAG_RPORT (by decide),
    h TAG_PING (by decide), h TAG_PING_EXIT (by decide), h TAG_PING_RESTART (by decide)]

theorem import_certs_off (env : Env) (dp : CStr) (line : Line) (st : ImportState)
    (h : ∀ tag ∈ DIRECTIVE_TAGS, args_is_option line.text tag = false) :
    import_pkcs12 env dp line st = (false, st) ∧ import_certs env dp line st = none := by
  simp [import_pkcs12, import_certs, import_path, handle_path_item, h TAG_PKCS12 (by decide),
    h TAG_CA (by decide), h TAG_CERT (by decide), h TAG_KEY (by decide)]

theorem import_tail_off (env : Env) (dp : CStr) (line : Line) (st : ImportState)
    (h : ∀ tag ∈ DIRECTIVE_TAGS, args_is_option line.text tag = false) :
    import_tail env dp line st = none := by
  simp [import_tail, import_secret, import_tls_auth, import_one_arg, import_keepalive,
    import_keysize, import_tls_remote, import_keyword, import_ifconfig, import_auth_user_pass,
    import_route, handle_path_item, h TAG_SECRET (by decide), h TAG_TLS_AUTH (by decide),
    h TAG_CIPHER (by decide), h TAG_KEEPALIVE (by decide), h TAG_KEYSIZE (by decide),
    h TAG_TLS_REMOTE (by decide), h TAG_REMOTE_CERT_TLS (by decide), h TAG_IFCONFIG (by decide),
    h TAG_AUTH_USER_PASS (by decide), h TAG_AUTH (by decide), h TAG_ROUTE (by decide)]

theorem blob_tags_start (key s e : CStr) (h : blob_tags key = some (s, e)) : s ∈ START_TAGS := by
  unfold blob_tags at h
  split_ifs at h <;> simp only [Option.some.injEq, Prod.mk.injEq] at h <;>
    (obtain ⟨rfl, -⟩ := h; simp [START_TAGS])

theorem handle_blob_item_off (env : Env) (cur : CStr) (rest : List CStr) (key : CStr)
    (st : ImportState) (name : CStr) (h : begins_with_start_tag cur = false) :
    handle_blob_item env cur rest key st name = .no_start := by
  cases hk : blob_tags key with
  | none => simp [handle_blob_item, hk]
  | some p =>
    obtain ⟨s, e⟩ := p
    apply handle_blob_item_other env cur rest key s e st name hk
    intro hs
    have hmem := blob_tags_start key s e hk
    unfold begins_with_start_tag at h
    rw [List.any_eq_false] at h
    have := h s hmem
    simp [hs] at this

theorem import_blobs_off (env : Env) (dp name : CStr) (line : Line) (rest : List CStr)
    (st : ImportState) (h : begins_with_start_tag line.text = false)
    (ht : import_tail env dp line st = none) :
    import_blobs env dp name line rest st = .next st 0 := by
  unfold import_blobs import_blob
  simp only [handle_blob_item_off env line.text rest _ st name h, ht]

theorem import_line_unrecognised (env : Env) (path dp name : CStr) (line : Line)
    (rest : List CStr) (st : ImportState) (hw : first_word line.text ∉ DIRECTIVE_WORDS)
    (hs : begins_with_start_tag line.text = false) :
    import_line env path dp name line rest st = .next st 0 := by
  have hoff := directive_tags_off line hw
  unfold import_line
  rw [import_head_off env path line st hoff]
  simp only [(import_certs_off env dp line st hoff).1, (import_certs_off env dp line st hoff).2,
    Bool.false_eq_true, if_false]
  exact import_blobs_off env dp name line rest st hs (import_tail_off env dp line st hoff)

theorem blob_lines_append (e : CStr) (r t : List CStr) (acc : CStr) (n : Nat) (x : CStr × Nat)
    (h : blob_lines e r acc n = some x) : blob_lines e (r ++ t) acc n = some x := by
  induction r generalizing acc n with
  | nil => simp [blob_lines] at h
  | cons l ls ih =>
    rw [List.cons_append]
    unfold blob_lines at h ⊢
    split_ifs at h ⊢ with h1 h2
    · exact ih _ _ h
    · exact h
    · exact ih _ _ h

theorem blob_lines_le (e : CStr) (r : List CStr) (acc : CStr) (n : Nat) (c : CStr) (m : Nat)
    (h : blob_lines e r acc n = some (c, m)) : n < m ∧ m ≤ n + r.length := by
  induction r generalizing acc n with
  | nil => simp [blob_lines] at h
  | cons l ls ih =>
    unfold blob_lines at h
    simp only [List.length_cons]
    split_ifs at h with h1 h2
    · have := ih _ _ h
      omega
    · simp only [Option.some.injEq, Prod.mk.injEq] at h
      omega
    · have := ih _ _ h
      omega

theorem handle_blob_item_append (env : Env) (cur : CStr) (r t : List CStr) (key : CStr)
    (st : ImportState) (name : CStr)
    (h : handle_blob_item env cur r key st name ≠ .ran_off) :
    handle_blob_item env cur (r ++ t) key st name = handle_blob_item env cur r key st name := by
  unfold handle_blob_item at h ⊢
  cases hk : blob_tags key with
  | none => rfl
  | some p =>
    obtain ⟨s, e⟩ := p
    simp only [hk] at h ⊢
    by_cases hst : (cur.take s.length != s) = true
    · simp only [hst, if_true]
    · simp only [hst, if_false] at h ⊢
      cases hb : blob_lines e r [] 0 with
      | none => simp [hb] at h
      | some q => rw [blob_lines_append e r t [] 0 q hb]

theorem handle_blob_item_adv (env : Env) (cur : CStr) (r : List CStr) (key : CStr)
    (st : ImportState) (name : CStr) (ok : Bool) (st1 : ImportState) (adv : Nat)
    (h : handle_blob_item env cur r key st name = .stopped ok st1 adv) :
    0 < adv ∧ adv ≤ r.length := by
  unfold handle_blob_item at h
  cases hk : blob_tags key with
  | none => simp [hk] at h
  | some p =>
    obtain ⟨s, e⟩ := p
    simp only [hk] at h
    by_cases hst : (cur.take s.length != s) = true
    · simp [hst] at h
    · simp only [hst, if_false] at h
      cases hb : blob_lines e r [] 0 with
      | none => simp [hb] at h
      | some q =>
        obtain ⟨c, m⟩ := q
        have hle := blob_lines_le e r [] 0 c m hb
        simp only [hb] at h
        have hm : m = adv := by
          cases hd : st.cert_dir <;> simp only [hd] at h <;> (try split_ifs at h) <;>
            simp only [BlobResult.stopped.injEq] at h <;> exact h.2.2
        omega

theorem import_blob_append (env : Env) (name key : CStr) (st : ImportState) (cur : Line)
    (r t : List CStr) (skip : Nat) :
    match import_blob env name key st cur r skip with
    | .handled a k =>
      import_blob env name key st cur (r ++ t) skip = .handled a k ∧ k ≤ skip + r.length
    | .undefined => True
    | .pass a c r1 k =>
      import_blob env name key st cur (r ++ t) skip = .pass a c (r1 ++ t) k
        ∧ k + r1.length = skip + r.length := by
  unfold import_blob
  cases hb : handle_blob_item env cur.text r key st name with
  | no_start =>
    have := handle_blob_item_append env cur.text r t key st name (by rw [hb]; simp)
    simp only [this, hb, and_self]
  | ran_off => trivial
  | stopped ok st1 adv =>
    have := handle_blob_item_append env cur.text r t key st name (by rw [hb]; simp)
    obtain ⟨h0, h1⟩ := handle_blob_item_adv env cur.text r key st name ok st1 adv hb
    cases ok with
    | true =>
      simp only [this, hb, true_and]
      omega
    | false =>
      simp only [this, hb]
      refine ⟨?_, ?_⟩
      · have hg : (r ++ t).get? (adv - 1) = r.get? (adv - 1) := by
          simp only [List.get?_eq_getElem?]
          exact List.getElem?_append_left (by omega)
        rw [hg, List.drop_append_of_le_length h1]
      · rw [List.length_drop]
        omega

theorem import_blobs_append (env : Env) (dp name : CStr) (line : Line) (r t : List CStr)
    (st st1 : ImportState) (k : Nat) (h : import_blobs env dp name line r st = .next st1 k) :
    import_blobs env dp name line (r ++ t) st = .next st1 k ∧ k ≤ r.length := by
  unfold import_blobs at h ⊢
  have s1 := import_blob_append env name NM_OPENVPN_KEY_CA st line r t 0
  cases hb1 : import_blob env name NM_OPENVPN_KEY_CA st line r 0 with
  | undefined => simp [hb1] at h
  | handled a k1 =>
    simp only [hb1, LineStep.next.injEq] at h s1
    obtain ⟨rfl, rfl⟩ := h
    simp only [s1.1, true_and]
    omega
  | pass a c1 r1 k1 =>
    simp only [hb1] at h s1
    rw [s1.1]
    simp only
    have s2 := import_blob_append env name NM_OPENVPN_KEY_CERT a c1 r1 t k1
    cases hb2 : import_blob env name NM_OPENVPN_KEY_CERT a c1 r1 k1 with
    | undefined => simp [hb2] at h
    | handled b k2 =>
      simp only [hb2, LineStep.next.injEq] at h s2
      obtain ⟨rfl, rfl⟩ := h
      simp only [s2.1, true_and]
      omega
    | pass b c2 r2 k2 =>
      simp only [hb2] at h s2
      rw [s2.1]
      simp only
      have s3 := import_blob_append env name NM_OPENVPN_KEY_KEY b c2 r2 t k2
      cases hb3 : import_blob env name NM_OPENVPN_KEY_KEY b c2 r2 k2 with
      | undefined => simp [hb3] at h
      | handled c k3 =>
        simp only [hb3, LineStep.next.injEq] at h s3
        obtain ⟨rfl, rfl⟩ := h
        simp only [s3.1, true_and]
        omega
      | pass c c3 r3 k3 =>
        simp only [hb3] at h s3
        rw [s3.1]
        simp only
        have s4 := import_blob_append env name NM_OPENVPN_KEY_TA c c3 r3 t k3
        cases hb4 : import_blob env name NM_OPENVPN_KEY_TA c c3 r3 k3 with
        | undefined => simp [hb4] at h
        | handled d k4 =>
          simp only [hb4, LineStep.next.injEq] at h s4
          obtain ⟨rfl, rfl⟩ := h
          simp only [s4.1, true_and]
          omega
        | pass d c4 r4 k4 =>
          simp only [hb4] at h s4
          rw [s4.1]
          simp only
          cases ht : import_tail env dp c4 d with
          | none =>
            simp only [ht, LineStep.next.injEq] at h ⊢
            obtain ⟨rfl, rfl⟩ := h
            refine ⟨⟨rfl, rfl⟩, ?_⟩
            omega
          | some x =>
            simp only [ht, LineStep.next.injEq] at h ⊢
            obtain ⟨rfl, rfl⟩ := h
            refine ⟨⟨rfl, rfl⟩, ?_⟩
            omega

theorem import_line_append (env : Env) (path dp name : CStr) (line : Line) (r t : List CStr)
    (st st1 : ImportState) (k : Nat)
    (h : import_line env path dp name line r st = .next st1 k) :
    import_line env path dp name line (r ++ t) st = .next st1 k ∧ k ≤ r.length := by
  unfold import_line at h ⊢
  cases hh : import_head env path line st with
  | some a =>
    simp only [hh, LineStep.next.injEq] at h ⊢
    obtain ⟨rfl, rfl⟩ := h
    exact ⟨⟨rfl, rfl⟩, Nat.zero_le _⟩
  | none =>
    simp only [hh] at h ⊢
    by_cases hp : (import_pkcs12 env dp line st).1 = true
    · simp only [hp, if_true, LineStep.next.injEq] at h ⊢
      obtain ⟨rfl, rfl⟩ := h
      exact ⟨⟨rfl, rfl⟩, Nat.zero_le _⟩
    · simp only [hp, if_false] at h ⊢
      cases hc : import_certs env dp line (import_pkcs12 env dp line st).2 with
      | some a =>
        simp only [hc, LineStep.next.injEq] at h ⊢
        obtain ⟨rfl, rfl⟩ := h
        exact ⟨rfl, Nat.zero_le _⟩
      | none =>
        simp only [hc] at h ⊢
        exact import_blobs_append env dp name line r t _ st1 k h

theorem import_lines_append (env : Env) (path dp name : CStr) (pre : List CStr) :
    ∀ (st : ImportState) (skip : Nat) (mid : ImportState), skip ≤ pre.length →
      import_lines env path dp name st skip pre = some mid →
      ∀ x, import_lines env path dp name st skip (pre ++ x)
        = import_lines env path dp name mid 0 x := by
  induction pre with
  | nil =>
    intro st skip mid hs h x
    simp only [List.length_nil, Nat.le_zero_eq] at hs
    subst hs
    simp only [import_lines, Option.some.injEq] at h
    subst h
    rfl
  | cons piece rest ih =>
    intro st skip mid hs h x
    rw [List.cons_append]
    cases skip with
    | succ k =>
      simp only [import_lines] at h ⊢
      exact ih st k mid (by simpa using hs) h x
    | zero =>
      simp only [import_lines] at h ⊢
      split_ifs at h ⊢ with hempty
      · exact ih st 0 mid (Nat.zero_le _) h x
      · cases hl : import_line env path dp name (strip_comment piece) rest st with
        | undefined => simp [hl] at h
        | next st1 k =>
          obtain ⟨h1, h2⟩ := import_line_append env path dp name _ rest x st st1 k hl
          simp only [hl] at h
          simp only [h1]
          exact ih st1 k mid h2 h x

theorem run_congr (env : Env) (a b : CStr) (h : env.heap a = env.heap b) :
    env.run a = env.run b := by
  unfold Env.run
  rw [h]

theorem import_lines_insert (env : Env) (path dp name : CStr) (pre post : List CStr)
    (piece : CStr) (st mid : ImportState)
    (hpre : import_lines env path dp name st 0 pre = some mid)
    (hw : first_word (strip_comment piece).text ∉ DIRECTIVE_WORDS)
    (hs : begins_with_start_tag (strip_comment piece).text = false) :
    import_lines env path dp name st 0 (pre ++ piece :: post)
      = import_lines env path dp name st 0 (pre ++ post) := by
  rw [import_lines_append env path dp name pre st 0 mid (Nat.zero_le _) hpre,
    import_lines_append env path dp name pre st 0 mid (Nat.zero_le _) hpre]
  simp only [import_lines]
  split_ifs with hempty
  · rfl
  · rw [import_line_unrecognised env path dp name _ post mid hw hs]

/-- An unrecognised line does not influence the import when both runs find
the same bytes behind the allocations of their lines.  Take a buffer that
`do_import` splits into the lines `pre ++ post`, at least two, and a buffer
that it splits into the same lines with one more line between `pre` and
`post`.  The position is outside any inline block: the line loop run on `pre`
alone runs to its end, so every inline block that starts in `pre` also ends
there.  The first word of the new line, as the loop reads it after the comment
cut, is none of the directive tags, and the line does not begin with the start
tag of an inline block.  Then `do_import` gives the same result for both
buffers: the same connection with the same settings and routes, or the same
error. -/
theorem do_import_unrecognised_line (env : Env) (path c1 c2 : CStr) (pre post : List CStr)
    (piece : CStr) (hheap : env.heap c2 = env.heap c1)
    (h1 : import_pieces env c1 = pre ++ post)
    (h2 : import_pieces env c2 = pre ++ piece :: post) (hlen : 2 ≤ (pre ++ post).length)
    (hout : (import_lines (env.run c1) path (import_default_path env path) (import_basename path)
      (import_init env) 0 pre).isSome = true)
    (hw : first_word (strip_comment piece).text ∉ DIRECTIVE_WORDS)
    (hs : begins_with_start_tag (strip_comment piece).text = false) :
    do_import env path c2 = do_import env path c1 := by
  obtain ⟨mid, hmid⟩ := Option.isSome_iff_exists.mp hout
  have hscan : import_scan env path c2 = import_scan env path c1 := by
    unfold import_scan
    rw [h1, h2, run_congr env c2 c1 hheap]
    exact import_lines_insert (env.run c1) path _ _ pre post piece _ mid hmid hw hs
  have hl1 : ¬ (import_pieces env c1).length ≤ 1 := by
    rw [h1]
    omega
  have hl2 : ¬ (import_pieces env c2).length ≤ 1 := by
    rw [h2]
    simp only [List.length_append, List.length_cons] at hlen ⊢
    omega
  rw [do_import_eq, do_import_eq, if_neg hl1, if_neg hl2, hscan]

theorem do_import_unrecognised_line_witness :
    import_pieces env_plain conf_block
      = ["client".toList, "<ca>".toList, "AAA".toList, "</ca>".toList]
          ++ ["remote h".toList, []]
    ∧ import_pieces env_plain conf_block_verb
      = ["client".toList, "<ca>".toList, "AAA".toList, "</ca>".toList]
          ++ "verb 3".toList :: ["remote h".toList, []]
    ∧ first_word (strip_comment "verb 3".toList).text = "verb".toList
    ∧ (∃ c w, do_import env_plain conf_path conf_block = .connection c w
        ∧ nm_setting_vpn_get_data_item c.data NM_OPENVPN_KEY_CA
            = some "/home/u/.cert/my-ca.pem".toList)
    ∧ do_import env_plain conf_path conf_block_verb = do_import env_plain conf_path conf_block :=
  ⟨by decide, by decide, by decide, ⟨_, _, rfl, by decide⟩,
   do_import_unrecognised_line env_plain conf_path conf_block conf_block_verb
     ["client".toList, "<ca>".toList, "AAA".toList, "</ca>".toList] ["remote h".toList, []]
     "verb 3".toList rfl (by decide) (by decide) (by decide) (by decide) (by decide) (by decide)⟩

/-- C24: the claim is right, and the code departs from it through the read
behind a bare keyword.  The buffers `conf_bare_dev` and `conf_bare_dev_verb`
differ by the line `verb 3`, whose first word is no directive tag and which
begins with no start tag, put between the `client` line and the `remote` line.
Both end in the bare keyword `dev`, for which the loop reads the bytes behind
the allocation of the line.  In a run on the first buffer that finds a NUL
there and a run on the second that finds `tun0`, the first import stores no
`dev` setting and the second stores `tun0`: the results of `do_import`
differ. -/
theorem do_import_unrecognised_line_heap :
    import_pieces env_shifting conf_bare_dev
        = ["client".toList] ++ ["remote h".toList, "dev".toList, []]
    ∧ import_pieces env_shifting conf_bare_dev_verb
        = ["client".toList] ++ "verb 3".toList :: ["remote h".toList, "dev".toList, []]
    ∧ first_word (strip_comment "verb 3".toList).text ∉ DIRECTIVE_WORDS
    ∧ begins_with_start_tag (strip_comment "verb 3".toList).text = false
    ∧ (∃ c w, do_import env_shifting conf_path conf_bare_dev = .connection c w
        ∧ nm_setting_vpn_get_data_item c.data NM_OPENVPN_KEY_DEV = none)
    ∧ (∃ c w, do_import env_shifting conf_path conf_bare_dev_verb = .connection c w
        ∧ nm_setting_vpn_get_data_item c.data NM_OPENVPN_KEY_DEV = some "tun0".toList)
    ∧ do_import env_shifting conf_path conf_bare_dev_verb
        ≠ do_import env_shifting conf_path conf_bare_dev := by
  refine ⟨by decide, by decide, by decide, by decide, ⟨_, _, rfl, by decide⟩,
    ⟨_, _, rfl, by decide⟩, by decide⟩

/-- C25, as stated, fails: `do_import` does not trim the line before it looks
for a directive.  With the `client` line indented by two spaces the import
fails for want of a client marker, and with the `remote` line indented by a
tab it fails for want of a remote. -/
theorem do_import_indented_directive :
    args_is_option "  client".toList TAG_CLIENT = false
    ∧ do_import env_plain conf_path conf_indented
        = .error .FILE_NOT_OPENVPN MSG_NOT_CLIENT []
    ∧ do_import env_plain conf_path conf_indented_remote
        = .error .FILE_NOT_OPENVPN MSG_NO_REMOTE [] := by
  refine ⟨by decide, by decide, by decide⟩

/-- C25, amended: directive matching during import is done on the line as the
comment cut leaves it, and whitespace in front is not trimmed: a line that
begins with a space, a tab or another ASCII whitespace character matches no
directive, and the round of the line loop leaves the state as it is, so that
`  client` does not count as the client marker and an indented
`remote host 1194` adds no remote entry.  Whitespace behind the word of a tag
does not prevent the match. -/
theorem import_line_indented (env : Env) (path dp name : CStr) (line : Line) (rest : List CStr)
    (st : ImportState) (c : Char) (cs : CStr) (htext : line.text = c :: cs)
    (hc : g_ascii_isspace c = true) :
    import_line env path dp name line rest st = .next st 0
    ∧ (∀ tag ∈ DIRECTIVE_TAGS, args_is_option line.text tag = false)
    ∧ (∀ tag ∈ DIRECTIVE_TAGS, ∀ (x : Char) (r : CStr), g_ascii_isspace x = true →
        args_is_option (tag_word tag ++ x :: r) tag = true) := by
  have hfw : first_word line.text = [] := by
    rw [htext]
    simp [first_word, List.takeWhile_cons, hc]
  have hw : first_word line.text ∉ DIRECTIVE_WORDS := by
    rw [hfw]
    decide
  have hs : begins_with_start_tag line.text = false := by
    have hlt : c ≠ '<' := by
      rintro rfl
      revert hc
      decide
    rw [htext]
    simp only [begins_with_start_tag, START_TAGS, CA_BLOB_START_TAG, CERT_BLOB_START_TAG,
      KEY_BLOB_START_TAG, TLS_AUTH_BLOB_START_TAG]
    simp [hlt]
  refine ⟨import_line_unrecognised env path dp name line rest st hw hs,
    directive_tags_off line hw, ?_⟩
  intro tag htag x r hx
  have hne : tag ≠ [] := by
    rintro rfl
    revert htag
    decide
  rw [args_is_option_spec _ _ hne]
  exact ⟨x :: r, rfl, Or.inr ⟨x, r, rfl, hx⟩⟩

theorem import_line_indented_witness :
    g_ascii_isspace ' ' = true
    ∧ import_line env_plain conf_path "/etc/vpn".toList "my".toList
        { text := "  client".toList, beyond := none } ["remote h".toList]
        (import_init env_plain)
      = .next (import_init env_plain) 0 :=
  ⟨by decide,
   (import_line_indented env_plain conf_path "/etc/vpn".toList "my".toList
      { text := "  client".toList, beyond := none } ["remote h".toList] (import_init env_plain)
      ' ' " client".toList rfl (by decide)).1⟩
theorem stored_trans {P : CStr → Prop} {a b c : List (CStr × CStr)} (h1 : Stored P a b)
    (h2 : Stored P b c) : Stored P a c := by
  induction h2 with
  | same => exact h1
  | add e key item _ hk ih => exact Stored.add _ _ _ _ ih hk

theorem stored_mono {P Q : CStr → Prop} (hpq : ∀ k, P k → Q k) {a b : List (CStr × CStr)}
    (h : Stored P a b) : Stored Q a b := by
  induction h with
  | same => exact Stored.same _
  | add e key item _ hk ih => exact Stored.add _ _ _ _ ih (hpq _ hk)

theorem stored_get {P : CStr → Prop} {a b : List (CStr × CStr)} (h : Stored P a b) (k : CStr)
    (hk : ¬ P k) : nm_setting_vpn_get_data_item b k = nm_setting_vpn_get_data_item a k := by
  induction h with
  | same => rfl
  | add e key item _ hkey ih =>
    rw [get_add_ne _ _ _ _ (fun heq => hk (by rw [heq]; exact hkey)), ih]

theorem add_values_nonempty (data : List (CStr × CStr)) (key item : CStr)
    (h : values_nonempty data) :
    values_nonempty (nm_setting_vpn_add_data_item data key item) := by
  unfold nm_setting_vpn_add_data_item
  split_ifs with h1
  · exact h
  · intro kv hkv
    simp only [table_insert, List.mem_cons, List.mem_filter] at hkv
    rcases hkv with rfl | ⟨hm, -⟩
    · exact fun he => h1 (Or.inr he)
    · exact h kv hm

theorem stored_values_nonempty {P : CStr → Prop} {a b : List (CStr × CStr)} (h : Stored P a b)
    (ha : values_nonempty a) : values_nonempty b := by
  induction h with
  | same => exact ha
  | add e key item _ _ ih => exact add_values_nonempty _ _ _ ih

theorem get_add_cases (data : List (CStr × CStr)) (key item k : CStr) :
    nm_setting_vpn_get_data_item (nm_setting_vpn_add_data_item data key item) k
        = nm_setting_vpn_get_data_item data k
      ∨ ∃ v, v ≠ [] ∧ nm_setting_vpn_get_data_item (nm_setting_vpn_add_data_item data key item) k
          = some v := by
  by_cases hk : k = key
  · subst hk
    by_cases he : k = [] ∨ item = []
    · left
      simp [nm_setting_vpn_add_data_item, he]
    · right
      have h1 : k ≠ [] := fun h => he (Or.inl h)
      have h2 : item ≠ [] := fun h => he (Or.inr h)
      exact ⟨item, h2, get_add_eq data k item h1 h2⟩
  · left
    exact get_add_ne data key item k hk

theorem stored_get_cases {P : CStr → Prop} {a b : List (CStr × CStr)} (h : Stored P a b)
    (k : CStr) :
    nm_setting_vpn_get_data_item b k = nm_setting_vpn_get_data_item a k
      ∨ ∃ v, v ≠ [] ∧ nm_setting_vpn_get_data_item b k = some v := by
  induction h with
  | same => exact Or.inl rfl
  | add e key item _ _ ih =>
    rcases get_add_cases e key item k with h1 | h1
    · rw [h1]
      exact ih
    · exact Or.inr h1

theorem kept_refl (a : ImportState) : Kept a a := ⟨Stored.same _, rfl⟩

theorem kept_trans {a b c : ImportState} (h1 : Kept a b) (h2 : Kept b c) : Kept a c :=
  ⟨stored_trans h1.1 h2.1, h2.2.trans h1.2⟩

theorem kept_add (st : ImportState) (key item : CStr) (h : key ∉ PROXY_KEYS) :
    Kept st (st.add key item) :=
  ⟨Stored.add _ _ _ _ (Stored.same _) h, rfl⟩

theorem kept_add_of (st s1 : ImportState) (key item : CStr) (hd : s1.data = st.data)
    (hp : s1.proxy_set = st.proxy_set) (h : key ∉ PROXY_KEYS) : Kept st (s1.add key item) := by
  refine ⟨?_, hp⟩
  have : (s1.add key item).data = nm_setting_vpn_add_data_item st.data key item := by
    simp only [ImportState.add, hd]
  rw [this]
  exact Stored.add _ _ _ _ (Stored.same _) h

theorem kept_settings {a b : ImportState} (h : Kept a b) :
    proxy_settings b.data = proxy_settings a.data := by
  unfold proxy_settings
  rw [stored_get h.1 NM_OPENVPN_KEY_PROXY_TYPE (fun hk => hk (by decide)),
    stored_get h.1 NM_OPENVPN_KEY_PROXY_SERVER (fun hk => hk (by decide)),
    stored_get h.1 NM_OPENVPN_KEY_PROXY_PORT (fun hk => hk (by decide))]

theorem keptOpt_none (a : ImportState) : KeptOpt a none := by
  intro b h; cases h

theorem keptOpt_or {a : ImportState} {r s : Option ImportState} (h1 : KeptOpt a r)
    (h2 : KeptOpt a s) : KeptOpt a (r.or s) := by
  cases r with
  | none => simpa using h2
  | some x => simpa using h1

theorem kept_handle_direction (key : CStr) (l : Option CStr) (st : ImportState)
    (h : key ∉ PROXY_KEYS) : Kept st (handle_direction key l st) := by
  unfold handle_direction
  try dsimp only
  repeat' split
  all_goals first | exact kept_refl _ | exact kept_add _ _ _ h

theorem keptOpt_one_arg (env : Env) (line : Line) (tag key : CStr) (st : ImportState)
    (h : key ∉ PROXY_KEYS) :
    KeptOpt st (import_one_arg env line tag key st) := by
  intro b hb
  unfold import_one_arg at hb
  try dsimp only at hb
  repeat' split at hb
  all_goals cases hb
  all_goals first
    | exact kept_refl _
    | exact kept_add _ _ _ h

theorem keptOpt_keyword (env : Env) (line : Line) (tag key k1 k2 : CStr) (st : ImportState)
    (h : key ∉ PROXY_KEYS) :
    KeptOpt st (import_keyword env line tag key k1 k2 st) := by
  intro b hb
  unfold import_keyword at hb
  try dsimp only at hb
  repeat' split at hb
  all_goals cases hb
  all_goals first
    | exact kept_refl _
    | exact kept_add _ _ _ h

theorem keptOpt_size_item (env : Env) (line : Line) (tag key : CStr) (st : ImportState)
    (h : key ∉ PROXY_KEYS) :
    KeptOpt st (import_size_item env line tag key st) := by
  intro b hb
  unfold import_size_item at hb
  try dsimp only at hb
  repeat' split at hb
  all_goals cases hb
  all_goals first
    | exact kept_refl _
    | exact kept_add _ _ _ h

theorem keptOpt_num_seconds (env : Env) (line : Line) (tag key : CStr) (st : ImportState)
    (h : key ∉ PROXY_KEYS) :
    KeptOpt st (handle_num_seconds_item env line tag key st) := by
  intro b hb
  unfold handle_num_seconds_item at hb
  try dsimp only at hb
  repeat' split at hb
  all_goals cases hb
  all_goals first
    | exact kept_refl _
    | exact kept_add _ _ _ h

theorem keptOpt_flag (line : Line) (tag key : CStr) (st : ImportState)
    (h : key ∉ PROXY_KEYS) :
    KeptOpt st (import_flag line tag key st) := by
  intro b hb
  unfold import_flag at hb
  try dsimp only at hb
  repeat' split at hb
  all_goals cases hb
  all_goals exact kept_add _ _ _ h

theorem keptOpt_client (line : Line) (st : ImportState) :
    KeptOpt st (import_client line st) := by
  intro b hb
  unfold import_client at hb
  try dsimp only at hb
  repeat' split at hb
  all_goals cases hb
  all_goals exact ⟨Stored.same _, rfl⟩

theorem keptOpt_key_direction (env : Env) (line : Line) (st : ImportState) :
    KeptOpt st (import_key_direction env line st) := by
  intro b hb
  unfold import_key_direction at hb
  try dsimp only at hb
  repeat' split at hb
  all_goals cases hb
  all_goals exact ⟨Stored.same _, rfl⟩

theorem keptOpt_proto (env : Env) (line : Line) (st : ImportState) :
    KeptOpt st (import_proto env line st) := by
  intro b hb
  unfold import_proto at hb
  try dsimp only at hb
  repeat' split at hb
  all_goals cases hb
  all_goals first
    | exact kept_refl _
    | exact kept_add _ _ _ (by decide)

theorem keptOpt_reneg_sec (env : Env) (line : Line) (st : ImportState) :
    KeptOpt st (import_reneg_sec env line st) := by
  intro b hb
  unfold import_reneg_sec at hb
  try dsimp only at hb
  repeat' split at hb
  all_goals cases hb
  all_goals first
    | exact kept_refl _
    | exact kept_add _ _ _ (by decide)

theorem keptOpt_proxy_retry (line : Line) (st : ImportState) :
    KeptOpt st (import_proxy_retry line st) := by
  intro b hb
  unfold import_proxy_retry at hb
  try dsimp only at hb
  repeat' split at hb
  all_goals cases hb
  all_goals exact kept_add _ _ _ (by decide)

theorem keptOpt_remote (env : Env) (line : Line) (st : ImportState) :
    KeptOpt st (import_remote env line st) := by
  intro b hb
  unfold import_remote at hb
  try dsimp only at hb
  repeat' split at hb
  all_goals cases hb
  all_goals first
    | exact kept_refl _
    | exact kept_add_of _ _ _ _ rfl rfl (by decide)

theorem keptOpt_port (env : Env) (line : Line) (st : ImportState) :
    KeptOpt st (import_port env line st) := by
  intro b hb
  unfold import_port at hb
  try dsimp only at hb
  repeat' split at hb
  all_goals cases hb
  all_goals first
    | exact kept_refl _
    | exact kept_add _ _ _ (by decide)

theorem keptOpt_keepalive (env : Env) (line : Line) (st : ImportState) :
    KeptOpt st (import_keepalive env line st) := by
  intro b hb
  unfold import_keepalive at hb
  try dsimp only at hb
  repeat' split at hb
  all_goals cases hb
  all_goals first
    | exact kept_refl _
    | exact kept_trans (kept_add _ _ _ (by decide)) (kept_add _ _ _ (by decide))

theorem keptOpt_keysize (env : Env) (line : Line) (st : ImportState) :
    KeptOpt st (import_keysize env line st) := by
  intro b hb
  unfold import_keysize at hb
  try dsimp only at hb
  repeat' split at hb
  all_goals cases hb
  all_goals first
    | exact kept_refl _
    | exact kept_add _ _ _ (by decide)

theorem keptOpt_tls_remote (env : Env) (line : Line) (st : ImportState) :
    KeptOpt st (import_tls_remote env line st) := by
  intro b hb
  unfold import_tls_remote at hb
  try dsimp only at hb
  repeat' split at hb
  all_goals cases hb
  all_goals first
    | exact kept_refl _
    | exact kept_add _ _ _ (by decide)

theorem keptOpt_ifconfig (env : Env) (line : Line) (st : ImportState) :
    KeptOpt st (import_ifconfig env line st) := by
  intro b hb
  unfold import_ifconfig at hb
  try dsimp only at hb
  repeat' split at hb
  all_goals cases hb
  all_goals first
    | exact kept_refl _
    | exact kept_trans (kept_add _ _ _ (by decide)) (kept_add _ _ _ (by decide))

theorem keptOpt_auth_user_pass (line : Line) (st : ImportState) :
    KeptOpt st (import_auth_user_pass line st) := by
  intro b hb
  unfold import_auth_user_pass at hb
  try dsimp only at hb
  repeat' split at hb
  all_goals cases hb
  all_goals exact ⟨Stored.same _, rfl⟩

theorem keptOpt_route (env : Env) (line : Line) (st : ImportState) :
    KeptOpt st (import_route env line st) := by
  intro b hb
  unfold import_route at hb
  try dsimp only at hb
  repeat' split at hb
  all_goals cases hb
  all_goals exact ⟨Stored.same _, rfl⟩

theorem kept_handle_path_item (env : Env) (line : Line) (tag key : CStr) (st : ImportState)
    (path : CStr) (h : key ∉ PROXY_KEYS) :
    Kept st (handle_path_item env line tag key st path).2.1 := by
  unfold handle_path_item
  try dsimp only
  repeat' split
  all_goals first | exact kept_refl _ | exact kept_add _ _ _ h

theorem keptOpt_path (env : Env) (dp : CStr) (line : Line) (tag key : CStr) (st : ImportState)
    (h : key ∉ PROXY_KEYS) : KeptOpt st (import_path env dp line tag key st) := by
  intro b hb
  unfold import_path at hb
  try dsimp only at hb
  split at hb
  · cases hb
    exact kept_handle_path_item env line tag key st dp h
  · cases hb

theorem kept_pkcs12 (env : Env) (dp : CStr) (line : Line) (st : ImportState) :
    Kept st (import_pkcs12 env dp line st).2 := by
  unfold import_pkcs12
  try dsimp only
  have f1 := kept_handle_path_item env line TAG_PKCS12 NM_OPENVPN_KEY_CA st dp (by decide)
  have f2 := kept_handle_path_item env line TAG_PKCS12 NM_OPENVPN_KEY_CERT
    (handle_path_item env line TAG_PKCS12 NM_OPENVPN_KEY_CA st dp).2.1 dp (by decide)
  have f3 := kept_handle_path_item env line TAG_PKCS12 NM_OPENVPN_KEY_KEY
    (handle_path_item env line TAG_PKCS12 NM_OPENVPN_KEY_CERT
      (handle_path_item env line TAG_PKCS12 NM_OPENVPN_KEY_CA st dp).2.1 dp).2.1 dp
    (by decide)
  split_ifs
  · exact kept_trans f1 (kept_trans f2 f3)
  · exact kept_trans f1 f2
  · exact f1

theorem keptOpt_secret (env : Env) (dp : CStr) (line : Line) (st : ImportState) :
    KeptOpt st (import_secret env dp line st) := by
  intro b hb
  unfold import_secret at hb
  try dsimp only at hb
  split at hb
  · cases hb
    have h1 := kept_handle_path_item env line TAG_SECRET NM_OPENVPN_KEY_STATIC_KEY st dp
      (by decide)
    have h2 := kept_handle_direction NM_OPENVPN_KEY_STATIC_KEY_DIRECTION
      (handle_path_item env line TAG_SECRET NM_OPENVPN_KEY_STATIC_KEY st dp).2.2
      (handle_path_item env line TAG_SECRET NM_OPENVPN_KEY_STATIC_KEY st dp).2.1 (by decide)
    exact kept_trans h1 ⟨h2.1, h2.2⟩
  · cases hb

theorem keptOpt_tls_auth (env : Env) (dp : CStr) (line : Line) (st : ImportState) :
    KeptOpt st (import_tls_auth env dp line st) := by
  intro b hb
  unfold import_tls_auth at hb
  try dsimp only at hb
  split at hb
  · cases hb
    exact kept_trans (kept_handle_path_item env line _ _ st dp (by decide))
      (kept_handle_direction _ _ _ (by decide))
  · cases hb

theorem import_head_kept (env : Env) (path : CStr) (line : Line) (st : ImportState)
    (h : import_proxy env path line st = none) :
    KeptOpt st (import_head env path line st) := by
  unfold import_head
  rw [h]
  refine keptOpt_or (keptOpt_client _ _) ?_
  refine keptOpt_or (keptOpt_key_direction _ _ _) ?_
  refine keptOpt_or (keptOpt_one_arg _ _ _ _ _ (by decide)) ?_
  refine keptOpt_or (keptOpt_keyword _ _ _ _ _ _ _ (by decide)) ?_
  refine keptOpt_or (keptOpt_proto _ _ _) ?_
  refine keptOpt_or (keptOpt_flag _ _ _ _ (by decide)) ?_
  refine keptOpt_or (keptOpt_size_item _ _ _ _ _ (by decide)) ?_
  refine keptOpt_or (keptOpt_size_item _ _ _ _ _ (by decide)) ?_
  refine keptOpt_or (keptOpt_flag _ _ _ _ (by decide)) ?_
  refine keptOpt_or (keptOpt_flag _ _ _ _ (by decide)) ?_
  refine keptOpt_or (keptOpt_reneg_sec _ _ _) ?_
  refine keptOpt_or (keptOpt_proxy_retry _ _) ?_
  refine keptOpt_or (keptOpt_none _) ?_
  refine keptOpt_or (keptOpt_remote _ _ _) ?_
  refine keptOpt_or (keptOpt_flag _ _ _ _ (by decide)) ?_
  refine keptOpt_or (keptOpt_port _ _ _) ?_
  refine keptOpt_or (keptOpt_num_seconds _ _ _ _ _ (by decide)) ?_
  refine keptOpt_or (keptOpt_num_seconds _ _ _ _ _ (by decide)) ?_
  exact keptOpt_num_seconds _ _ _ _ _ (by decide)

theorem import_certs_kept (env : Env) (dp : CStr) (line : Line) (st : ImportState) :
    KeptOpt st (import_certs env dp line st) := by
  unfold import_certs
  refine keptOpt_or (keptOpt_path _ _ _ _ _ _ (by decide)) ?_
  refine keptOpt_or (keptOpt_path _ _ _ _ _ _ (by decide)) ?_
  exact keptOpt_path _ _ _ _ _ _ (by decide)

theorem import_tail_kept (env : Env) (dp : CStr) (line : Line) (st : ImportState) :
    KeptOpt st (import_tail env dp line st) := by
  unfold import_tail
  refine keptOpt_or (keptOpt_secret _ _ _ _) ?_
  refine keptOpt_or (keptOpt_tls_auth _ _ _ _) ?_
  refine keptOpt_or (keptOpt_one_arg _ _ _ _ _ (by decide)) ?_
  refine keptOpt_or (keptOpt_keepalive _ _ _) ?_
  refine keptOpt_or (keptOpt_keysize _ _ _) ?_
  refine keptOpt_or (keptOpt_tls_remote _ _ _) ?_
  refine keptOpt_or (keptOpt_keyword _ _ _ _ _ _ _ (by decide)) ?_
  refine keptOpt_or (keptOpt_ifconfig _ _ _) ?_
  refine keptOpt_or (keptOpt_auth_user_pass _ _) ?_
  refine keptOpt_or (keptOpt_one_arg _ _ _ _ _ (by decide)) ?_
  exact keptOpt_route _ _ _

theorem blob_keys_kept : ∀ key ∈ BLOB_KEYS, key ∉ PROXY_KEYS := by
  decide

theorem handle_blob_item_kept (env : Env) (cur : CStr) (rest : List CStr) (key : CStr)
    (st : ImportState) (name : CStr) (hkey : key ∉ PROXY_KEYS) (ok : Bool) (st1 : ImportState)
    (adv : Nat) (h : handle_blob_item env cur rest key st name = .stopped ok st1 adv) :
    Kept st st1 := by
  unfold handle_blob_item at h
  cases hk : blob_tags key with
  | none => simp [hk] at h
  | some p =>
    obtain ⟨s, e⟩ := p
    simp only [hk] at h
    by_cases hst : (cur.take s.length != s) = true
    · simp [hst] at h
    · simp only [hst, if_false] at h
      cases hb : blob_lines e rest [] 0 with
      | none => simp [hb] at h
      | some q =>
        obtain ⟨c, m⟩ := q
        simp only [hb] at h
        cases hd : st.cert_dir <;> simp only [hd] at h <;> (try split_ifs at h) <;>
          simp only [BlobResult.stopped.injEq] at h <;>
          obtain ⟨-, rfl, -⟩ := h
        all_goals first
          | exact kept_refl _
          | exact ⟨Stored.same _, rfl⟩
          | exact kept_add_of _ _ _ _ rfl rfl hkey

theorem import_blob_kept (env : Env) (name key : CStr) (st : ImportState) (cur : Line)
    (rest : List CStr) (skip : Nat) (hkey : key ∉ PROXY_KEYS) :
    match import_blob env name key st cur rest skip with
    | .handled st1 _ => Kept st st1
    | .undefined => True
    | .pass st1 _ _ _ => Kept st st1 := by
  unfold import_blob
  cases hb : handle_blob_item env cur.text rest key st name with
  | no_start => exact kept_refl _
  | ran_off => trivial
  | stopped ok st1 adv =>
    have hf := handle_blob_item_kept env cur.text rest key st name hkey ok st1 adv hb
    cases ok with
    | true => exact hf
    | false => exact hf

theorem import_blobs_kept (env : Env) (dp name : CStr) (line : Line) (rest : List CStr)
    (st st1 : ImportState) (skip : Nat)
    (h : import_blobs env dp name line rest st = .next st1 skip) : Kept st st1 := by
  unfold import_blobs at h
  have s1 := import_blob_kept env name NM_OPENVPN_KEY_CA st line rest 0 (by decide)
  cases hb1 : import_blob env name NM_OPENVPN_KEY_CA st line rest 0 with
  | undefined => simp [hb1] at h
  | handled a k =>
    simp only [hb1, LineStep.next.injEq] at h s1
    obtain ⟨rfl, -⟩ := h
    exact s1
  | pass a c1 r1 k1 =>
    simp only [hb1] at h s1
    have s2 := import_blob_kept env name NM_OPENVPN_KEY_CERT a c1 r1 k1 (by decide)
    cases hb2 : import_blob env name NM_OPENVPN_KEY_CERT a c1 r1 k1 with
    | undefined => simp [hb2] at h
    | handled b k =>
      simp only [hb2, LineStep.next.injEq] at h s2
      obtain ⟨rfl, -⟩ := h
      exact kept_trans s1 s2
    | pass b c2 r2 k2 =>
      simp only [hb2] at h s2
      have s3 := import_blob_kept env name NM_OPENVPN_KEY_KEY b c2 r2 k2 (by decide)
      cases hb3 : import_blob env name NM_OPENVPN_KEY_KEY b c2 r2 k2 with
      | undefined => simp [hb3] at h
      | handled c k =>
        simp only [hb3, LineStep.next.injEq] at h s3
        obtain ⟨rfl, -⟩ := h
        exact kept_trans s1 (kept_trans s2 s3)
      | pass c c3 r3 k3 =>
        simp only [hb3] at h s3
        have s4 := import_blob_kept env name NM_OPENVPN_KEY_TA c c3 r3 k3 (by decide)
        cases hb4 : import_blob env name NM_OPENVPN_KEY_TA c c3 r3 k3 with
        | undefined => simp [hb4] at h
        | handled d k =>
          simp only [hb4, LineStep.next.injEq] at h s4
          obtain ⟨rfl, -⟩ := h
          exact kept_trans s1 (kept_trans s2 (kept_trans s3 (kept_trans s4
            (kept_handle_direction _ _ _ (by decide)))))
        | pass d c4 r4 k4 =>
          simp only [hb4] at h s4
          have f1234 := kept_trans s1 (kept_trans s2 (kept_trans s3 s4))
          have ft := import_tail_kept env dp c4 d
          cases ht : import_tail env dp c4 d with
          | none =>
            simp only [ht, LineStep.next.injEq] at h
            obtain ⟨rfl, -⟩ := h
            exact f1234
          | some x =>
            simp only [ht, LineStep.next.injEq] at h
            obtain ⟨rfl, -⟩ := h
            exact kept_trans f1234 (ft x ht)

theorem import_line_kept (env : Env) (path dp name : CStr) (line : Line) (rest : List CStr)
    (st st1 : ImportState) (skip : Nat) (hp : import_proxy env path line st = none)
    (h : import_line env path dp name line rest st = .next st1 skip) : Kept st st1 := by
  unfold import_line at h
  cases hh : import_head env path line st with
  | some a =>
    simp only [hh, LineStep.next.injEq] at h
    obtain ⟨rfl, -⟩ := h
    exact import_head_kept env path line st hp _ hh
  | none =>
    simp only [hh] at h
    have hk := kept_pkcs12 env dp line st
    by_cases hpk : (import_pkcs12 env dp line st).1 = true
    · simp only [hpk, if_true, LineStep.next.injEq] at h
      obtain ⟨rfl, -⟩ := h
      exact hk
    · simp only [hpk, if_false] at h
      cases hc : import_certs env dp line (import_pkcs12 env dp line st).2 with
      | some a =>
        simp only [hc, LineStep.next.injEq] at h
        obtain ⟨rfl, -⟩ := h
        exact kept_trans hk (import_certs_kept env dp line _ _ hc)
      | none =>
        simp only [hc] at h
        exact kept_trans hk (import_blobs_kept env dp name line rest _ st1 skip h)

theorem print_int_ne_nil (x : Int) : print_int x ≠ [] := by
  unfold print_int
  split_ifs
  · simp
  · exact print_nat_ne_nil _

theorem proxy_stored (data : List (CStr × CStr)) (t s p : CStr) (user : Option CStr)
    (ht : t ≠ []) (hs : s ≠ []) (hp : p ≠ []) :
    proxy_settings
        (match user with
          | some u =>
            nm_setting_vpn_add_data_item
              (nm_setting_vpn_add_data_item
                (nm_setting_vpn_add_data_item
                  (nm_setting_vpn_add_data_item data NM_OPENVPN_KEY_PROXY_TYPE t)
                  NM_OPENVPN_KEY_PROXY_SERVER s)
                NM_OPENVPN_KEY_PROXY_PORT p)
              NM_OPENVPN_KEY_HTTP_PROXY_USERNAME u
          | none =>
            nm_setting_vpn_add_data_item
              (nm_setting_vpn_add_data_item
                (nm_setting_vpn_add_data_item data NM_OPENVPN_KEY_PROXY_TYPE t)
                NM_OPENVPN_KEY_PROXY_SERVER s)
              NM_OPENVPN_KEY_PROXY_PORT p)
      = (some t, some s, some p) := by
  have e1 := get_add_eq data NM_OPENVPN_KEY_PROXY_TYPE t (by decide) ht
  have e2 := get_add_eq (nm_setting_vpn_add_data_item data NM_OPENVPN_KEY_PROXY_TYPE t)
    NM_OPENVPN_KEY_PROXY_SERVER s (by decide) hs
  have e3 := get_add_eq (nm_setting_vpn_add_data_item
    (nm_setting_vpn_add_data_item data NM_OPENVPN_KEY_PROXY_TYPE t) NM_OPENVPN_KEY_PROXY_SERVER s)
    NM_OPENVPN_KEY_PROXY_PORT p (by decide) hp
  have n1 : NM_OPENVPN_KEY_PROXY_TYPE ≠ NM_OPENVPN_KEY_PROXY_SERVER := by decide
  have n2 : NM_OPENVPN_KEY_PROXY_TYPE ≠ NM_OPENVPN_KEY_PROXY_PORT := by decide
  have n3 : NM_OPENVPN_KEY_PROXY_TYPE ≠ NM_OPENVPN_KEY_HTTP_PROXY_USERNAME := by decide
  have n4 : NM_OPENVPN_KEY_PROXY_SERVER ≠ NM_OPENVPN_KEY_PROXY_PORT := by decide
  have n5 : NM_OPENVPN_KEY_PROXY_SERVER ≠ NM_OPENVPN_KEY_HTTP_PROXY_USERNAME := by decide
  have n6 : NM_OPENVPN_KEY_PROXY_PORT ≠ NM_OPENVPN_KEY_HTTP_PROXY_USERNAME := by decide
  unfold proxy_settings
  cases user with
  | none =>
    simp only
    rw [get_add_ne _ _ _ _ n2, get_add_ne _ _ _ _ n1, e1, get_add_ne _ _ _ _ n4, e2, e3]
  | some u =>
    simp only
    rw [get_add_ne _ _ _ _ n3, get_add_ne _ _ _ _ n2, get_add_ne _ _ _ _ n1, e1,
      get_add_ne _ _ _ _ n5, get_add_ne _ _ _ _ n4, e2, get_add_ne _ _ _ _ n6, e3]

theorem proxy_stored_any (data : List (CStr × CStr)) (t s p : CStr) (user : Option CStr) :
    Stored (fun _ => True) data
        (match user with
          | some u =>
            nm_setting_vpn_add_data_item
              (nm_setting_vpn_add_data_item
                (nm_setting_vpn_add_data_item
                  (nm_setting_vpn_add_data_item data NM_OPENVPN_KEY_PROXY_TYPE t)
                  NM_OPENVPN_KEY_PROXY_SERVER s)
                NM_OPENVPN_KEY_PROXY_PORT p)
              NM_OPENVPN_KEY_HTTP_PROXY_USERNAME u
          | none =>
            nm_setting_vpn_add_data_item
              (nm_setting_vpn_add_data_item
                (nm_setting_vpn_add_data_item data NM_OPENVPN_KEY_PROXY_TYPE t)
                NM_OPENVPN_KEY_PROXY_SERVER s)
              NM_OPENVPN_KEY_PROXY_PORT p) := by
  have h3 : Stored (fun _ => True) data
      (nm_setting_vpn_add_data_item
        (nm_setting_vpn_add_data_item
          (nm_setting_vpn_add_data_item data NM_OPENVPN_KEY_PROXY_TYPE t)
          NM_OPENVPN_KEY_PROXY_SERVER s)
        NM_OPENVPN_KEY_PROXY_PORT p) :=
    Stored.add _ _ _ _ (Stored.add _ _ _ _ (Stored.add _ _ _ _ (Stored.same _) trivial) trivial)
      trivial
  cases user with
  | none => exact h3
  | some u => exact Stored.add _ _ _ _ h3 trivial


theorem auth_file_lines_some (ls : List CStr) (user : Option CStr) :
    ((auth_file_lines ls user).1.isSome && (auth_file_lines ls user).2.isSome)
      = decide ((if user.isSome then 1 else 2) ≤ (ls.filter (fun l => l ≠ [])).length) := by
  induction ls generalizing user with
  | nil =>
    cases user <;> simp [auth_file_lines]
  | cons l ls ih =>
    by_cases hl : l = []
    · simp only [auth_file_lines, hl, if_true]
      rw [ih]
      simp
    · cases user with
      | none =>
        simp only [auth_file_lines, hl, if_false]
        rw [ih]
        simp [hl]
      | some u =>
        simp [auth_file_lines, hl]

theorem parse_http_proxy_auth_passes (env : Env) (written : List (CStr × CStr))
    (path file : CStr) :
    (parse_http_proxy_auth env written path file).1 = auth_argument_passes env written path file := by
  unfold parse_http_proxy_auth auth_argument_passes
  by_cases h : file = "stdin".toList ∨ file = "auto".toList ∨ file = squote :: "auto".toList ++ [squote]
  · simp only [if_pos h]
  · simp only [if_neg h]
    cases hg : g_path_is_absolute file with
    | true =>
      simp only [Bool.not_true, Bool.false_eq_true, if_false, if_true]
      cases read_file env written file with
      | none => rfl
      | some contents =>
        simp only
        rw [auth_file_lines_some]
        rfl
    | false =>
      simp only [Bool.not_false, if_true, Bool.false_eq_true, if_false]
      cases read_file env written (g_build_filename [g_path_get_dirname path, file]) with
      | none => rfl
      | some contents =>
        simp only
        rw [auth_file_lines_some]
        rfl

theorem import_proxy_accepted (env : Env) (path : CStr) (line : Line) (st : ImportState)
    (hset : st.proxy_set = false) (t s p : CStr)
    (hacc : accepted_proxy env path st.written line = some (t, s, p)) :
    ∃ b, import_proxy env path line st = some b ∧ b.proxy_set = true
      ∧ proxy_settings b.data = (some t, some s, some p)
      ∧ Stored (fun _ => True) st.data b.data := by
  unfold accepted_proxy at hacc
  simp only [← parse_http_proxy_auth_passes] at hacc
  unfold import_proxy
  generalize args_is_option line.text TAG_HTTP_PROXY = http at hacc ⊢
  generalize args_is_option line.text TAG_SOCKS_PROXY = socks at hacc ⊢
  cases http with
  | false =>
    cases socks with
    | false => simp at hacc
    | true =>
      simp only [Bool.false_or, if_true, Bool.false_eq_true, if_false] at hacc
      simp only [Bool.false_or, hset, Bool.not_false, Bool.and_self, if_true,
        Bool.false_eq_true, if_false]
      have hitems := get_args_ne_nil (arg_text env line TAG_SOCKS_PROXY)
      generalize get_args (arg_text env line TAG_SOCKS_PROXY) = items at hacc hitems ⊢
      rcases items with _ | ⟨server, _ | ⟨port_item, more⟩⟩
      · simp at hacc
      · simp at hacc
      · simp only at hacc ⊢
        have hs : server ≠ [] := hitems server (List.mem_cons_self _ _)
        have hne := print_int_ne_nil (to_gint (strtol port_item).1)
        generalize print_int (to_gint (strtol port_item).1) = pstr at hacc hne ⊢
        generalize strtol port_item = port at hacc ⊢
        split_ifs at hacc with hc
        simp only [Option.some.injEq, Prod.mk.injEq] at hacc
        obtain ⟨rfl, rfl, rfl⟩ := hacc
        rw [if_pos hc.2]
        exact ⟨_, rfl, rfl, proxy_stored st.data "socks".toList _ _ none (by decide) hs hne,
          proxy_stored_any st.data "socks".toList _ _ none⟩
  | true =>
    simp only [Bool.true_or, if_true] at hacc
    simp only [Bool.true_or, hset, Bool.not_false, Bool.and_self, if_true]
    have hitems := get_args_ne_nil (arg_text env line TAG_HTTP_PROXY)
    generalize get_args (arg_text env line TAG_HTTP_PROXY) = items at hacc hitems ⊢
    rcases items with _ | ⟨server, _ | ⟨port_item, more⟩⟩
    · simp at hacc
    · simp at hacc
    · simp only at hacc ⊢
      have hs : server ≠ [] := hitems server (List.mem_cons_self _ _)
      have hne := print_int_ne_nil (to_gint (strtol port_item).1)
      generalize print_int (to_gint (strtol port_item).1) = pstr at hacc hne ⊢
      generalize strtol port_item = port at hacc ⊢
      cases more with
      | nil =>
        simp only at hacc ⊢
        split_ifs at hacc with hc
        simp only [Option.some.injEq, Prod.mk.injEq] at hacc
        obtain ⟨rfl, rfl, rfl⟩ := hacc
        simp only [if_true, if_pos hc.2]
        exact ⟨_, rfl, rfl, proxy_stored st.data "http".toList _ _ none (by decide) hs hne,
          proxy_stored_any st.data "http".toList _ _ none⟩
      | cons file fs =>
        simp only at hacc ⊢
        rcases hA : parse_http_proxy_auth env st.written path file with ⟨ok, user, pass⟩
        simp only [hA] at hacc ⊢
        split_ifs at hacc with hc
        simp only [Option.some.injEq, Prod.mk.injEq] at hacc
        obtain ⟨rfl, rfl, rfl⟩ := hacc
        simp only [hc.1, if_true, if_pos hc.2]
        cases user with
        | none =>
          cases pass with
          | none =>
            exact ⟨_, rfl, rfl, proxy_stored st.data "http".toList _ _ none (by decide) hs hne,
              proxy_stored_any st.data "http".toList _ _ none⟩
          | some pw =>
            exact ⟨_, rfl, rfl, proxy_stored st.data "http".toList _ _ none (by decide) hs hne,
              proxy_stored_any st.data "http".toList _ _ none⟩
        | some u =>
          cases pass with
          | none =>
            exact ⟨_, rfl, rfl, proxy_stored st.data "http".toList _ _ (some u) (by decide) hs hne,
              proxy_stored_any st.data "http".toList _ _ (some u)⟩
          | some pw =>
            exact ⟨_, rfl, rfl, proxy_stored st.data "http".toList _ _ (some u) (by decide) hs hne,
              proxy_stored_any st.data "http".toList _ _ (some u)⟩

theorem import_proxy_rejected (env : Env) (path : CStr) (line : Line) (st : ImportState)
    (hacc : accepted_proxy env path st.written line = none) :
    import_proxy env path line st = none ∨ import_proxy env path line st = some st := by
  unfold accepted_proxy at hacc
  simp only [← parse_http_proxy_auth_passes] at hacc
  unfold import_proxy
  generalize args_is_option line.text TAG_HTTP_PROXY = http at hacc ⊢
  generalize args_is_option line.text TAG_SOCKS_PROXY = socks at hacc ⊢
  cases hset : st.proxy_set with
  | true => left; simp
  | false =>
    cases http with
    | false =>
      cases socks with
      | false => left; simp
      | true =>
        right
        simp only [Bool.false_or, if_true, Bool.false_eq_true, if_false] at hacc
        simp only [Bool.false_or, Bool.not_false, Bool.and_self, if_true,
          Bool.false_eq_true, if_false]
        generalize get_args (arg_text env line TAG_SOCKS_PROXY) = items at hacc ⊢
        rcases items with _ | ⟨server, _ | ⟨port_item, more⟩⟩
        · rfl
        · rfl
        · simp only at hacc ⊢
          generalize print_int (to_gint (strtol port_item).1) = pstr at hacc ⊢
          generalize strtol port_item = port at hacc ⊢
          split_ifs at hacc with hc
          have hc2 : ¬ (port.2 = false ∧ port.1 > 0 ∧ port.1 < 65536) := fun h => hc ⟨by simp, h⟩
          simp only [if_true, if_neg hc2]
    | true =>
      right
      simp only [Bool.true_or, if_true] at hacc
      simp only [Bool.true_or, Bool.not_false, Bool.and_self, if_true]
      generalize get_args (arg_text env line TAG_HTTP_PROXY) = items at hacc ⊢
      rcases items with _ | ⟨server, _ | ⟨port_item, more⟩⟩
      · rfl
      · rfl
      · simp only at hacc ⊢
        generalize print_int (to_gint (strtol port_item).1) = pstr at hacc ⊢
        generalize strtol port_item = port at hacc ⊢
        cases more with
        | nil =>
          simp only at hacc ⊢
          split_ifs at hacc with hc
          have hc2 : ¬ (port.2 = false ∧ port.1 > 0 ∧ port.1 < 65536) := fun h => hc ⟨by simp, h⟩
          simp only [if_true, if_neg hc2]
        | cons file fs =>
          simp only at hacc ⊢
          rcases hA : parse_http_proxy_auth env st.written path file with ⟨ok, user, pass⟩
          simp only [hA] at hacc ⊢
          split_ifs at hacc with hc
          cases ok with
          | false => simp
          | true =>
            have hc2 : ¬ (port.2 = false ∧ port.1 > 0 ∧ port.1 < 65536) := fun h => hc ⟨by simp, h⟩
            simp only [if_true, if_neg hc2]

theorem import_head_of_proxy (env : Env) (path : CStr) (line : Line) (st b : ImportState)
    (h : import_proxy env path line st = some b) : import_head env path line st = some b := by
  have hw : first_word line.text = "http-proxy".toList
      ∨ first_word line.text = "socks-proxy".toList := by
    by_contra hn
    simp only [not_or] at hn
    have : import_proxy env path line st = none := by
      unfold import_proxy
      rw [is_option_HTTP_PROXY, is_option_SOCKS_PROXY, decide_eq_false hn.1,
        decide_eq_false hn.2]
      rfl
    rw [this] at h
    cases h
  rcases hw with hw | hw <;>
  simp [import_head, import_client, import_key_direction, import_one_arg, import_keyword,
    import_proto, import_flag, import_size_item, import_reneg_sec, import_proxy_retry,
    is_option_AUTH, is_option_AUTH_USER_PASS, is_option_CA, is_option_CERT, is_option_CIPHER, is_option_KEYSIZE, is_option_CLIENT, is_option_COMP_LZO, is_option_FLOAT, is_option_DEV, is_option_DEV_TYPE, is_option_FRAGMENT, is_option_IFCONFIG, is_option_KEY, is_option_KEEPALIVE, is_option_MSSFIX, is_option_PING, is_option_PING_EXIT, is_option_PING_RESTART, is_option_PKCS12, is_option_PORT, is_option_PROTO, is_option_HTTP_PROXY, is_option_HTTP_PROXY_RETRY, is_option_SOCKS_PROXY, is_option_SOCKS_PROXY_RETRY, is_option_REMOTE, is_option_REMOTE_RANDOM, is_option_RENEG_SEC, is_option_RPORT, is_option_SECRET, is_option_TLS_AUTH, is_option_KEY_DIRECTION, is_option_TLS_CLIENT, is_option_TLS_REMOTE, is_option_REMOTE_CERT_TLS, is_option_TUN_MTU, is_option_ROUTE, hw, h]

theorem import_proxy_latched (env : Env) (path : CStr) (line : Line) (st : ImportState)
    (h : st.proxy_set = true) : import_proxy env path line st = none := by
  unfold import_proxy
  simp [h]

theorem import_line_of_proxy (env : Env) (path dp name : CStr) (line : Line) (rest : List CStr)
    (st b : ImportState) (h : import_proxy env path line st = some b) :
    import_line env path dp name line rest st = .next b 0 := by
  unfold import_line
  rw [import_head_of_proxy env path line st b h]

theorem import_line_proxy (env : Env) (path dp name : CStr) (line : Line) (rest : List CStr)
    (st st1 : ImportState) (skip : Nat)
    (h : import_line env path dp name line rest st = .next st1 skip) :
    (st.proxy_set = true → Kept st st1)
    ∧ (st.proxy_set = false → accepted_proxy env path st.written line = none → Kept st st1)
    ∧ (st.proxy_set = false → ∀ t s p, accepted_proxy env path st.written line = some (t, s, p) →
        st1.proxy_set = true ∧ proxy_settings st1.data = (some t, some s, some p)
          ∧ Stored (fun _ => True) st.data st1.data) := by
  refine ⟨?_, ?_, ?_⟩
  · intro hset
    exact import_line_kept env path dp name line rest st st1 skip
      (import_proxy_latched env path line st hset) h
  · intro _ hacc
    rcases import_proxy_rejected env path line st hacc with hp | hp
    · exact import_line_kept env path dp name line rest st st1 skip hp h
    · rw [import_line_of_proxy env path dp name line rest st st hp] at h
      simp only [LineStep.next.injEq] at h
      rw [← h.1]
      exact kept_refl _
  · intro hset t s p hacc
    obtain ⟨b, hb, h1, h2, h3⟩ := import_proxy_accepted env path line st hset t s p hacc
    rw [import_line_of_proxy env path dp name line rest st b hb] at h
    simp only [LineStep.next.injEq] at h
    rw [← h.1]
    exact ⟨h1, h2, h3⟩

theorem import_line_stored (env : Env) (path dp name : CStr) (line : Line) (rest : List CStr)
    (st st1 : ImportState) (skip : Nat)
    (h : import_line env path dp name line rest st = .next st1 skip) :
    Stored (fun _ => True) st.data st1.data := by
  obtain ⟨h1, h2, h3⟩ := import_line_proxy env path dp name line rest st st1 skip h
  cases hset : st.proxy_set with
  | true => exact stored_mono (fun _ _ => trivial) (h1 hset).1
  | false =>
    cases hacc : accepted_proxy env path st.written line with
    | none => exact stored_mono (fun _ _ => trivial) (h2 hset hacc).1
    | some r =>
      obtain ⟨t, s, p⟩ := r
      exact (h3 hset t s p hacc).2.2

theorem import_lines_stored (env : Env) (path dp name : CStr) (lines : List CStr) :
    ∀ (st : ImportState) (skip : Nat) (st1 : ImportState),
      import_lines env path dp name st skip lines = some st1 →
      Stored (fun _ => True) st.data st1.data := by
  induction lines with
  | nil =>
    intro st skip st1 h
    simp only [import_lines, Option.some.injEq] at h
    subst h
    exact Stored.same _
  | cons piece rest ih =>
    intro st skip st1 h
    cases skip with
    | succ k =>
      simp only [import_lines] at h
      exact ih st k st1 h
    | zero =>
      simp only [import_lines] at h
      split_ifs at h with hempty
      · exact ih st 0 st1 h
      · cases hl : import_line env path dp name (strip_comment piece) rest st with
        | undefined => simp [hl] at h
        | next a k =>
          simp only [hl] at h
          exact stored_trans (import_line_stored env path dp name _ rest st a k hl) (ih a k st1 h)

theorem import_lines_latched (env : Env) (path dp name : CStr) (lines : List CStr) :
    ∀ (st : ImportState) (skip : Nat) (st1 : ImportState), st.proxy_set = true →
      import_lines env path dp name st skip lines = some st1 →
      Kept st st1 := by
  induction lines with
  | nil =>
    intro st skip st1 _ h
    simp only [import_lines, Option.some.injEq] at h
    subst h
    exact kept_refl _
  | cons piece rest ih =>
    intro st skip st1 hset h
    cases skip with
    | succ k =>
      simp only [import_lines] at h
      exact ih st k st1 hset h
    | zero =>
      simp only [import_lines] at h
      split_ifs at h with hempty
      · exact ih st 0 st1 hset h
      · cases hl : import_line env path dp name (strip_comment piece) rest st with
        | undefined => simp [hl] at h
        | next a k =>
          simp only [hl] at h
          have hk := (import_line_proxy env path dp name _ rest st a k hl).1 hset
          exact kept_trans hk (ih a k st1 (hk.2.trans hset) h)

theorem import_lines_proxy (env : Env) (path dp name : CStr) (lines : List CStr) :
    ∀ (st : ImportState) (skip : Nat) (st1 : ImportState), st.proxy_set = false →
      import_lines env path dp name st skip lines = some st1 →
      proxy_settings st1.data
        = match (import_rounds env path dp name st skip lines).findSome?
            (fun r => accepted_proxy env path r.1.written r.2) with
          | some (t, s, p) => (some t, some s, some p)
          | none => proxy_settings st.data := by
  induction lines with
  | nil =>
    intro st skip st1 _ h
    simp only [import_lines, Option.some.injEq] at h
    subst h
    simp [import_rounds]
  | cons piece rest ih =>
    intro st skip st1 hset h
    cases skip with
    | succ k =>
      simp only [import_lines] at h
      simp only [import_rounds]
      exact ih st k st1 hset h
    | zero =>
      simp only [import_lines] at h
      simp only [import_rounds]
      split_ifs at h with hempty
      · simp only [hempty, if_true]
        exact ih st 0 st1 hset h
      · simp only [hempty, if_false]
        cases hl : import_line env path dp name (strip_comment piece) rest st with
        | undefined => simp [hl] at h
        | next a k =>
          simp only [hl] at h ⊢
          obtain ⟨-, h2, h3⟩ := import_line_proxy env path dp name _ rest st a k hl
          cases hacc : accepted_proxy env path st.written (strip_comment piece) with
          | none =>
            have hk := h2 hset hacc
            simp only [List.findSome?_cons, hacc]
            rw [ih a k st1 (hk.2.trans hset) h, kept_settings hk]
          | some r =>
            obtain ⟨t, s, p⟩ := r
            obtain ⟨g1, g2, -⟩ := h3 hset t s p hacc
            simp only [List.findSome?_cons, hacc]
            rw [kept_settings (import_lines_latched env path dp name rest a k st1 g1 h), g2]

theorem do_import_scan (env : Env) (path contents : CStr) (c : Connection)
    (written : List (CStr × CStr)) (h : do_import env path contents = .connection c written) :
    ∃ st, import_scan env path contents = some st
      ∧ c = import_finish env (import_basename path) st := by
  rw [do_import_eq] at h
  split_ifs at h
  cases hs : import_scan env path contents with
  | none => simp [hs] at h
  | some st =>
    simp only [hs] at h
    split_ifs at h
    simp only [ImportResult.connection.injEq] at h
    exact ⟨st, rfl, h.1.symm⟩

theorem import_finish_settings (env : Env) (name : CStr) (st : ImportState) :
    proxy_settings (import_finish env name st).data = proxy_settings st.data := by
  unfold proxy_settings
  rw [import_finish_get env name st NM_OPENVPN_KEY_PROXY_TYPE (by decide),
    import_finish_get env name st NM_OPENVPN_KEY_PROXY_SERVER (by decide),
    import_finish_get env name st NM_OPENVPN_KEY_PROXY_PORT (by decide)]

theorem accepted_proxy_form (env : Env) (path : CStr) (written : List (CStr × CStr))
    (line : Line) (t s p : CStr) (h : accepted_proxy env path written line = some (t, s, p)) :
    (t = "http".toList ∧ args_is_option line.text TAG_HTTP_PROXY = true
        ∧ ∃ port_item more, get_args (arg_text env line TAG_HTTP_PROXY) = s :: port_item :: more
          ∧ p = print_int (to_gint (strtol port_item).1))
      ∨ (t = "socks".toList ∧ args_is_option line.text TAG_HTTP_PROXY = false
        ∧ args_is_option line.text TAG_SOCKS_PROXY = true
        ∧ ∃ port_item more, get_args (arg_text env line TAG_SOCKS_PROXY) = s :: port_item :: more
          ∧ p = print_int (to_gint (strtol port_item).1)) := by
  unfold accepted_proxy at h
  cases hh : args_is_option line.text TAG_HTTP_PROXY with
  | true =>
    left
    simp only [hh, Bool.true_or, if_true] at h
    cases hi : get_args (arg_text env line TAG_HTTP_PROXY) with
    | nil => simp [hi] at h
    | cons server l =>
      cases l with
      | nil => simp [hi] at h
      | cons port_item more =>
        simp only [hi] at h
        split_ifs at h
        simp only [Option.some.injEq, Prod.mk.injEq] at h
        obtain ⟨rfl, rfl, rfl⟩ := h
        exact ⟨rfl, rfl, port_item, more, rfl, rfl⟩
  | false =>
    right
    cases hs : args_is_option line.text TAG_SOCKS_PROXY with
    | false => simp [hh, hs] at h
    | true =>
      simp only [hh, hs, Bool.false_or, if_true, Bool.false_eq_true, if_false] at h
      cases hi : get_args (arg_text env line TAG_SOCKS_PROXY) with
      | nil => simp [hi] at h
      | cons server l =>
        cases l with
        | nil => simp [hi] at h
        | cons port_item more =>
          simp only [hi] at h
          split_ifs at h
          simp only [Option.some.injEq, Prod.mk.injEq] at h
          obtain ⟨rfl, rfl, rfl⟩ := h
          exact ⟨rfl, rfl, rfl, port_item, more, rfl, rfl⟩

/-- C21, as stated, fails: in this configuration the first proxy line is
`http-proxy p`, which has no port and which the proxy block rejects; the
`socks-proxy` line behind it then sets the proxy type, server and port, and
the `http-proxy` line that comes last changes nothing. -/
theorem do_import_second_proxy_line :
    (import_pieces env_plain conf_two_proxies).get? 2 = some "http-proxy p".toList
    ∧ (import_pieces env_plain conf_two_proxies).get? 3 = some "socks-proxy s 1080".toList
    ∧ ∃ c written, do_import env_plain conf_path conf_two_proxies = .connection c written
      ∧ proxy_settings c.data = (some "socks".toList, some "s".toList, some "1080".toList) := by
  refine ⟨by decide, by decide, _, _, rfl, by decide⟩

/-- C21, amended: proxy directives latch on the first occurrence that is
accepted.  The proxy type, server and port of an imported connection are those
of the first round of the line loop whose line is an `http-proxy` or
`socks-proxy` line with at least two arguments, of which the second reads as a
port from 1 to 65535, and, for `http-proxy` with a third argument, with a
third argument that is `stdin`, `auto` or `'auto'`, for which no file is read,
or that names an auth file which can be read and holds at least two lines that
are not empty; they are unset when there is no such line.  The three settings
come from that one line: the type is `http` for an `http-proxy` line and
`socks` for a `socks-proxy` line, the server is its first argument and the
port its second.  Once `proxy_set` is true, no line changes the three
settings. -/
theorem do_import_proxy_latch (env : Env) (path contents : CStr) (c : Connection)
    (written : List (CStr × CStr)) (h : do_import env path contents = .connection c written) :
    proxy_settings c.data
        = first_proxy (env.run contents) path
            (import_rounds (env.run contents) path (import_default_path env path)
              (import_basename path) (import_init env) 0 (import_pieces env contents))
    ∧ (∀ (e : Env) (w : List (CStr × CStr)),
        auth_argument_passes e w path "stdin".toList = true
        ∧ auth_argument_passes e w path "auto".toList = true
        ∧ auth_argument_passes e w path (squote :: "auto".toList ++ [squote]) = true)
    ∧ (∀ (e : Env) (w : List (CStr × CStr)) (line : Line) (t s p : CStr),
        accepted_proxy e path w line = some (t, s, p) →
        (t = "http".toList ∧ args_is_option line.text TAG_HTTP_PROXY = true
            ∧ ∃ port_item more,
              get_args (arg_text e line TAG_HTTP_PROXY) = s :: port_item :: more
              ∧ p = print_int (to_gint (strtol port_item).1))
          ∨ (t = "socks".toList ∧ args_is_option line.text TAG_HTTP_PROXY = false
            ∧ args_is_option line.text TAG_SOCKS_PROXY = true
            ∧ ∃ port_item more,
              get_args (arg_text e line TAG_SOCKS_PROXY) = s :: port_item :: more
              ∧ p = print_int (to_gint (strtol port_item).1)))
    ∧ (∀ (e : Env) (dp name : CStr) (st st1 : ImportState) (skip : Nat) (lines : List CStr),
        st.proxy_set = true → import_lines e path dp name st skip lines = some st1 →
        proxy_settings st1.data = proxy_settings st.data ∧ st1.proxy_set = true) := by
  refine ⟨?_, fun e w => ⟨rfl, rfl, rfl⟩, fun e => accepted_proxy_form e path, ?_⟩
  · obtain ⟨st, hs, rfl⟩ := do_import_scan env path contents c written h
    rw [import_finish_settings]
    unfold import_scan at hs
    rw [import_lines_proxy (env.run contents) path _ _ _ _ 0 st rfl hs]
    unfold first_proxy
    rfl
  · intro e dp name st st1 skip lines hset hl
    have hk := import_lines_latched e path dp name lines st skip st1 hset hl
    exact ⟨kept_settings hk, hk.2.trans hset⟩

theorem do_import_proxy_latch_witness :
    (import_pieces env_plain conf_proxy_auto).get? 3 = some "http-proxy q 8080 auto".toList
    ∧ ∃ c w, do_import env_plain conf_path conf_proxy_auto = .connection c w
      ∧ proxy_settings c.data = (some "http".toList, some "q".toList, some "8080".toList)
      ∧ proxy_settings c.data
        = first_proxy (env_plain.run conf_proxy_auto) conf_path
            (import_rounds (env_plain.run conf_proxy_auto) conf_path
              (import_default_path env_plain conf_path) (import_basename conf_path)
              (import_init env_plain) 0 (import_pieces env_plain conf_proxy_auto)) :=
  ⟨by decide, _, _, rfl, by decide,
   (do_import_proxy_latch env_plain conf_path conf_proxy_auto _ _ rfl).1⟩

theorem import_finish_values (env : Env) (name : CStr) (st : ImportState)
    (h : values_nonempty st.data) : values_nonempty (import_finish env name st).data := by
  unfold import_finish
  exact add_values_nonempty _ _ _ h

/-- After an import every value in the data map of the connection is a string
that is not empty.  In every round of the line loop each key either holds
exactly what it held before the line (absent if it was absent) or holds a
value that is not empty: a directive never stores an empty value and never
removes one.  The directive `tls-remote ""`, whose quoted argument is empty,
leaves the whole state as it was, and so does `port 0`, whose argument fails
the range check. -/
theorem do_import_values_nonempty (env : Env) (path contents : CStr) (c : Connection)
    (written : List (CStr × CStr)) (h : do_import env path contents = .connection c written) :
    (∀ kv ∈ c.data, kv.2 ≠ [])
    ∧ (∀ (dp name : CStr) (line : Line) (rest : List CStr) (st st1 : ImportState) (skip : Nat),
        import_line env path dp name line rest st = .next st1 skip →
        ∀ k, nm_setting_vpn_get_data_item st1.data k = nm_setting_vpn_get_data_item st.data k
          ∨ ∃ v, v ≠ [] ∧ nm_setting_vpn_get_data_item st1.data k = some v)
    ∧ (∀ (dp name : CStr) (rest : List CStr) (st : ImportState) (beyond : Option CStr),
        import_line env path dp name
          { text := "tls-remote ".toList ++ [dquote, dquote], beyond := beyond } rest st
          = .next st 0)
    ∧ (∀ (dp name : CStr) (rest : List CStr) (st : ImportState) (beyond : Option CStr),
        import_line env path dp name { text := "port 0".toList, beyond := beyond } rest st
          = .next st 0) := by
  refine ⟨?_, ?_, ?_, ?_⟩
  · obtain ⟨st, hs, rfl⟩ := do_import_scan env path contents c written h
    unfold import_scan at hs
    have hst := import_lines_stored (env.run contents) path _ _ _ _ 0 st hs
    apply import_finish_values
    exact stored_values_nonempty hst (by intro kv hkv; simp [import_init] at hkv)
  · intro dp name line rest st st1 skip hl k
    exact stored_get_cases (import_line_stored env path dp name line rest st st1 skip hl) k
  · intro dp name rest st beyond
    rfl
  · intro dp name rest st beyond
    rfl

theorem do_import_values_nonempty_witness :
    (∃ c written, do_import env_plain conf_path conf_tls_remote_empty = .connection c written
      ∧ nm_setting_vpn_get_data_item c.data NM_OPENVPN_KEY_TLS_REMOTE = some "x".toList)
    ∧ ∀ kv ∈ [(NM_OPENVPN_KEY_CONNECTION_TYPE, "tls".toList),
        (NM_OPENVPN_KEY_TLS_REMOTE, "x".toList), (NM_OPENVPN_KEY_REMOTE, "h".toList)],
        kv.2 ≠ [] :=
  ⟨⟨_, _, rfl, by decide⟩,
   (do_import_values_nonempty env_plain conf_path conf_tls_remote_empty
      { id := "my".toList,
        data := [(NM_OPENVPN_KEY_CONNECTION_TYPE, "tls".toList),
          (NM_OPENVPN_KEY_TLS_REMOTE, "x".toList), (NM_OPENVPN_KEY_REMOTE, "h".toList)],
        secrets := [], secret_flags := [], routes := [] } [] (by decide)).1⟩

/-- C22: the claim is right, and the code departs from its second part.  The
blocks of `tun-mtu` and `port` mean to refuse an argument that is no number in
the range, and warn of an invalid size or an invalid port in their last
branch, but they read the argument with `strtol` without an end pointer.  In
the configuration `client`, `remote h`, `tun-mtu abc`, `port 80x` both
arguments fail the validation of a number, and the keys `tunnel-mtu` and
`port`, absent before their lines, hold `0` and `80` afterwards: `abc` is read
as 0 and `80x` as 80.  The first part holds here as everywhere: no stored
value is empty. -/
theorem do_import_stores_failed_argument :
    (import_pieces env_plain conf_mtu_text).get? 2 = some "tun-mtu abc".toList
    ∧ (import_pieces env_plain conf_mtu_text).get? 3 = some "port 80x".toList
    ∧ strtol "abc".toList = (0, false)
    ∧ strtol "80x".toList = (80, false)
    ∧ nm_setting_vpn_get_data_item (import_init env_plain).data NM_OPENVPN_KEY_TUNNEL_MTU = none
    ∧ nm_setting_vpn_get_data_item (import_init env_plain).data NM_OPENVPN_KEY_PORT = none
    ∧ (∃ c w, do_import env_plain conf_path conf_minimal = .connection c w
        ∧ nm_setting_vpn_get_data_item c.data NM_OPENVPN_KEY_TUNNEL_MTU = none
        ∧ nm_setting_vpn_get_data_item c.data NM_OPENVPN_KEY_PORT = none)
    ∧ ∃ c w, do_import env_plain conf_path conf_mtu_text = .connection c w
        ∧ nm_setting_vpn_get_data_item c.data NM_OPENVPN_KEY_TUNNEL_MTU = some "0".toList
        ∧ nm_setting_vpn_get_data_item c.data NM_OPENVPN_KEY_PORT = some "80".toList
        ∧ ∀ kv ∈ c.data, kv.2 ≠ [] := by
  refine ⟨by decide, by decide, by decide, by decide, by decide, by decide,
    ⟨_, _, rfl, by decide, by decide⟩, ⟨_, _, rfl, by decide, by decide, by decide⟩⟩

theorem packed_append (a b : List CStr) : packed (a ++ b) = packed a ++ packed b := by
  simp [packed, List.flatMap_append]

theorem packed_singleton (w : CStr) : packed [w] = w ++ [nul] := by
  simp [packed]

theorem packed_cons_length (w : CStr) (ws : List CStr) :
    (packed (w :: ws)).length = w.length + 1 + (packed ws).length := by
  have : packed (w :: ws) = (w ++ [nul]) ++ packed ws := by simp [packed]
  rw [this]
  simp only [List.length_append, List.length_singleton]

theorem offsets_append (b : Nat) (a c : List CStr) :
    offsets b (a ++ c) = offsets b a ++ offsets (b + (packed a).length) c := by
  induction a generalizing b with
  | nil => simp [offsets, packed]
  | cons w ws ih =>
    rw [List.cons_append, offsets, offsets, ih, packed_cons_length, List.cons_append]
    congr 3
    omega

theorem offsets_snoc (done : List CStr) (w : CStr) :
    offsets 0 (done ++ [w]) = offsets 0 done ++ [(packed done).length] := by
  rw [offsets_append]
  simp [offsets]

theorem sim_step (n k : Nat) (s : ArgsState) (t : Tok) (c : Char) (h : Sim n k s t)
    (hk : k + 2 ≤ n) : Sim n (k + 1) (args_step s c) (t.step c) := by
  obtain ⟨smode, ws, pos, index, buf⟩ := s
  obtain ⟨tmode, done, cur⟩ := t
  obtain ⟨hm, hdata, hidx, hcur, hlen, hle⟩ := h
  simp only at hm hdata hidx hcur hlen hle
  subst hm
  have hroom : 0 < buf.len := by omega
  have happ : ∀ x, _strbuf_append_c buf x = { data := buf.data ++ [x], len := buf.len - 1 } :=
    fun x => append_c_data buf x hroom
  have hlen1 : buf.data.length + 1 + (buf.len - 1) = n := by omega
  have hle0 : buf.data.length ≤ k + 1 := by omega
  have hle1 : buf.data.length + 1 ≤ k + 1 := by omega
  have hL := congrArg List.length hdata
  simp only [List.length_append] at hL
  unfold Sim
  cases smode with
  | between =>
    have hc := hcur rfl
    subst hc
    simp only [if_true, List.append_nil] at hidx hdata
    simp only [List.length_nil, Nat.add_zero] at hL
    by_cases hsp : g_ascii_isspace c = true
    · simp [args_step, Tok.step, hsp, hdata, hidx, hlen, hle0]
      all_goals omega
    · have hsp1 : g_ascii_isspace c = false := by simpa using hsp
      by_cases hq : c = dquote ∨ c = squote
      · simp [args_step, Tok.step, args_switch, Tok.switch, hsp1, hq, hdata, hidx, hlen, hle0]
        all_goals omega
      · by_cases hb : c = bslash
        · simp [args_step, Tok.step, args_switch, Tok.switch, hsp1, hq, hb, hdata, hidx, hlen,
            hle0, bslash_not_quote, bslash_not_space]
          all_goals omega
        · simp [args_step, Tok.step, args_switch, Tok.switch, hsp1, hq, hb, happ, hdata, hidx,
            hlen1, hle1]
          all_goals omega
  | word =>
    simp only [reduceCtorEq, if_false] at hidx
    by_cases hq : c = dquote ∨ c = squote
    · simp [args_step, Tok.step, args_switch, Tok.switch, hq, hdata, hidx, hlen, hle0]
      all_goals omega
    · by_cases hb : c = bslash
      · simp [args_step, Tok.step, args_switch, Tok.switch, hq, hb, hdata, hidx, hlen,
          hle0, bslash_not_quote, bslash_not_space]
        all_goals omega
      · by_cases hsp : g_ascii_isspace c = true
        · simp [args_step, Tok.step, args_switch, Tok.switch, hq, hb, hsp, happ, hdata, hidx,
            hlen1, hle1, packed_append, packed_singleton, offsets_snoc]
          all_goals omega
        · have hsp1 : g_ascii_isspace c = false := by simpa using hsp
          simp [args_step, Tok.step, args_switch, Tok.switch, hq, hb, hsp1, happ, hdata, hidx,
            hlen1, hle1]
          all_goals omega
  | word_escape =>
    simp only [reduceCtorEq, if_false] at hidx
    simp [args_step, Tok.step, happ, hdata, hidx, hlen1, hle1]
    all_goals omega
  | quoted q =>
    simp only [reduceCtorEq, if_false] at hidx
    by_cases hq : c = q
    · simp [args_step, Tok.step, hq, hdata, hidx, hlen, hle0]
      all_goals omega
    · by_cases hb : q = dquote ∧ c = bslash
      · obtain ⟨rfl, rfl⟩ := hb
        have hbq : bslash ≠ dquote := by decide
        simp [args_step, Tok.step, hbq, hdata, hidx, hlen, hle0]
        all_goals omega
      · simp [args_step, Tok.step, hq, hb, happ, hdata, hidx, hlen1, hle1]
        all_goals omega
  | quoted_escape q =>
    simp only [reduceCtorEq, if_false] at hidx
    simp [args_step, Tok.step, happ, hdata, hidx, hlen1, hle1]
    all_goals omega

theorem sim_foldl (n : Nat) (input : CStr) :
    ∀ (k : Nat) (s : ArgsState) (t : Tok), Sim n k s t → k + input.length + 1 ≤ n →
      Sim n (k + input.length) (input.foldl args_step s) (input.foldl Tok.step t) := by
  induction input with
  | nil => intro k s t h _; exact h
  | cons c cs ih =>
    intro k s t h hk
    simp only [List.length_cons] at hk
    have h1 := sim_step n k s t c h (by omega)
    have h2 := ih (k + 1) _ _ h1 (by omega)
    simp only [List.foldl_cons, List.length_cons]
    have : k + (cs.length + 1) = k + 1 + cs.length := by omega
    rw [this]
    exact h2

theorem cstr_at_packed (pre w rest : CStr) (hw : nul ∉ w) :
    cstr_at (pre ++ (w ++ nul :: rest)) pre.length = w := by
  unfold cstr_at
  rw [List.drop_left]
  exact takeWhile_ne_append nul w rest hw

theorem offsets_decode (ws : List CStr) (hws : ∀ w ∈ ws, nul ∉ w) :
    ∀ pre : CStr, (offsets pre.length ws).map (cstr_at (pre ++ packed ws)) = ws := by
  induction ws with
  | nil => intro pre; rfl
  | cons w ws ih =>
    intro pre
    have hp : packed (w :: ws) = w ++ nul :: packed ws := by simp [packed]
    rw [offsets, List.map_cons, hp, cstr_at_packed pre w _ (hws w (List.mem_cons_self _ _))]
    have h2 := ih (fun x hx => hws x (List.mem_cons_of_mem _ hx)) (pre ++ w ++ [nul])
    have hl : (pre ++ w ++ [nul]).length = pre.length + w.length + 1 := by
      simp only [List.length_append, List.length_singleton]
    have he : pre ++ w ++ [nul] ++ packed ws = pre ++ (w ++ nul :: packed ws) := by simp
    rw [hl, he] at h2
    rw [h2]

theorem sim_end (n k : Nat) (s : ArgsState) (t : Tok) (h : Sim n k s t) (hk : k + 1 ≤ n)
    (hdone : ∀ w ∈ t.done, nul ∉ w) (hcur : nul ∉ t.cur) :
    (∀ e, args_end s = .error e → t.args = none)
    ∧ (∀ index buf, args_end s = .ok (index, buf) →
        t.args = some (index.map (cstr_at buf.data)) ∧ buf.data.length ≤ k + 1
          ∧ buf.data.length + buf.len = n) := by
  obtain ⟨smode, ws, pos, index, buf⟩ := s
  obtain ⟨tmode, done, cur⟩ := t
  obtain ⟨hm, hdata, hidx, hc, hlen, hle⟩ := h
  simp only at hm hdata hidx hc hlen hle hdone hcur
  subst hm
  have hroom : 0 < buf.len := by omega
  cases smode with
  | between =>
    have hc0 := hc rfl
    subst hc0
    simp only [if_true, List.append_nil] at hidx hdata
    refine ⟨by simp [args_end], ?_⟩
    intro index1 buf1 he
    simp only [args_end, Except.ok.injEq, Prod.mk.injEq] at he
    obtain ⟨rfl, rfl⟩ := he
    refine ⟨?_, by omega, hlen⟩
    have hd := offsets_decode done hdone []
    simp only [List.length_nil, List.nil_append] at hd
    simp only [Tok.args, hidx, hdata, hd]
  | word =>
    simp only [reduceCtorEq, if_false] at hidx
    refine ⟨by simp [args_end], ?_⟩
    intro index1 buf1 he
    simp only [args_end, Except.ok.injEq, Prod.mk.injEq, append_c_data buf nul hroom] at he
    obtain ⟨rfl, rfl⟩ := he
    simp only [List.length_append, List.length_singleton]
    refine ⟨?_, by omega, by omega⟩
    have hall : ∀ w ∈ done ++ [cur], nul ∉ w := by
      intro w hw
      simp only [List.mem_append, List.mem_singleton] at hw
      rcases hw with hw | rfl
      · exact hdone w hw
      · exact hcur
    have hd := offsets_decode (done ++ [cur]) hall []
    simp only [List.length_nil, List.nil_append, offsets_snoc, packed_append,
      packed_singleton] at hd
    simp only [Tok.args, hidx, hdata]
    rw [← List.append_assoc] at hd
    rw [hd]
  | word_escape => exact ⟨fun _ _ => rfl, by simp [args_end]⟩
  | quoted q => exact ⟨fun _ _ => rfl, by simp [args_end]⟩
  | quoted_escape q => exact ⟨fun _ _ => rfl, by simp [args_end]⟩

theorem tok_step_sublist (t : Tok) (c : Char) (pre : CStr)
    (h : (t.done.flatten ++ t.cur).Sublist pre) :
    ((t.step c).done.flatten ++ (t.step c).cur).Sublist (pre ++ [c]) := by
  have hsame : (t.done.flatten ++ t.cur).Sublist (pre ++ [c]) :=
    h.trans (List.sublist_append_left _ _)
  have hadd : (t.done.flatten ++ (t.cur ++ [c])).Sublist (pre ++ [c]) := by
    rw [← List.append_assoc]
    exact List.Sublist.append h (List.Sublist.refl _)
  have hend : ((t.done ++ [t.cur]).flatten ++ []).Sublist (pre ++ [c]) := by
    simpa using hsame
  unfold Tok.step Tok.switch
  cases t.mode <;> simp only <;> (try split_ifs) <;>
    first | exact hsame | exact hadd | exact hend

theorem tok_foldl_sublist (input : CStr) :
    ∀ (t : Tok) (pre : CStr), (t.done.flatten ++ t.cur).Sublist pre →
      ((input.foldl Tok.step t).done.flatten ++ (input.foldl Tok.step t).cur).Sublist
        (pre ++ input) := by
  induction input with
  | nil => intro t pre h; simpa using h
  | cons c cs ih =>
    intro t pre h
    have := ih (t.step c) (pre ++ [c]) (tok_step_sublist t c pre h)
    simpa using this

theorem tok_args_flatten (t : Tok) (args : List CStr) (h : t.args = some args)
    (hc : t.mode = .between → t.cur = []) : args.flatten = t.done.flatten ++ t.cur := by
  unfold Tok.args at h
  cases hm : t.mode with
  | between =>
    simp only [hm, Option.some.injEq] at h
    rw [← h, hc hm]
    simp
  | word =>
    simp only [hm, Option.some.injEq] at h
    rw [← h]
    simp
  | word_escape => simp [hm] at h
  | quoted q => simp [hm] at h
  | quoted_escape q => simp [hm] at h

theorem args_parse_line_run (line : CStr) (h : ∀ c ∈ line, c ≠ nul ∧ c ≠ lf)
    (hb : blank_or_comment (drop_cr line) = false) :
    (∀ e, args_end ((args_input line).foldl args_step (args_first line)) = .error e →
        args_parse_line line = .error e)
    ∧ (∀ index buf,
        args_end ((args_input line).foldl args_step (args_first line)) = .ok (index, buf) →
        args_parse_line line = .ok (some (index.map (cstr_at buf.data)))) := by
  have hany := any_nul_lf_false line h
  unfold blank_or_comment at hb
  unfold args_parse_line args_first args_input args_loop
  rw [← skip_eq_dropWhile] at hb
  unfold drop_cr at hb ⊢
  simp only [hany, Bool.false_eq_true, if_false]
  generalize (if line.getLast? = some cr then line.dropLast else line) = L at hb ⊢
  cases hsk : _ch_skip_over_leading_whitespace L with
  | nil => simp [hsk] at hb
  | cons c cs =>
    simp only [hsk] at hb
    have hcom : ¬ (c = semi ∨ c = hash) := by simpa using hb
    simp only [hcom, if_false]
    constructor
    · intro e he
      rw [he]
    · intro index buf he
      rw [he]

theorem nul_not_mem_of_sublist (l line : CStr) (hs : l.Sublist line)
    (h : ∀ c ∈ line, c ≠ nul ∧ c ≠ lf) : nul ∉ l :=
  fun hm => (h nul (hs.subset hm)).1 rfl

theorem args_input_sublist (line : CStr) : (args_input line).Sublist line := by
  unfold args_input drop_cr
  rw [skip_eq_dropWhile]
  refine (List.dropWhile_sublist _).trans ?_
  split_ifs
  · exact List.dropLast_sublist _
  · exact List.Sublist.refl _

theorem sim_first (line : CStr) :
    Sim ((args_input line).length + 1) 0 (args_first line) Tok.init := by
  unfold Sim args_first Tok.init
  simp [packed, offsets]

theorem sim_at (line : CStr) (k : Nat) (hk : k ≤ (args_input line).length) :
    Sim ((args_input line).length + 1) k (args_at line k)
      (((args_input line).take k).foldl Tok.step Tok.init) := by
  have h := sim_foldl ((args_input line).length + 1) ((args_input line).take k) 0 _ _
    (sim_first line) (by simp only [List.length_take]; omega)
  have hl : ((args_input line).take k).length = k := by
    simp only [List.length_take]
    omega
  rw [hl, Nat.zero_add] at h
  exact h

theorem args_parse_line_tok (line : CStr) (h : ∀ c ∈ line, c ≠ nul ∧ c ≠ lf)
    (hb : blank_or_comment (drop_cr line) = false) (v : Option (List CStr))
    (hv : args_parse_line line = .ok v) :
    (Tok.run (args_input line)).args = v ∧ v ≠ none := by
  obtain ⟨herr, hrun⟩ := args_parse_line_run line h hb
  have hsim := sim_at line (args_input line).length (Nat.le_refl _)
  unfold args_at at hsim
  rw [List.take_length] at hsim
  have hsub := tok_foldl_sublist (args_input line) Tok.init [] (by simp [Tok.init])
  rw [List.nil_append] at hsub
  have hnul : nul ∉ (Tok.run (args_input line)).done.flatten ++ (Tok.run (args_input line)).cur :=
    nul_not_mem_of_sublist _ line (hsub.trans (args_input_sublist line)) h
  have hdone : ∀ w ∈ (Tok.run (args_input line)).done, nul ∉ w := by
    intro w hw hn
    apply hnul
    rw [List.mem_append]
    left
    exact List.mem_flatten.mpr ⟨w, hw, hn⟩
  have hcur : nul ∉ (Tok.run (args_input line)).cur := fun hn =>
    hnul (List.mem_append_right _ hn)
  obtain ⟨-, hok⟩ := sim_end _ _ _ _ hsim (Nat.le_refl _) hdone hcur
  cases he : args_end ((args_input line).foldl args_step (args_first line)) with
  | error e =>
    rw [herr e he] at hv
    cases hv
  | ok r =>
    obtain ⟨index, buf⟩ := r
    rw [hrun index buf he] at hv
    simp only [ArgsResult.ok.injEq] at hv
    obtain ⟨h1, -, -⟩ := hok index buf he
    unfold Tok.run
    rw [h1, hv]
    exact ⟨rfl, by rw [← hv]; simp⟩

theorem args_parse_line_of_tok (line : CStr) (h : ∀ c ∈ line, c ≠ nul ∧ c ≠ lf)
    (hb : blank_or_comment (drop_cr line) = false) (args : List CStr)
    (ht : (Tok.run (args_input line)).args = some args) :
    args_parse_line line = .ok (some args) := by
  obtain ⟨-, hrun⟩ := args_parse_line_run line h hb
  have hsim := sim_at line (args_input line).length (Nat.le_refl _)
  unfold args_at at hsim
  rw [List.take_length] at hsim
  have hsub := tok_foldl_sublist (args_input line) Tok.init [] (by simp [Tok.init])
  rw [List.nil_append] at hsub
  have hnul : nul ∉ (Tok.run (args_input line)).done.flatten ++ (Tok.run (args_input line)).cur :=
    nul_not_mem_of_sublist _ line (hsub.trans (args_input_sublist line)) h
  have hdone : ∀ w ∈ (Tok.run (args_input line)).done, nul ∉ w := by
    intro w hw hn
    apply hnul
    rw [List.mem_append]
    left
    exact List.mem_flatten.mpr ⟨w, hw, hn⟩
  have hcur : nul ∉ (Tok.run (args_input line)).cur := fun hn =>
    hnul (List.mem_append_right _ hn)
  obtain ⟨herr, hok⟩ := sim_end _ _ _ _ hsim (Nat.le_refl _) hdone hcur
  cases he : args_end ((args_input line).foldl args_step (args_first line)) with
  | error e =>
    have := herr e he
    unfold Tok.run at ht
    rw [this] at ht
    cases ht
  | ok r =>
    obtain ⟨index, buf⟩ := r
    obtain ⟨h1, -, -⟩ := hok index buf he
    unfold Tok.run at ht
    rw [h1] at ht
    rw [hrun index buf he, ht]

theorem args_parse_line_none (line : CStr) (h : ∀ c ∈ line, c ≠ nul ∧ c ≠ lf)
    (hb : blank_or_comment (drop_cr line) = true) : args_parse_line line = .ok none := by
  have hany := any_nul_lf_false line h
  unfold blank_or_comment at hb
  rw [← skip_eq_dropWhile] at hb
  unfold args_parse_line
  unfold drop_cr at hb
  simp only [hany, Bool.false_eq_true, if_false]
  generalize (if line.getLast? = some cr then line.dropLast else line) = L at hb ⊢
  cases hsk : _ch_skip_over_leading_whitespace L with
  | nil => rfl
  | cons c cs =>
    simp only [hsk] at hb
    have hcom : c = semi ∨ c = hash := by simpa using hb
    simp only [hcom, if_true]

theorem tok_run_between (line : CStr) :
    (Tok.run line).mode = .between → (Tok.run line).cur = [] := by
  have h := sim_foldl (line.length + 1) line 0
    { mode := .between, word_start := 0, pos := 0, index := [],
      buf := { data := [], len := line.length + 1 } } Tok.init
    (by unfold Sim Tok.init; simp [packed, offsets]) (by omega)
  exact h.2.2.2.1

theorem tok_plain (input : CStr) :
    ∀ t : Tok, no_quoting input → (t.mode = .between ∨ t.mode = .word) →
      ((input.foldl Tok.step t).mode = .between ∨ (input.foldl Tok.step t).mode = .word)
      ∧ (input.foldl Tok.step t).done.flatten ++ (input.foldl Tok.step t).cur
          = t.done.flatten ++ t.cur ++ input.filter (fun c => !g_ascii_isspace c) := by
  induction input with
  | nil => intro t _ hm; exact ⟨hm, by simp⟩
  | cons c cs ih =>
    intro t hq hm
    obtain ⟨h1, h2, h3⟩ := hq c (List.mem_cons_self _ _)
    have hq1 : ¬ (c = dquote ∨ c = squote) := fun h => h.elim h1 h2
    have hcs : no_quoting cs := fun x hx => hq x (List.mem_cons_of_mem _ hx)
    have hstep : ((t.step c).mode = .between ∨ (t.step c).mode = .word)
        ∧ (t.step c).done.flatten ++ (t.step c).cur
          = t.done.flatten ++ t.cur ++ (if g_ascii_isspace c then [] else [c]) := by
      obtain ⟨mode, done, cur⟩ := t
      simp only at hm
      by_cases hsp : g_ascii_isspace c = true
      · rcases hm with rfl | rfl <;> simp [Tok.step, Tok.switch, hq1, h3, hsp]
      · have hsp1 : g_ascii_isspace c = false := by simpa using hsp
        rcases hm with rfl | rfl <;> simp [Tok.step, Tok.switch, hq1, h3, hsp1]
    obtain ⟨g1, g2⟩ := ih (t.step c) hcs hstep.1
    refine ⟨g1, ?_⟩
    rw [List.foldl_cons, g2, hstep.2, List.filter_cons]
    by_cases hsp : g_ascii_isspace c = true
    · simp [hsp]
    · have hsp1 : g_ascii_isspace c = false := by simpa using hsp
      simp [hsp1]

theorem filter_args_input (line : CStr) :
    (args_input line).filter (fun c => !g_ascii_isspace c)
      = line.filter (fun c => !g_ascii_isspace c) := by
  have hdw : ∀ l : CStr, (l.dropWhile g_ascii_isspace).filter (fun c => !g_ascii_isspace c)
      = l.filter (fun c => !g_ascii_isspace c) := by
    intro l
    induction l with
    | nil => rfl
    | cons a l ih =>
      by_cases ha : g_ascii_isspace a = true
      · simp [List.dropWhile_cons, List.filter_cons, ha, ih]
      · simp [List.dropWhile_cons, ha]
  unfold args_input
  rw [skip_eq_dropWhile, hdw]
  unfold drop_cr
  split_ifs with hl
  · obtain ⟨l, rfl⟩ : ∃ l, line = l ++ [cr] := by
      have hne : line ≠ [] := by
        rintro rfl
        simp at hl
      refine ⟨line.dropLast, ?_⟩
      have := List.dropLast_append_getLast hne
      rw [List.getLast?_eq_getLast _ hne] at hl
      simp only [Option.some.injEq] at hl
      rw [hl] at this
      exact this.symm
    have hcr : g_ascii_isspace cr = true := by decide
    simp [List.filter_append, hcr]
  · rfl

theorem blank_tok (line : CStr) (hb : line.dropWhile g_ascii_isspace = []) :
    line.filter (fun c => !g_ascii_isspace c) = [] := by
  rw [List.filter_eq_nil_iff]
  intro c hc
  have := List.dropWhile_eq_nil_iff.mp hb c hc
  simp [this]

theorem args_end_length (s : ArgsState) (index : List Nat) (buf : StrBuf)
    (h : args_end s = .ok (index, buf)) : buf.data.length ≤ s.buf.data.length + 1 := by
  unfold args_end at h
  cases hm : s.mode <;> simp only [hm, Except.ok.injEq, Prod.mk.injEq, reduceCtorEq] at h
  · rw [← h.2]
    omega
  · rw [← h.2]
    unfold _strbuf_append_c
    split_ifs
    · simp
    · omega

/-- C31, as stated, fails: the comment line `#x` holds neither a quote nor a
backslash, `args_parse_line` succeeds on it, but with no argument at all, so
the concatenation of the arguments is empty, while the line with its
whitespace removed is `#x`. -/
theorem args_parse_line_comment_concat :
    no_quoting line_comment
    ∧ args_parse_line line_comment = .ok none
    ∧ line_comment.filter (fun c => !g_ascii_isspace c) = line_comment
    ∧ line_comment ≠ [] := by
  refine ⟨by unfold no_quoting; decide, by decide, by decide, by decide⟩

/-- C31, amended: on a line, a text free of NUL and line feed,
`args_parse_line` ends after one `_ch_step_1` for every character that its
loops read: each step moves the cursor on by one character, and the outcome is
that of the state reached after as many steps as the text behind the leading
whitespace has characters.  Whenever it succeeds, the concatenation of the
returned arguments, in order, is a subsequence of the characters of the line.
For a line without quote characters and backslashes that is not a comment
line, it succeeds and the concatenation is exactly the line with its
whitespace removed; a comment line gives no argument. -/
theorem args_parse_line_subsequence (line : CStr) (h : ∀ c ∈ line, c ≠ nul ∧ c ≠ lf) :
    (∀ (s : ArgsState) (c : Char), (args_step s c).pos = s.pos + 1)
    ∧ (∀ k, k ≤ (args_input line).length →
        (args_at line k).pos = (args_first line).pos + k)
    ∧ (blank_or_comment (drop_cr line) = true → args_parse_line line = .ok none)
    ∧ (blank_or_comment (drop_cr line) = false →
        (∀ e, args_end (args_at line (args_input line).length) = .error e →
          args_parse_line line = .error e)
        ∧ (∀ index buf, args_end (args_at line (args_input line).length) = .ok (index, buf) →
          args_parse_line line = .ok (some (index.map (cstr_at buf.data)))))
    ∧ (∀ v, args_parse_line line = .ok v → (v.getD []).flatten.Sublist line)
    ∧ (no_quoting line → comment_line line = false →
        ∃ v, args_parse_line line = .ok v
          ∧ (v.getD []).flatten = line.filter (fun c => !g_ascii_isspace c)) := by
  have hpos : ∀ (s : ArgsState) (c : Char), (args_step s c).pos = s.pos + 1 := by
    intro s c
    unfold args_step args_switch
    cases s.mode <;> simp only <;> (try split_ifs) <;> rfl
  have hfold : ∀ (l : CStr) (s : ArgsState), (l.foldl args_step s).pos = s.pos + l.length := by
    intro l
    induction l with
    | nil => intro s; rfl
    | cons c cs ih =>
      intro s
      rw [List.foldl_cons, ih, hpos, List.length_cons]
      omega
  refine ⟨hpos, ?_, args_parse_line_none line h, ?_, ?_, ?_⟩
  · intro k hk
    unfold args_at
    rw [hfold, List.length_take]
    congr 1
    omega
  · intro hb
    unfold args_at
    rw [List.take_length]
    exact args_parse_line_run line h hb
  · intro v hv
    cases hb : blank_or_comment (drop_cr line) with
    | true =>
      rw [args_parse_line_none line h hb] at hv
      simp only [ArgsResult.ok.injEq] at hv
      rw [← hv]
      simp
    | false =>
      obtain ⟨ht, hne⟩ := args_parse_line_tok line h hb v hv
      obtain ⟨args, rfl⟩ := Option.ne_none_iff_exists'.mp hne
      rw [Option.getD_some, tok_args_flatten _ args ht (tok_run_between _)]
      have hsub := tok_foldl_sublist (args_input line) Tok.init [] (by simp [Tok.init])
      rw [List.nil_append] at hsub
      exact hsub.trans (args_input_sublist line)
  · intro hq hcom
    cases hb : blank_or_comment (drop_cr line) with
    | true =>
      refine ⟨none, args_parse_line_none line h hb, ?_⟩
      have hblank : (drop_cr line).dropWhile g_ascii_isspace = [] := by
        unfold blank_or_comment at hb
        unfold comment_line at hcom
        cases hd : (drop_cr line).dropWhile g_ascii_isspace with
        | nil => rfl
        | cons c cs =>
          rw [hd] at hb hcom
          simp only at hb hcom
          rw [hb] at hcom
          cases hcom
      have h1 := filter_args_input line
      unfold args_input at h1
      rw [skip_eq_dropWhile, hblank] at h1
      rw [← h1]
      rfl
    | false =>
      have hsubq : no_quoting (args_input line) := fun c hc =>
        hq c ((args_input_sublist line).subset hc)
      obtain ⟨g1, g2⟩ := tok_plain (args_input line) Tok.init hsubq (Or.inl rfl)
      have hargs : ∃ args, (Tok.run (args_input line)).args = some args := by
        unfold Tok.args Tok.run
        rcases g1 with g | g <;> simp [g]
      obtain ⟨args, ha⟩ := hargs
      refine ⟨some args, args_parse_line_of_tok line h hb args ha, ?_⟩
      rw [Option.getD_some, tok_args_flatten _ args ha (tok_run_between _)]
      unfold Tok.run
      rw [g2, filter_args_input]
      simp [Tok.init]

theorem args_parse_line_subsequence_witness :
    args_parse_line ['a', bslash, ' ', dquote, 'b', ' ', dquote, ' ', 'c']
      = .ok (some [['a', ' ', 'b', ' '], ['c']])
    ∧ ['a', ' ', 'b', ' ', 'c'].Sublist ['a', bslash, ' ', dquote, 'b', ' ', dquote, ' ', 'c'] :=
  ⟨by decide,
   (args_parse_line_subsequence ['a', bslash, ' ', dquote, 'b', ' ', dquote, ' ', 'c']
      (by decide)).2.2.2.2.1 (some [['a', ' ', 'b', ' '], ['c']]) (by decide)⟩

theorem strsplit_pieces_cons (d : CStr) (c : Char) (cs : CStr) :
    strsplit_pieces d (c :: cs)
      = if d.contains c then [] :: strsplit_pieces d cs
        else (strsplit_pieces d cs).modifyHead (fun p => c :: p) := by
  have hne := strsplit_pieces_ne_nil d cs
  rw [strsplit_pieces]
  split_ifs
  · rfl
  · cases hp : strsplit_pieces d cs with
    | nil => exact absurd hp hne
    | cons p ps => rfl

theorem tok_pieces (d input : CStr) :
    ∀ t : Tok, no_quoting input → (∀ c ∈ input, g_ascii_isspace c = d.contains c) →
      ((t.mode = .between ∧ t.cur = []) ∨ (t.mode = .word ∧ t.cur ≠ [])) →
      (input.foldl Tok.step t).args
        = some (t.done ++ (((strsplit_pieces d input).modifyHead (fun p => t.cur ++ p)).filter
            (fun p => p != []))) := by
  induction input with
  | nil =>
    intro t _ _ hm
    obtain ⟨mode, done, cur⟩ := t
    simp only at hm
    rcases hm with ⟨rfl, rfl⟩ | ⟨rfl, hcur⟩
    · simp [Tok.args, strsplit_pieces]
    · simp [Tok.args, strsplit_pieces, hcur]
  | cons c cs ih =>
    intro t hq hw hm
    obtain ⟨h1, h2, h3⟩ := hq c (List.mem_cons_self _ _)
    have hq1 : ¬ (c = dquote ∨ c = squote) := fun h => h.elim h1 h2
    have hcs : no_quoting cs := fun x hx => hq x (List.mem_cons_of_mem _ hx)
    have hws : ∀ x ∈ cs, g_ascii_isspace x = d.contains x := fun x hx =>
      hw x (List.mem_cons_of_mem _ hx)
    have hc := hw c (List.mem_cons_self _ _)
    have hne := strsplit_pieces_ne_nil d cs
    obtain ⟨mode, done, cur⟩ := t
    simp only at hm
    rw [List.foldl_cons, strsplit_pieces_cons]
    by_cases hsp : g_ascii_isspace c = true
    · have hd : c ∈ d := by
        have : d.contains c = true := by rw [← hc]; exact hsp
        simpa using this
      rcases hm with ⟨rfl, rfl⟩ | ⟨rfl, hcur⟩
      · have hstep : Tok.step { mode := .between, done := done, cur := [] } c
            = { mode := .between, done := done, cur := [] } := by
          simp [Tok.step, hsp]
        rw [hstep, ih _ hcs hws (Or.inl ⟨rfl, rfl⟩)]
        cases hp : strsplit_pieces d cs with
        | nil => exact absurd hp hne
        | cons p ps => simp [hd]
      · have hstep : Tok.step { mode := .word, done := done, cur := cur } c
            = { mode := .between, done := done ++ [cur], cur := [] } := by
          simp [Tok.step, Tok.switch, hq1, h3, hsp]
        rw [hstep, ih _ hcs hws (Or.inl ⟨rfl, rfl⟩)]
        cases hp : strsplit_pieces d cs with
        | nil => exact absurd hp hne
        | cons p ps => simp [hd, hcur]
    · have hsp1 : g_ascii_isspace c = false := by simpa using hsp
      have hd : c ∉ d := by
        have : d.contains c = false := by rw [← hc]; exact hsp1
        simpa using this
      have hstep : Tok.step { mode := mode, done := done, cur := cur } c
          = { mode := .word, done := done, cur := cur ++ [c] } := by
        rcases hm with ⟨rfl, rfl⟩ | ⟨rfl, hcur⟩ <;> simp [Tok.step, Tok.switch, hq1, h3, hsp1]
      rw [hstep, ih _ hcs hws (Or.inr ⟨rfl, by simp⟩)]
      cases hp : strsplit_pieces d cs with
      | nil => exact absurd hp hne
      | cons p ps => simp [hd]

theorem tok_skip (input : CStr) (t : Tok) (hm : t.mode = .between) :
    (input.dropWhile g_ascii_isspace).foldl Tok.step t = input.foldl Tok.step t := by
  induction input with
  | nil => rfl
  | cons c cs ih =>
    by_cases hsp : g_ascii_isspace c = true
    · have hstep : t.step c = t := by
        obtain ⟨mode, done, cur⟩ := t
        simp only at hm
        subst hm
        simp [Tok.step, hsp]
      rw [List.dropWhile_cons, if_pos hsp, ih, List.foldl_cons, hstep]
    · rw [List.dropWhile_cons, if_neg hsp]

theorem drop_cr_plain (line : CStr) (h : cr ∉ line) : drop_cr line = line := by
  unfold drop_cr
  split_ifs with hl
  · have hne : line ≠ [] := by
      rintro rfl
      simp at hl
    rw [List.getLast?_eq_getLast _ hne] at hl
    simp only [Option.some.injEq] at hl
    exact absurd (hl ▸ List.getLast_mem hne) h
  · rfl

/-- C32: at every point of the run of `args_parse_line` on a line, after `k`
of the characters behind the leading whitespace have been consumed, the bytes
written to the output buffer, decoded characters and one terminator for every
completed argument, are at most `k`; the bytes written and the room left make
up the size of the buffer, the length of the text behind the leading
whitespace plus one, so that the room is positive, the guard `*len > 0` of
`_strbuf_append_c` holds and the byte is written.  The output at the end, with
the terminator of the last argument, is at most the length of the line plus
one; it is the buffer from which the returned arguments are read. -/
theorem args_parse_line_buffer (line : CStr) (k : Nat) (hk : k ≤ (args_input line).length) :
    (args_at line k).buf.data.length ≤ k
    ∧ (args_at line k).buf.data.length + (args_at line k).buf.len = (args_input line).length + 1
    ∧ 0 < (args_at line k).buf.len
    ∧ (∀ ch, _strbuf_append_c (args_at line k).buf ch
        = { data := (args_at line k).buf.data ++ [ch], len := (args_at line k).buf.len - 1 })
    ∧ (∀ index buf, args_end (args_at line (args_input line).length) = .ok (index, buf) →
        buf.data.length ≤ (args_input line).length + 1
        ∧ buf.data.length ≤ line.length + 1
        ∧ ((∀ c ∈ line, c ≠ nul ∧ c ≠ lf) → blank_or_comment (drop_cr line) = false →
            args_parse_line line = .ok (some (index.map (cstr_at buf.data))))) := by
  have hsim := sim_at line k hk
  obtain ⟨-, -, -, -, hsum, hle⟩ := hsim
  have hpos : 0 < (args_at line k).buf.len := by omega
  refine ⟨hle, hsum, hpos, ?_, ?_⟩
  · intro ch
    unfold _strbuf_append_c
    rw [if_pos hpos]
  · intro index buf he
    have hend := sim_at line (args_input line).length (Nat.le_refl _)
    obtain ⟨-, -, -, -, -, hle2⟩ := hend
    have hlen := args_end_length _ index buf he
    have hin : (args_input line).length ≤ line.length := (args_input_sublist line).length_le
    refine ⟨by omega, by omega, ?_⟩
    intro h hb
    unfold args_at at he
    rw [List.take_length] at he
    exact (args_parse_line_run line h hb).2 index buf he

theorem args_parse_line_buffer_witness :
    (args_at [' ', 'a', bslash, ' ', dquote, 'b', dquote, ' ', 'c'] 5).buf.data.length ≤ 5
    ∧ 0 < (args_at [' ', 'a', bslash, ' ', dquote, 'b', dquote, ' ', 'c'] 5).buf.len :=
  ⟨(args_parse_line_buffer [' ', 'a', bslash, ' ', dquote, 'b', dquote, ' ', 'c'] 5
      (by decide)).1,
   (args_parse_line_buffer [' ', 'a', bslash, ' ', dquote, 'b', dquote, ' ', 'c'] 5
      (by decide)).2.2.1⟩

/-- C35: on a line that holds no quote character and no backslash, whose only
whitespace characters are space and tab, and whose first character that is
not blank is neither `#` nor `;`, `args_parse_line` succeeds and its argument
vector is the list of `get_args`, the line split at spaces and tabs with the
empty pieces dropped: the same items in the same order.  The vector is absent
exactly when the line holds no item at all. -/
theorem args_parse_line_get_args (line : CStr) (hq : no_quoting line)
    (hw : ∀ c ∈ line, g_ascii_isspace c = true → c = ' ' ∨ c = tab)
    (hn : nul ∉ line) (hc : comment_line line = false) :
    ∃ v, args_parse_line line = .ok v ∧ v.getD [] = get_args line
      ∧ (v.getD []).length = (get_args line).length
      ∧ (v = none ↔ line.dropWhile g_ascii_isspace = []) := by
  have hcr : cr ∉ line := by
    intro hmem
    have := hw cr hmem (by decide)
    revert this
    decide
  have hdrop := drop_cr_plain line hcr
  have h : ∀ c ∈ line, c ≠ nul ∧ c ≠ lf := by
    intro c hmem
    refine ⟨fun hc0 => hn (hc0 ▸ hmem), fun hc0 => ?_⟩
    subst hc0
    have := hw lf hmem (by decide)
    revert this
    decide
  have hd : ∀ c ∈ line, g_ascii_isspace c = [' ', tab].contains c := by
    intro c hmem
    by_cases hsp : g_ascii_isspace c = true
    · rcases hw c hmem hsp with rfl | rfl <;> decide
    · have hsp1 : g_ascii_isspace c = false := by simpa using hsp
      rw [hsp1]
      symm
      rw [Bool.eq_false_iff]
      intro hcon
      have : c = ' ' ∨ c = tab := by simpa using hcon
      rcases this with rfl | rfl <;> exact hsp (by decide)
  have hrun := tok_pieces [' ', tab] line Tok.init hq hd (Or.inl ⟨rfl, rfl⟩)
  have hinit : ∀ ps : List CStr, ps.modifyHead (fun p => Tok.init.cur ++ p) = ps := by
    intro ps
    cases ps <;> simp [Tok.init]
  rw [hinit] at hrun
  have hdone : Tok.init.done = [] := rfl
  rw [hdone, List.nil_append] at hrun
  have hskip : Tok.run (args_input line) = line.foldl Tok.step Tok.init := by
    unfold Tok.run args_input
    rw [skip_eq_dropWhile, hdrop]
    exact tok_skip line Tok.init rfl
  cases hb : blank_or_comment (drop_cr line) with
  | true =>
    have hblank : line.dropWhile g_ascii_isspace = [] := by
      unfold blank_or_comment at hb
      unfold comment_line at hc
      rw [hdrop] at hb hc
      cases hdw : line.dropWhile g_ascii_isspace with
      | nil => rfl
      | cons c cs =>
        rw [hdw] at hb hc
        simp only at hb hc
        rw [hb] at hc
        cases hc
    have hall : line.foldl Tok.step Tok.init = Tok.init := by
      rw [← tok_skip line Tok.init rfl, hblank]
      rfl
    rw [hall] at hrun
    have hnil : (strsplit_pieces [' ', tab] line).filter (fun p => p != []) = [] := by
      have : Tok.init.args = some [] := rfl
      rw [this] at hrun
      simp only [Option.some.injEq] at hrun
      exact hrun.symm
    have hget : get_args line = [] := by
      unfold get_args g_strsplit_set
      split_ifs
      · rfl
      · exact hnil
    refine ⟨none, args_parse_line_none line h hb, ?_, ?_, ?_⟩
    · rw [hget]
      rfl
    · rw [hget]
      rfl
    · simp [hblank]
  | false =>
    have hne : line ≠ [] := by
      rintro rfl
      revert hb
      decide
    have hnb : line.dropWhile g_ascii_isspace ≠ [] := by
      intro hnil
      unfold blank_or_comment at hb
      rw [hdrop, hnil] at hb
      cases hb
    have hget : get_args line = (strsplit_pieces [' ', tab] line).filter (fun p => p != []) := by
      unfold get_args g_strsplit_set
      rw [if_neg hne]
    rw [← hskip, ← hget] at hrun
    refine ⟨some (get_args line), args_parse_line_of_tok line h hb _ hrun, rfl, rfl, ?_⟩
    simp [hnb]

theorem args_parse_line_get_args_witness :
    args_parse_line [' ', 'a', 'b', tab, ' ', 'c', ' '] = .ok (some [['a', 'b'], ['c']])
    ∧ get_args [' ', 'a', 'b', tab, ' ', 'c', ' '] = [['a', 'b'], ['c']]
    ∧ ∃ v, args_parse_line [' ', 'a', 'b', tab, ' ', 'c', ' '] = .ok v
        ∧ v.getD [] = get_args [' ', 'a', 'b', tab, ' ', 'c', ' ']
        ∧ (v.getD []).length = (get_args [' ', 'a', 'b', tab, ' ', 'c', ' ']).length
        ∧ (v = none ↔ [' ', 'a', 'b', tab, ' ', 'c', ' '].dropWhile g_ascii_isspace = []) :=
  ⟨by decide, by decide,
   args_parse_line_get_args [' ', 'a', 'b', tab, ' ', 'c', ' ']
     (by unfold no_quoting; decide) (by decide) (by decide) (by decide)⟩


/-- C33: the line `dev`, three characters long, is accepted by
`args_is_option` for the tag `dev `, which is four characters long, so an
accepted line can be shorter than its tag; the argument text
`*line + strlen (tag)` then starts one byte behind the terminator of the line,
outside its allocation.  On the configuration `client`, `remote h`, `dev`
the import stores no `dev` setting when a NUL lies there, and stores `tun0`
when the bytes `tun0` lie there. -/
theorem do_import_bare_dev :
    (import_pieces env_plain conf_bare_dev).get? 2 = some "dev".toList
    ∧ args_is_option "dev".toList TAG_DEV = true
    ∧ "dev".toList.length < TAG_DEV.length
    ∧ (∀ env : Env, arg_text env { text := "dev".toList, beyond := none } TAG_DEV
        = env.overread "dev".toList)
    ∧ (∃ c written, do_import env_plain conf_path conf_bare_dev = .connection c written
        ∧ nm_setting_vpn_get_data_item c.data NM_OPENVPN_KEY_DEV = none)
    ∧ (∃ c written, do_import env_behind conf_path conf_bare_dev = .connection c written
        ∧ nm_setting_vpn_get_data_item c.data NM_OPENVPN_KEY_DEV = some "tun0".toList) := by
  refine ⟨by decide, by decide, by decide, fun env => rfl, ⟨_, _, rfl, by decide⟩,
    ⟨_, _, rfl, by decide⟩⟩

theorem args_is_option_first_word (line tag : CStr) (htag : tag ≠ [])
    (hns : ∀ c ∈ tag_word tag, g_ascii_isspace c = false) :
    args_is_option line tag = true ↔ first_word line = tag_word tag := by
  rw [args_is_option_spec line tag htag]
  constructor
  · rintro ⟨r, rfl, hr⟩
    exact first_word_append _ _ hns hr
  · intro hw
    refine ⟨line.dropWhile (fun c => !g_ascii_isspace c), ?_, ?_⟩
    · rw [← hw]
      unfold first_word
      exact (List.takeWhile_append_dropWhile _ _).symm
    · rcases dropWhile_head (fun c => !g_ascii_isspace c) line with h | ⟨c, cs, h, hc⟩
      · exact Or.inl h
      · exact Or.inr ⟨c, cs, h, by simpa using hc⟩

theorem directive_tags_plain :
    ∀ tag ∈ DIRECTIVE_TAGS, tag ≠ [] ∧ ∀ c ∈ tag_word tag, g_ascii_isspace c = false := by
  decide

theorem find_unique {α : Type} (p : α → Bool) (l m : List α) (hperm : l.Perm m)
    (huniq : ∀ a ∈ m, ∀ b ∈ m, p a = true → p b = true → a = b) :
    l.find? p = m.find? p := by
  cases hl : l.find? p with
  | none =>
    symm
    rw [List.find?_eq_none] at hl ⊢
    intro x hx
    exact hl x (hperm.mem_iff.mpr hx)
  | some a =>
    have ha := List.find?_some hl
    have hal := List.mem_of_find?_eq_some hl
    cases hm : m.find? p with
    | none =>
      rw [List.find?_eq_none] at hm
      exact absurd ha (hm a (hperm.mem_iff.mp hal))
    | some b =>
      have hb := List.find?_some hm
      have hbm := List.mem_of_find?_eq_some hm
      rw [huniq a (hperm.mem_iff.mp hal) b hbm ha hb]

/-- C34: for every line, `args_is_option` accepts a directive tag of the
importer exactly when the leading run of non-whitespace characters of the line
is the tag without its trailing space.  The tags without their trailing space
are pairwise distinct, so at most one tag is accepted, and the first tag that
a sequence of matchers accepts is the same in whatever order the matchers are
tried.  A line that starts with whitespace is accepted for no tag. -/
theorem args_is_option_unique (line : CStr) :
    (∀ tag ∈ DIRECTIVE_TAGS, (args_is_option line tag = true ↔ first_word line = tag_word tag))
    ∧ (DIRECTIVE_TAGS.map tag_word).Nodup
    ∧ (∀ t1 ∈ DIRECTIVE_TAGS, ∀ t2 ∈ DIRECTIVE_TAGS,
        args_is_option line t1 = true → args_is_option line t2 = true → t1 = t2)
    ∧ (∀ order : List CStr, order.Perm DIRECTIVE_TAGS →
        order.find? (fun tag => args_is_option line tag)
          = DIRECTIVE_TAGS.find? (fun tag => args_is_option line tag))
    ∧ ((∃ c cs, line = c :: cs ∧ g_ascii_isspace c = true) →
        ∀ tag ∈ DIRECTIVE_TAGS, args_is_option line tag = false) := by
  have hiff : ∀ tag ∈ DIRECTIVE_TAGS,
      (args_is_option line tag = true ↔ first_word line = tag_word tag) := fun tag ht =>
    args_is_option_first_word line tag (directive_tags_plain tag ht).1
      (directive_tags_plain tag ht).2
  have hnodup : (DIRECTIVE_TAGS.map tag_word).Nodup := by decide
  have huniq : ∀ t1 ∈ DIRECTIVE_TAGS, ∀ t2 ∈ DIRECTIVE_TAGS,
      args_is_option line t1 = true → args_is_option line t2 = true → t1 = t2 := by
    intro t1 h1 t2 h2 a1 a2
    have e : tag_word t1 = tag_word t2 := ((hiff t1 h1).mp a1).symm.trans ((hiff t2 h2).mp a2)
    exact List.inj_on_of_nodup_map hnodup h1 h2 e
  refine ⟨hiff, hnodup, huniq, ?_, ?_⟩
  · intro order hperm
    exact find_unique _ order DIRECTIVE_TAGS hperm huniq
  · rintro ⟨c, cs, rfl, hc⟩ tag ht
    have hw : first_word (c :: cs) = [] := by
      simp [first_word, hc]
    cases ha : args_is_option (c :: cs) tag with
    | false => rfl
    | true =>
      have e := (hiff tag ht).mp ha
      rw [hw] at e
      have hall : ∀ t ∈ DIRECTIVE_TAGS, [] ≠ tag_word t := by decide
      exact absurd e (hall tag ht)

theorem args_is_option_unique_witness :
    TAG_REMOTE ∈ DIRECTIVE_TAGS
    ∧ (args_is_option "remote-random".toList TAG_REMOTE = true
        ↔ first_word "remote-random".toList = tag_word TAG_REMOTE)
    ∧ first_word "remote-random".toList = tag_word TAG_REMOTE_RANDOM
    ∧ args_is_option "remote-random".toList TAG_REMOTE_RANDOM = true
    ∧ args_is_option "remote-random".toList TAG_REMOTE = false :=
  ⟨by decide, (args_is_option_unique "remote-random".toList).1 TAG_REMOTE (by decide),
   by decide, by decide, by decide⟩


theorem digits_fold (ds : CStr) (x : Nat) :
    ds.foldl (fun acc c => acc * 10 + (c.toNat - 48)) x
      = x * 10 ^ ds.length + ds.foldl (fun acc c => acc * 10 + (c.toNat - 48)) 0 := by
  induction ds generalizing x with
  | nil => simp
  | cons c ds ih =>
    rw [List.foldl_cons, List.foldl_cons, ih, ih (0 * 10 + (c.toNat - 48)), List.length_cons]
    ring

theorem digit_char_value : ∀ k, k < 10 → (Char.ofNat (48 + k)).toNat - 48 = k := by
  decide

theorem nat_digits_value (fuel : Nat) :
    ∀ (n : Nat) (acc : CStr), n < fuel →
      digits_value (nat_digits fuel n acc) = n * 10 ^ acc.length + digits_value acc := by
  induction fuel with
  | zero => intro n acc h; omega
  | succ fuel ih =>
    intro n acc h
    have hcons : digits_value (Char.ofNat (48 + n % 10) :: acc)
        = (n % 10) * 10 ^ acc.length + digits_value acc := by
      unfold digits_value
      rw [List.foldl_cons, digits_fold, digit_char_value _ (Nat.mod_lt _ (by omega))]
      simp
    unfold nat_digits
    simp only
    split_ifs with h0
    · rw [hcons]
      have : n % 10 = n := Nat.mod_eq_of_lt (by omega)
      rw [this]
    · rw [ih (n / 10) _ (by omega), hcons, List.length_cons]
      have hn := Nat.div_add_mod n 10
      generalize n / 10 = q at hn ⊢
      generalize n % 10 = r at hn ⊢
      rw [← hn]
      ring

theorem digits_value_print (n : Nat) : digits_value (print_nat n) = n := by
  unfold print_nat
  rw [nat_digits_value (n + 1) n [] (by omega)]
  simp [digits_value]

theorem digit_not_isspace (c : Char) (h : c.isDigit = true) : isspace c = false := by
  rw [Bool.eq_false_iff]
  intro hs
  have : c = ' ' ∨ c = tab ∨ c = lf ∨ c = vtab ∨ c = ff ∨ c = cr := by
    simpa [isspace, or_assoc] using hs
  rcases this with rfl | rfl | rfl | rfl | rfl | rfl <;> revert h <;> decide

theorem strtol_of_digits (p : CStr) (hne : p ≠ []) (hd : ∀ c ∈ p, c.isDigit = true)
    (hv : digits_value p < 65536) : strtol p = ((digits_value p : Int), false) := by
  obtain ⟨a, t, rfl⟩ := List.exists_cons_of_ne_nil hne
  have ha := hd a (List.mem_cons_self _ _)
  have h1 : (a :: t).dropWhile isspace = a :: t := by
    simp [List.dropWhile_cons, digit_not_isspace a ha]
  have h2 : a ≠ '-' := by
    rintro rfl
    revert ha
    decide
  have h3 : a ≠ '+' := by
    rintro rfl
    revert ha
    decide
  have h4 : (a :: t).takeWhile Char.isDigit = a :: t := by
    rw [List.takeWhile_eq_self_iff]
    exact hd
  unfold strtol
  simp only [h1, List.head?_cons, Option.some.injEq, h2, h3, or_self, if_false, h4,
    decide_False, Bool.false_eq_true]
  have : ¬ ((digits_value (a :: t) : Int) > LONG_MAX) := by
    unfold LONG_MAX
    omega
  rw [if_neg this]

theorem port_ok_iff (p : CStr) (h : port_ok p = true) :
    p ≠ [] ∧ (∀ c ∈ p, c.isDigit = true) ∧ 0 < digits_value p ∧ digits_value p < 65536 := by
  unfold port_ok at h
  simpa [and_assoc] using h

theorem parse_port_digits (p : CStr) (h : port_ok p = true) :
    parse_port p = some (print_nat (digits_value p)) := by
  obtain ⟨hne, hd, h0, h1⟩ := port_ok_iff p h
  rw [parse_port_eq, strtol_of_digits p hne hd h1]
  simp only
  rw [if_pos ⟨by omega, by omega⟩]
  simp

theorem port_ok_print (p : CStr) (h : port_ok p = true) :
    port_ok (print_nat (digits_value p)) = true := by
  obtain ⟨-, -, h0, h1⟩ := port_ok_iff p h
  unfold port_ok
  simp only [digits_value_print, Bool.and_eq_true, bne_iff_ne, ne_eq, List.all_eq_true,
    decide_eq_true_eq]
  exact ⟨⟨⟨print_nat_ne_nil _, print_nat_digits _⟩, h0⟩, h1⟩

theorem digit_clean (c : Char) (h : c.isDigit = true) :
    c ≠ ':' ∧ c ≠ ',' ∧ c ≠ hash ∧ c ≠ semi ∧ g_ascii_isspace c = false := by
  have hne : ∀ x : Char, x.isDigit = false → c ≠ x := by
    rintro x hx rfl
    rw [h] at hx
    cases hx
  have hs : g_ascii_isspace c = false := by
    have := digit_not_isspace c h
    simp only [isspace, Bool.or_eq_false_iff] at this
    simp [g_ascii_isspace, this]
  exact ⟨hne _ (by decide), hne _ (by decide), hne _ (by decide), hne _ (by decide), hs⟩

theorem host_ok_iff (h : CStr) (hh : host_ok h = true) :
    h ≠ [] ∧ ∀ c ∈ h, c ≠ ':' ∧ c ≠ ',' ∧ c ≠ hash ∧ c ≠ semi ∧ g_ascii_isspace c = false := by
  unfold host_ok at hh
  simpa [and_assoc] using hh

theorem proto_ok_iff (q : CStr) (hq : proto_ok q = true) :
    q ≠ [] ∧ parse_protocol q ≠ none
      ∧ ∀ c ∈ q, c ≠ ':' ∧ c ≠ ',' ∧ c ≠ hash ∧ c ≠ semi ∧ g_ascii_isspace c = false := by
  unfold proto_ok at hq
  have : q = "udp".toList ∨ q = "tcp".toList := by simpa using hq
  rcases this with rfl | rfl <;> decide

theorem valid_cases (d : RemoteDirective) (h : d.valid = true) :
    host_ok d.host = true
    ∧ ((d.more = none)
      ∨ (∃ p, d.more = some (p, none) ∧ port_ok p = true)
      ∨ (∃ p q, d.more = some (p, some q) ∧ port_ok p = true ∧ proto_ok q = true)) := by
  obtain ⟨host, more⟩ := d
  unfold RemoteDirective.valid at h
  simp only [Bool.and_eq_true] at h
  refine ⟨h.1, ?_⟩
  have h2 := h.2
  match more, h2 with
  | none, _ => exact Or.inl rfl
  | some (p, none), h2 => exact Or.inr (Or.inl ⟨p, rfl, h2⟩)
  | some (p, some q), h2 =>
    simp only [Bool.and_eq_true] at h2
    exact Or.inr (Or.inr ⟨p, q, rfl, h2.1, h2.2⟩)

theorem clean_no_blank (w : CStr)
    (h : ∀ c ∈ w, c ≠ ':' ∧ c ≠ ',' ∧ c ≠ hash ∧ c ≠ semi ∧ g_ascii_isspace c = false) :
    (∀ c ∈ w, [' ', tab].contains c = false) ∧ (∀ c ∈ w, [' ', ','].contains c = false)
      ∧ (∀ c ∈ w, [cr, lf].contains c = false) := by
  have hsp : ∀ c ∈ w, c ≠ ' ' ∧ c ≠ tab ∧ c ≠ cr ∧ c ≠ lf := by
    intro c hc
    have := (h c hc).2.2.2.2
    refine ⟨?_, ?_, ?_, ?_⟩ <;> rintro rfl <;> revert this <;> decide
  refine ⟨fun c hc => ?_, fun c hc => ?_, fun c hc => ?_⟩
  · obtain ⟨a, b, -, -⟩ := hsp c hc
    simp [a, b]
  · obtain ⟨a, -, -, -⟩ := hsp c hc
    simp [a, (h c hc).2.1]
  · obtain ⟨-, -, a, b⟩ := hsp c hc
    simp [a, b]

theorem port_clean (p : CStr) (h : port_ok p = true) :
    ∀ c ∈ p, c ≠ ':' ∧ c ≠ ',' ∧ c ≠ hash ∧ c ≠ semi ∧ g_ascii_isspace c = false :=
  fun c hc => digit_clean c ((port_ok_iff p h).2.1 c hc)

theorem get_args_two (a b : CStr) (ha : a ≠ []) (hb : b ≠ [])
    (hca : ∀ c ∈ a, [' ', tab].contains c = false) (hcb : ∀ c ∈ b, [' ', tab].contains c = false) :
    get_args (a ++ [' '] ++ b) = [a, b] := by
  unfold get_args g_strsplit_set
  rw [if_neg (by simp)]
  have : a ++ [' '] ++ b = a ++ ' ' :: b := by simp
  rw [this, strsplit_pieces_append _ _ _ _ hca (by decide), strsplit_pieces_whole _ _ hcb]
  simp [ha, hb]

theorem get_args_three (a b c : CStr) (ha : a ≠ []) (hb : b ≠ []) (hc : c ≠ [])
    (hca : ∀ x ∈ a, [' ', tab].contains x = false) (hcb : ∀ x ∈ b, [' ', tab].contains x = false)
    (hcc : ∀ x ∈ c, [' ', tab].contains x = false) :
    get_args (a ++ [' '] ++ b ++ [' '] ++ c) = [a, b, c] := by
  unfold get_args g_strsplit_set
  rw [if_neg (by simp)]
  have : a ++ [' '] ++ b ++ [' '] ++ c = a ++ ' ' :: (b ++ ' ' :: c) := by simp
  rw [this, strsplit_pieces_append _ _ _ _ hca (by decide),
    strsplit_pieces_append _ _ _ _ hcb (by decide), strsplit_pieces_whole _ _ hcc]
  simp [ha, hb, hc]

theorem get_args_one (a : CStr) (ha : a ≠ [])
    (hca : ∀ c ∈ a, [' ', tab].contains c = false) : get_args a = [a] := by
  unfold get_args g_strsplit_set
  rw [if_neg ha, strsplit_pieces_whole _ _ hca]
  simp [ha]

theorem remote_entry_directive (d : RemoteDirective) (h : d.valid = true) :
    remote_entry (get_args d.args) = some d.entry := by
  obtain ⟨hh, hm⟩ := valid_cases d h
  obtain ⟨hne, hcl⟩ := host_ok_iff d.host hh
  have hb := (clean_no_blank d.host hcl).1
  rcases hm with hm | ⟨p, hm, hp⟩ | ⟨p, q, hm, hp, hq⟩
  · unfold RemoteDirective.args RemoteDirective.entry
    simp only [hm]
    rw [get_args_one _ hne hb]
    rfl
  · unfold RemoteDirective.args RemoteDirective.entry
    simp only [hm]
    rw [get_args_two _ _ hne (port_ok_iff p hp).1 hb (clean_no_blank p (port_clean p hp)).1]
    simp only [remote_entry, parse_port_digits p hp]
  · unfold RemoteDirective.args RemoteDirective.entry
    simp only [hm]
    obtain ⟨hqn, hqp, hqc⟩ := proto_ok_iff q hq
    rw [get_args_three _ _ _ hne (port_ok_iff p hp).1 hqn hb
      (clean_no_blank p (port_clean p hp)).1 (clean_no_blank q hqc).1]
    obtain ⟨b, hb2⟩ := Option.ne_none_iff_exists'.mp hqp
    simp only [remote_entry, parse_port_digits p hp, hb2]

theorem args_chars (d : RemoteDirective) (h : d.valid = true) :
    d.args ≠ [] ∧ ∀ c ∈ d.args, c ≠ hash ∧ c ≠ semi ∧ c ≠ cr ∧ c ≠ lf := by
  obtain ⟨hh, hm⟩ := valid_cases d h
  obtain ⟨hne, hcl⟩ := host_ok_iff d.host hh
  have key : ∀ w : CStr,
      (∀ c ∈ w, c ≠ ':' ∧ c ≠ ',' ∧ c ≠ hash ∧ c ≠ semi ∧ g_ascii_isspace c = false) →
      ∀ c ∈ w, c ≠ hash ∧ c ≠ semi ∧ c ≠ cr ∧ c ≠ lf := by
    intro w hw c hc
    obtain ⟨-, -, a, b, s⟩ := hw c hc
    refine ⟨a, b, ?_, ?_⟩ <;> rintro rfl <;> revert s <;> decide
  have hsp : ∀ c ∈ [' '], c ≠ hash ∧ c ≠ semi ∧ c ≠ cr ∧ c ≠ lf := by decide
  rcases hm with hm | ⟨p, hm, hp⟩ | ⟨p, q, hm, hp, hq⟩
  · unfold RemoteDirective.args
    simp only [hm]
    exact ⟨hne, key _ hcl⟩
  · unfold RemoteDirective.args
    simp only [hm]
    refine ⟨by simp, ?_⟩
    intro c hc
    simp only [List.mem_append] at hc
    rcases hc with (hc | hc) | hc
    · exact key _ hcl c hc
    · exact hsp c hc
    · exact key _ (port_clean p hp) c hc
  · unfold RemoteDirective.args
    simp only [hm]
    refine ⟨by simp, ?_⟩
    intro c hc
    simp only [List.mem_append] at hc
    rcases hc with (((hc | hc) | hc) | hc) | hc
    · exact key _ hcl c hc
    · exact hsp c hc
    · exact key _ (port_clean p hp) c hc
    · exact hsp c hc
    · exact key _ (proto_ok_iff q hq).2.2 c hc

theorem line_chars (d : RemoteDirective) (h : d.valid = true) :
    ∀ c ∈ d.line, c ≠ hash ∧ c ≠ semi ∧ c ≠ cr ∧ c ≠ lf := by
  intro c hc
  unfold RemoteDirective.line at hc
  rcases List.mem_append.mp hc with hm | hm
  · have hall : ∀ y ∈ "remote ".toList, y ≠ hash ∧ y ≠ semi ∧ y ≠ cr ∧ y ≠ lf := by decide
    exact hall c hm
  · exact (args_chars d h).2 c hm

theorem import_line_directive (env : Env) (path dp name : CStr) (d : RemoteDirective)
    (rest : List CStr) (st : ImportState) (h : d.valid = true) :
    import_line env path dp name { text := d.line, beyond := none } rest st
      = .next ({ st with have_remote := true }.add NM_OPENVPN_KEY_REMOTE
          (join_remote (nm_setting_vpn_get_data_item st.data NM_OPENVPN_KEY_REMOTE) d.entry)) 0 := by
  have hw : first_word d.line = "remote".toList := by
    have : d.line = "remote".toList ++ (' ' :: d.args) := rfl
    rw [this]
    exact first_word_append _ _ (by decide) (Or.inr ⟨' ', d.args, rfl, by decide⟩)
  have harg : arg_text env { text := d.line, beyond := none } TAG_REMOTE = d.args := by
    unfold arg_text
    have hl : TAG_REMOTE.length ≤ d.line.length := by
      simp [RemoteDirective.line, TAG_REMOTE]
    simp only [hl, if_true]
    rfl
  have hhead : import_head env path { text := d.line, beyond := none } st
      = some ({ st with have_remote := true }.add NM_OPENVPN_KEY_REMOTE
          (join_remote (nm_setting_vpn_get_data_item st.data NM_OPENVPN_KEY_REMOTE) d.entry)) := by
    rw [import_head_remote env path _ st hw]
    unfold import_remote
    simp only [is_option_REMOTE, hw, decide_True, Bool.not_true, Bool.false_eq_true, if_false,
      harg, remote_entry_directive d h, join_remote]
  unfold import_line
  rw [hhead]

theorem import_lines_directives (env : Env) (path dp name : CStr) (ds : List RemoteDirective)
    (hds : ∀ d ∈ ds, d.valid = true) (rest : List CStr) (st : ImportState) :
    import_lines env path dp name st 0 (ds.map RemoteDirective.line ++ rest)
      = import_lines env path dp name (scan_remotes st (ds.map RemoteDirective.entry)) 0 rest := by
  induction ds generalizing st with
  | nil => rw [List.map_nil, List.map_nil, scan_remotes_nil]; rfl
  | cons d ds ih =>
    have hd := hds d (List.mem_cons_self _ _)
    have hch := line_chars d hd
    have hstrip : strip_comment d.line = { text := d.line, beyond := none } :=
      strip_comment_clean _ (fun hm => (hch _ hm).1 rfl) (fun hm => (hch _ hm).2.1 rfl)
    have hne : d.line ≠ [] := by simp [RemoteDirective.line]
    rw [List.map_cons, List.cons_append, import_lines]
    simp only [hstrip, hne, if_false, import_line_directive env path dp name d _ st hd]
    rw [ih (fun x hx => hds x (List.mem_cons_of_mem _ hx)), List.map_cons, scan_remotes_cons]

theorem pieces_directive_lines (ds : List RemoteDirective) (hds : ∀ d ∈ ds, d.valid = true)
    (tail : CStr) :
    strsplit_pieces [cr, lf] (directive_lines ds ++ tail)
      = ds.map RemoteDirective.line ++ strsplit_pieces [cr, lf] tail := by
  induction ds with
  | nil => rfl
  | cons d ds ih =>
    have : directive_lines (d :: ds) ++ tail = d.line ++ lf :: (directive_lines ds ++ tail) := by
      simp [directive_lines]
    have hch := line_chars d (hds d (List.mem_cons_self _ _))
    have hbr : ∀ x ∈ d.line, [cr, lf].contains x = false := by
      intro x hx
      obtain ⟨-, -, a, b⟩ := hch x hx
      simp [a, b]
    rw [this, strsplit_pieces_append _ _ _ _ hbr (by decide),
      ih (fun x hx => hds x (List.mem_cons_of_mem _ hx))]
    rfl

theorem g_strstrip_clean (w : CStr) (h : ∀ c ∈ w, g_ascii_isspace c = false) :
    g_strstrip w = w := by
  unfold g_strstrip g_strchomp g_strchug
  have h1 : w.dropWhile g_ascii_isspace = w := by
    cases w with
    | nil => rfl
    | cons a w => simp [List.dropWhile_cons, h a (List.mem_cons_self _ _)]
  rw [h1, List.rdropWhile_eq_self_iff]
  intro hne
  simp [h _ (List.getLast_mem hne)]

theorem entry_chars (d : RemoteDirective) (h : d.valid = true) :
    d.entry ≠ [] ∧ ∀ c ∈ d.entry, c ≠ ',' ∧ g_ascii_isspace c = false := by
  obtain ⟨hh, hm⟩ := valid_cases d h
  obtain ⟨hne, hcl⟩ := host_ok_iff d.host hh
  have key : ∀ w : CStr,
      (∀ c ∈ w, c ≠ ':' ∧ c ≠ ',' ∧ c ≠ hash ∧ c ≠ semi ∧ g_ascii_isspace c = false) →
      ∀ c ∈ w, c ≠ ',' ∧ g_ascii_isspace c = false := fun w hw c hc =>
    ⟨(hw c hc).2.1, (hw c hc).2.2.2.2⟩
  have hcolon : ∀ c ∈ [':'], c ≠ ',' ∧ g_ascii_isspace c = false := by decide
  rcases hm with hm | ⟨p, hm, hp⟩ | ⟨p, q, hm, hp, hq⟩
  · unfold RemoteDirective.entry
    simp only [hm]
    exact ⟨hne, key _ hcl⟩
  · unfold RemoteDirective.entry
    simp only [hm]
    refine ⟨by simp, ?_⟩
    intro c hc
    simp only [List.mem_append] at hc
    rcases hc with (hc | hc) | hc
    · exact key _ hcl c hc
    · exact hcolon c hc
    · exact key _ (port_clean _ (port_ok_print p hp)) c hc
  · unfold RemoteDirective.entry
    simp only [hm]
    refine ⟨by simp, ?_⟩
    intro c hc
    simp only [List.mem_append] at hc
    rcases hc with (((hc | hc) | hc) | hc) | hc
    · exact key _ hcl c hc
    · exact hcolon c hc
    · exact key _ (port_clean _ (port_ok_print p hp)) c hc
    · exact hcolon c hc
    · exact key _ (proto_ok_iff q hq).2.2 c hc

theorem export_remote_line_directive (d : RemoteDirective) (h : d.valid = true) :
    export_remote_line d.entry = d.canonical.line ++ [lf] := by
  have hstrip := g_strstrip_clean d.entry (fun c hc => ((entry_chars d h).2 c hc).2)
  obtain ⟨hh, hm⟩ := valid_cases d h
  obtain ⟨hne, hcl⟩ := host_ok_iff d.host hh
  have hhost : ':' ∉ d.host := fun hmem => (hcl _ hmem).1 rfl
  obtain ⟨host, more⟩ := d
  simp only at hm hhost hne hcl
  rcases hm with hm | ⟨p, hm, hp⟩ | ⟨p, q, hm, hp, hq⟩
  · subst hm
    rw [export_remote_line_host _ host hstrip hhost]
    rfl
  · subst hm
    have hpc : ':' ∉ print_nat (digits_value p) := fun hmem =>
      (port_clean _ (port_ok_print p hp) _ hmem).1 rfl
    rw [export_remote_line_port _ host (print_nat (digits_value p)) hstrip hhost hpc
      (print_nat_ne_nil _)]
    simp [RemoteDirective.canonical, RemoteDirective.line, RemoteDirective.args]
  · subst hm
    have hpc : ':' ∉ print_nat (digits_value p) := fun hmem =>
      (port_clean _ (port_ok_print p hp) _ hmem).1 rfl
    rw [export_remote_line_proto _ host (print_nat (digits_value p)) q hstrip hhost hpc
      (print_nat_ne_nil _) (proto_ok_iff q hq).1]
    simp [RemoteDirective.canonical, RemoteDirective.line, RemoteDirective.args]

theorem filter_pieces_join_clean (es : List CStr) (hne : es ≠ [])
    (hes : ∀ e ∈ es, e ≠ [] ∧ ∀ c ∈ e, [' ', ','].contains c = false) :
    (strsplit_pieces [' ', ','] (List.intercalate ", ".toList es)).filter (fun p => p != [])
      = es := by
  induction es with
  | nil => exact absurd rfl hne
  | cons h hs ih =>
    obtain ⟨hnil, hclean⟩ := hes h (List.mem_cons_self _ _)
    cases hs with
    | nil =>
      have : List.intercalate ", ".toList [h] = h := by simp [List.intercalate]
      rw [this, strsplit_pieces_whole _ _ hclean]
      simp [hnil]
    | cons h2 t =>
      have e1 : List.intercalate ", ".toList (h :: h2 :: t)
          = h ++ ',' :: ([] ++ ' ' :: List.intercalate ", ".toList (h2 :: t)) := by
        rw [intercalate_cons_cons]
        simp
      rw [e1, strsplit_pieces_append _ _ _ _ hclean (by decide),
        strsplit_pieces_append _ _ _ _ (by simp) (by decide)]
      simp only [List.filter_cons, bne_self_eq_false, Bool.false_eq_true, if_false]
      rw [ih (by simp) (fun x hx => hes x (List.mem_cons_of_mem _ hx))]
      simp [hnil]

theorem entries_clean (ds : List RemoteDirective) (hds : ∀ d ∈ ds, d.valid = true) :
    ∀ e ∈ ds.map RemoteDirective.entry, e ≠ [] ∧ ∀ c ∈ e, [' ', ','].contains c = false := by
  intro e he
  obtain ⟨d, hd, rfl⟩ := List.mem_map.mp he
  obtain ⟨h1, h2⟩ := entry_chars d (hds d hd)
  refine ⟨h1, fun c hc => ?_⟩
  obtain ⟨a, b⟩ := h2 c hc
  have hsp : c ≠ ' ' := by
    rintro rfl
    revert b
    decide
  simp [a, hsp]

theorem entries_value_ne_nil (ds : List RemoteDirective) (hne : ds ≠ [])
    (hds : ∀ d ∈ ds, d.valid = true) :
    List.intercalate ", ".toList (ds.map RemoteDirective.entry) ≠ [] := by
  cases ds with
  | nil => exact absurd rfl hne
  | cons d t =>
    have hnil := (entry_chars d (hds d (List.mem_cons_self _ _))).1
    cases t with
    | nil => simpa [List.intercalate] using hnil
    | cons d2 t =>
      rw [List.map_cons, List.map_cons, intercalate_cons_cons]
      simp [hnil]

theorem export_remotes_directives (ds : List RemoteDirective) (hne : ds ≠ [])
    (hds : ∀ d ∈ ds, d.valid = true) :
    export_remotes (List.intercalate ", ".toList (ds.map RemoteDirective.entry))
      = directive_lines (ds.map RemoteDirective.canonical) := by
  unfold export_remotes g_strsplit_set
  rw [if_neg (entries_value_ne_nil ds hne hds),
    filter_pieces_join_clean _ (by simpa using hne) (entries_clean ds hds)]
  unfold directive_lines
  rw [List.flatMap_map, List.flatMap_map]
  apply List.flatMap_congr
  intro d hd
  exact export_remote_line_directive d (hds d hd)

theorem canonical_valid (d : RemoteDirective) (h : d.valid = true) :
    d.canonical.valid = true ∧ d.canonical.entry = d.entry := by
  obtain ⟨hh, hm⟩ := valid_cases d h
  obtain ⟨host, more⟩ := d
  simp only at hm hh
  rcases hm with hm | ⟨p, hm, hp⟩ | ⟨p, q, hm, hp, hq⟩
  · subst hm
    exact ⟨h, rfl⟩
  · subst hm
    refine ⟨?_, ?_⟩
    · simp [RemoteDirective.valid, RemoteDirective.canonical, hh, port_ok_print p hp]
    · simp [RemoteDirective.entry, RemoteDirective.canonical, digits_value_print]
  · subst hm
    refine ⟨?_, ?_⟩
    · simp [RemoteDirective.valid, RemoteDirective.canonical, hh, port_ok_print p hp, hq]
    · simp [RemoteDirective.entry, RemoteDirective.canonical, digits_value_print]

theorem get_remotes_data (es : List CStr) (k : CStr) (hes : ∀ e ∈ es, e ≠ []) :
    nm_setting_vpn_get_data_item
        (nm_setting_vpn_add_data_item (scan_data [] es)
          NM_OPENVPN_KEY_CONNECTION_TYPE NM_OPENVPN_CONTYPE_TLS) k
      = if k = NM_OPENVPN_KEY_CONNECTION_TYPE then some NM_OPENVPN_CONTYPE_TLS
        else if k = NM_OPENVPN_KEY_REMOTE then remote_value es
        else none := by
  by_cases h1 : k = NM_OPENVPN_KEY_CONNECTION_TYPE
  · rw [if_pos h1, h1, get_add_eq _ _ _ (by decide) (by decide)]
  · rw [if_neg h1, get_add_ne _ _ _ _ h1]
    by_cases h2 : k = NM_OPENVPN_KEY_REMOTE
    · rw [if_pos h2, h2, scan_data_get_remote es _ hes]
      exact add_entries_none es
    · rw [if_neg h2, scan_data_get_ne es _ k h2]
      rfl

theorem get_remotes_data_dev (es : List CStr) (hes : ∀ e ∈ es, e ≠ []) :
    nm_setting_vpn_get_data_item
        (nm_setting_vpn_add_data_item
          (nm_setting_vpn_add_data_item (scan_data [] es) NM_OPENVPN_KEY_DEV "tun".toList)
          NM_OPENVPN_KEY_CONNECTION_TYPE NM_OPENVPN_CONTYPE_TLS) NM_OPENVPN_KEY_REMOTE
      = remote_value es := by
  rw [get_add_ne _ _ _ _ (by decide), get_add_ne _ _ _ _ (by decide),
    scan_data_get_remote es _ hes]
  exact add_entries_none es

theorem export_text_remotes (out : CStr) (c : Connection) (es : List CStr) (lines : CStr)
    (hne : es ≠ []) (hv : List.intercalate ", ".toList es ≠ [])
    (hlines : export_remotes (List.intercalate ", ".toList es) = lines)
    (hroutes : c.routes = [])
    (hget : ∀ k, nm_setting_vpn_get_data_item c.data k
      = if k = NM_OPENVPN_KEY_CONNECTION_TYPE then some NM_OPENVPN_CONTYPE_TLS
        else if k = NM_OPENVPN_KEY_REMOTE then remote_value es
        else none) :
    do_export true out c
      = .success ("client\n".toList ++ lines ++ "dev tun\nproto udp\n".toList ++ EXPORT_TRAILER)
          none := by
  have hrem : get_nonempty c.data NM_OPENVPN_KEY_REMOTE
      = some (List.intercalate ", ".toList es) := by
    unfold get_nonempty
    rw [hget, if_neg (by decide), if_pos rfl, remote_value, if_neg hne]
    simp only [hv, if_false]
  have hct : get_nonempty c.data NM_OPENVPN_KEY_CONNECTION_TYPE = some NM_OPENVPN_CONTYPE_TLS := by
    unfold get_nonempty
    rw [hget, if_pos rfl]
    rfl
  have hother : ∀ k, k ≠ NM_OPENVPN_KEY_CONNECTION_TYPE → k ≠ NM_OPENVPN_KEY_REMOTE →
      nm_setting_vpn_get_data_item c.data k = none := by
    intro k h1 h2
    rw [hget, if_neg h1, if_neg h2]
  have g : ∀ k, k ≠ NM_OPENVPN_KEY_CONNECTION_TYPE → k ≠ NM_OPENVPN_KEY_REMOTE →
      get_nonempty c.data k = none := by
    intro k h1 h2
    unfold get_nonempty
    rw [hother k h1 h2]
  have y : ∀ k, k ≠ NM_OPENVPN_KEY_CONNECTION_TYPE → k ≠ NM_OPENVPN_KEY_REMOTE →
      is_yes c.data k = false := by
    intro k h1 h2
    unfold is_yes
    rw [hother k h1 h2]
    rfl
  unfold do_export
  simp only [Bool.not_true, Bool.false_eq_true, if_false, hrem, hct]
  unfold export_text export_options export_proxy
  simp only [hrem, Option.getD_some, hlines, hroutes,
    g NM_OPENVPN_KEY_DEV (by decide) (by decide),
    g NM_OPENVPN_KEY_CA (by decide) (by decide),
    g NM_OPENVPN_KEY_CERT (by decide) (by decide),
    g NM_OPENVPN_KEY_KEY (by decide) (by decide),
    g NM_OPENVPN_KEY_STATIC_KEY (by decide) (by decide),
    g NM_OPENVPN_KEY_STATIC_KEY_DIRECTION (by decide) (by decide),
    g NM_OPENVPN_KEY_DEV_TYPE (by decide) (by decide),
    g NM_OPENVPN_KEY_RENEG_SECONDS (by decide) (by decide),
    g NM_OPENVPN_KEY_CIPHER (by decide) (by decide),
    g NM_OPENVPN_KEY_KEYSIZE (by decide) (by decide),
    g NM_OPENVPN_KEY_TUNNEL_MTU (by decide) (by decide),
    g NM_OPENVPN_KEY_FRAGMENT_SIZE (by decide) (by decide),
    g NM_OPENVPN_KEY_PORT (by decide) (by decide),
    g NM_OPENVPN_KEY_PING (by decide) (by decide),
    g NM_OPENVPN_KEY_PING_EXIT (by decide) (by decide),
    g NM_OPENVPN_KEY_PING_RESTART (by decide) (by decide),
    g NM_OPENVPN_KEY_LOCAL_IP (by decide) (by decide),
    g NM_OPENVPN_KEY_REMOTE_IP (by decide) (by decide),
    g NM_OPENVPN_KEY_TLS_REMOTE (by decide) (by decide),
    g NM_OPENVPN_KEY_REMOTE_CERT_TLS (by decide) (by decide),
    g NM_OPENVPN_KEY_TA (by decide) (by decide),
    g NM_OPENVPN_KEY_TA_DIR (by decide) (by decide),
    g NM_OPENVPN_KEY_PROXY_TYPE (by decide) (by decide),
    y NM_OPENVPN_KEY_REMOTE_RANDOM (by decide) (by decide),
    y NM_OPENVPN_KEY_TAP_DEV (by decide) (by decide),
    y NM_OPENVPN_KEY_COMP_LZO (by decide) (by decide),
    y NM_OPENVPN_KEY_FLOAT (by decide) (by decide),
    y NM_OPENVPN_KEY_MSSFIX (by decide) (by decide),
    y NM_OPENVPN_KEY_PROTO_TCP (by decide) (by decide)]
  have hp : ¬ (NM_OPENVPN_CONTYPE_TLS = NM_OPENVPN_CONTYPE_PASSWORD
      ∨ NM_OPENVPN_CONTYPE_TLS = NM_OPENVPN_CONTYPE_PASSWORD_TLS) := by decide
  have hs2 : NM_OPENVPN_CONTYPE_TLS ≠ NM_OPENVPN_CONTYPE_STATIC_KEY := by decide
  simp [export_certs, opt_line, hp, hs2, lf]

theorem pieces_conf_remotes (env : Env) (ds : List RemoteDirective)
    (henv : ∀ t, env.utf8_validate t = true) (hds : ∀ d ∈ ds, d.valid = true) :
    import_pieces env (conf_remotes ds)
      = "client".toList :: (ds.map RemoteDirective.line ++ [[]]) := by
  unfold import_pieces conf_remotes
  rw [import_text_client env _ henv]
  unfold g_strsplit_set
  rw [if_neg (by simp)]
  have h1 : "client\n".toList ++ directive_lines ds
      = "client".toList ++ lf :: (directive_lines ds ++ []) := by
    simp
    rfl
  rw [h1, strsplit_pieces_append _ _ _ _ (by decide) (by decide),
    pieces_directive_lines ds hds]
  rfl

theorem pieces_export_remotes (env : Env) (ds : List RemoteDirective)
    (henv : ∀ t, env.utf8_validate t = true) (hds : ∀ d ∈ ds, d.valid = true) :
    import_pieces env (export_remotes_text ds)
      = "client".toList :: (ds.map RemoteDirective.line
          ++ strsplit_pieces [cr, lf] ("dev tun\nproto udp\n".toList ++ EXPORT_TRAILER)) := by
  unfold import_pieces export_remotes_text
  rw [List.append_assoc, List.append_assoc, import_text_client env _ henv]
  unfold g_strsplit_set
  rw [if_neg (by simp)]
  have h1 : "client\n".toList ++ (directive_lines ds
        ++ ("dev tun\nproto udp\n".toList ++ EXPORT_TRAILER))
      = "client".toList ++ lf :: (directive_lines ds
        ++ ("dev tun\nproto udp\n".toList ++ EXPORT_TRAILER)) := by
    simp
    rfl
  rw [h1, strsplit_pieces_append _ _ _ _ (by decide) (by decide),
    pieces_directive_lines ds hds]

theorem import_lines_dev_trailer (env : Env) (path dp name : CStr) (st : ImportState) :
    import_lines env path dp name st 0
        (strsplit_pieces [cr, lf] ("dev tun\nproto udp\n".toList ++ EXPORT_TRAILER))
      = some (st.add NM_OPENVPN_KEY_DEV "tun".toList) := by
  rfl

theorem import_scan_conf_remotes (env : Env) (path : CStr) (ds : List RemoteDirective)
    (henv : ∀ t, env.utf8_validate t = true) (hds : ∀ d ∈ ds, d.valid = true) :
    import_scan env path (conf_remotes ds)
      = some (scan_remotes { import_init env with have_client := true }
          (ds.map RemoteDirective.entry)) := by
  unfold import_scan
  rw [pieces_conf_remotes env ds henv hds, import_lines_client,
    import_lines_directives _ _ _ _ _ hds]
  rfl

theorem import_scan_export_remotes (env : Env) (path : CStr) (ds : List RemoteDirective)
    (henv : ∀ t, env.utf8_validate t = true) (hds : ∀ d ∈ ds, d.valid = true) :
    import_scan env path (export_remotes_text ds)
      = some ((scan_remotes { import_init env with have_client := true }
          (ds.map RemoteDirective.entry)).add NM_OPENVPN_KEY_DEV "tun".toList) := by
  unfold import_scan
  rw [pieces_export_remotes env ds henv hds, import_lines_client,
    import_lines_directives _ _ _ _ _ hds, import_lines_dev_trailer]

/-- C37: for a non-empty list of directives `remote host [port [proto]]`, the
host not empty and without `:`, `,`, `#`, `;` and whitespace, the port decimal
digits that write a number from 1 to 65535, the protocol `udp` or `tcp`, and
valid UTF-8 input: the import of `client` and the directives succeeds and its
`remote` value holds, in order, one entry `host`, `host:port` or
`host:port:proto` for each directive; the export of the imported connection
succeeds, and the `remote` lines it writes for that value are, in order, the
same directives with the port in canonical decimal; the import of the exported
text, and the import of `client` with those `remote` lines alone, succeed with
exactly the same `remote` value. -/
theorem do_export_import_remotes (env : Env) (path out : CStr) (ds : List RemoteDirective)
    (henv : ∀ t, env.utf8_validate t = true) (hne : ds ≠ [])
    (hds : ∀ d ∈ ds, d.valid = true) :
    ∃ c1 w1 c2 w2 c3 w3,
      do_import env path (conf_remotes ds) = .connection c1 w1
      ∧ nm_setting_vpn_get_data_item c1.data NM_OPENVPN_KEY_REMOTE
          = some (List.intercalate ", ".toList (ds.map RemoteDirective.entry))
      ∧ export_remotes (List.intercalate ", ".toList (ds.map RemoteDirective.entry))
          = directive_lines (ds.map RemoteDirective.canonical)
      ∧ do_export true out c1
          = .success (export_remotes_text (ds.map RemoteDirective.canonical)) none
      ∧ do_import env out (export_remotes_text (ds.map RemoteDirective.canonical))
          = .connection c2 w2
      ∧ nm_setting_vpn_get_data_item c2.data NM_OPENVPN_KEY_REMOTE
          = nm_setting_vpn_get_data_item c1.data NM_OPENVPN_KEY_REMOTE
      ∧ do_import env out (conf_remotes (ds.map RemoteDirective.canonical)) = .connection c3 w3
      ∧ nm_setting_vpn_get_data_item c3.data NM_OPENVPN_KEY_REMOTE
          = nm_setting_vpn_get_data_item c1.data NM_OPENVPN_KEY_REMOTE := by
  have hnb : (ds.map RemoteDirective.entry).isEmpty = false := by
    cases ds with
    | nil => exact absurd rfl hne
    | cons _ _ => rfl
  have hne2 : ds.map RemoteDirective.entry ≠ [] := by simpa using hne
  have hcs : ∀ d ∈ ds.map RemoteDirective.canonical, d.valid = true := by
    intro d hd
    obtain ⟨x, hx, rfl⟩ := List.mem_map.mp hd
    exact (canonical_valid x (hds x hx)).1
  have hentries : (ds.map RemoteDirective.canonical).map RemoteDirective.entry
      = ds.map RemoteDirective.entry := by
    rw [List.map_map]
    apply List.map_congr_left
    intro d hd
    exact (canonical_valid d (hds d hd)).2
  have hes : ∀ e ∈ ds.map RemoteDirective.entry, e ≠ [] := fun e he =>
    (entries_clean ds hds e he).1
  have hscan1 := import_scan_conf_remotes env path ds henv hds
  have hscan2 := import_scan_export_remotes env out _ henv hcs
  have hscan3 := import_scan_conf_remotes env out _ henv hcs
  rw [hentries] at hscan2 hscan3
  have hlen1 : 1 < (import_pieces env (conf_remotes ds)).length := by
    rw [pieces_conf_remotes env ds henv hds]
    simp
  have hlen2 : 1 < (import_pieces env
      (export_remotes_text (ds.map RemoteDirective.canonical))).length := by
    rw [pieces_export_remotes env _ henv hcs]
    simp only [List.length_cons, List.length_append, List.length_map]
    have := List.length_pos.mpr hne
    omega
  have hlen3 : 1 < (import_pieces env
      (conf_remotes (ds.map RemoteDirective.canonical))).length := by
    rw [pieces_conf_remotes env _ henv hcs]
    simp
  have hi1 := do_import_of_scan env path _ _ hlen1 hscan1 rfl (by simp [scan_remotes, hnb])
  have hi2 := do_import_of_scan env out _ _ hlen2 hscan2 rfl
    (by simp [scan_remotes, ImportState.add, hnb])
  have hi3 := do_import_of_scan env out _ _ hlen3 hscan3 rfl (by simp [scan_remotes, hnb])
  have hca1 : nm_setting_vpn_get_data_item
      (scan_remotes { import_init env with have_client := true }
        (ds.map RemoteDirective.entry)).data NM_OPENVPN_KEY_CA = none := by
    show nm_setting_vpn_get_data_item (scan_data _ _) NM_OPENVPN_KEY_CA = none
    rw [scan_data_get_ne _ _ _ (by decide)]
    rfl
  have hca2 : nm_setting_vpn_get_data_item
      ((scan_remotes { import_init env with have_client := true }
        (ds.map RemoteDirective.entry)).add NM_OPENVPN_KEY_DEV "tun".toList).data
        NM_OPENVPN_KEY_CA = none := by
    show nm_setting_vpn_get_data_item (nm_setting_vpn_add_data_item
      (scan_data [] (ds.map RemoteDirective.entry)) NM_OPENVPN_KEY_DEV "tun".toList)
      NM_OPENVPN_KEY_CA = none
    rw [get_add_ne _ _ _ _ (by decide), scan_data_get_ne _ _ _ (by decide)]
    rfl
  rw [import_finish_plain env _ _ rfl rfl hca1] at hi1 hi3
  rw [import_finish_plain env _ _ rfl rfl hca2] at hi2
  have hg1 := fun k => get_remotes_data (ds.map RemoteDirective.entry) k hes
  have hval : remote_value (ds.map RemoteDirective.entry)
      = some (List.intercalate ", ".toList (ds.map RemoteDirective.entry)) := by
    rw [remote_value, if_neg hne2]
  have hrem1 := (hg1 NM_OPENVPN_KEY_REMOTE).trans
    (by rw [if_neg (by decide), if_pos rfl, hval])
  refine ⟨_, _, _, _, _, _, hi1, hrem1, export_remotes_directives ds hne hds, ?_, hi2, ?_, hi3,
    rfl⟩
  · exact export_text_remotes out _ _ _ hne2 (entries_value_ne_nil ds hne hds)
      (export_remotes_directives ds hne hds) rfl hg1
  · exact (get_remotes_data_dev _ hes).trans (hval.trans hrem1.symm)

theorem do_export_import_remotes_witness :
    (∀ d ∈ remotes_sample, d.valid = true)
    ∧ directive_lines remotes_sample
        = "remote vpn.example.com\nremote 10.0.0.1 01194\nremote h_3 443 tcp\n".toList
    ∧ directive_lines (remotes_sample.map RemoteDirective.canonical)
        = "remote vpn.example.com\nremote 10.0.0.1 1194\nremote h_3 443 tcp\n".toList
    ∧ ∃ c1 w1 c2 w2 c3 w3,
      do_import env_plain conf_path (conf_remotes remotes_sample) = .connection c1 w1
      ∧ nm_setting_vpn_get_data_item c1.data NM_OPENVPN_KEY_REMOTE
          = some (List.intercalate ", ".toList (remotes_sample.map RemoteDirective.entry))
      ∧ export_remotes (List.intercalate ", ".toList (remotes_sample.map RemoteDirective.entry))
          = directive_lines (remotes_sample.map RemoteDirective.canonical)
      ∧ do_export true export_path c1
          = .success (export_remotes_text (remotes_sample.map RemoteDirective.canonical)) none
      ∧ do_import env_plain export_path
            (export_remotes_text (remotes_sample.map RemoteDirective.canonical))
          = .connection c2 w2
      ∧ nm_setting_vpn_get_data_item c2.data NM_OPENVPN_KEY_REMOTE
          = nm_setting_vpn_get_data_item c1.data NM_OPENVPN_KEY_REMOTE
      ∧ do_import env_plain export_path
            (conf_remotes (remotes_sample.map RemoteDirective.canonical))
          = .connection c3 w3
      ∧ nm_setting_vpn_get_data_item c3.data NM_OPENVPN_KEY_REMOTE
          = nm_setting_vpn_get_data_item c1.data NM_OPENVPN_KEY_REMOTE :=
  ⟨by decide, by decide, by decide,
   do_export_import_remotes env_plain conf_path export_path remotes_sample (fun _ => rfl)
     (by decide) (by decide)⟩


theorem import_lines_drop (env : Env) (path dp name : CStr) (lines : List CStr) :
    ∀ (st : ImportState) (k : Nat),
      import_lines env path dp name st k lines
        = import_lines env path dp name st 0 (lines.drop k) := by
  induction lines with
  | nil =>
    intro st k
    cases k <;> rfl
  | cons l ls ih =>
    intro st k
    cases k with
    | zero => rfl
    | succ k =>
      rw [List.drop_succ_cons, ← ih st k]
      rfl

theorem lines_kept_cons_nil (ls : List CStr) : lines_kept ([] :: ls) = lines_kept ls := rfl

theorem lines_kept_cons (l : CStr) (ls : List CStr) (h : l ≠ []) :
    lines_kept (l :: ls) = l :: lines_kept ls := by
  unfold lines_kept
  rw [List.filter_cons]
  simp [h]

theorem blob_lines_dense (e : CStr) (r : List CStr) :
    ∀ (acc : CStr) (n n' : Nat),
      (blob_lines e r acc n = none → blob_lines e (lines_kept r) acc n' = none)
      ∧ ∀ c m, blob_lines e r acc n = some (c, m) →
          ∃ m', blob_lines e (lines_kept r) acc n' = some (c, m') ∧ n < m ∧ n' < m'
            ∧ lines_kept (r.drop (m - n)) = (lines_kept r).drop (m' - n')
            ∧ r.get? (m - n - 1) = (lines_kept r).get? (m' - n' - 1) := by
  induction r with
  | nil =>
    intro acc n n'
    refine ⟨fun _ => rfl, ?_⟩
    intro c m h
    simp [blob_lines] at h
  | cons l ls ih =>
    intro acc n n'
    by_cases hl : l = []
    · subst hl
      rw [lines_kept_cons_nil]
      have hstep : ∀ a k, blob_lines e ([] :: ls) a k = blob_lines e ls a (k + 1) := by
        intro a k
        rw [blob_lines]
        simp
      rw [hstep]
      obtain ⟨i1, i2⟩ := ih acc (n + 1) n'
      refine ⟨i1, ?_⟩
      intro c m h
      obtain ⟨m', g1, g2, g3, g4, g5⟩ := i2 c m h
      refine ⟨m', g1, by omega, g3, ?_, ?_⟩
      · have : m - n = (m - (n + 1)) + 1 := by omega
        rw [this, List.drop_succ_cons]
        exact g4
      · have : m - n - 1 = (m - (n + 1) - 1) + 1 := by omega
        rw [this, List.get?_cons_succ]
        exact g5
    · rw [lines_kept_cons l ls hl]
      by_cases hcom : l.head? = some hash ∨ l.head? = some semi
      · have hstep : ∀ (x : List CStr) a k, blob_lines e (l :: x) a k = blob_lines e x a (k + 1) := by
          intro x a k
          rw [blob_lines]
          simp [hcom]
        rw [hstep, hstep]
        obtain ⟨i1, i2⟩ := ih acc (n + 1) (n' + 1)
        refine ⟨i1, ?_⟩
        intro c m h
        obtain ⟨m', g1, g2, g3, g4, g5⟩ := i2 c m h
        refine ⟨m', g1, by omega, by omega, ?_, ?_⟩
        · have e1 : m - n = (m - (n + 1)) + 1 := by omega
          have e2 : m' - n' = (m' - (n' + 1)) + 1 := by omega
          rw [e1, e2, List.drop_succ_cons, List.drop_succ_cons]
          exact g4
        · have e1 : m - n - 1 = (m - (n + 1) - 1) + 1 := by omega
          have e2 : m' - n' - 1 = (m' - (n' + 1) - 1) + 1 := by omega
          rw [e1, e2, List.get?_cons_succ, List.get?_cons_succ]
          exact g5
      · have hskip : ¬ (l = [] ∨ l.head? = some hash ∨ l.head? = some semi) := by
          rintro (h | h)
          · exact hl h
          · exact hcom h
        by_cases hend : l = e
        · have hstep : ∀ (x : List CStr) a k, blob_lines e (l :: x) a k = some (a, k + 1) := by
            intro x a k
            rw [blob_lines, if_neg hskip, if_pos hend]
          rw [hstep, hstep]
          refine ⟨fun h => (by cases h), ?_⟩
          intro c m h
          simp only [Option.some.injEq, Prod.mk.injEq] at h
          obtain ⟨rfl, rfl⟩ := h
          refine ⟨n' + 1, rfl, by omega, by omega, ?_, ?_⟩
          · have e1 : n + 1 - n = 1 := by omega
            have e2 : n' + 1 - n' = 1 := by omega
            rw [e1, e2]
            rfl
          · have e1 : n + 1 - n - 1 = 0 := by omega
            have e2 : n' + 1 - n' - 1 = 0 := by omega
            rw [e1, e2]
            rfl
        · have hstep : ∀ (x : List CStr) a k,
              blob_lines e (l :: x) a k = blob_lines e x (a ++ l ++ [lf]) (k + 1) := by
            intro x a k
            rw [blob_lines, if_neg hskip, if_neg hend]
          rw [hstep, hstep]
          obtain ⟨i1, i2⟩ := ih (acc ++ l ++ [lf]) (n + 1) (n' + 1)
          refine ⟨i1, ?_⟩
          intro c m h
          obtain ⟨m', g1, g2, g3, g4, g5⟩ := i2 c m h
          refine ⟨m', g1, by omega, by omega, ?_, ?_⟩
          · have e1 : m - n = (m - (n + 1)) + 1 := by omega
            have e2 : m' - n' = (m' - (n' + 1)) + 1 := by omega
            rw [e1, e2, List.drop_succ_cons, List.drop_succ_cons]
            exact g4
          · have e1 : m - n - 1 = (m - (n + 1) - 1) + 1 := by omega
            have e2 : m' - n' - 1 = (m' - (n' + 1) - 1) + 1 := by omega
            rw [e1, e2, List.get?_cons_succ, List.get?_cons_succ]
            exact g5

theorem handle_blob_item_dense (env : Env) (cur : CStr) (r : List CStr) (key : CStr)
    (st : ImportState) (name : CStr) :
    (handle_blob_item env cur r key st name = .no_start →
      handle_blob_item env cur (lines_kept r) key st name = .no_start)
    ∧ (handle_blob_item env cur r key st name = .ran_off →
      handle_blob_item env cur (lines_kept r) key st name = .ran_off)
    ∧ ∀ ok st1 adv, handle_blob_item env cur r key st name = .stopped ok st1 adv →
        ∃ adv', handle_blob_item env cur (lines_kept r) key st name = .stopped ok st1 adv'
          ∧ lines_kept (r.drop adv) = (lines_kept r).drop adv'
          ∧ r.get? (adv - 1) = (lines_kept r).get? (adv' - 1) := by
  unfold handle_blob_item
  cases hk : blob_tags key with
  | none =>
    refine ⟨fun _ => rfl, fun h => (by cases h), fun ok st1 adv h => (by cases h)⟩
  | some p =>
    obtain ⟨s, e⟩ := p
    simp only
    by_cases hst : (cur.take s.length != s) = true
    · simp [hst]
    · simp only [hst, Bool.false_eq_true, if_false]
      obtain ⟨i1, i2⟩ := blob_lines_dense e r [] 0 0
      cases hb : blob_lines e r [] 0 with
      | none =>
        rw [i1 hb]
        refine ⟨fun h => (by cases h), fun _ => rfl, fun ok st1 adv h => (by cases h)⟩
      | some q =>
        obtain ⟨c, m⟩ := q
        obtain ⟨m', g1, -, -, g4, g5⟩ := i2 c m hb
        simp only [Nat.sub_zero] at g4 g5
        rw [g1]
        simp only
        refine ⟨?_, ?_, ?_⟩
        · intro h
          cases hd : st.cert_dir with
          | not_a_dir =>
            simp only [hd] at h
            cases h
          | missing =>
            simp only [hd] at h
            split_ifs at h
          | is_dir =>
            simp only [hd] at h
            split_ifs at h
        · intro h
          cases hd : st.cert_dir with
          | not_a_dir =>
            simp only [hd] at h
            cases h
          | missing =>
            simp only [hd] at h
            split_ifs at h
          | is_dir =>
            simp only [hd] at h
            split_ifs at h
        · intro ok st1 adv h
          cases hd : st.cert_dir <;> simp only [hd] at h ⊢ <;> (try split_ifs at h ⊢) <;>
            simp only [BlobResult.stopped.injEq] at h <;>
            exact ⟨m', by rw [← h.1, ← h.2.1], by rw [← h.2.2]; exact g4,
              by rw [← h.2.2]; exact g5⟩

theorem import_blob_dense (env : Env) (name key : CStr) (st : ImportState) (cur : Line)
    (r0 r : List CStr) (skip skip' : Nat) (hr : r = r0.drop skip)
    (hf : lines_kept r = (lines_kept r0).drop skip') :
    (import_blob env name key st cur r skip = .undefined →
      import_blob env name key st cur (lines_kept r) skip' = .undefined)
    ∧ (∀ a k, import_blob env name key st cur r skip = .handled a k →
        ∃ k', import_blob env name key st cur (lines_kept r) skip' = .handled a k'
          ∧ lines_kept (r0.drop k) = (lines_kept r0).drop k')
    ∧ (∀ a c r1 k, import_blob env name key st cur r skip = .pass a c r1 k →
        ∃ k', import_blob env name key st cur (lines_kept r) skip' = .pass a c (lines_kept r1) k'
          ∧ r1 = r0.drop k ∧ lines_kept r1 = (lines_kept r0).drop k') := by
  obtain ⟨i1, i2, i3⟩ := handle_blob_item_dense env cur.text r key st name
  unfold import_blob
  cases hb : handle_blob_item env cur.text r key st name with
  | no_start =>
    rw [i1 hb]
    refine ⟨fun h => (by cases h), fun a k h => (by cases h), ?_⟩
    intro a c r1 k h
    simp only [BlobStage.pass.injEq] at h
    obtain ⟨rfl, rfl, rfl, rfl⟩ := h
    exact ⟨skip', rfl, hr, hf⟩
  | ran_off =>
    rw [i2 hb]
    refine ⟨fun _ => rfl, fun a k h => (by cases h), fun a c r1 k h => (by cases h)⟩
  | stopped ok st1 adv =>
    obtain ⟨adv', g1, g2, g3⟩ := i3 ok st1 adv hb
    rw [g1]
    have hd1 : r0.drop (skip + adv) = r.drop adv := by
      rw [hr, List.drop_drop]
    have hd2 : (lines_kept r0).drop (skip' + adv') = (lines_kept r).drop adv' := by
      rw [hf, List.drop_drop]
    cases ok with
    | true =>
      refine ⟨fun h => (by cases h), ?_, fun a c r1 k h => (by cases h)⟩
      intro a k h
      simp only [BlobStage.handled.injEq] at h
      obtain ⟨rfl, rfl⟩ := h
      exact ⟨skip' + adv', rfl, by rw [hd1, hd2, g2]⟩
    | false =>
      refine ⟨fun h => (by cases h), fun a k h => (by cases h), ?_⟩
      intro a c r1 k h
      simp only [BlobStage.pass.injEq] at h
      obtain ⟨rfl, rfl, rfl, rfl⟩ := h
      refine ⟨skip' + adv', ?_, hd1.symm, by rw [hd2, g2]⟩
      rw [g3, g2]

theorem import_blobs_dense (env : Env) (dp name : CStr) (line : Line) (r : List CStr)
    (st : ImportState) :
    (import_blobs env dp name line r st = .undefined →
      import_blobs env dp name line (lines_kept r) st = .undefined)
    ∧ ∀ st1 k, import_blobs env dp name line r st = .next st1 k →
        ∃ k', import_blobs env dp name line (lines_kept r) st = .next st1 k'
          ∧ lines_kept (r.drop k) = (lines_kept r).drop k' := by
  unfold import_blobs
  obtain ⟨a1, a2, a3⟩ := import_blob_dense env name NM_OPENVPN_KEY_CA st line r r 0 0 rfl rfl
  cases hb1 : import_blob env name NM_OPENVPN_KEY_CA st line r 0 with
  | undefined =>
    rw [a1 hb1]
    exact ⟨fun _ => rfl, fun st1 k h => (by cases h)⟩
  | handled x k1 =>
    obtain ⟨k1', e1, e2⟩ := a2 x k1 hb1
    rw [e1]
    refine ⟨fun h => (by cases h), ?_⟩
    intro st1 k h
    simp only [LineStep.next.injEq] at h
    exact ⟨k1', by rw [h.1], by rw [← h.2]; exact e2⟩
  | pass x c1 r1 k1 =>
    obtain ⟨k1', e1, e2, e3⟩ := a3 x c1 r1 k1 hb1
    rw [e1]
    simp only
    obtain ⟨b1, b2, b3⟩ := import_blob_dense env name NM_OPENVPN_KEY_CERT x c1 r r1 k1 k1' e2 e3
    cases hb2 : import_blob env name NM_OPENVPN_KEY_CERT x c1 r1 k1 with
    | undefined =>
      rw [b1 hb2]
      exact ⟨fun _ => rfl, fun st1 k h => (by cases h)⟩
    | handled y k2 =>
      obtain ⟨k2', f1, f2⟩ := b2 y k2 hb2
      rw [f1]
      refine ⟨fun h => (by cases h), ?_⟩
      intro st1 k h
      simp only [LineStep.next.injEq] at h
      exact ⟨k2', by rw [h.1], by rw [← h.2]; exact f2⟩
    | pass y c2 r2 k2 =>
      obtain ⟨k2', f1, f2, f3⟩ := b3 y c2 r2 k2 hb2
      rw [f1]
      simp only
      obtain ⟨d1, d2, d3⟩ := import_blob_dense env name NM_OPENVPN_KEY_KEY y c2 r r2 k2 k2' f2 f3
      cases hb3 : import_blob env name NM_OPENVPN_KEY_KEY y c2 r2 k2 with
      | undefined =>
        rw [d1 hb3]
        exact ⟨fun _ => rfl, fun st1 k h => (by cases h)⟩
      | handled z k3 =>
        obtain ⟨k3', g1, g2⟩ := d2 z k3 hb3
        rw [g1]
        refine ⟨fun h => (by cases h), ?_⟩
        intro st1 k h
        simp only [LineStep.next.injEq] at h
        exact ⟨k3', by rw [h.1], by rw [← h.2]; exact g2⟩
      | pass z c3 r3 k3 =>
        obtain ⟨k3', g1, g2, g3⟩ := d3 z c3 r3 k3 hb3
        rw [g1]
        simp only
        obtain ⟨t1, t2, t3⟩ := import_blob_dense env name NM_OPENVPN_KEY_TA z c3 r r3 k3 k3' g2 g3
        cases hb4 : import_blob env name NM_OPENVPN_KEY_TA z c3 r3 k3 with
        | undefined =>
          rw [t1 hb4]
          exact ⟨fun _ => rfl, fun st1 k h => (by cases h)⟩
        | handled w k4 =>
          obtain ⟨k4', u1, u2⟩ := t2 w k4 hb4
          rw [u1]
          refine ⟨fun h => (by cases h), ?_⟩
          intro st1 k h
          simp only [LineStep.next.injEq] at h
          exact ⟨k4', by rw [← h.1], by rw [← h.2]; exact u2⟩
        | pass w c4 r4 k4 =>
          obtain ⟨k4', u1, u2, u3⟩ := t3 w c4 r4 k4 hb4
          rw [u1]
          simp only
          cases ht : import_tail env dp c4 w with
          | none =>
            refine ⟨fun h => (by cases h), ?_⟩
            intro st1 k h
            simp only [LineStep.next.injEq] at h
            refine ⟨k4', by rw [h.1], ?_⟩
            rw [← h.2, ← u2, u3]
          | some v =>
            refine ⟨fun h => (by cases h), ?_⟩
            intro st1 k h
            simp only [LineStep.next.injEq] at h
            refine ⟨k4', by rw [h.1], ?_⟩
            rw [← h.2, ← u2, u3]

theorem import_line_dense (env : Env) (path dp name : CStr) (line : Line) (r : List CStr)
    (st : ImportState) :
    (import_line env path dp name line r st = .undefined →
      import_line env path dp name line (lines_kept r) st = .undefined)
    ∧ ∀ st1 k, import_line env path dp name line r st = .next st1 k →
        ∃ k', import_line env path dp name line (lines_kept r) st = .next st1 k'
          ∧ lines_kept (r.drop k) = (lines_kept r).drop k' := by
  unfold import_line
  cases hh : import_head env path line st with
  | some a =>
    refine ⟨fun h => (by cases h), ?_⟩
    intro st1 k h
    simp only [LineStep.next.injEq] at h
    exact ⟨0, by rw [h.1], by rw [← h.2]; rfl⟩
  | none =>
    simp only
    by_cases hp : (import_pkcs12 env dp line st).1 = true
    · simp only [hp, if_true]
      refine ⟨fun h => (by cases h), ?_⟩
      intro st1 k h
      simp only [LineStep.next.injEq] at h
      exact ⟨0, by rw [h.1], by rw [← h.2]; rfl⟩
    · simp only [hp, Bool.false_eq_true, if_false]
      cases hc : import_certs env dp line (import_pkcs12 env dp line st).2 with
      | some a =>
        refine ⟨fun h => (by cases h), ?_⟩
        intro st1 k h
        simp only [LineStep.next.injEq] at h
        exact ⟨0, by rw [h.1], by rw [← h.2]; rfl⟩
      | none => exact import_blobs_dense env dp name line r _

theorem import_lines_dense (env : Env) (path dp name : CStr) (n : Nat) :
    ∀ (lines : List CStr), lines.length ≤ n → ∀ st : ImportState,
      import_lines env path dp name st 0 lines
        = import_lines env path dp name st 0 (lines_kept lines) := by
  induction n with
  | zero =>
    intro lines hl st
    have : lines = [] := List.length_eq_zero.mp (by omega)
    subst this
    rfl
  | succ n ih =>
    intro lines hl st
    cases lines with
    | nil => rfl
    | cons piece rest =>
      simp only [List.length_cons] at hl
      by_cases hp : piece = []
      · subst hp
        rw [lines_kept_cons_nil, ← ih rest (by omega) st]
        rfl
      · rw [lines_kept_cons piece rest hp, import_lines, import_lines]
        by_cases ht : (strip_comment piece).text = []
        · simp only [ht, if_true]
          exact ih rest (by omega) st
        · simp only [ht, if_false]
          obtain ⟨i1, i2⟩ := import_line_dense env path dp name (strip_comment piece) rest st
          cases hl1 : import_line env path dp name (strip_comment piece) rest st with
          | undefined => rw [i1 hl1]
          | next st1 k =>
            obtain ⟨k', e1, e2⟩ := i2 st1 k hl1
            rw [e1]
            simp only
            rw [import_lines_drop env path dp name rest st1 k,
              import_lines_drop env path dp name (lines_kept rest) st1 k', ← e2]
            exact ih _ (by rw [List.length_drop]; omega) st1

theorem lines_kept_cons_congr (p : CStr) (ps qs : List CStr)
    (h : lines_kept ps = lines_kept qs) : lines_kept (p :: ps) = lines_kept (p :: qs) := by
  by_cases hp : p = []
  · subst hp
    exact h
  · rw [lines_kept_cons p ps hp, lines_kept_cons p qs hp, h]

theorem pieces_crlf (s : CStr) :
    ∃ p ps qs, strsplit_pieces [cr, lf] (crlf s) = p :: ps
      ∧ strsplit_pieces [cr, lf] s = p :: qs ∧ lines_kept ps = lines_kept qs := by
  induction s with
  | nil => exact ⟨[], [], [], rfl, rfl, rfl⟩
  | cons c cs ih =>
    obtain ⟨p, ps, qs, h1, h2, h3⟩ := ih
    by_cases hlf : c = lf
    · subst hlf
      have e1 : crlf (lf :: cs) = cr :: lf :: crlf cs := rfl
      have e2 : strsplit_pieces [cr, lf] (cr :: lf :: crlf cs)
          = [] :: [] :: strsplit_pieces [cr, lf] (crlf cs) := rfl
      have e3 : strsplit_pieces [cr, lf] (lf :: cs) = [] :: strsplit_pieces [cr, lf] cs := rfl
      rw [e1, e2, e3, h1, h2]
      exact ⟨[], _, _, rfl, rfl, lines_kept_cons_congr p ps qs h3⟩
    · have e1 : crlf (c :: cs) = c :: crlf cs := by
        simp [crlf, hlf]
      rw [e1, strsplit_pieces_cons, strsplit_pieces_cons, h1, h2]
      by_cases hd : [cr, lf].contains c = true
      · simp only [hd, if_true]
        exact ⟨[], _, _, rfl, rfl, lines_kept_cons_congr p ps qs h3⟩
      · simp only [hd, Bool.false_eq_true, if_false]
        exact ⟨c :: p, ps, qs, rfl, rfl, h3⟩

theorem pieces_blank_run (n : Nat) (b : CStr) :
    lines_kept (strsplit_pieces [cr, lf] (List.replicate n lf ++ b))
      = lines_kept (strsplit_pieces [cr, lf] b) := by
  induction n with
  | zero => rfl
  | succ n ih =>
    have : strsplit_pieces [cr, lf] (List.replicate (n + 1) lf ++ b)
        = [] :: strsplit_pieces [cr, lf] (List.replicate n lf ++ b) := rfl
    rw [this, lines_kept_cons_nil, ih]

theorem pieces_blank_lines (a b : CStr) (n : Nat) :
    ∃ p ps qs, strsplit_pieces [cr, lf] (a ++ lf :: (List.replicate n lf ++ b)) = p :: ps
      ∧ strsplit_pieces [cr, lf] (a ++ lf :: b) = p :: qs ∧ lines_kept ps = lines_kept qs := by
  induction a with
  | nil => exact ⟨[], _, _, rfl, rfl, pieces_blank_run n b⟩
  | cons c cs ih =>
    obtain ⟨p, ps, qs, h1, h2, h3⟩ := ih
    rw [List.cons_append, List.cons_append, strsplit_pieces_cons, strsplit_pieces_cons, h1, h2]
    by_cases hd : [cr, lf].contains c = true
    · simp only [hd, if_true]
      exact ⟨[], _, _, rfl, rfl, lines_kept_cons_congr p ps qs h3⟩
    · simp only [hd, Bool.false_eq_true, if_false]
      exact ⟨c :: p, ps, qs, rfl, rfl, h3⟩

theorem do_import_dense (env : Env) (path s1 s2 : CStr) (hheap : env.heap s1 = env.heap s2)
    (h1 : 1 < (import_pieces env s1).length) (h2 : 1 < (import_pieces env s2).length)
    (hk : lines_kept (import_pieces env s1) = lines_kept (import_pieces env s2)) :
    do_import env path s1 = do_import env path s2 := by
  have hscan : import_scan env path s1 = import_scan env path s2 := by
    unfold import_scan
    rw [run_congr env s1 s2 hheap,
      import_lines_dense (env.run s2) path _ _ _ (import_pieces env s1) (Nat.le_refl _),
      import_lines_dense (env.run s2) path _ _ _ (import_pieces env s2) (Nat.le_refl _), hk]
  rw [do_import_eq, do_import_eq, if_neg (by omega), if_neg (by omega), hscan]

theorem do_import_text_congr (env : Env) (path s1 s2 : CStr) (hheap : env.heap s1 = env.heap s2)
    (h : import_text env s1 = import_text env s2) :
    do_import env path s1 = do_import env path s2 := by
  have : import_pieces env s1 = import_pieces env s2 := by
    unfold import_pieces
    rw [h]
  rw [do_import_eq, do_import_eq]
  unfold import_scan
  rw [this, run_congr env s1 s2 hheap]

theorem crlf_cons (c : Char) (t : CStr) :
    crlf (c :: t) = (if c = lf then [cr, lf] else [c]) ++ crlf t := rfl

theorem crlf_self (t : CStr) (h : lf ∉ t) : crlf t = t := by
  induction t with
  | nil => rfl
  | cons c cs ih =>
    have hc : c ≠ lf := fun e => h (e ▸ List.mem_cons_self _ _)
    rw [crlf_cons, if_neg hc, ih (fun hm => h (List.mem_cons_of_mem _ hm))]
    rfl

theorem mem_crlf (t : CStr) (c : Char) (h : c ∈ t) : c ∈ crlf t := by
  induction t with
  | nil => cases h
  | cons a cs ih =>
    rw [crlf_cons]
    rcases List.mem_cons.mp h with rfl | hm
    · by_cases hc : c = lf
      · rw [if_pos hc, hc]
        simp
      · rw [if_neg hc]
        simp
    · exact List.mem_append_right _ (ih hm)

theorem do_import_text_dense (env : Env) (path s1 s2 p : CStr) (ps qs : List CStr)
    (hheap : env.heap s1 = env.heap s2)
    (h1 : strsplit_pieces [cr, lf] (import_text env s1) = p :: ps)
    (h2 : strsplit_pieces [cr, lf] (import_text env s2) = p :: qs)
    (hk : lines_kept ps = lines_kept qs)
    (hd1 : ∃ c ∈ import_text env s1, [cr, lf].contains c = true)
    (hd2 : ∃ c ∈ import_text env s2, [cr, lf].contains c = true) :
    do_import env path s1 = do_import env path s2 := by
  have hlen : ∀ s, (∃ c ∈ import_text env s, [cr, lf].contains c = true) →
      1 < (import_pieces env s).length := by
    intro s hs
    by_contra hcon
    have hle : (g_strsplit_set (import_text env s) [cr, lf]).length ≤ 1 := by
      unfold import_pieces at hcon
      omega
    obtain ⟨c, hc, hd⟩ := hs
    rw [(g_strsplit_set_length _ _).mp hle c hc] at hd
    cases hd
  have hne : ∀ s, (∃ c ∈ import_text env s, [cr, lf].contains c = true) →
      import_pieces env s = strsplit_pieces [cr, lf] (import_text env s) := by
    intro s hs
    obtain ⟨c, hc, -⟩ := hs
    unfold import_pieces g_strsplit_set
    rw [if_neg (List.ne_nil_of_mem hc)]
  refine do_import_dense env path s1 s2 hheap (hlen s1 hd1) (hlen s2 hd2) ?_
  rw [hne s1 hd1, hne s2 hd2, h1, h2]
  exact lines_kept_cons_congr p ps qs hk

theorem bom_no_break : ∀ c ∈ UTF8_BOM, c ≠ cr ∧ c ≠ lf := by
  decide

theorem take_crlf (t : CStr) :
    ((crlf t).take 3 = UTF8_BOM ↔ t.take 3 = UTF8_BOM)
    ∧ (t.take 3 = UTF8_BOM → (crlf t).drop 3 = crlf (t.drop 3)) := by
  have hb : ∀ x y z : Char, [x, y, z] = UTF8_BOM → x ≠ cr ∧ x ≠ lf ∧ y ≠ cr ∧ y ≠ lf ∧ z ≠ cr
      ∧ z ≠ lf := by
    intro x y z h
    have := bom_no_break
    rw [← h] at this
    exact ⟨(this x (by simp)).1, (this x (by simp)).2, (this y (by simp)).1,
      (this y (by simp)).2, (this z (by simp)).1, (this z (by simp)).2⟩
  have hshort : ∀ l : CStr, l.length < 3 → l ≠ UTF8_BOM := by
    intro l hl h
    rw [h] at hl
    revert hl
    decide
  rcases t with _ | ⟨a, _ | ⟨b, _ | ⟨c, t⟩⟩⟩
  · exact ⟨Iff.rfl, fun _ => rfl⟩
  · by_cases ha : a = lf
    · subst ha
      refine ⟨⟨fun h => absurd h (hshort _ (by decide)), fun h => absurd h (hshort _ (by decide))⟩,
        fun h => absurd h (hshort _ (by decide))⟩
    · have : crlf [a] = [a] := by simp [crlf, ha]
      rw [this]
      exact ⟨Iff.rfl, fun h => absurd h (hshort _ (by simp))⟩
  · refine ⟨⟨fun h => ?_, fun h => absurd h (hshort _ (by simp))⟩,
      fun h => absurd h (hshort _ (by simp))⟩
    exfalso
    by_cases ha : a = lf
    · subst ha
      have e : (crlf [lf, b]).take 3 = [cr, lf] ++ (crlf [b]).take 1 := rfl
      rw [e] at h
      cases hcb : (crlf [b]).take 1 with
      | nil =>
        rw [hcb] at h
        exact hshort _ (by decide) h
      | cons x xs =>
        have hx : xs = [] := by
          have := congrArg List.length hcb
          simp only [List.length_take, List.length_cons] at this
          exact List.length_eq_zero.mp (by omega)
        subst hx
        rw [hcb] at h
        exact (hb _ _ _ h).1 rfl
    · by_cases hbl : b = lf
      · subst hbl
        have e : (crlf [a, lf]).take 3 = [a, cr, lf] := by simp [crlf, ha]
        rw [e] at h
        exact (hb _ _ _ h).2.2.1 rfl
      · have e : (crlf [a, b]).take 3 = [a, b] := by simp [crlf, ha, hbl]
        rw [e] at h
        exact hshort _ (by simp) h
  · have e0 : (a :: b :: c :: t).take 3 = [a, b, c] := rfl
    have e1 : (a :: b :: c :: t).drop 3 = t := rfl
    rw [e0, e1]
    by_cases ha : a = lf
    · subst ha
      have e : (crlf (lf :: b :: c :: t)).take 3 = [cr, lf] ++ (crlf (b :: c :: t)).take 1 := rfl
      rw [e]
      refine ⟨⟨fun h => ?_, fun h => absurd rfl (hb _ _ _ h).2.1⟩,
        fun h => absurd rfl (hb _ _ _ h).2.1⟩
      exfalso
      cases hcb : (crlf (b :: c :: t)).take 1 with
      | nil =>
        rw [hcb] at h
        exact hshort _ (by decide) h
      | cons x xs =>
        have hx : xs = [] := by
          have := congrArg List.length hcb
          simp only [List.length_take, List.length_cons] at this
          exact List.length_eq_zero.mp (by omega)
        subst hx
        rw [hcb] at h
        exact (hb _ _ _ h).1 rfl
    · by_cases hbl : b = lf
      · subst hbl
        have e : (crlf (a :: lf :: c :: t)).take 3 = [a, cr, lf] := by simp [crlf, ha]
        rw [e]
        exact ⟨⟨fun h => absurd rfl (hb _ _ _ h).2.2.1, fun h => absurd rfl (hb _ _ _ h).2.2.2.1⟩,
          fun h => absurd rfl (hb _ _ _ h).2.2.2.1⟩
      · by_cases hcl : c = lf
        · subst hcl
          have e : (crlf (a :: b :: lf :: t)).take 3 = [a, b, cr] := by simp [crlf, ha, hbl]
          rw [e]
          exact ⟨⟨fun h => absurd rfl (hb _ _ _ h).2.2.2.2.1,
            fun h => absurd rfl (hb _ _ _ h).2.2.2.2.2⟩,
            fun h => absurd rfl (hb _ _ _ h).2.2.2.2.2⟩
        · have e : crlf (a :: b :: c :: t) = a :: b :: c :: crlf t := by
            simp [crlf, ha, hbl, hcl]
          rw [e]
          exact ⟨Iff.rfl, fun _ => rfl⟩

theorem import_text_crlf (env : Env) (s : CStr)
    (hval : env.utf8_validate (crlf s) = env.utf8_validate s)
    (hloc : env.utf8_validate s = false →
      env.locale_to_utf8 (crlf s) = (env.locale_to_utf8 s).map crlf) :
    import_text env (crlf s) = crlf (import_text env s) := by
  have key : ∀ t : CStr, (if (crlf t).take 3 = UTF8_BOM then (crlf t).drop 3 else crlf t)
      = crlf (if t.take 3 = UTF8_BOM then t.drop 3 else t) := by
    intro t
    obtain ⟨h1, h2⟩ := take_crlf t
    by_cases hb : t.take 3 = UTF8_BOM
    · rw [if_pos hb, if_pos (h1.mpr hb), h2 hb]
    · rw [if_neg hb, if_neg (fun h => hb (h1.mp h))]
  unfold import_text
  rw [hval]
  cases hv : env.utf8_validate s with
  | true => exact key s
  | false =>
    rw [hloc hv]
    cases hl : env.locale_to_utf8 s with
    | none => exact key s
    | some t => exact key t

theorem bom_blank_lines (a b : CStr) (n : Nat) :
    ∃ a', (if (a ++ lf :: b).take 3 = UTF8_BOM then (a ++ lf :: b).drop 3 else a ++ lf :: b)
        = a' ++ lf :: b
      ∧ (if (a ++ lf :: (List.replicate n lf ++ b)).take 3 = UTF8_BOM then
            (a ++ lf :: (List.replicate n lf ++ b)).drop 3
          else a ++ lf :: (List.replicate n lf ++ b))
        = a' ++ lf :: (List.replicate n lf ++ b) := by
  have hno : ∀ (pre : CStr) (rest : CStr), pre.length < 3 →
      (pre ++ lf :: rest).take 3 ≠ UTF8_BOM := by
    intro pre rest hl h
    have hmem : lf ∈ (pre ++ lf :: rest).take 3 := by
      rw [List.take_append_eq_append_take]
      apply List.mem_append_right
      have : 3 - pre.length = (3 - pre.length - 1) + 1 := by omega
      rw [this, List.take_succ_cons]
      exact List.mem_cons_self _ _
    rw [h] at hmem
    exact (bom_no_break lf hmem).2 rfl
  by_cases hl : a.length < 3
  · refine ⟨a, ?_, ?_⟩
    · rw [if_neg (hno a b hl)]
    · rw [if_neg (hno a _ hl)]
  · obtain ⟨x, y, z, t, rfl⟩ : ∃ x y z t, a = x :: y :: z :: t := by
      rcases a with _ | ⟨x, _ | ⟨y, _ | ⟨z, t⟩⟩⟩
      · simp at hl
      · simp at hl
      · simp at hl
      · exact ⟨x, y, z, t, rfl⟩
    have e1 : ∀ rest : CStr, ((x :: y :: z :: t) ++ rest).take 3 = [x, y, z] := fun _ => rfl
    have e2 : ∀ rest : CStr, ((x :: y :: z :: t) ++ rest).drop 3 = t ++ rest := fun _ => rfl
    rw [e1, e1, e2, e2]
    by_cases hb : [x, y, z] = UTF8_BOM
    · exact ⟨t, by rw [if_pos hb], by rw [if_pos hb]⟩
    · exact ⟨x :: y :: z :: t, by rw [if_neg hb], by rw [if_neg hb]⟩

theorem import_text_valid (env : Env) (s : CStr) (h : env.utf8_validate s = true) :
    import_text env s = if s.take 3 = UTF8_BOM then s.drop 3 else s := by
  unfold import_text
  simp only [h, Bool.not_true, Bool.false_eq_true, if_false]

/-- The import does not depend on the line-ending convention when the runs
find the same bytes behind the allocations of their lines.  For a buffer whose
two forms the UTF-8 check treats alike, and, when it is not valid UTF-8, whose
two forms the locale conversion maps to texts that again differ in the line
ends only: replacing every line feed by a carriage return and a line feed does
not change the result of `do_import`, the same connection with the same
settings and routes or the same error, and the same files written for the
inline blocks.  Putting further empty lines behind a line feed does not change
the result either, for a buffer of valid UTF-8 and, in terms of the text that
is split into lines, for every buffer; in general, two buffers that both hold
a line terminator and whose lines, the empty ones left out, are the same give
the same result. -/
theorem do_import_line_endings (env : Env) (path s : CStr)
    (hheap : env.heap (crlf s) = env.heap s)
    (hval : env.utf8_validate (crlf s) = env.utf8_validate s)
    (hloc : env.utf8_validate s = false →
      env.locale_to_utf8 (crlf s) = (env.locale_to_utf8 s).map crlf) :
    do_import env path (crlf s) = do_import env path s
    ∧ (∀ a b n, s = a ++ lf :: b → env.utf8_validate s = true →
        env.utf8_validate (a ++ lf :: (List.replicate n lf ++ b)) = true →
        env.heap (a ++ lf :: (List.replicate n lf ++ b)) = env.heap s →
        do_import env path (a ++ lf :: (List.replicate n lf ++ b)) = do_import env path s)
    ∧ (∀ a b n s2, import_text env s = a ++ lf :: b →
        import_text env s2 = a ++ lf :: (List.replicate n lf ++ b) →
        env.heap s2 = env.heap s →
        do_import env path s2 = do_import env path s)
    ∧ (∀ s2, 1 < (import_pieces env s).length → 1 < (import_pieces env s2).length →
        lines_kept (import_pieces env s2) = lines_kept (import_pieces env s) →
        env.heap s2 = env.heap s →
        do_import env path s2 = do_import env path s) := by
  have hblank : ∀ a b n s1 s2, import_text env s1 = a ++ lf :: b →
      import_text env s2 = a ++ lf :: (List.replicate n lf ++ b) →
      env.heap s2 = env.heap s1 →
      do_import env path s2 = do_import env path s1 := by
    intro a b n s1 s2 h1 h2 hh
    obtain ⟨p, ps, qs, g1, g2, g3⟩ := pieces_blank_lines a b n
    rw [← h2] at g1
    rw [← h1] at g2
    refine do_import_text_dense env path s2 s1 p ps qs hh g1 g2 g3 ⟨lf, ?_, by decide⟩
      ⟨lf, ?_, by decide⟩
    · rw [h2]
      simp
    · rw [h1]
      simp
  refine ⟨?_, ?_, fun a b n s2 h1 h2 hh => hblank a b n s s2 h1 h2 hh, ?_⟩
  · have ht := import_text_crlf env s hval hloc
    by_cases hd : ∃ c ∈ import_text env s, [cr, lf].contains c = true
    · obtain ⟨p, ps, qs, g1, g2, g3⟩ := pieces_crlf (import_text env s)
      rw [← ht] at g1
      obtain ⟨c, hc, hcd⟩ := hd
      refine do_import_text_dense env path _ _ p ps qs hheap g1 g2 g3 ⟨c, ?_, hcd⟩ ⟨c, hc, hcd⟩
      rw [ht]
      exact mem_crlf _ c hc
    · apply do_import_text_congr env path _ _ hheap
      rw [ht]
      apply crlf_self
      intro hm
      exact hd ⟨lf, hm, by decide⟩
  · intro a b n hs hv1 hv2 hh
    obtain ⟨a', g1, g2⟩ := bom_blank_lines a b n
    refine hblank a' b n s _ ?_ ?_ hh
    · rw [import_text_valid env s hv1, hs]
      exact g1
    · rw [import_text_valid env _ hv2]
      exact g2
  · intro s2 h1 h2 hk hh
    exact do_import_dense env path s2 s hh h2 h1 hk

theorem do_import_line_endings_witness :
    crlf conf_lf
      = "client\r\n<ca>\r\nLINE1\r\nLINE2\r\n</ca>\r\nremote h 1194\r\ndev tun0\r\n".toList
    ∧ do_import env_plain conf_path conf_lf
      = .connection
          { id := "my".toList,
            data := [(NM_OPENVPN_KEY_CONNECTION_TYPE, "tls".toList),
              (NM_OPENVPN_KEY_DEV, "tun0".toList),
              (NM_OPENVPN_KEY_REMOTE, "h:1194".toList),
              (NM_OPENVPN_KEY_CA, "/home/u/.cert/my-ca.pem".toList)],
            secrets := [], secret_flags := [], routes := [] }
          [("/home/u/.cert/my-ca.pem".toList, "LINE1\nLINE2\n".toList)]
    ∧ do_import env_plain conf_path (crlf conf_lf) = do_import env_plain conf_path conf_lf
    ∧ do_import env_plain conf_path conf_blank_lines = do_import env_plain conf_path conf_lf :=
  ⟨by decide, by decide,
   (do_import_line_endings env_plain conf_path conf_lf rfl rfl (fun _ => rfl)).1,
   (do_import_line_endings env_plain conf_path conf_lf rfl rfl (fun _ => rfl)).2.2.2
     conf_blank_lines (by decide) (by decide) (by decide) rfl⟩

/-- C36: the claim is right, and the code departs from it through the read
behind a bare keyword.  The buffer `conf_bare_dev_crlf` is `conf_bare_dev`
with every line feed replaced by a carriage return and a line feed.  Both end
in the bare keyword `dev`, for which the loop reads the bytes behind the
allocation of the line, and the two buffers are split into different
allocations.  In a run on the first buffer that finds a NUL there and a run on
the second that finds `tun0`, the first import stores no `dev` setting and the
second stores `tun0`: the results of `do_import` differ. -/
theorem do_import_line_endings_heap :
    crlf conf_bare_dev = conf_bare_dev_crlf
    ∧ lines_kept (import_pieces env_shifting conf_bare_dev_crlf)
        = lines_kept (import_pieces env_shifting conf_bare_dev)
    ∧ (∃ c w, do_import env_shifting conf_path conf_bare_dev = .connection c w
        ∧ nm_setting_vpn_get_data_item c.data NM_OPENVPN_KEY_DEV = none)
    ∧ (∃ c w, do_import env_shifting conf_path conf_bare_dev_crlf = .connection c w
        ∧ nm_setting_vpn_get_data_item c.data NM_OPENVPN_KEY_DEV = some "tun0".toList)
    ∧ do_import env_shifting conf_path (crlf conf_bare_dev)
        ≠ do_import env_shifting conf_path conf_bare_dev := by
  refine ⟨by decide, by decide, ⟨_, _, rfl, by decide⟩, ⟨_, _, rfl, by decide⟩, by decide⟩

/-! ## The round trip of import and export -/

theorem token_char_facts (c : Char) (h : token_char c = true) :
    isspace c = false ∧ g_ascii_isspace c = false ∧ c ≠ hash ∧ c ≠ semi ∧ c ≠ dquote
      ∧ c ≠ squote ∧ c ≠ bslash ∧ c ≠ ' ' ∧ c ≠ tab ∧ c ≠ cr ∧ c ≠ lf := by
  simp only [token_char, Bool.and_eq_true, Bool.not_eq_true', bne_iff_ne, ne_eq] at h
  obtain ⟨⟨⟨⟨⟨h1, h2⟩, h3⟩, h4⟩, h5⟩, h6⟩ := h
  have hs : c ≠ ' ' ∧ c ≠ tab ∧ c ≠ lf ∧ c ≠ vtab ∧ c ≠ ff ∧ c ≠ cr := by
    simpa [isspace, not_or, and_assoc] using h1
  refine ⟨h1, ?_, h2, h3, h4, h5, h6, hs.1, hs.2.1, hs.2.2.2.2.2, hs.2.2.1⟩
  simp [g_ascii_isspace, hs.1, hs.2.1, hs.2.2.1, hs.2.2.2.2.1, hs.2.2.2.2.2]

theorem token_ok_facts (w : CStr) (h : token_ok w = true) :
    w ≠ [] ∧ ∀ c ∈ w, token_char c = true := by
  simpa [token_ok] using h

theorem token_no_space (w : CStr) (h : token_ok w = true) :
    (∀ c ∈ w, g_ascii_isspace c = false) ∧ (∀ c ∈ w, isspace c = false) := by
  constructor <;> intro c hc
  · exact (token_char_facts c ((token_ok_facts w h).2 c hc)).2.1
  · exact (token_char_facts c ((token_ok_facts w h).2 c hc)).1

theorem first_word_bare (w : CStr) (hw : ∀ c ∈ w, g_ascii_isspace c = false) :
    first_word w = w := by
  have := first_word_append w [] hw (Or.inl rfl)
  simpa using this

theorem import_lines_blank (env : Env) (path dp name : CStr) (st : ImportState) :
    import_lines env path dp name st 0 [[]] = some st := rfl

theorem conf_text_nil : conf_text [] = [] := rfl

end ImportExport
